import Mathlib

/-!
# Splitr: the balance and ledger engine

A shallow embedding of the Convex functions of `convex/expenses.js`,
`convex/dashboard.js`, `convex/groups.js`, `convex/inngest.js` and
`convex/users.js`.

Conventions of the embedding.

* JavaScript numbers (amounts, dates) are rationals `ℚ`. The handlers of the
  first sections add and subtract them exactly. The handlers whose sums the
  statements depend on come a second time, with the suffix `Rounded`: there
  every `+` and `-` is followed by the rounding of IEEE 754 binary64,
  `roundDouble`. The statements whose truth depends on the rounding are
  statements about the rounded handlers; the exact handlers carry the other
  statements, and the lemmas.
* Document ids are natural numbers; the code only compares ids with `===`
  and `>=`.
* A table is the list of its documents in creation order, which is the order
  in which `collect()` yields them; `ctx.db.insert` appends.
* A query handler is a function of the store returning `Except String _`,
  the error being the message of the thrown `Error`.
* A mutation handler returns its outcome together with the store as the
  writes performed up to the return or the throw have left it.
-/

namespace Splitr

deriving instance DecidableEq for Except

/-! ## Data model (`convex/schema.js`) -/

abbrev UserId := Nat
abbrev GroupId := Nat
abbrev ExpenseId := Nat
abbrev SettlementId := Nat

/-- A document of the `users` table. -/
structure User where
  _id : UserId
  name : String
  email : String
  tokenIdentifier : String
  imageUrl : Option String
  deriving DecidableEq

/-- One entry of `expense.splits`. -/
structure Split where
  userId : UserId
  amount : ℚ
  paid : Bool
  deriving DecidableEq

/-- A document of the `expenses` table. -/
structure Expense where
  _id : ExpenseId
  description : String
  amount : ℚ
  category : Option String
  date : ℚ
  paidByUserId : UserId
  splitType : String
  splits : List Split
  groupId : Option GroupId
  createdBy : UserId
  deriving DecidableEq

/-- A document of the `settlements` table. -/
structure Settlement where
  _id : SettlementId
  amount : ℚ
  note : Option String
  date : ℚ
  paidByUserId : UserId
  receivedByUserId : UserId
  groupId : Option GroupId
  relatedExpenseIds : Option (List ExpenseId)
  createdBy : UserId
  deriving DecidableEq

/-- One entry of `group.members`. -/
structure Member where
  userId : UserId
  role : String
  joinedAt : ℚ
  deriving DecidableEq

/-- A document of the `groups` table. -/
structure Group where
  _id : GroupId
  name : String
  description : Option String
  createdBy : UserId
  members : List Member
  deriving DecidableEq

/-- The four tables. -/
structure Store where
  users : List User
  groups : List Group
  expenses : List Expense
  settlements : List Settlement
  deriving DecidableEq

/-! ## `convex/users.js` -/

/-- The handler of `getCurrentUser`: `identity` is the token identifier of
`ctx.auth.getUserIdentity()`, absent for an unauthenticated call. -/
def getCurrentUser (identity : Option String) (st : Store) : Except String User :=
  match identity with
  | none => .error "Not authenticated"
  | some token =>
    match st.users.find? (fun u => u.tokenIdentifier == token) with
    | none => .error "User not found"
    | some user => .ok user

/-! ## `convex/expenses.js`: createExpense -/

/-- The arguments of `createExpense`. -/
structure CreateExpenseArgs where
  description : String
  amount : ℚ
  category : Option String
  date : ℚ
  paidByUserId : UserId
  splitType : String
  splits : List Split
  groupId : Option GroupId
  deriving DecidableEq

/-- The group-membership validation of `createExpense` (lines 27-32). -/
def validateGroupMembership (st : Store) (user : User) (groupId : Option GroupId) :
    Except String Unit :=
  match groupId with
  | none => .ok ()
  | some gid =>
    match st.groups.find? (fun g => g._id == gid) with
    | none => .error "Group not found"
    | some group =>
      if group.members.any (fun m => m.userId == user._id) then .ok ()
      else .error "You are not a member of this group"

/-- The value of `args.category || "Other"`. -/
def categoryOrOther (category : Option String) : String :=
  match category with
  | none => "Other"
  | some c => if c = "" then "Other" else c

/-- The document that `createExpense` inserts; `newId` is the id the store
allocates for it. -/
def newExpenseDoc (newId : ExpenseId) (args : CreateExpenseArgs) (user : User) : Expense :=
  { _id := newId
    description := args.description
    amount := args.amount
    category := some (categoryOrOther args.category)
    date := args.date
    paidByUserId := args.paidByUserId
    splitType := args.splitType
    splits := args.splits
    groupId := args.groupId
    createdBy := user._id }

/-- The handler of `createExpense`. -/
def createExpense (identity : Option String) (newId : ExpenseId) (args : CreateExpenseArgs)
    (st : Store) : Except String ExpenseId × Store :=
  match getCurrentUser identity st with
  | .error e => (.error e, st)
  | .ok user =>
    match validateGroupMembership st user args.groupId with
    | .error e => (.error e, st)
    | .ok _ =>
      let totalSplit := args.splits.foldl (fun sum s => sum + s.amount) 0
      if |totalSplit - args.amount| > 1 / 100 then
        (.error "Split amounts must equal total expense", st)
      else
        (.ok newId, { st with expenses := st.expenses ++ [newExpenseDoc newId args user] })

/-! ## `convex/expenses.js`: getExpensesBetweenUsers -/

/-- The result of `Array.prototype.sort` with the comparator
`(a, b) => b.date - a.date`: a stable sort by non-increasing date. -/
def sortExpensesByDateDesc (l : List Expense) : List Expense :=
  l.insertionSort (fun a b => b.date ≤ a.date)

/-- The settlements counterpart of `sortExpensesByDateDesc`. -/
def sortSettlementsByDateDesc (l : List Settlement) : List Settlement :=
  l.insertionSort (fun a b => b.date ≤ a.date)

/-- The `otherUser` field of the result of `getExpensesBetweenUsers`. -/
structure OtherUser where
  id : UserId
  name : String
  email : String
  imageUrl : Option String
  deriving DecidableEq

/-- The result of `getExpensesBetweenUsers`. -/
structure ExpensesBetweenUsers where
  expenses : List Expense
  settlements : List Settlement
  otherUser : OtherUser
  balance : ℚ
  deriving DecidableEq

/-- The filter of lines 80-87: both users are involved in the expense. -/
def bothInvolved (meId userId : UserId) (e : Expense) : Bool :=
  let meInSplits := e.splits.any (fun s => s.userId == meId)
  let themInSplits := e.splits.any (fun s => s.userId == userId)
  (e.paidByUserId == meId || meInSplits) && (e.paidByUserId == userId || themInSplits)

/-- The settlements filter of lines 94-108. -/
def settlementBetween (meId userId : UserId) (s : Settlement) : Bool :=
  s.groupId.isNone &&
    ((s.paidByUserId == meId && s.receivedByUserId == userId) ||
      (s.paidByUserId == userId && s.receivedByUserId == meId))

/-- One iteration of the loop of lines 115-123. -/
def pairApplyExpense (meId userId : UserId) (balance : ℚ) (e : Expense) : ℚ :=
  if e.paidByUserId = meId then
    match e.splits.find? (fun s => s.userId == userId && !s.paid) with
    | some split => balance + split.amount
    | none => balance
  else
    match e.splits.find? (fun s => s.userId == meId && !s.paid) with
    | some split => balance - split.amount
    | none => balance

/-- One iteration of the loop of lines 124-127. -/
def pairApplySettlement (meId : UserId) (balance : ℚ) (s : Settlement) : ℚ :=
  if s.paidByUserId = meId then balance + s.amount else balance - s.amount

/-- The handler of `getExpensesBetweenUsers`. -/
def getExpensesBetweenUsers (identity : Option String) (userId : UserId) (st : Store) :
    Except String ExpensesBetweenUsers :=
  match getCurrentUser identity st with
  | .error e => .error e
  | .ok me =>
    if me._id = userId then .error "Cannot query yourself"
    else
      let myPaid := st.expenses.filter (fun e => e.paidByUserId == me._id && e.groupId.isNone)
      let theirPaid := st.expenses.filter (fun e => e.paidByUserId == userId && e.groupId.isNone)
      let candidateExpenses := myPaid ++ theirPaid
      let expenses := sortExpensesByDateDesc (candidateExpenses.filter (bothInvolved me._id userId))
      let settlements :=
        sortSettlementsByDateDesc (st.settlements.filter (settlementBetween me._id userId))
      let balance := expenses.foldl (pairApplyExpense me._id userId) 0
      let balance := settlements.foldl (pairApplySettlement me._id) balance
      match st.users.find? (fun u => u._id == userId) with
      | none => .error "User not found"
      | some other =>
        .ok { expenses := expenses
              settlements := settlements
              otherUser :=
                { id := other._id, name := other.name, email := other.email,
                  imageUrl := other.imageUrl }
              balance := balance }

/-- The amount of the splits of `userId` in `e` that are not marked paid. -/
def unpaidShare (userId : UserId) (e : Expense) : ℚ :=
  ((e.splits.filter (fun s => s.userId == userId && !s.paid)).map (fun s => s.amount)).sum

/-- The pairwise balance as the specification words it: what `b` owes `a`
from the non-group expenses `a` paid, minus what `a` owes `b` from those `b`
paid, plus the non-group settlements `a` paid to `b`, minus those `b` paid to
`a`. -/
def specPairBalance (a b : UserId) (st : Store) : ℚ :=
  ((st.expenses.filter (fun e => e.groupId.isNone && e.paidByUserId == a)).map
      (unpaidShare b)).sum
    - ((st.expenses.filter (fun e => e.groupId.isNone && e.paidByUserId == b)).map
        (unpaidShare a)).sum
    + ((st.settlements.filter (fun s =>
          s.groupId.isNone && s.paidByUserId == a && s.receivedByUserId == b)).map
        (fun s => s.amount)).sum
    - ((st.settlements.filter (fun s =>
          s.groupId.isNone && s.paidByUserId == b && s.receivedByUserId == a)).map
        (fun s => s.amount)).sum

/-! ## `convex/expenses.js`: deleteExpense -/

/-- The value `deleteExpense` returns. -/
structure DeleteResult where
  success : Bool
  deriving DecidableEq

/-- The effect of `ctx.db.delete(id)` on the settlements table. -/
def dbDeleteSettlement (st : Store) (id : SettlementId) : Store :=
  { st with settlements := st.settlements.filter (fun s => s._id != id) }

/-- The effect of `ctx.db.patch(id, { relatedExpenseIds })` on the settlements table. -/
def dbPatchRelatedExpenseIds (st : Store) (id : SettlementId) (ids : List ExpenseId) : Store :=
  { st with settlements :=
      st.settlements.map (fun s => if s._id = id then { s with relatedExpenseIds := some ids } else s) }

/-- The effect of `ctx.db.delete(id)` on the expenses table. -/
def dbDeleteExpense (st : Store) (id : ExpenseId) : Store :=
  { st with expenses := st.expenses.filter (fun e => e._id != id) }

/-- The filter of lines 161-163:
`s.relatedExpenseIds && s.relatedExpenseIds.includes(expenseId)`. -/
def isRelated (expenseId : ExpenseId) (s : Settlement) : Bool :=
  match s.relatedExpenseIds with
  | none => false
  | some ids => ids.contains expenseId

/-- The list `updatedIds` of lines 166-168. -/
def updatedIds (expenseId : ExpenseId) (s : Settlement) : List ExpenseId :=
  (s.relatedExpenseIds.getD []).filter (fun id => id != expenseId)

/-- One iteration of the loop of lines 165-174. -/
def cascadeStep (expenseId : ExpenseId) (st : Store) (s : Settlement) : Store :=
  if (updatedIds expenseId s).length = 0 then dbDeleteSettlement st s._id
  else dbPatchRelatedExpenseIds st s._id (updatedIds expenseId s)

/-- The handler of `deleteExpense`. -/
def deleteExpense (identity : Option String) (expenseId : ExpenseId) (st : Store) :
    Except String DeleteResult × Store :=
  match getCurrentUser identity st with
  | .error e => (.error e, st)
  | .ok user =>
    match st.expenses.find? (fun e => e._id == expenseId) with
    | none => (.error "Expense not found", st)
    | some expense =>
      if expense.createdBy ≠ user._id ∧ expense.paidByUserId ≠ user._id then
        (.error "Not authorized to delete this expense", st)
      else
        let allSettlements := st.settlements
        let related := allSettlements.filter (isRelated expenseId)
        let st := related.foldl (cascadeStep expenseId) st
        (.ok { success := true }, dbDeleteExpense st expenseId)

/-! ## JavaScript objects and `Map`s keyed by ids

An object (or `Map`) is the list of its entries in insertion order. -/

/-- The value of `obj[k]`, `none` for `undefined`. -/
def objGet {κ ν : Type} [DecidableEq κ] (m : List (κ × ν)) (k : κ) : Option ν :=
  match m with
  | [] => none
  | (k', v) :: rest => if k' = k then some v else objGet rest k

/-- The object after `obj[k] = f(obj[k])`: an existing property keeps its
position, a new one is added last. -/
def objUpdate {κ ν : Type} [DecidableEq κ] (m : List (κ × ν)) (k : κ) (f : Option ν → ν) :
    List (κ × ν) :=
  match m with
  | [] => [(k, f none)]
  | (k', v) :: rest => if k' = k then (k', f (some v)) :: rest else (k', v) :: objUpdate rest k f

/-- The map after `map.delete(k)`. -/
def objDelete {κ ν : Type} [DecidableEq κ] (m : List (κ × ν)) (k : κ) : List (κ × ν) :=
  m.filter (fun p => p.1 != k)

/-! ## `convex/dashboard.js`: getUserBalances -/

/-- An entry `{ owed, owing }` of `balanceByUser`. -/
structure OwedOwing where
  owed : ℚ
  owing : ℚ
  deriving DecidableEq

/-- An entry of the lists `youOwe` and `youAreOwedBy`. -/
structure OweEntry where
  userId : UserId
  name : String
  imageUrl : Option String
  amount : ℚ
  deriving DecidableEq

/-- The `oweDetails` field of the result of `getUserBalances`. -/
structure OweDetails where
  youOwe : List OweEntry
  youAreOwedBy : List OweEntry
  deriving DecidableEq

/-- The result of `getUserBalances`. -/
structure UserBalances where
  youOwe : ℚ
  youAreOwed : ℚ
  totalBalance : ℚ
  oweDetails : OweDetails
  deriving DecidableEq

/-- The variables `youOwe`, `youAreOwed` and `balanceByUser` of the handler. -/
structure BalanceVars where
  youOwe : ℚ
  youAreOwed : ℚ
  balanceByUser : List (UserId × OwedOwing)
  deriving DecidableEq

/-- The statement `(balanceByUser[k] ??= { owed: 0, owing: 0 }).owed += d`. -/
def addOwed (m : List (UserId × OwedOwing)) (k : UserId) (d : ℚ) : List (UserId × OwedOwing) :=
  objUpdate m k (fun o =>
    let b := o.getD { owed := 0, owing := 0 }
    { b with owed := b.owed + d })

/-- The statement `(balanceByUser[k] ??= { owed: 0, owing: 0 }).owing += d`. -/
def addOwing (m : List (UserId × OwedOwing)) (k : UserId) (d : ℚ) : List (UserId × OwedOwing) :=
  objUpdate m k (fun o =>
    let b := o.getD { owed := 0, owing := 0 }
    { b with owing := b.owing + d })

/-- One iteration of the loop of lines 29-33, for an expense the user paid. -/
def balancesApplyPayerSplit (userId : UserId) (vars : BalanceVars) (s : Split) : BalanceVars :=
  if s.userId = userId ∨ s.paid = true then vars
  else
    { vars with
      youAreOwed := vars.youAreOwed + s.amount
      balanceByUser := addOwed vars.balanceByUser s.userId s.amount }

/-- One iteration of the loop of lines 24-39. -/
def balancesApplyExpense (userId : UserId) (vars : BalanceVars) (e : Expense) : BalanceVars :=
  let isPayer := e.paidByUserId = userId
  let mySplit := e.splits.find? (fun s => s.userId == userId)
  if isPayer then e.splits.foldl (balancesApplyPayerSplit userId) vars
  else
    match mySplit with
    | none => vars
    | some mySplit =>
      if mySplit.paid then vars
      else
        { vars with
          youOwe := vars.youOwe + mySplit.amount
          balanceByUser := addOwing vars.balanceByUser e.paidByUserId mySplit.amount }

/-- One iteration of the loop of lines 48-58. -/
def balancesApplySettlement (userId : UserId) (vars : BalanceVars) (s : Settlement) :
    BalanceVars :=
  if s.paidByUserId = userId then
    { vars with
      youOwe := vars.youOwe - s.amount
      balanceByUser := addOwing vars.balanceByUser s.receivedByUserId (-s.amount) }
  else
    { vars with
      youAreOwed := vars.youAreOwed - s.amount
      balanceByUser := addOwed vars.balanceByUser s.paidByUserId (-s.amount) }

/-- One iteration of the loop of lines 63-74 on the pair
`(youOweList, youAreOwedByList)`. -/
def pushOweEntry (st : Store) (lists : List OweEntry × List OweEntry)
    (entry : UserId × OwedOwing) : List OweEntry × List OweEntry :=
  let net := entry.2.owed - entry.2.owing
  if net = 0 then lists
  else
    let counterpart := st.users.find? (fun u => u._id == entry.1)
    let base : OweEntry :=
      { userId := entry.1
        name := match counterpart with
          | some c => c.name
          | none => "Unknown"
        imageUrl := counterpart.bind (fun c => c.imageUrl)
        amount := |net| }
    if net > 0 then (lists.1, lists.2 ++ [base]) else (lists.1 ++ [base], lists.2)

/-- The result of `list.sort((a, b) => b.amount - a.amount)`: a stable sort
by non-increasing amount. -/
def sortByAmountDesc (l : List OweEntry) : List OweEntry :=
  l.insertionSort (fun a b => b.amount ≤ a.amount)

/-- The handler of `getUserBalances`. -/
def getUserBalances (identity : Option String) (st : Store) : Except String UserBalances :=
  match getCurrentUser identity st with
  | .error e => .error e
  | .ok user =>
    let expenses := st.expenses.filter (fun e =>
      e.groupId.isNone &&
        (e.paidByUserId == user._id || e.splits.any (fun s => s.userId == user._id)))
    let vars : BalanceVars := { youOwe := 0, youAreOwed := 0, balanceByUser := [] }
    let vars := expenses.foldl (balancesApplyExpense user._id) vars
    let settlements := st.settlements.filter (fun s =>
      s.groupId.isNone && (s.paidByUserId == user._id || s.receivedByUserId == user._id))
    let vars := settlements.foldl (balancesApplySettlement user._id) vars
    let lists := vars.balanceByUser.foldl (pushOweEntry st) ([], [])
    .ok { youOwe := vars.youOwe
          youAreOwed := vars.youAreOwed
          totalBalance := vars.youAreOwed - vars.youOwe
          oweDetails :=
            { youOwe := sortByAmountDesc lists.1
              youAreOwedBy := sortByAmountDesc lists.2 } }

/-! ## `convex/groups.js`: getGroupExpenses

The cells of `totals` and `ledger` hold `Option ℚ`, `none` being `NaN`, the
value that `undefined + x` leaves in a property that was never initialised. -/

/-- An entry of `memberDetails`. -/
structure MemberDetail where
  id : UserId
  name : String
  imageUrl : Option String
  role : String
  deriving DecidableEq

/-- An entry of a member's `owes` list; `to_` is the field `to`. -/
structure OwesEntry where
  to_ : UserId
  amount : ℚ
  deriving DecidableEq

/-- An entry of a member's `owedBy` list; `from_` is the field `from`. -/
structure OwedByEntry where
  from_ : UserId
  amount : ℚ
  deriving DecidableEq

/-- An entry of `balances`. -/
structure MemberBalance where
  id : UserId
  name : String
  imageUrl : Option String
  role : String
  totalBalance : Option ℚ
  owes : List OwesEntry
  owedBy : List OwedByEntry
  deriving DecidableEq

/-- The `group` field of the result of `getGroupExpenses`. -/
structure GroupInfo where
  id : GroupId
  name : String
  description : Option String
  deriving DecidableEq

/-- The result of `getGroupExpenses`. -/
structure GroupExpenses where
  group : GroupInfo
  members : List MemberDetail
  expenses : List Expense
  settlements : List Settlement
  balances : List MemberBalance
  userLookupMap : List (UserId × MemberDetail)
  deriving DecidableEq

abbrev Totals := List (UserId × Option ℚ)
abbrev Ledger := List (UserId × List (UserId × Option ℚ))

/-- The `Promise.all` of lines 88-93: `u._id` throws a `TypeError` for a
member without a user document. -/
def memberDetailsOf (st : Store) (members : List Member) : Except String (List MemberDetail) :=
  match members with
  | [] => .ok []
  | m :: rest =>
    match st.users.find? (fun u => u._id == m.userId) with
    | none => .error "TypeError: Cannot read properties of null"
    | some u =>
      match memberDetailsOf st rest with
      | .error e => .error e
      | .ok details =>
        .ok ({ id := u._id, name := u.name, imageUrl := u.imageUrl, role := m.role } :: details)

/-- The object `Object.fromEntries(ids.map((id) => [id, 0]))`. -/
def initTotals (ids : List UserId) : Totals :=
  ids.foldl (fun totals id => objUpdate totals id (fun _ => some 0)) []

/-- The object `ledger[a]` that lines 100-103 build. -/
def initRow (ids : List UserId) (a : UserId) : List (UserId × Option ℚ) :=
  ids.foldl (fun row b => if a ≠ b then objUpdate row b (fun _ => some 0) else row) []

/-- The object `ledger` that lines 98-104 build. -/
def initLedger (ids : List UserId) : Ledger :=
  ids.foldl (fun ledger a => objUpdate ledger a (fun _ => initRow ids a)) []

/-- The statement `obj[k] += d`; an undefined or `NaN` property becomes `NaN`. -/
def plusAssign (m : List (UserId × Option ℚ)) (k : UserId) (d : ℚ) : List (UserId × Option ℚ) :=
  objUpdate m k (fun o => o.join.map (fun x => x + d))

/-- The statement `obj[k] -= d`; an undefined or `NaN` property becomes `NaN`. -/
def minusAssign (m : List (UserId × Option ℚ)) (k : UserId) (d : ℚ) : List (UserId × Option ℚ) :=
  objUpdate m k (fun o => o.join.map (fun x => x - d))

/-- One iteration of the loop of lines 109-114; `ledger[split.userId]` being
undefined throws a `TypeError`. -/
def groupApplySplit (payer : UserId) (acc : Except String (Totals × Ledger)) (split : Split) :
    Except String (Totals × Ledger) :=
  match acc with
  | .error e => .error e
  | .ok (totals, ledger) =>
    if split.userId = payer ∨ split.paid = true then .ok (totals, ledger)
    else
      let totals := plusAssign totals payer split.amount
      let totals := minusAssign totals split.userId split.amount
      match objGet ledger split.userId with
      | none => .error "TypeError: Cannot read properties of undefined"
      | some row =>
        .ok (totals, objUpdate ledger split.userId (fun _ => plusAssign row payer split.amount))

/-- One iteration of the loop of lines 107-115. -/
def groupApplyExpense (acc : Except String (Totals × Ledger)) (exp : Expense) :
    Except String (Totals × Ledger) :=
  exp.splits.foldl (groupApplySplit exp.paidByUserId) acc

/-- One iteration of the loop of lines 118-122; `ledger[s.paidByUserId]` being
undefined throws a `TypeError`. -/
def groupApplySettlement (acc : Except String (Totals × Ledger)) (s : Settlement) :
    Except String (Totals × Ledger) :=
  match acc with
  | .error e => .error e
  | .ok (totals, ledger) =>
    let totals := plusAssign totals s.paidByUserId s.amount
    let totals := minusAssign totals s.receivedByUserId s.amount
    match objGet ledger s.paidByUserId with
    | none => .error "TypeError: Cannot read properties of undefined"
    | some row =>
      .ok (totals, objUpdate ledger s.paidByUserId
        (fun _ => minusAssign row s.receivedByUserId s.amount))

/-- The value of `ledger[a][b]` for a row `ledger[a]` that exists, `none` when
it is undefined or `NaN`. -/
def ledgerCell (ledger : Ledger) (a b : UserId) : Option ℚ :=
  ((objGet ledger a).bind (fun row => objGet row b)).join

/-- The statement `ledger[a][b] = v` for a row `ledger[a]` that exists. -/
def setLedgerCell (ledger : Ledger) (a b : UserId) (v : ℚ) : Ledger :=
  objUpdate ledger a (fun row => objUpdate (row.getD []) b (fun _ => some v))

/-- The body of the inner `forEach` of lines 126-138. The rows of the member
ids exist from line 100 on, so `ledger[a]` and `ledger[b]` are objects here; a
difference that is `NaN` compares false with `0` on both sides. -/
def netPair (a : UserId) (ledger : Ledger) (b : UserId) : Ledger :=
  if a ≥ b then ledger
  else
    match ledgerCell ledger a b, ledgerCell ledger b a with
    | some x, some y =>
      let diff := x - y
      if diff > 0 then setLedgerCell (setLedgerCell ledger a b diff) b a 0
      else if diff < 0 then setLedgerCell (setLedgerCell ledger b a (-diff)) a b 0
      else setLedgerCell (setLedgerCell ledger b a 0) a b 0
    | _, _ => setLedgerCell (setLedgerCell ledger b a 0) a b 0

/-- The loop of lines 125-139. -/
def netLedger (ids : List UserId) (ledger : Ledger) : Ledger :=
  ids.foldl (fun ledger a => ids.foldl (netPair a) ledger) ledger

/-- The entry of `balances` for one member (lines 142-151). -/
def memberBalance (ids : List UserId) (totals : Totals) (ledger : Ledger) (m : MemberDetail) :
    MemberBalance :=
  { id := m.id
    name := m.name
    imageUrl := m.imageUrl
    role := m.role
    totalBalance := (objGet totals m.id).join
    owes := ((objGet ledger m.id).getD []).filterMap (fun entry =>
      match entry.2 with
      | some v => if v > 0 then some { to_ := entry.1, amount := v } else none
      | none => none)
    owedBy := ids.filterMap (fun other =>
      match ledgerCell ledger other m.id with
      | some v => if v > 0 then some { from_ := other, amount := v } else none
      | none => none) }

/-- The handler of `getGroupExpenses`. -/
def getGroupExpenses (identity : Option String) (groupId : GroupId) (st : Store) :
    Except String GroupExpenses :=
  match getCurrentUser identity st with
  | .error e => .error e
  | .ok currentUser =>
    match st.groups.find? (fun g => g._id == groupId) with
    | none => .error "Group not found"
    | some group =>
      if !group.members.any (fun m => m.userId == currentUser._id) then
        .error "Not a group member"
      else
        let expenses := st.expenses.filter (fun e => e.groupId == some groupId)
        let settlements := st.settlements.filter (fun s => s.groupId == some groupId)
        match memberDetailsOf st group.members with
        | .error e => .error e
        | .ok memberDetails =>
          let ids := memberDetails.map (fun m => m.id)
          let acc : Except String (Totals × Ledger) := .ok (initTotals ids, initLedger ids)
          let acc := expenses.foldl groupApplyExpense acc
          let acc := settlements.foldl groupApplySettlement acc
          match acc with
          | .error e => .error e
          | .ok (totals, ledger) =>
            let ledger := netLedger ids ledger
            .ok { group := { id := group._id, name := group.name, description := group.description }
                  members := memberDetails
                  expenses := expenses
                  settlements := settlements
                  balances := memberDetails.map (memberBalance ids totals ledger)
                  userLookupMap :=
                    memberDetails.foldl (fun m d => objUpdate m d.id (fun _ => d)) [] }

/-! ## `convex/inngest.js`: getUsersWithOutstandingDebts -/

/-- A value `{ amount, since }` of the `ledger` map. -/
structure DebtEntry where
  amount : ℚ
  since : ℚ
  deriving DecidableEq

/-- An entry of a user's `debts` list. -/
structure Debt where
  userId : UserId
  name : String
  amount : ℚ
  since : ℚ
  deriving DecidableEq

/-- An entry of the result of `getUsersWithOutstandingDebts`. -/
structure Debtor where
  _id : UserId
  name : String
  email : String
  debts : List Debt
  deriving DecidableEq

/-- One iteration of the loop of lines 52-61 (case B: others owe the user). -/
def debtsApplyPayerSplit (userId : UserId) (date : ℚ) (ledger : List (UserId × DebtEntry))
    (s : Split) : List (UserId × DebtEntry) :=
  if s.userId = userId ∨ s.paid = true then ledger
  else
    objUpdate ledger s.userId (fun o =>
      let entry := o.getD { amount := 0, since := date }
      { entry with amount := entry.amount - s.amount })

/-- One iteration of the loop of lines 34-63. -/
def debtsApplyExpense (userId : UserId) (ledger : List (UserId × DebtEntry)) (exp : Expense) :
    List (UserId × DebtEntry) :=
  if exp.paidByUserId ≠ userId then
    match exp.splits.find? (fun s => s.userId == userId && !s.paid) with
    | none => ledger
    | some split =>
      objUpdate ledger exp.paidByUserId (fun o =>
        let entry := o.getD { amount := 0, since := exp.date }
        { amount := entry.amount + split.amount, since := min entry.since exp.date })
  else exp.splits.foldl (debtsApplyPayerSplit userId exp.date) ledger

/-- The body of lines 69-74 and 78-83: the entry of `counterId`, when there is
one, gets `delta` added and is deleted when its amount becomes zero. -/
def settleEntry (ledger : List (UserId × DebtEntry)) (counterId : UserId) (delta : ℚ) :
    List (UserId × DebtEntry) :=
  match objGet ledger counterId with
  | none => ledger
  | some entry =>
    if entry.amount + delta = 0 then objDelete ledger counterId
    else objUpdate ledger counterId (fun _ => { entry with amount := entry.amount + delta })

/-- One iteration of the loop of lines 66-85. -/
def debtsApplySettlement (userId : UserId) (ledger : List (UserId × DebtEntry))
    (st : Settlement) : List (UserId × DebtEntry) :=
  if st.paidByUserId = userId then settleEntry ledger st.receivedByUserId (-st.amount)
  else if st.receivedByUserId = userId then settleEntry ledger st.paidByUserId st.amount
  else ledger

/-- The list `debts` of one user (lines 31-99). -/
def debtsOf (st : Store) (expenses : List Expense) (settlements : List Settlement)
    (userId : UserId) : List Debt :=
  let ledger : List (UserId × DebtEntry) := []
  let ledger := expenses.foldl (debtsApplyExpense userId) ledger
  let ledger := settlements.foldl (debtsApplySettlement userId) ledger
  ledger.filterMap (fun entry =>
    if entry.2.amount > 0 then
      let counter := st.users.find? (fun u => u._id == entry.1)
      some { userId := entry.1
             name := match counter with
               | some c => c.name
               | none => "Unknown"
             amount := entry.2.amount
             since := entry.2.since }
    else none)

/-- The handler of `getUsersWithOutstandingDebts`. -/
def getUsersWithOutstandingDebts (st : Store) : List Debtor :=
  let expenses := st.expenses.filter (fun e => e.groupId.isNone)
  let settlements := st.settlements.filter (fun s => s.groupId.isNone)
  st.users.filterMap (fun user =>
    let debts := debtsOf st expenses settlements user._id
    if debts.length ≠ 0 then
      some { _id := user._id, name := user.name, email := user.email, debts := debts }
    else none)

/-! ## The loops of `getUserBalances` as a fold over balance events

Each pass through the bodies of the two loops of `getUserBalances` that
changes the variables adds one amount to `youAreOwed` and to the `owed` of a
counterparty, or one amount to `youOwe` and to the `owing` of a counterparty. -/

/-- A change of the balance variables: the counterparty and what is added to
its `owed` (and to `youAreOwed`) and to its `owing` (and to `youOwe`). -/
structure BalanceEvent where
  counterparty : UserId
  owed : ℚ
  owing : ℚ
  deriving DecidableEq

/-- The balance variables after one event. -/
def applyBalanceEvent (vars : BalanceVars) (ev : BalanceEvent) : BalanceVars :=
  { youOwe := vars.youOwe + ev.owing
    youAreOwed := vars.youAreOwed + ev.owed
    balanceByUser := objUpdate vars.balanceByUser ev.counterparty (fun o =>
      let b := o.getD { owed := 0, owing := 0 }
      { owed := b.owed + ev.owed, owing := b.owing + ev.owing }) }

/-- The events of one expense (lines 24-39). -/
def expenseBalanceEvents (userId : UserId) (e : Expense) : List BalanceEvent :=
  if e.paidByUserId = userId then
    e.splits.filterMap (fun s =>
      if s.userId = userId ∨ s.paid = true then none
      else some { counterparty := s.userId, owed := s.amount, owing := 0 })
  else
    match e.splits.find? (fun s => s.userId == userId) with
    | none => []
    | some mySplit =>
      if mySplit.paid then []
      else [{ counterparty := e.paidByUserId, owed := 0, owing := mySplit.amount }]

/-- The event of one settlement (lines 48-58). -/
def settlementBalanceEvent (userId : UserId) (s : Settlement) : BalanceEvent :=
  if s.paidByUserId = userId then
    { counterparty := s.receivedByUserId, owed := 0, owing := -s.amount }
  else
    { counterparty := s.paidByUserId, owed := -s.amount, owing := 0 }

/-- The events of the records `getUserBalances` iterates over, in the order
of the two loops. -/
def balanceEvents (userId : UserId) (st : Store) : List BalanceEvent :=
  (st.expenses.filter (fun e =>
      e.groupId.isNone &&
        (e.paidByUserId == userId || e.splits.any (fun s => s.userId == userId)))).flatMap
      (expenseBalanceEvents userId)
    ++ (st.settlements.filter (fun s =>
      s.groupId.isNone && (s.paidByUserId == userId || s.receivedByUserId == userId))).map
      (settlementBalanceEvent userId)

/-- The balance variables after all the events. -/
def balanceVarsOf (userId : UserId) (st : Store) : BalanceVars :=
  (balanceEvents userId st).foldl applyBalanceEvent
    { youOwe := 0, youAreOwed := 0, balanceByUser := [] }

/-- The entry that the loop of lines 63-74 pushes for one property of
`balanceByUser`: `wantOwedBy` selects the list `youAreOwedByList`. -/
def oweEntryOf (st : Store) (wantOwedBy : Bool) (entry : UserId × OwedOwing) : Option OweEntry :=
  let net := entry.2.owed - entry.2.owing
  if net = 0 then none
  else if decide (net > 0) = wantOwedBy then
    let counterpart := st.users.find? (fun u => u._id == entry.1)
    some { userId := entry.1
           name := match counterpart with
             | some c => c.name
             | none => "Unknown"
           imageUrl := counterpart.bind (fun c => c.imageUrl)
           amount := |net| }
  else none

/-! ## The loops of `getGroupExpenses` as a fold over group events

Each pass through the bodies of the loops of lines 107-122 that changes
`totals` and `ledger` adds an amount to `totals[plus]`, subtracts it from
`totals[minus]` and adds a signed amount to `ledger[row][col]`. -/

/-- A change of `totals` and `ledger`. -/
structure GroupEvent where
  plus : UserId
  minus : UserId
  amount : ℚ
  row : UserId
  col : UserId
  delta : ℚ
  deriving DecidableEq

/-- The accumulators after one event; `ledger[row]` being undefined throws. -/
def applyGroupEvent (acc : Except String (Totals × Ledger)) (ev : GroupEvent) :
    Except String (Totals × Ledger) :=
  match acc with
  | .error e => .error e
  | .ok (totals, ledger) =>
    match objGet ledger ev.row with
    | none => .error "TypeError: Cannot read properties of undefined"
    | some row =>
      .ok (minusAssign (plusAssign totals ev.plus ev.amount) ev.minus ev.amount,
        objUpdate ledger ev.row (fun _ => plusAssign row ev.col ev.delta))

/-- The events of one expense (lines 108-114). -/
def expenseGroupEvents (exp : Expense) : List GroupEvent :=
  exp.splits.filterMap (fun split =>
    if split.userId = exp.paidByUserId ∨ split.paid = true then none
    else some { plus := exp.paidByUserId, minus := split.userId, amount := split.amount,
                row := split.userId, col := exp.paidByUserId, delta := split.amount })

/-- The event of one settlement (lines 119-121). -/
def settlementGroupEvent (s : Settlement) : GroupEvent :=
  { plus := s.paidByUserId, minus := s.receivedByUserId, amount := s.amount,
    row := s.paidByUserId, col := s.receivedByUserId, delta := -s.amount }

/-- The events of the records of a group, in the order of the two loops. -/
def groupEvents (groupId : GroupId) (st : Store) : List GroupEvent :=
  (st.expenses.filter (fun e => e.groupId == some groupId)).flatMap expenseGroupEvents
    ++ (st.settlements.filter (fun s => s.groupId == some groupId)).map settlementGroupEvent

/-- The accumulators are defined and hold a cell for every member id: a
total for every id, a ledger row for every id, and in the row of `a` a cell
for every other id. -/
def GroupAccOk (ids : List UserId) (acc : Except String (Totals × Ledger)) : Prop :=
  ∃ totals ledger, acc = .ok (totals, ledger)
    ∧ (∀ a ∈ ids, a ∈ totals.map Prod.fst)
    ∧ (∀ a ∈ ids, ∃ row, objGet ledger a = some row ∧ ∀ b ∈ ids, b ≠ a → b ∈ row.map Prod.fst)

/-- The parties of an event are member ids. -/
def GroupEventOk (ids : List UserId) (ev : GroupEvent) : Prop :=
  ev.plus ∈ ids ∧ ev.minus ∈ ids ∧ ev.row ∈ ids ∧ ev.col ∈ ids

/-! ## Sample data

The users, records and stores of the scenarios at which the theorems below
are instantiated. -/

def userA : User :=
  { _id := 1, name := "A", email := "a@splitr.test", tokenIdentifier := "token-a", imageUrl := none }

def userB : User :=
  { _id := 2, name := "B", email := "b@splitr.test", tokenIdentifier := "token-b", imageUrl := none }

def userC : User :=
  { _id := 3, name := "C", email := "c@splitr.test", tokenIdentifier := "token-c", imageUrl := none }

/-- User A pays 100, split 50/50 between A and B, the share of A marked paid. -/
def dinner : Expense :=
  { _id := 10, description := "dinner", amount := 100, category := some "Food", date := 1000,
    paidByUserId := 1, splitType := "equal",
    splits := [{ userId := 1, amount := 50, paid := true }, { userId := 2, amount := 50, paid := false }],
    groupId := none, createdBy := 1 }

/-- The store of scenario 1: the three users and the expense `dinner`. -/
def scenario1 : Store :=
  { users := [userA, userB, userC], groups := [], expenses := [dinner], settlements := [] }

/-- An expense of 90 whose splits sum to 89.99. -/
def boundaryArgs : CreateExpenseArgs :=
  { description := "taxi", amount := 90, category := none, date := 2000, paidByUserId := 1,
    splitType := "exact",
    splits := [{ userId := 1, amount := 45, paid := true },
               { userId := 2, amount := 4499 / 100, paid := false }],
    groupId := none }

/-- A second expense, paid by B for B and A. -/
def lunch : Expense :=
  { _id := 12, description := "lunch", amount := 40, category := none, date := 1500,
    paidByUserId := 2, splitType := "equal",
    splits := [{ userId := 2, amount := 20, paid := true }, { userId := 1, amount := 20, paid := false }],
    groupId := none, createdBy := 2 }

/-- A settlement whose related-expense set is `dinner` alone. -/
def settleDinner : Settlement :=
  { _id := 20, amount := 50, note := some "for dinner", date := 3000, paidByUserId := 2,
    receivedByUserId := 1, groupId := none, relatedExpenseIds := some [10], createdBy := 2 }

/-- A settlement whose related-expense set is `dinner` and `lunch`. -/
def settleBoth : Settlement :=
  { _id := 21, amount := 30, note := none, date := 3500, paidByUserId := 2,
    receivedByUserId := 1, groupId := none, relatedExpenseIds := some [10, 12], createdBy := 2 }

/-- The store of scenario 5. -/
def scenario5 : Store :=
  { users := [userA, userB, userC], groups := [], expenses := [dinner, lunch],
    settlements := [settleDinner, settleBoth] }

/-- The store of scenario 5 with its expenses and its settlements in the
other order. -/
def scenario5Swapped : Store :=
  { scenario5 with expenses := [lunch, dinner], settlements := [settleBoth, settleDinner] }

/-- The group of scenario 3, with members A, B and C. -/
def trip : Group :=
  { _id := 7, name := "trip", description := none, createdBy := 1,
    members := [{ userId := 1, role := "admin", joinedAt := 0 },
                { userId := 2, role := "member", joinedAt := 0 },
                { userId := 3, role := "member", joinedAt := 0 }] }

/-- User A pays 30 for the group, 10 each, the share of A marked paid. -/
def fuel : Expense :=
  { _id := 30, description := "fuel", amount := 30, category := none, date := 4000,
    paidByUserId := 1, splitType := "equal",
    splits := [{ userId := 1, amount := 10, paid := true },
               { userId := 2, amount := 10, paid := false },
               { userId := 3, amount := 10, paid := false }],
    groupId := some 7, createdBy := 1 }

/-- User B pays 30 for the group, 10 each, the share of B marked paid. -/
def tolls : Expense :=
  { _id := 31, description := "tolls", amount := 30, category := none, date := 4100,
    paidByUserId := 2, splitType := "equal",
    splits := [{ userId := 1, amount := 10, paid := false },
               { userId := 2, amount := 10, paid := true },
               { userId := 3, amount := 10, paid := false }],
    groupId := some 7, createdBy := 2 }

/-- User C pays 4 to A within the group. -/
def payPart : Settlement :=
  { _id := 40, amount := 4, note := none, date := 4200, paidByUserId := 3,
    receivedByUserId := 1, groupId := some 7, relatedExpenseIds := none, createdBy := 3 }

/-- User C pays 10 to B within the group. -/
def repay : Settlement :=
  { _id := 41, amount := 10, note := none, date := 4300, paidByUserId := 3,
    receivedByUserId := 2, groupId := some 7, relatedExpenseIds := none, createdBy := 3 }

/-- The store of scenario 3, with two settlements. -/
def scenario3 : Store :=
  { users := [userA, userB, userC], groups := [trip], expenses := [fuel, tolls],
    settlements := [payPart, repay] }

/-- The store of scenario 3 with its records in the other order. -/
def scenario3Swapped : Store :=
  { scenario3 with expenses := [tolls, fuel], settlements := [repay, payPart] }

/-- User B pays 80 for A alone. -/
def loan : Expense :=
  { _id := 50, description := "loan", amount := 80, category := none, date := 5000,
    paidByUserId := 2, splitType := "exact",
    splits := [{ userId := 1, amount := 80, paid := false }],
    groupId := none, createdBy := 2 }

/-- User A pays the 80 back to B. -/
def payAll : Settlement :=
  { _id := 60, amount := 80, note := none, date := 5100, paidByUserId := 1,
    receivedByUserId := 2, groupId := none, relatedExpenseIds := none, createdBy := 1 }

/-- User A pays another 10 to B. -/
def payExtra : Settlement :=
  { _id := 61, amount := 10, note := none, date := 5200, paidByUserId := 1,
    receivedByUserId := 2, groupId := none, relatedExpenseIds := none, createdBy := 1 }

/-- A owes B 80 and pays 80, then 10. -/
def overpaid : Store :=
  { users := [userA, userB], groups := [], expenses := [loan], settlements := [payAll, payExtra] }

/-- The store `overpaid` with its settlements in the other order. -/
def overpaidSwapped : Store :=
  { overpaid with settlements := [payExtra, payAll] }

/-- The balance variables after the two loops of `getUserBalances` (lines
11-58), for the caller `userId`. -/
def balanceLoops (userId : UserId) (st : Store) : BalanceVars :=
  (st.settlements.filter (fun s =>
      s.groupId.isNone && (s.paidByUserId == userId || s.receivedByUserId == userId))).foldl
    (balancesApplySettlement userId)
    ((st.expenses.filter (fun e =>
        e.groupId.isNone &&
          (e.paidByUserId == userId || e.splits.any (fun s => s.userId == userId)))).foldl
      (balancesApplyExpense userId)
      { youOwe := 0, youAreOwed := 0, balanceByUser := [] })

/-- User B pays 50 to A, outside any group. -/
def settleUp : Settlement :=
  { _id := 22, amount := 50, note := none, date := 1200, paidByUserId := 2,
    receivedByUserId := 1, groupId := none, relatedExpenseIds := none, createdBy := 2 }

/-- The store of scenario 2: scenario 1 followed by the settlement `settleUp`. -/
def scenario2 : Store :=
  { scenario1 with settlements := [settleUp] }

/-! ## The directional accumulation of the group ledger, as the specification words it -/

/-- The directional accumulation `raw[a][b]` of what member `a` owes member
`b` in a group: the unpaid splits of `a` in the expenses of the group that `b`
paid, minus the settlements of the group that `a` paid to `b`. -/
def specRawOwes (groupId : GroupId) (st : Store) (a b : UserId) : ℚ :=
  ((st.expenses.filter (fun e => e.groupId == some groupId && e.paidByUserId == b)).map
      (unpaidShare a)).sum
    - ((st.settlements.filter (fun s =>
          s.groupId == some groupId && s.paidByUserId == a && s.receivedByUserId == b)).map
        (fun s => s.amount)).sum

/-- Every row of the ledger has distinct keys. -/
def RowsNodup (ledger : Ledger) : Prop :=
  ∀ a row, objGet ledger a = some row → (row.map Prod.fst).Nodup

/-- The cells `(a, b)` and `(b, a)` hold numbers whose difference is `d`. -/
def PairDiff (ledger : Ledger) (a b : UserId) (d : ℚ) : Prop :=
  ∃ x y, ledgerCell ledger a b = some x ∧ ledgerCell ledger b a = some y ∧ x - y = d

/-- The cells `(a, b)` and `(b, a)` hold the netted form of the difference `d`. -/
def PairNetted (ledger : Ledger) (a b : UserId) (d : ℚ) : Prop :=
  ledgerCell ledger a b = some (max d 0) ∧ ledgerCell ledger b a = some (max (-d) 0)

/-- The store of scenario 3 as the specification states it, without settlements. -/
def scenario3Plain : Store :=
  { scenario3 with settlements := [] }

/-! ## `convex/dashboard.js`: getUserGroups -/

/-- An entry `{ ...group, id, balance }` of the result of `getUserGroups`. -/
structure GroupWithBalance extends Group where
  id : GroupId
  balance : ℚ
  deriving DecidableEq

/-- One iteration of the loop of lines 208-212, for an expense the user paid. -/
def userGroupApplyPayerSplit (userId : UserId) (balance : ℚ) (split : Split) : ℚ :=
  if split.userId ≠ userId ∧ split.paid = false then balance + split.amount else balance

/-- One iteration of the loop of lines 206-219. -/
def userGroupApplyExpense (userId : UserId) (balance : ℚ) (expense : Expense) : ℚ :=
  if expense.paidByUserId = userId then
    expense.splits.foldl (userGroupApplyPayerSplit userId) balance
  else
    match expense.splits.find? (fun split => split.userId == userId) with
    | none => balance
    | some userSplit => if userSplit.paid then balance else balance - userSplit.amount

/-- One iteration of the loop of lines 235-241. -/
def userGroupApplySettlement (userId : UserId) (balance : ℚ) (settlement : Settlement) : ℚ :=
  if settlement.paidByUserId = userId then balance + settlement.amount
  else balance - settlement.amount

/-- The balance that `getUserGroups` computes for one group (lines 198-241). -/
def userGroupBalance (userId : UserId) (st : Store) (group : Group) : ℚ :=
  let expenses := st.expenses.filter (fun e => e.groupId == some group._id)
  let balance := expenses.foldl (userGroupApplyExpense userId) 0
  let settlements := st.settlements.filter (fun s =>
    s.groupId == some group._id && (s.paidByUserId == userId || s.receivedByUserId == userId))
  settlements.foldl (userGroupApplySettlement userId) balance

/-- The handler of `getUserGroups`. -/
def getUserGroups (identity : Option String) (st : Store) :
    Except String (List GroupWithBalance) :=
  match getCurrentUser identity st with
  | .error e => .error e
  | .ok user =>
    let groups := st.groups.filter (fun group =>
      group.members.any (fun member => member.userId == user._id))
    .ok (groups.map (fun group =>
      { toGroup := group, id := group._id, balance := userGroupBalance user._id st group }))

/-! ## Changing the amount of a split -/

/-- The list with `f` applied to its element of index `n`, if there is one. -/
def modifyAt {α : Type} (f : α → α) : Nat → List α → List α
  | _, [] => []
  | 0, x :: xs => f x :: xs
  | n + 1, x :: xs => x :: modifyAt f n xs

/-- The expense in which split `j` has the amount `x`. -/
def setSplitAmount (j : Nat) (x : ℚ) (e : Expense) : Expense :=
  { e with splits := modifyAt (fun s => { s with amount := x }) j e.splits }

/-- The store in which split `j` of expense `i` has the amount `x`. -/
def replaceSplitAmount (i j : Nat) (x : ℚ) (st : Store) : Store :=
  { st with expenses := modifyAt (setSplitAmount j x) i st.expenses }

/-- The split with its amount forgotten when it is marked paid. -/
def forgetPaidSplit (s : Split) : Split :=
  if s.paid then { s with amount := 0 } else s

/-- The expense with the amounts of its paid splits forgotten. -/
def forgetPaid (e : Expense) : Expense :=
  { e with splits := e.splits.map forgetPaidSplit }

/-- The store with the amounts of all paid splits forgotten. -/
def forgetPaidStore (st : Store) : Store :=
  { st with expenses := st.expenses.map forgetPaid }

/-! ## Inserting records -/

/-- The store after `ctx.db.insert("expenses", e)`. -/
def insertExpense (e : Expense) (st : Store) : Store :=
  { st with expenses := st.expenses ++ [e] }

/-- The store after `ctx.db.insert("settlements", s)`. -/
def insertSettlement (s : Settlement) (st : Store) : Store :=
  { st with settlements := st.settlements ++ [s] }

/-- The accumulators are defined and the ledger has a row for every member id. -/
def GroupRowsExist (ids : List UserId) (acc : Except String (Totals × Ledger)) : Prop :=
  ∃ totals ledger, acc = .ok (totals, ledger) ∧ ∀ a ∈ ids, (objGet ledger a).isSome = true

/-- The store of scenario 3 with A as the only member of the group. -/
def scenario3Solo : Store :=
  { scenario3 with
    groups := [{ trip with members := [{ userId := 1, role := "admin", joinedAt := 0 }] }] }

/-- A group expense of 60 whose splits sum to 50. -/
def mismatchedGroupArgs : CreateExpenseArgs :=
  { description := "hotel", amount := 60, category := none, date := 7000, paidByUserId := 1,
    splitType := "exact",
    splits := [{ userId := 1, amount := 50, paid := true }],
    groupId := some 7 }

/-- A group expense of 60 paid by B, who is not a member of the group of
`scenario3Solo`, with splits that sum to the amount. -/
def outsiderPayerArgs : CreateExpenseArgs :=
  { description := "hotel", amount := 60, category := none, date := 7000, paidByUserId := 2,
    splitType := "exact",
    splits := [{ userId := 1, amount := 60, paid := false }],
    groupId := some 7 }

/-- An expense of amount 0 without splits. -/
def zeroArgs : CreateExpenseArgs :=
  { description := "nothing", amount := 0, category := none, date := 7100, paidByUserId := 1,
    splitType := "equal", splits := [], groupId := none }

/-- An expense of amount -10 whose splits sum to -10. -/
def negativeArgs : CreateExpenseArgs :=
  { description := "refund", amount := -10, category := none, date := 7200, paidByUserId := 1,
    splitType := "exact",
    splits := [{ userId := 2, amount := -10, paid := false }],
    groupId := none }

/-- User A pays 20 to B, outside any group. -/
def payAhead : Settlement :=
  { _id := 62, amount := 20, note := none, date := 5300, paidByUserId := 1,
    receivedByUserId := 2, groupId := none, relatedExpenseIds := none, createdBy := 1 }

/-- A store without expenses in which A has paid 20 to B. -/
def advance : Store :=
  { users := [userA, userB], groups := [], expenses := [], settlements := [payAhead] }

/-- User B pays 50 for A alone, on date 200. -/
def borrowed : Expense :=
  { _id := 51, description := "borrowed", amount := 50, category := none, date := 200,
    paidByUserId := 2, splitType := "exact",
    splits := [{ userId := 1, amount := 50, paid := false }],
    groupId := none, createdBy := 2 }

/-- User A pays 10 for B alone, on the earlier date 100. -/
def lent : Expense :=
  { _id := 52, description := "lent", amount := 10, category := none, date := 100,
    paidByUserId := 1, splitType := "exact",
    splits := [{ userId := 2, amount := 10, paid := false }],
    groupId := none, createdBy := 1 }

/-- A owes B 50 since date 200 and B owes A 10 since date 100. -/
def mixedDates : Store :=
  { users := [userA, userB], groups := [], expenses := [borrowed, lent], settlements := [] }

/-- The store `mixedDates` with its expenses in the other order. -/
def mixedDatesSwapped : Store :=
  { mixedDates with expenses := [lent, borrowed] }

/-- The map `ledger` of one user after the two loops of
`getUsersWithOutstandingDebts` (lines 31-85). -/
def debtsLedger (userId : UserId) (st : Store) : List (UserId × DebtEntry) :=
  (st.settlements.filter (fun s => s.groupId.isNone)).foldl (debtsApplySettlement userId)
    ((st.expenses.filter (fun e => e.groupId.isNone)).foldl (debtsApplyExpense userId) [])

/-- The entry of `debts` that step 3 (lines 89-99) pushes for an entry of the
ledger with a positive amount. -/
def debtOfEntry (st : Store) (entry : UserId × DebtEntry) : Debt :=
  { userId := entry.1
    name := match st.users.find? (fun u => u._id == entry.1) with
      | some c => c.name
      | none => "Unknown"
    amount := entry.2.amount
    since := entry.2.since }

/-- User C pays 90 outside any group, split between A, B and C. -/
def sharedByThird : Expense :=
  { _id := 53, description := "cabin", amount := 90, category := none, date := 300,
    paidByUserId := 3, splitType := "equal",
    splits := [{ userId := 1, amount := 30, paid := false },
               { userId := 2, amount := 30, paid := false },
               { userId := 3, amount := 30, paid := true }],
    groupId := none, createdBy := 3 }

/-- A store whose only expense is paid by C, with A and B among its splits. -/
def thirdParty : Store :=
  { users := [userA, userB, userC], groups := [], expenses := [sharedByThird], settlements := [] }

/-- The per-counterparty net that the result of `getUserBalances` shows for
`v`, as the specification words it: the amount of `v` in `youAreOwedBy` if `v`
is listed there, minus the amount of `v` in `youOwe` if `v` is listed there. -/
def specCounterpartyNet (r : UserBalances) (v : UserId) : ℚ :=
  (match r.oweDetails.youAreOwedBy.find? (fun e => e.userId == v) with
    | some e => e.amount
    | none => 0)
  - (match r.oweDetails.youOwe.find? (fun e => e.userId == v) with
    | some e => e.amount
    | none => 0)

/-! ## The built-in `Date`

The functions of `convex/dashboard.js` read the clock and split timestamps
into calendar years and months with `Date`. The definitions below are those
of the ECMAScript specification (Time Values and Time Range), in day numbers
and milliseconds since the epoch. Local time is UTC, the time zone of the
Convex runtime, and timestamps lie within the range of `Date`. -/

/-- The constant `msPerDay`. -/
def msPerDay : Int := 86400000

/-- The value of `DaysInYear(y)`. -/
def daysInYear (y : Int) : Int :=
  if y % 4 ≠ 0 then 365
  else if y % 100 ≠ 0 then 366
  else if y % 400 ≠ 0 then 365
  else 366

/-- The value of `InLeapYear`, for a year: 1 in a leap year, 0 otherwise. -/
def inLeapYear (y : Int) : Int :=
  if daysInYear y = 365 then 0 else 1

/-- The value of `DayFromYear(y)`: the day number of the first day of year `y`. -/
def dayFromYear (y : Int) : Int :=
  365 * (y - 1970) + (y - 1969) / 4 - (y - 1901) / 100 + (y - 1601) / 400

/-- The value of `YearFromTime`, for a day number: the largest year `y` whose
first day is not after `day`. -/
def yearFromDay (day : Int) : Int :=
  let y := 1970 + (400 * day) / 146097
  if dayFromYear (y + 1) ≤ day then y + 1
  else if dayFromYear y ≤ day then y
  else y - 1

/-- The number of days of a year before its month `m` (0 for January, 11 for
December), `leap` being 1 in a leap year and 0 otherwise; for `m = 12` the
number of days of the year. -/
@[irreducible] def daysBeforeMonthOf (leap m : Int) : Int :=
  if m ≤ 0 then 0
  else if m = 1 then 31
  else if m = 2 then 59 + leap
  else if m = 3 then 90 + leap
  else if m = 4 then 120 + leap
  else if m = 5 then 151 + leap
  else if m = 6 then 181 + leap
  else if m = 7 then 212 + leap
  else if m = 8 then 243 + leap
  else if m = 9 then 273 + leap
  else if m = 10 then 304 + leap
  else if m = 11 then 334 + leap
  else 365 + leap

/-- The number of days of year `y` before its month `m`. -/
def daysBeforeMonth (y m : Int) : Int :=
  daysBeforeMonthOf (inLeapYear y) m

/-- The table of `MonthFromTime`: the month of the day `d` within a year,
`leap` being 1 in a leap year and 0 otherwise. -/
@[irreducible] def monthInYear (leap d : Int) : Int :=
  if d < 31 then 0
  else if d < 59 + leap then 1
  else if d < 90 + leap then 2
  else if d < 120 + leap then 3
  else if d < 151 + leap then 4
  else if d < 181 + leap then 5
  else if d < 212 + leap then 6
  else if d < 243 + leap then 7
  else if d < 273 + leap then 8
  else if d < 304 + leap then 9
  else if d < 334 + leap then 10
  else 11

/-- The value of `MonthFromTime`, for a day number. -/
def monthFromDay (day : Int) : Int :=
  monthInYear (inLeapYear (yearFromDay day)) (day - dayFromYear (yearFromDay day))

/-- The time value of `new Date(value)` for a number: the number truncated
towards zero. -/
def timeClip (t : ℚ) : Int :=
  if 0 ≤ t then ⌊t⌋ else ⌈t⌉

/-- The value of `date.getFullYear()` for the time value `tv`. -/
def getFullYear (tv : Int) : Int :=
  yearFromDay (tv / msPerDay)

/-- The value of `date.getMonth()` for the time value `tv`. -/
def getMonth (tv : Int) : Int :=
  monthFromDay (tv / msPerDay)

/-- The value of `MakeDay(year, month, 1)`: the day number of the first day
of a month; a month outside 0..11 carries into the year. -/
def makeDay (year month : Int) : Int :=
  let ym := year + month / 12
  let mn := month % 12
  dayFromYear ym + daysBeforeMonth ym mn

/-- The value of `new Date(year, month, 1).getTime()`; a year from 0 to 99
stands for the year 1900 + `year`. -/
def newDate (year month : Int) : Int :=
  let yr := if 0 ≤ year ∧ year ≤ 99 then 1900 + year else year
  makeDay yr month * msPerDay

/-! ## `convex/dashboard.js`: getTotalSpent and getMonthlySpending -/

/-- The documents of `withIndex("by_date", (q) => q.gte("date", start))`: the
expenses dated from `start` on, in the order of the index, which is by date and
then by creation. -/
def expensesByDateFrom (start : ℚ) (st : Store) : List Expense :=
  (st.expenses.filter (fun e => decide (start ≤ e.date))).insertionSort
    (fun a b => a.date ≤ b.date)

/-- The filter of lines 104-108 and 143-147: the user is the payer or has a split. -/
def isUserExpense (userId : UserId) (expense : Expense) : Bool :=
  expense.paidByUserId == userId || expense.splits.any (fun split => split.userId == userId)

/-- One iteration of the loop of lines 112-117. -/
def totalSpentApply (userId : UserId) (totalSpent : ℚ) (expense : Expense) : ℚ :=
  match expense.splits.find? (fun split => split.userId == userId) with
  | some userSplit => totalSpent + userSplit.amount
  | none => totalSpent

/-- The handler of `getTotalSpent`; `now` is the time value of `new Date()`. -/
def getTotalSpent (identity : Option String) (now : Int) (st : Store) : Except String ℚ :=
  match getCurrentUser identity st with
  | .error e => .error e
  | .ok user =>
    let currentYear := getFullYear now
    let startOfYear := newDate currentYear 0
    let expenses := expensesByDateFrom startOfYear st
    let userExpenses := expenses.filter (isUserExpense user._id)
    .ok (userExpenses.foldl (totalSpentApply user._id) 0)

/-- An entry `{ month, total }` of the result of `getMonthlySpending`. -/
structure MonthTotal where
  month : Int
  total : ℚ
  deriving DecidableEq

/-- The object `monthlyTotals` after the loop of lines 151-153. -/
def initMonthlyTotals (currentYear : Int) : List (Int × ℚ) :=
  (List.range 12).foldl
    (fun totals (i : Nat) => objUpdate totals (newDate currentYear i) (fun _ => 0)) []

/-- One iteration of the loop of lines 156-171. -/
def monthlyApplyExpense (userId : UserId) (monthlyTotals : List (Int × ℚ)) (expense : Expense) :
    List (Int × ℚ) :=
  let date := timeClip expense.date
  let monthStart := newDate (getFullYear date) (getMonth date)
  match expense.splits.find? (fun split => split.userId == userId) with
  | some userSplit => objUpdate monthlyTotals monthStart (fun o => o.getD 0 + userSplit.amount)
  | none => monthlyTotals

/-- The handler of `getMonthlySpending`; `now` is the time value of
`new Date()`. The entries of `monthlyTotals` are taken in insertion order; the
keys are distinct and the entries are sorted by key afterwards. -/
def getMonthlySpending (identity : Option String) (now : Int) (st : Store) :
    Except String (List MonthTotal) :=
  match getCurrentUser identity st with
  | .error e => .error e
  | .ok user =>
    let currentYear := getFullYear now
    let startOfYear := newDate currentYear 0
    let allExpenses := expensesByDateFrom startOfYear st
    let userExpenses := allExpenses.filter (isUserExpense user._id)
    let monthlyTotals := initMonthlyTotals currentYear
    let monthlyTotals := userExpenses.foldl (monthlyApplyExpense user._id) monthlyTotals
    let result := monthlyTotals.map (fun entry => ({ month := entry.1, total := entry.2 } : MonthTotal))
    .ok (result.insertionSort (fun a b => a.month ≤ b.month))

/-- The caller's own share of an expense, as the specification words it: the
amount of the first split of the user, 0 without such a split. -/
def specOwnShare (userId : UserId) (e : Expense) : ℚ :=
  match e.splits.find? (fun s => s.userId == userId) with
  | some s => s.amount
  | none => 0

/-- The time value of the start of month `m` (0 to 11; 12 is the start of the
next year) of year `y`. -/
def specMonthStart (y m : Int) : Int :=
  (dayFromYear y + daysBeforeMonth y m) * msPerDay

/-- The clock reads 10 June 2024, 06:13:20 UTC. -/
def midJune2024 : Int := 1718000000000

/-- User A pays 60 on 15 March 2024, split between A and B. -/
def march : Expense :=
  { _id := 90, description := "march", amount := 60, category := none, date := 1710500000000,
    paidByUserId := 1, splitType := "equal",
    splits := [{ userId := 1, amount := 30, paid := true },
               { userId := 2, amount := 30, paid := false }],
    groupId := none, createdBy := 1 }

/-- User B pays 50 on 20 December 2023, split between A and B. -/
def lastYear : Expense :=
  { _id := 91, description := "december", amount := 50, category := none, date := 1703073600000,
    paidByUserId := 2, splitType := "equal",
    splits := [{ userId := 1, amount := 25, paid := false },
               { userId := 2, amount := 25, paid := true }],
    groupId := none, createdBy := 2 }

/-- User A pays 40 for B alone on 2 March 2024; A has no split. -/
def treat : Expense :=
  { _id := 92, description := "treat", amount := 40, category := none, date := 1709380000000,
    paidByUserId := 1, splitType := "exact",
    splits := [{ userId := 2, amount := 40, paid := false }],
    groupId := none, createdBy := 1 }

/-- User B pays 80 on 10 February 2025, split between A and B. -/
def nextYear : Expense :=
  { _id := 93, description := "february", amount := 80, category := none, date := 1739145600000,
    paidByUserId := 2, splitType := "equal",
    splits := [{ userId := 1, amount := 45, paid := false },
               { userId := 2, amount := 35, paid := true }],
    groupId := none, createdBy := 2 }

/-- A store with expenses of 2023 and of 2024. -/
def spending : Store :=
  { users := [userA, userB], groups := [], expenses := [march, lastYear, treat], settlements := [] }

/-- A store whose only expense is dated in 2025. -/
def spendingAhead : Store :=
  { users := [userA, userB], groups := [], expenses := [nextYear], settlements := [] }

/-! ## Changing the payer's own split -/

/-- The expense in which split `j` has the amount `x` and the paid flag `p`. -/
def setSplitAmountPaid (j : Nat) (x : ℚ) (p : Bool) (e : Expense) : Expense :=
  { e with splits := modifyAt (fun s => { s with amount := x, paid := p }) j e.splits }

/-- The store in which split `j` of expense `i` has the amount `x` and the
paid flag `p`. -/
def replaceSplitAmountPaid (i j : Nat) (x : ℚ) (p : Bool) (st : Store) : Store :=
  { st with expenses := modifyAt (setSplitAmountPaid j x p) i st.expenses }

/-- The split with its amount and its paid flag forgotten when it is a split
of `payer`. -/
def forgetPayerSplit (payer : UserId) (s : Split) : Split :=
  if s.userId = payer then { s with amount := 0, paid := true } else s

/-- The expense with the amounts and paid flags of the payer's own splits
forgotten. -/
def forgetPayer (e : Expense) : Expense :=
  { e with splits := e.splits.map (forgetPayerSplit e.paidByUserId) }

/-- The store with the payer's own splits of all expenses forgotten. -/
def forgetPayerStore (st : Store) : Store :=
  { st with expenses := st.expenses.map forgetPayer }

/-! ## The totals of a group, event by event -/

/-- What one event adds to `totals[x]`. -/
def groupEventNet (x : UserId) (ev : GroupEvent) : ℚ :=
  (if ev.plus = x then ev.amount else 0) - (if ev.minus = x then ev.amount else 0)

/-- Every member id has a total that is a number. -/
def TotalsDefined (ids : List UserId) (totals : Totals) : Prop :=
  ∀ a ∈ ids, (objGet totals a).join.isSome = true

/-- Every pair of distinct member ids has a ledger cell that is a number. -/
def CellsDefined (ids : List UserId) (ledger : Ledger) : Prop :=
  ∀ a ∈ ids, ∀ b ∈ ids, a ≠ b → (ledgerCell ledger a b).isSome = true

/-- The positive part of a ledger cell; a cell that is missing or `NaN` has none. -/
def positivePart (o : Option ℚ) : ℚ :=
  match o with
  | some v => max v 0
  | none => 0

/-- The keys of every row of the ledger are member ids other than the id of the row. -/
def RowKeysMembers (ids : List UserId) (ledger : Ledger) : Prop :=
  ∀ a row, objGet ledger a = some row → ∀ k ∈ row.map Prod.fst, k ∈ ids ∧ k ≠ a

/-- The sum of the deltas of the events of the cell `(a, b)`. -/
def cellDelta (evs : List GroupEvent) (a b : UserId) : ℚ :=
  ((evs.filter (fun ev => ev.row == a && ev.col == b)).map (fun ev => ev.delta)).sum

/-! ## Binary64 arithmetic

The source computes with JavaScript numbers, IEEE 754 binary64 values. A
finite binary64 value is a rational; the operators `+` and `-` return the
exact result rounded to the nearest binary64 value, a tie going to the value
with an even significand. `roundDouble` is that rounding on the rationals.
`-0` is not distinguished from `0`, as `===`, `<` and `>` do not distinguish
them. There is no `Infinity` and no `NaN` from an overflow: the rounded
handlers compute what the source computes as long as no result reaches
`2 ^ 1024`, which is so for fewer than `2 ^ 52` records whose amounts have
absolute values that sum to less than `2 ^ 1023`. -/

/-- The power `2 ^ e` for an integer exponent. -/
def pow2 (e : Int) : ℚ :=
  if 0 ≤ e then ((2 ^ e.toNat : Nat) : ℚ) else 1 / ((2 ^ (-e).toNat : Nat) : ℚ)

/-- The loop of `bitLog2`, bounded by `fuel` steps. -/
def bitLog2Loop : Nat → Nat → Nat
  | 0, _ => 0
  | fuel + 1, n => if n < 2 then 0 else bitLog2Loop fuel (n / 2) + 1

/-- The position of the leading bit of a natural number, 0 for 0: the value
of `Nat.log2`, by a recursion that evaluates on large numbers. -/
def bitLog2 (n : Nat) : Nat := bitLog2Loop n n

/-- The binary exponent of a nonzero rational: the integer `E` with
`2 ^ E ≤ |q| < 2 ^ (E + 1)`. -/
def binaryExponent (q : ℚ) : Int :=
  let l : Int := (bitLog2 q.num.natAbs : Int) - (bitLog2 q.den : Int)
  if |q| < pow2 l then l - 1 else l

/-- The nearest integer, a tie going to the even one. -/
def roundHalfEven (x : ℚ) : Int :=
  let f := ⌊x⌋
  let r := x - f
  if r < 1 / 2 then f else if 1 / 2 < r then f + 1 else if f % 2 = 0 then f else f + 1

/-- Rounding to binary64: 53 significant bits for a normal value, a multiple
of `2 ^ (-1074)` for a subnormal one. -/
def roundDouble (q : ℚ) : ℚ :=
  if q = 0 then 0
  else
    let e := max (binaryExponent q - 52) (-1074)
    (roundHalfEven (q / pow2 e) : ℚ) * pow2 e

/-- The multiples of `2 ^ (-k)`. -/
def OnGrid (k : Nat) (x : ℚ) : Prop := ∃ n : Int, x = n / 2 ^ k

/-- The rounding `R` returns every multiple of `2 ^ (-k)` of magnitude at most
`B` unchanged. -/
def FixesGrid (R : ℚ → ℚ) (k : Nat) (B : ℚ) : Prop :=
  ∀ x, OnGrid k x → |x| ≤ B → R x = x

/-! ## The handlers in rounded arithmetic

The handlers of the sections above compute in exact arithmetic, which is
enough for what they read, write and return as far as no sum is involved.
The handlers of this section are the same translation of the source with
every `+` and `-` of two numbers followed by the rounding `R`; with
`R = roundDouble` they compute what the source computes on binary64 values.
Negation, `Math.abs` and the comparisons are exact in binary64. The literal
`0.01` is the binary64 value nearest to `1 / 100`. -/

/-- The handler of `createExpense`, in arithmetic rounded by `R`. -/
def createExpenseRounded (R : ℚ → ℚ) (identity : Option String) (newId : ExpenseId)
    (args : CreateExpenseArgs) (st : Store) : Except String ExpenseId × Store :=
  match getCurrentUser identity st with
  | .error e => (.error e, st)
  | .ok user =>
    match validateGroupMembership st user args.groupId with
    | .error e => (.error e, st)
    | .ok _ =>
      let totalSplit := args.splits.foldl (fun sum s => R (sum + s.amount)) 0
      if |R (totalSplit - args.amount)| > R (1 / 100) then
        (.error "Split amounts must equal total expense", st)
      else
        (.ok newId, { st with expenses := st.expenses ++ [newExpenseDoc newId args user] })

/-- One iteration of the loop of lines 115-123 of `expenses.js`. -/
def pairApplyExpenseRounded (R : ℚ → ℚ) (meId userId : UserId) (balance : ℚ) (e : Expense) : ℚ :=
  if e.paidByUserId = meId then
    match e.splits.find? (fun s => s.userId == userId && !s.paid) with
    | some split => R (balance + split.amount)
    | none => balance
  else
    match e.splits.find? (fun s => s.userId == meId && !s.paid) with
    | some split => R (balance - split.amount)
    | none => balance

/-- One iteration of the loop of lines 124-127 of `expenses.js`. -/
def pairApplySettlementRounded (R : ℚ → ℚ) (meId : UserId) (balance : ℚ) (s : Settlement) : ℚ :=
  if s.paidByUserId = meId then R (balance + s.amount) else R (balance - s.amount)

/-- The handler of `getExpensesBetweenUsers`, in arithmetic rounded by `R`. -/
def getExpensesBetweenUsersRounded (R : ℚ → ℚ) (identity : Option String) (userId : UserId)
    (st : Store) : Except String ExpensesBetweenUsers :=
  match getCurrentUser identity st with
  | .error e => .error e
  | .ok me =>
    if me._id = userId then .error "Cannot query yourself"
    else
      let myPaid := st.expenses.filter (fun e => e.paidByUserId == me._id && e.groupId.isNone)
      let theirPaid := st.expenses.filter (fun e => e.paidByUserId == userId && e.groupId.isNone)
      let candidateExpenses := myPaid ++ theirPaid
      let expenses := sortExpensesByDateDesc (candidateExpenses.filter (bothInvolved me._id userId))
      let settlements :=
        sortSettlementsByDateDesc (st.settlements.filter (settlementBetween me._id userId))
      let balance := expenses.foldl (pairApplyExpenseRounded R me._id userId) 0
      let balance := settlements.foldl (pairApplySettlementRounded R me._id) balance
      match st.users.find? (fun u => u._id == userId) with
      | none => .error "User not found"
      | some other =>
        .ok { expenses := expenses
              settlements := settlements
              otherUser :=
                { id := other._id, name := other.name, email := other.email,
                  imageUrl := other.imageUrl }
              balance := balance }

/-- The statement `(balanceByUser[k] ??= { owed: 0, owing: 0 }).owed += d`. -/
def addOwedRounded (R : ℚ → ℚ) (m : List (UserId × OwedOwing)) (k : UserId) (d : ℚ) :
    List (UserId × OwedOwing) :=
  objUpdate m k (fun o =>
    let b := o.getD { owed := 0, owing := 0 }
    { b with owed := R (b.owed + d) })

/-- The statement `(balanceByUser[k] ??= { owed: 0, owing: 0 }).owing += d`. -/
def addOwingRounded (R : ℚ → ℚ) (m : List (UserId × OwedOwing)) (k : UserId) (d : ℚ) :
    List (UserId × OwedOwing) :=
  objUpdate m k (fun o =>
    let b := o.getD { owed := 0, owing := 0 }
    { b with owing := R (b.owing + d) })

/-- The statement `(balanceByUser[k] ??= { owed: 0, owing: 0 }).owed -= d`. -/
def subOwedRounded (R : ℚ → ℚ) (m : List (UserId × OwedOwing)) (k : UserId) (d : ℚ) :
    List (UserId × OwedOwing) :=
  objUpdate m k (fun o =>
    let b := o.getD { owed := 0, owing := 0 }
    { b with owed := R (b.owed - d) })

/-- The statement `(balanceByUser[k] ??= { owed: 0, owing: 0 }).owing -= d`. -/
def subOwingRounded (R : ℚ → ℚ) (m : List (UserId × OwedOwing)) (k : UserId) (d : ℚ) :
    List (UserId × OwedOwing) :=
  objUpdate m k (fun o =>
    let b := o.getD { owed := 0, owing := 0 }
    { b with owing := R (b.owing - d) })

/-- One iteration of the loop of lines 29-33 of `dashboard.js`. -/
def balancesApplyPayerSplitRounded (R : ℚ → ℚ) (userId : UserId) (vars : BalanceVars)
    (s : Split) : BalanceVars :=
  if s.userId = userId ∨ s.paid = true then vars
  else
    { vars with
      youAreOwed := R (vars.youAreOwed + s.amount)
      balanceByUser := addOwedRounded R vars.balanceByUser s.userId s.amount }

/-- One iteration of the loop of lines 24-39 of `dashboard.js`. -/
def balancesApplyExpenseRounded (R : ℚ → ℚ) (userId : UserId) (vars : BalanceVars)
    (e : Expense) : BalanceVars :=
  let isPayer := e.paidByUserId = userId
  let mySplit := e.splits.find? (fun s => s.userId == userId)
  if isPayer then e.splits.foldl (balancesApplyPayerSplitRounded R userId) vars
  else
    match mySplit with
    | none => vars
    | some mySplit =>
      if mySplit.paid then vars
      else
        { vars with
          youOwe := R (vars.youOwe + mySplit.amount)
          balanceByUser := addOwingRounded R vars.balanceByUser e.paidByUserId mySplit.amount }

/-- One iteration of the loop of lines 48-58 of `dashboard.js`. -/
def balancesApplySettlementRounded (R : ℚ → ℚ) (userId : UserId) (vars : BalanceVars)
    (s : Settlement) : BalanceVars :=
  if s.paidByUserId = userId then
    { vars with
      youOwe := R (vars.youOwe - s.amount)
      balanceByUser := subOwingRounded R vars.balanceByUser s.receivedByUserId s.amount }
  else
    { vars with
      youAreOwed := R (vars.youAreOwed - s.amount)
      balanceByUser := subOwedRounded R vars.balanceByUser s.paidByUserId s.amount }

/-- The variables `youOwe`, `youAreOwed` and `balanceByUser` after the two
loops of `getUserBalances` (lines 11-58), for the caller `userId`. -/
def balanceLoopsRounded (R : ℚ → ℚ) (userId : UserId) (st : Store) : BalanceVars :=
  let expenses := st.expenses.filter (fun e =>
    e.groupId.isNone &&
      (e.paidByUserId == userId || e.splits.any (fun s => s.userId == userId)))
  let vars : BalanceVars := { youOwe := 0, youAreOwed := 0, balanceByUser := [] }
  let vars := expenses.foldl (balancesApplyExpenseRounded R userId) vars
  let settlements := st.settlements.filter (fun s =>
    s.groupId.isNone && (s.paidByUserId == userId || s.receivedByUserId == userId))
  settlements.foldl (balancesApplySettlementRounded R userId) vars

/-- One iteration of the loop of lines 63-74 of `dashboard.js` on the pair
`(youOweList, youAreOwedByList)`. -/
def pushOweEntryRounded (R : ℚ → ℚ) (st : Store) (lists : List OweEntry × List OweEntry)
    (entry : UserId × OwedOwing) : List OweEntry × List OweEntry :=
  let net := R (entry.2.owed - entry.2.owing)
  if net = 0 then lists
  else
    let counterpart := st.users.find? (fun u => u._id == entry.1)
    let base : OweEntry :=
      { userId := entry.1
        name := match counterpart with
          | some c => c.name
          | none => "Unknown"
        imageUrl := counterpart.bind (fun c => c.imageUrl)
        amount := |net| }
    if net > 0 then (lists.1, lists.2 ++ [base]) else (lists.1 ++ [base], lists.2)

/-- The handler of `getUserBalances`, in arithmetic rounded by `R`. -/
def getUserBalancesRounded (R : ℚ → ℚ) (identity : Option String) (st : Store) :
    Except String UserBalances :=
  match getCurrentUser identity st with
  | .error e => .error e
  | .ok user =>
    let vars := balanceLoopsRounded R user._id st
    let lists := vars.balanceByUser.foldl (pushOweEntryRounded R st) ([], [])
    .ok { youOwe := vars.youOwe
          youAreOwed := vars.youAreOwed
          totalBalance := R (vars.youAreOwed - vars.youOwe)
          oweDetails :=
            { youOwe := sortByAmountDesc lists.1
              youAreOwedBy := sortByAmountDesc lists.2 } }

/-- The statement `obj[k] += d`; an undefined or `NaN` property becomes `NaN`. -/
def plusAssignRounded (R : ℚ → ℚ) (m : List (UserId × Option ℚ)) (k : UserId) (d : ℚ) :
    List (UserId × Option ℚ) :=
  objUpdate m k (fun o => o.join.map (fun x => R (x + d)))

/-- The statement `obj[k] -= d`; an undefined or `NaN` property becomes `NaN`. -/
def minusAssignRounded (R : ℚ → ℚ) (m : List (UserId × Option ℚ)) (k : UserId) (d : ℚ) :
    List (UserId × Option ℚ) :=
  objUpdate m k (fun o => o.join.map (fun x => R (x - d)))

/-- One iteration of the loop of lines 109-114 of `groups.js`. -/
def groupApplySplitRounded (R : ℚ → ℚ) (payer : UserId) (acc : Except String (Totals × Ledger))
    (split : Split) : Except String (Totals × Ledger) :=
  match acc with
  | .error e => .error e
  | .ok (totals, ledger) =>
    if split.userId = payer ∨ split.paid = true then .ok (totals, ledger)
    else
      let totals := plusAssignRounded R totals payer split.amount
      let totals := minusAssignRounded R totals split.userId split.amount
      match objGet ledger split.userId with
      | none => .error "TypeError: Cannot read properties of undefined"
      | some row =>
        .ok (totals,
          objUpdate ledger split.userId (fun _ => plusAssignRounded R row payer split.amount))

/-- One iteration of the loop of lines 107-115 of `groups.js`. -/
def groupApplyExpenseRounded (R : ℚ → ℚ) (acc : Except String (Totals × Ledger))
    (exp : Expense) : Except String (Totals × Ledger) :=
  exp.splits.foldl (groupApplySplitRounded R exp.paidByUserId) acc

/-- One iteration of the loop of lines 118-122 of `groups.js`. -/
def groupApplySettlementRounded (R : ℚ → ℚ) (acc : Except String (Totals × Ledger))
    (s : Settlement) : Except String (Totals × Ledger) :=
  match acc with
  | .error e => .error e
  | .ok (totals, ledger) =>
    let totals := plusAssignRounded R totals s.paidByUserId s.amount
    let totals := minusAssignRounded R totals s.receivedByUserId s.amount
    match objGet ledger s.paidByUserId with
    | none => .error "TypeError: Cannot read properties of undefined"
    | some row =>
      .ok (totals, objUpdate ledger s.paidByUserId
        (fun _ => minusAssignRounded R row s.receivedByUserId s.amount))

/-- The accumulators `totals` and `ledger` after the two loops of lines
107-122 of `groups.js`. -/
def groupLoopsRounded (R : ℚ → ℚ) (ids : List UserId) (groupId : GroupId) (st : Store) :
    Except String (Totals × Ledger) :=
  let expenses := st.expenses.filter (fun e => e.groupId == some groupId)
  let settlements := st.settlements.filter (fun s => s.groupId == some groupId)
  let acc : Except String (Totals × Ledger) := .ok (initTotals ids, initLedger ids)
  let acc := expenses.foldl (groupApplyExpenseRounded R) acc
  settlements.foldl (groupApplySettlementRounded R) acc

/-- The body of the inner `forEach` of lines 126-138 of `groups.js`. -/
def netPairRounded (R : ℚ → ℚ) (a : UserId) (ledger : Ledger) (b : UserId) : Ledger :=
  if a ≥ b then ledger
  else
    match ledgerCell ledger a b, ledgerCell ledger b a with
    | some x, some y =>
      let diff := R (x - y)
      if diff > 0 then setLedgerCell (setLedgerCell ledger a b diff) b a 0
      else if diff < 0 then setLedgerCell (setLedgerCell ledger b a (-diff)) a b 0
      else setLedgerCell (setLedgerCell ledger b a 0) a b 0
    | _, _ => setLedgerCell (setLedgerCell ledger b a 0) a b 0

/-- The loop of lines 125-139 of `groups.js`. -/
def netLedgerRounded (R : ℚ → ℚ) (ids : List UserId) (ledger : Ledger) : Ledger :=
  ids.foldl (fun ledger a => ids.foldl (netPairRounded R a) ledger) ledger

/-- The handler of `getGroupExpenses`, in arithmetic rounded by `R`. -/
def getGroupExpensesRounded (R : ℚ → ℚ) (identity : Option String) (groupId : GroupId)
    (st : Store) : Except String GroupExpenses :=
  match getCurrentUser identity st with
  | .error e => .error e
  | .ok currentUser =>
    match st.groups.find? (fun g => g._id == groupId) with
    | none => .error "Group not found"
    | some group =>
      if !group.members.any (fun m => m.userId == currentUser._id) then
        .error "Not a group member"
      else
        let expenses := st.expenses.filter (fun e => e.groupId == some groupId)
        let settlements := st.settlements.filter (fun s => s.groupId == some groupId)
        match memberDetailsOf st group.members with
        | .error e => .error e
        | .ok memberDetails =>
          let ids := memberDetails.map (fun m => m.id)
          match groupLoopsRounded R ids groupId st with
          | .error e => .error e
          | .ok (totals, ledger) =>
            let ledger := netLedgerRounded R ids ledger
            .ok { group := { id := group._id, name := group.name, description := group.description }
                  members := memberDetails
                  expenses := expenses
                  settlements := settlements
                  balances := memberDetails.map (memberBalance ids totals ledger)
                  userLookupMap :=
                    memberDetails.foldl (fun m d => objUpdate m d.id (fun _ => d)) [] }

/-- One iteration of the loop of lines 112-117 of `dashboard.js`. -/
def totalSpentApplyRounded (R : ℚ → ℚ) (userId : UserId) (totalSpent : ℚ) (expense : Expense) :
    ℚ :=
  match expense.splits.find? (fun split => split.userId == userId) with
  | some userSplit => R (totalSpent + userSplit.amount)
  | none => totalSpent

/-- The handler of `getTotalSpent`, in arithmetic rounded by `R`. -/
def getTotalSpentRounded (R : ℚ → ℚ) (identity : Option String) (now : Int) (st : Store) :
    Except String ℚ :=
  match getCurrentUser identity st with
  | .error e => .error e
  | .ok user =>
    let currentYear := getFullYear now
    let startOfYear := newDate currentYear 0
    let expenses := expensesByDateFrom startOfYear st
    let userExpenses := expenses.filter (isUserExpense user._id)
    .ok (userExpenses.foldl (totalSpentApplyRounded R user._id) 0)

/-- One iteration of the loop of lines 156-171 of `dashboard.js`. -/
def monthlyApplyExpenseRounded (R : ℚ → ℚ) (userId : UserId) (monthlyTotals : List (Int × ℚ))
    (expense : Expense) : List (Int × ℚ) :=
  let date := timeClip expense.date
  let monthStart := newDate (getFullYear date) (getMonth date)
  match expense.splits.find? (fun split => split.userId == userId) with
  | some userSplit =>
    objUpdate monthlyTotals monthStart (fun o => R (o.getD 0 + userSplit.amount))
  | none => monthlyTotals

/-- The handler of `getMonthlySpending`, in arithmetic rounded by `R`. -/
def getMonthlySpendingRounded (R : ℚ → ℚ) (identity : Option String) (now : Int) (st : Store) :
    Except String (List MonthTotal) :=
  match getCurrentUser identity st with
  | .error e => .error e
  | .ok user =>
    let currentYear := getFullYear now
    let startOfYear := newDate currentYear 0
    let allExpenses := expensesByDateFrom startOfYear st
    let userExpenses := allExpenses.filter (isUserExpense user._id)
    let monthlyTotals := initMonthlyTotals currentYear
    let monthlyTotals := userExpenses.foldl (monthlyApplyExpenseRounded R user._id) monthlyTotals
    let result := monthlyTotals.map (fun entry => ({ month := entry.1, total := entry.2 } : MonthTotal))
    .ok (result.insertionSort (fun a b => a.month ≤ b.month))

/-! ## Stores whose sums are exact -/

/-- The sum of the absolute values of the split amounts of an expense. -/
def expenseMagnitude (e : Expense) : ℚ :=
  (e.splits.map (fun s => |s.amount|)).sum

/-- The sum of the absolute values of all split amounts and settlement
amounts of the store. -/
def amountsMagnitude (st : Store) : ℚ :=
  (st.expenses.map expenseMagnitude).sum + (st.settlements.map (fun s => |s.amount|)).sum

/-- Every split amount and settlement amount of the store is a multiple of
`2 ^ (-k)`. -/
def AmountsOnGrid (k : Nat) (st : Store) : Prop :=
  (∀ e ∈ st.expenses, ∀ s ∈ e.splits, OnGrid k s.amount)
    ∧ ∀ s ∈ st.settlements, OnGrid k s.amount

/-- The amounts of the store are multiples of `2 ^ (-k)` whose absolute values
sum to at most `2 ^ 50` such multiples: every sum and difference that the
handlers form is then a binary64 value, and no operation rounds. -/
def ExactAmounts (k : Nat) (st : Store) : Prop :=
  k ≤ 1074 ∧ AmountsOnGrid k st ∧ amountsMagnitude st * 2 ^ k ≤ 2 ^ 50

/-! ## Sample data in binary64

The amounts `0.1`, `0.2` and `0.3` are the binary64 values nearest to these
decimals. -/

def userD : User :=
  { _id := 4, name := "D", email := "d@splitr.test", tokenIdentifier := "token-d", imageUrl := none }

/-- The expense in which `payer` pays `2 * amount` on `date`, half for the
payer, marked paid, and `amount` for `debtor`, not paid. -/
def sharedExpense (id : ExpenseId) (payer debtor : UserId) (amount date : ℚ) (groupId : Option GroupId) :
    Expense :=
  { _id := id, description := "shared", amount := roundDouble (2 * amount), category := none,
    date := date, paidByUserId := payer, splitType := "equal",
    splits := [{ userId := payer, amount := amount, paid := true },
               { userId := debtor, amount := amount, paid := false }],
    groupId := groupId, createdBy := payer }

/-- B owes A 0.1 and 0.2, A owes B 0.3, all three expenses of the same date. -/
def residue : Store :=
  { users := [userA, userB, userC],
    groups := [],
    expenses := [sharedExpense 101 1 2 (roundDouble (1 / 10)) 500 none,
                 sharedExpense 102 2 1 (roundDouble (3 / 10)) 500 none,
                 sharedExpense 103 1 2 (roundDouble (2 / 10)) 500 none],
    settlements := [] }

/-- The records of `residue` with three different dates. -/
def residueDated : Store :=
  { users := [userA, userB, userC],
    groups := [],
    expenses := [sharedExpense 101 1 2 (roundDouble (1 / 10)) 700 none,
                 sharedExpense 102 2 1 (roundDouble (3 / 10)) 600 none,
                 sharedExpense 103 1 2 (roundDouble (2 / 10)) 500 none],
    settlements := [] }

/-- B owes A 0.1, 0.2 and 0.3 from three expenses. -/
def ascending : Store :=
  { users := [userA, userB, userC],
    groups := [],
    expenses := [sharedExpense 101 1 2 (roundDouble (1 / 10)) 500 none,
                 sharedExpense 102 1 2 (roundDouble (2 / 10)) 600 none,
                 sharedExpense 103 1 2 (roundDouble (3 / 10)) 700 none],
    settlements := [] }

/-- The store `ascending` with its expenses in the opposite order. -/
def descending : Store :=
  { ascending with expenses := ascending.expenses.reverse }

/-- A pays 1.2 for A, B, C and D; B owes 0.1, C owes 0.2 and D owes 0.3. -/
def drinks : Expense :=
  { _id := 104, description := "drinks", amount := roundDouble (12 / 10), category := none,
    date := 500, paidByUserId := 1, splitType := "exact",
    splits := [{ userId := 1, amount := roundDouble (6 / 10), paid := true },
               { userId := 2, amount := roundDouble (1 / 10), paid := false },
               { userId := 3, amount := roundDouble (2 / 10), paid := false },
               { userId := 4, amount := roundDouble (3 / 10), paid := false }],
    groupId := none, createdBy := 1 }

/-- The store with the four users and the expense `drinks`. -/
def threeDebtors : Store :=
  { users := [userA, userB, userC, userD], groups := [], expenses := [drinks], settlements := [] }

/-- The group of A, B, C and D. -/
def quartet : Group :=
  { _id := 8, name := "quartet", description := none, createdBy := 1,
    members := [{ userId := 1, role := "admin", joinedAt := 0 },
                { userId := 2, role := "member", joinedAt := 0 },
                { userId := 3, role := "member", joinedAt := 0 },
                { userId := 4, role := "member", joinedAt := 0 }] }

/-- The expense `drinks` in the group `quartet`. -/
def groupDrinks : Store :=
  { users := [userA, userB, userC, userD], groups := [quartet],
    expenses := [{ drinks with groupId := some 8 }], settlements := [] }

/-- The expenses of `ascending` in the group `quartet`. -/
def groupAscending : Store :=
  { users := [userA, userB, userC, userD], groups := [quartet],
    expenses := [sharedExpense 101 1 2 (roundDouble (1 / 10)) 500 (some 8),
                 sharedExpense 102 1 2 (roundDouble (2 / 10)) 600 (some 8),
                 sharedExpense 103 1 2 (roundDouble (3 / 10)) 700 (some 8)],
    settlements := [] }

/-- The store `groupAscending` with its expenses in the opposite order. -/
def groupDescending : Store :=
  { groupAscending with expenses := groupAscending.expenses.reverse }

/-- The expenses of `residue` in the group `quartet`. -/
def groupResidue : Store :=
  { users := [userA, userB, userC, userD], groups := [quartet],
    expenses := [sharedExpense 101 1 2 (roundDouble (1 / 10)) 500 (some 8),
                 sharedExpense 102 2 1 (roundDouble (3 / 10)) 500 (some 8),
                 sharedExpense 103 1 2 (roundDouble (2 / 10)) 500 (some 8)],
    settlements := [] }

/-- A's own shares in 2024: 0.1 on 15 January, 0.2 on 10 February and 0.3 on
20 February. -/
def threeShares : Store :=
  { users := [userA, userB, userC],
    groups := [],
    expenses := [sharedExpense 101 2 1 (roundDouble (1 / 10)) 1705276800000 none,
                 sharedExpense 102 2 1 (roundDouble (2 / 10)) 1707523200000 none,
                 sharedExpense 103 2 1 (roundDouble (3 / 10)) 1708387200000 none],
    settlements := [] }

/-- An expense of 90 with the single split 89.99. -/
def singleSplitArgs : CreateExpenseArgs :=
  { description := "taxi", amount := 90, category := none, date := 2000, paidByUserId := 1,
    splitType := "exact",
    splits := [{ userId := 2, amount := roundDouble (8999 / 100), paid := false }],
    groupId := none }

/-- An expense of 90 with the single split 89.98. -/
def shortSplitArgs : CreateExpenseArgs :=
  { description := "taxi", amount := 90, category := none, date := 2000, paidByUserId := 1,
    splitType := "exact",
    splits := [{ userId := 2, amount := roundDouble (8998 / 100), paid := false }],
    groupId := none }

/-- An expense of 90 with the splits 45 and 44.99. -/
def twoSplitArgs : CreateExpenseArgs :=
  { description := "taxi", amount := 90, category := none, date := 2000, paidByUserId := 1,
    splitType := "exact",
    splits := [{ userId := 1, amount := 45, paid := true },
               { userId := 2, amount := roundDouble (4499 / 100), paid := false }],
    groupId := none }

/-- The number `x` is a multiple of `2 ^ (-k)` of magnitude at most `P`. -/
def Within (k : Nat) (P x : ℚ) : Prop := OnGrid k x ∧ |x| ≤ P

/-- The accumulators `totals` and `ledger`, when they are defined, hold only
multiples of `2 ^ (-k)` of magnitude at most `P`. -/
def GroupAccWithin (k : Nat) (P : ℚ) (acc : Except String (Totals × Ledger)) : Prop :=
  ∀ totals ledger, acc = .ok (totals, ledger) →
    (∀ p ∈ totals, ∀ v, p.2 = some v → Within k P v)
      ∧ ∀ row ∈ ledger, ∀ c ∈ row.2, ∀ v, c.2 = some v → Within k P v

/-- The cells of the ledger hold only multiples of `2 ^ (-k)` of magnitude at
most `Q`, and so are the differences of the two cells of every pair. -/
def LedgerWithin (k : Nat) (Q : ℚ) (ledger : Ledger) : Prop :=
  ∀ a b x y, ledgerCell ledger a b = some x → ledgerCell ledger b a = some y →
    Within k Q x ∧ Within k Q y ∧ Within k Q (x - y)

/-- The entry of `balanceByUser` with its net amount `owed - owing`, as line 64
of `dashboard.js` computes it, in the place of `owed`, and 0 in the place of
`owing`. -/
def netEntryRounded (R : ℚ → ℚ) (entry : UserId × OwedOwing) : UserId × OwedOwing :=
  (entry.1, { owed := R (entry.2.owed - entry.2.owing), owing := 0 })

/-- User A pays 0.01, split between A and B, the share of A marked paid; the
amounts are the binary64 values nearest to 0.01 and 0.005. -/
def espresso : Expense :=
  { _id := 71, description := "espresso", amount := roundDouble (1 / 100), category := none,
    date := 6000, paidByUserId := 1, splitType := "equal",
    splits := [{ userId := 1, amount := roundDouble (5 / 1000), paid := true },
               { userId := 2, amount := roundDouble (5 / 1000), paid := false }],
    groupId := none, createdBy := 1 }

/-- A store in which B owes A half a cent. -/
def halfCentDebt : Store :=
  { users := [userA, userB, userC], groups := [trip], expenses := [espresso], settlements := [] }

/-- A store in which B owes A half a cent within the group `trip`. -/
def halfCentGroupDebt : Store :=
  { users := [userA, userB, userC], groups := [trip],
    expenses := [{ espresso with groupId := some 7 }], settlements := [] }

/-! ## The group ledger in rounded arithmetic -/

/-- The accumulators after one event, in arithmetic rounded by `R`;
`ledger[row]` being undefined throws. -/
def applyGroupEventRounded (R : ℚ → ℚ) (acc : Except String (Totals × Ledger))
    (ev : GroupEvent) : Except String (Totals × Ledger) :=
  match acc with
  | .error e => .error e
  | .ok (totals, ledger) =>
    match objGet ledger ev.row with
    | none => .error "TypeError: Cannot read properties of undefined"
    | some row =>
      .ok (minusAssignRounded R (plusAssignRounded R totals ev.plus ev.amount) ev.minus ev.amount,
        objUpdate ledger ev.row (fun _ => plusAssignRounded R row ev.col ev.delta))

/-- The directional accumulation `raw[a][b]` of what member `a` owes member
`b` in a group, accumulated in the order of the records with every sum and
difference rounded by `R`: the unpaid splits of `a` in the expenses of the
group that `b` paid are added, then the settlements of the group that `a`
paid to `b` are subtracted. -/
def specRawOwesRounded (R : ℚ → ℚ) (groupId : GroupId) (st : Store) (a b : UserId) : ℚ :=
  let fromExpenses :=
    (st.expenses.filter (fun e => e.groupId == some groupId && e.paidByUserId == b)).foldl
      (fun v e =>
        (e.splits.filter (fun s => s.userId == a && !s.paid)).foldl
          (fun v s => R (v + s.amount)) v) 0
  (st.settlements.filter (fun s =>
      s.groupId == some groupId && s.paidByUserId == a && s.receivedByUserId == b)).foldl
    (fun v s => R (v - s.amount)) fromExpenses

/-- The cells `(a, b)` and `(b, a)` hold numbers whose rounded difference is `d`. -/
def PairDiffRounded (R : ℚ → ℚ) (ledger : Ledger) (a b : UserId) (d : ℚ) : Prop :=
  ∃ x y, ledgerCell ledger a b = some x ∧ ledgerCell ledger b a = some y ∧ R (x - y) = d

/-- A store whose group `trip` has A as its only member and no records. -/
def soloTrip : Store :=
  { users := [userA, userB, userC],
    groups := [{ trip with members := [{ userId := 1, role := "admin", joinedAt := 0 }] }],
    expenses := [], settlements := [] }

/-- B owes A 0.1 and 0.2 from two expenses and settles 0.3 to A. -/
def residueSettled : Store :=
  { users := [userA, userB, userC],
    groups := [],
    expenses := [sharedExpense 101 1 2 (roundDouble (1 / 10)) 500 none,
                 sharedExpense 103 1 2 (roundDouble (2 / 10)) 600 none],
    settlements := [{ _id := 105, amount := roundDouble (3 / 10), note := none, date := 700,
                      paidByUserId := 2, receivedByUserId := 1, groupId := none,
                      relatedExpenseIds := none, createdBy := 2 }] }

/-- The sum of a list of numbers, added from left to right with every sum
rounded by `R`. -/
def sumRounded (R : ℚ → ℚ) (l : List ℚ) : ℚ :=
  l.foldl (fun sum x => R (sum + x)) 0

/-- The pairwise balance as the specification words it, with its four sums
and their combination computed in arithmetic rounded by `R`. -/
def specPairBalanceRounded (R : ℚ → ℚ) (a b : UserId) (st : Store) : ℚ :=
  R (R (R (sumRounded R
              ((st.expenses.filter (fun e => e.groupId.isNone && e.paidByUserId == a)).map
                (unpaidShare b))
          - sumRounded R
              ((st.expenses.filter (fun e => e.groupId.isNone && e.paidByUserId == b)).map
                (unpaidShare a)))
        + sumRounded R
            ((st.settlements.filter (fun s =>
                s.groupId.isNone && s.paidByUserId == a && s.receivedByUserId == b)).map
              (fun s => s.amount)))
      - sumRounded R
          ((st.settlements.filter (fun s =>
              s.groupId.isNone && s.paidByUserId == b && s.receivedByUserId == a)).map
            (fun s => s.amount)))

/-! ## Theorems -/

/-! ### createExpense -/

theorem foldl_add_amount (f : α → ℚ) (l : List α) (init : ℚ) :
    l.foldl (fun sum s => sum + f s) init = init + (l.map f).sum := by
  induction l generalizing init with
  | nil => simp
  | cons x xs ih => simp [ih, add_assoc]

/-! ### getExpensesBetweenUsers -/

theorem pairApplyExpense_eq (me u : UserId) (b : ℚ) (e : Expense) :
    pairApplyExpense me u b e = b + pairApplyExpense me u 0 e := by
  unfold pairApplyExpense
  split_ifs <;> split <;> simp [sub_eq_add_neg]

theorem pairApplySettlement_eq (me : UserId) (b : ℚ) (s : Settlement) :
    pairApplySettlement me b s = b + pairApplySettlement me 0 s := by
  unfold pairApplySettlement
  split_ifs <;> simp [sub_eq_add_neg]

theorem foldl_pairApplyExpense (me u : UserId) (l : List Expense) (init : ℚ) :
    l.foldl (pairApplyExpense me u) init
      = init + (l.map (pairApplyExpense me u 0)).sum := by
  induction l generalizing init with
  | nil => simp
  | cons x xs ih =>
    rw [List.foldl_cons, ih, pairApplyExpense_eq]
    simp [add_assoc]

theorem foldl_pairApplySettlement (me : UserId) (l : List Settlement) (init : ℚ) :
    l.foldl (pairApplySettlement me) init
      = init + (l.map (pairApplySettlement me 0)).sum := by
  induction l generalizing init with
  | nil => simp
  | cons x xs ih =>
    rw [List.foldl_cons, ih, pairApplySettlement_eq]
    simp [add_assoc]

theorem sum_map_neg_of_forall {α : Type} (l : List α) (f g : α → ℚ)
    (h : ∀ x ∈ l, f x = - g x) : (l.map f).sum = - (l.map g).sum := by
  induction l with
  | nil => simp
  | cons x xs ih =>
    simp only [List.map_cons, List.sum_cons]
    rw [h x (List.mem_cons_self _ _), ih (fun y hy => h y (List.mem_cons_of_mem _ hy))]
    ring

/-- The balance that `getExpensesBetweenUsers` returns, as a sum over the
unsorted record lists. -/
theorem getExpensesBetweenUsers_balance (identity : Option String) (userId : UserId)
    (st : Store) (me other : User)
    (hauth : getCurrentUser identity st = .ok me) (hne : me._id ≠ userId)
    (hother : st.users.find? (fun u => u._id == userId) = some other) :
    ∃ r, getExpensesBetweenUsers identity userId st = .ok r ∧
      r.balance =
        (((st.expenses.filter (fun e => e.paidByUserId == me._id && e.groupId.isNone)).filter
            (bothInvolved me._id userId)).map (pairApplyExpense me._id userId 0)).sum
        + (((st.expenses.filter (fun e => e.paidByUserId == userId && e.groupId.isNone)).filter
            (bothInvolved me._id userId)).map (pairApplyExpense me._id userId 0)).sum
        + ((st.settlements.filter (settlementBetween me._id userId)).map
            (pairApplySettlement me._id 0)).sum := by
  refine ⟨_, by simp only [getExpensesBetweenUsers, hauth, if_neg hne, hother]; rfl, ?_⟩
  simp only [foldl_pairApplySettlement, foldl_pairApplyExpense, zero_add]
  have h1 := ((List.perm_insertionSort (fun a b : Expense => b.date ≤ a.date)
    (((st.expenses.filter (fun e => e.paidByUserId == me._id && e.groupId.isNone)) ++
      (st.expenses.filter (fun e => e.paidByUserId == userId && e.groupId.isNone))).filter
        (bothInvolved me._id userId))).map (pairApplyExpense me._id userId 0)).sum_eq
  have h2 := ((List.perm_insertionSort (fun a b : Settlement => b.date ≤ a.date)
    (st.settlements.filter (settlementBetween me._id userId))).map
      (pairApplySettlement me._id 0)).sum_eq
  unfold sortExpensesByDateDesc sortSettlementsByDateDesc
  rw [h1, h2, List.filter_append, List.map_append, List.sum_append]


theorem sum_filter_map {α : Type} (l : List α) (p : α → Bool) (f : α → ℚ) :
    ((l.filter p).map f).sum = (l.map (fun x => if p x then f x else 0)).sum := by
  induction l with
  | nil => simp
  | cons x xs ih =>
    by_cases hp : p x = true
    · simp [List.filter_cons, hp, ih]
    · simp [List.filter_cons, hp, ih]

theorem sum_map_add_eq_sub {α : Type} (l : List α) (f1 f2 h1 h2 : α → ℚ)
    (h : ∀ x ∈ l, f1 x + f2 x = h1 x - h2 x) :
    (l.map f1).sum + (l.map f2).sum = (l.map h1).sum - (l.map h2).sum := by
  induction l with
  | nil => simp
  | cons x xs ih =>
    have hx := h x (List.mem_cons_self _ _)
    have hxs := ih (fun y hy => h y (List.mem_cons_of_mem _ hy))
    simp only [List.map_cons, List.sum_cons]
    linarith

theorem sum_map_eq_sub {α : Type} (l : List α) (f h1 h2 : α → ℚ)
    (h : ∀ x ∈ l, f x = h1 x - h2 x) :
    (l.map f).sum = (l.map h1).sum - (l.map h2).sum := by
  induction l with
  | nil => simp
  | cons x xs ih =>
    have hx := h x (List.mem_cons_self _ _)
    have hxs := ih (fun y hy => h y (List.mem_cons_of_mem _ hy))
    simp only [List.map_cons, List.sum_cons]
    linarith

/-- With at most one split per user, the unpaid share is the amount of the
split that `find` returns. -/
theorem unpaidShare_eq_find (u : UserId) (e : Expense)
    (hnd : (e.splits.map (fun s => s.userId)).Nodup) :
    unpaidShare u e =
      match e.splits.find? (fun s => s.userId == u && !s.paid) with
      | some split => split.amount
      | none => 0 := by
  unfold unpaidShare
  generalize e.splits = l at hnd
  induction l with
  | nil => simp
  | cons x xs ih =>
    rw [List.map_cons, List.nodup_cons] at hnd
    by_cases hx : (x.userId == u && !x.paid) = true
    · have hnone : xs.filter (fun s => s.userId == u && !s.paid) = [] := by
        rw [List.filter_eq_nil_iff]
        intro y hy hyp
        simp only [Bool.and_eq_true, beq_iff_eq] at hyp hx
        exact hnd.1 (List.mem_map.mpr ⟨y, hy, by rw [hyp.1, hx.1]⟩)
      simp [List.filter_cons, List.find?_cons, hx, hnone]
    · have hx' : (x.userId == u && !x.paid) = false := by simpa using hx
      simp only [List.filter_cons, List.find?_cons, hx']
      simpa using ih hnd.2

theorem bothInvolved_comm (a b : UserId) : bothInvolved a b = bothInvolved b a := by
  funext e
  simp only [bothInvolved]
  rw [Bool.and_comm]

theorem settlementBetween_comm (a b : UserId) : settlementBetween a b = settlementBetween b a := by
  funext s
  simp only [settlementBetween]
  rw [Bool.or_comm]

theorem find?_id_isSome_of_auth (identity : Option String) (st : Store) (u : User)
    (h : getCurrentUser identity st = .ok u) :
    ∃ other, st.users.find? (fun v => v._id == u._id) = some other := by
  have hmem : u ∈ st.users := by
    unfold getCurrentUser at h
    split at h
    · cases h
    · split at h
      · cases h
      · next user hfind =>
        cases h
        exact List.mem_of_find?_eq_some hfind
  have : (st.users.find? (fun v => v._id == u._id)).isSome = true := by
    rw [List.find?_isSome]
    exact ⟨u, hmem, by simp⟩
  exact Option.isSome_iff_exists.mp this

/-- In exact arithmetic: for distinct users, the balance that `getExpensesBetweenUsers`
returns to caller A about B is the negation of the balance it returns to
caller B about A. -/
theorem getExpensesBetweenUsers_antisymm (identityA identityB : Option String) (st : Store)
    (a b : User)
    (hA : getCurrentUser identityA st = .ok a) (hB : getCurrentUser identityB st = .ok b)
    (hne : a._id ≠ b._id) :
    ∃ rAB rBA, getExpensesBetweenUsers identityA b._id st = .ok rAB ∧
      getExpensesBetweenUsers identityB a._id st = .ok rBA ∧
      rAB.balance = - rBA.balance := by
  obtain ⟨oa, hoa⟩ := find?_id_isSome_of_auth identityA st a hA
  obtain ⟨ob, hob⟩ := find?_id_isSome_of_auth identityB st b hB
  obtain ⟨rAB, h1, e1⟩ := getExpensesBetweenUsers_balance identityA b._id st a ob hA hne hob
  obtain ⟨rBA, h2, e2⟩ :=
    getExpensesBetweenUsers_balance identityB a._id st b oa hB (Ne.symm hne) hoa
  refine ⟨rAB, rBA, h1, h2, ?_⟩
  rw [e1, e2, bothInvolved_comm b._id a._id, settlementBetween_comm b._id a._id]
  have hx : ∀ e ∈ (st.expenses.filter (fun e => e.paidByUserId == a._id && e.groupId.isNone)).filter
      (bothInvolved a._id b._id),
      pairApplyExpense a._id b._id 0 e = - pairApplyExpense b._id a._id 0 e := by
    intro e he
    simp only [List.mem_filter, Bool.and_eq_true, beq_iff_eq] at he
    have hp : e.paidByUserId = a._id := he.1.2.1
    have hp' : ¬ e.paidByUserId = b._id := by rw [hp]; exact hne
    simp only [pairApplyExpense, if_pos hp, if_neg hp']
    split <;> simp
  have hy : ∀ e ∈ (st.expenses.filter (fun e => e.paidByUserId == b._id && e.groupId.isNone)).filter
      (bothInvolved a._id b._id),
      pairApplyExpense a._id b._id 0 e = - pairApplyExpense b._id a._id 0 e := by
    intro e he
    simp only [List.mem_filter, Bool.and_eq_true, beq_iff_eq] at he
    have hp : e.paidByUserId = b._id := he.1.2.1
    have hp' : ¬ e.paidByUserId = a._id := by rw [hp]; exact Ne.symm hne
    simp only [pairApplyExpense, if_pos hp, if_neg hp']
    split <;> simp
  have hz : ∀ s ∈ st.settlements.filter (settlementBetween a._id b._id),
      pairApplySettlement a._id 0 s = - pairApplySettlement b._id 0 s := by
    intro s hs
    simp only [List.mem_filter, settlementBetween, Bool.and_eq_true, Bool.or_eq_true,
      beq_iff_eq] at hs
    rcases hs.2.2 with ⟨hp, _⟩ | ⟨hp, _⟩
    · have hp' : ¬ s.paidByUserId = b._id := by rw [hp]; exact hne
      simp [pairApplySettlement, if_pos hp, if_neg hp']
    · have hp' : ¬ s.paidByUserId = a._id := by rw [hp]; exact Ne.symm hne
      simp [pairApplySettlement, if_pos hp, if_neg hp']
  rw [sum_map_neg_of_forall _ _ _ hx, sum_map_neg_of_forall _ _ _ hy,
    sum_map_neg_of_forall _ _ _ hz]
  ring


/-- In exact arithmetic: with at most one split per user in every expense, the balance that
`getExpensesBetweenUsers` returns is what the counterparty owes the caller
from the non-group expenses the caller paid, minus what the caller owes from
those the counterparty paid, plus the non-group settlements the caller paid
to the counterparty, minus those the counterparty paid to the caller. -/
theorem getExpensesBetweenUsers_balance_formula (identity : Option String) (userId : UserId)
    (st : Store) (me other : User)
    (hauth : getCurrentUser identity st = .ok me) (hne : me._id ≠ userId)
    (hother : st.users.find? (fun u => u._id == userId) = some other)
    (hsplits : ∀ e ∈ st.expenses, (e.splits.map (fun s => s.userId)).Nodup) :
    ∃ r, getExpensesBetweenUsers identity userId st = .ok r ∧
      r.balance = specPairBalance me._id userId st := by
  obtain ⟨r, hr, hbal⟩ := getExpensesBetweenUsers_balance identity userId st me other hauth hne hother
  refine ⟨r, hr, ?_⟩
  rw [hbal]
  unfold specPairBalance
  rw [List.filter_filter, List.filter_filter]
  simp only [sum_filter_map]
  have hexp := sum_map_add_eq_sub st.expenses
    (fun x => if (bothInvolved me._id userId x && (x.paidByUserId == me._id && x.groupId.isNone))
      then pairApplyExpense me._id userId 0 x else 0)
    (fun x => if (bothInvolved me._id userId x && (x.paidByUserId == userId && x.groupId.isNone))
      then pairApplyExpense me._id userId 0 x else 0)
    (fun x => if (x.groupId.isNone && x.paidByUserId == me._id) then unpaidShare userId x else 0)
    (fun x => if (x.groupId.isNone && x.paidByUserId == userId) then unpaidShare me._id x else 0)
    (by
      intro e he
      have hnd := hsplits e he
      by_cases hg : e.groupId.isNone = true
      · by_cases hp : e.paidByUserId = me._id
        · have hp' : ¬ e.paidByUserId = userId := by rw [hp]; exact hne
          simp only [hg, hp, beq_self_eq_true, Bool.and_true, Bool.true_and, if_true,
            beq_iff_eq, hne, Bool.and_false, Bool.false_and]
          rw [unpaidShare_eq_find userId e hnd]
          simp only [pairApplyExpense, if_pos hp, bothInvolved, hp, beq_self_eq_true,
            Bool.true_or, Bool.true_and, beq_iff_eq, hne, Bool.false_or]
          cases hf : e.splits.find? (fun s => s.userId == userId && !s.paid) with
          | none => simp
          | some sp =>
            have hmem := List.mem_of_find?_eq_some hf
            have hprop := List.find?_some hf
            simp only [Bool.and_eq_true, beq_iff_eq] at hprop
            have hany : e.splits.any (fun s => s.userId == userId) = true :=
              List.any_eq_true.mpr ⟨sp, hmem, by simp [hprop.1]⟩
            simp [hany, hne]
        · by_cases hq : e.paidByUserId = userId
          · have hq' : ¬ userId = me._id := fun h => hne h.symm
            simp only [hg, hq, beq_self_eq_true, Bool.and_true, Bool.true_and, if_true,
              beq_iff_eq, hq', Bool.and_false, Bool.false_and]
            rw [unpaidShare_eq_find me._id e hnd]
            simp only [pairApplyExpense, if_neg hp, bothInvolved, hq, beq_self_eq_true,
              Bool.true_or, Bool.and_true, beq_iff_eq, hq', Bool.false_or]
            cases hf : e.splits.find? (fun s => s.userId == me._id && !s.paid) with
            | none => simp
            | some sp =>
              have hmem := List.mem_of_find?_eq_some hf
              have hprop := List.find?_some hf
              simp only [Bool.and_eq_true, beq_iff_eq] at hprop
              have hany : e.splits.any (fun s => s.userId == me._id) = true :=
                List.any_eq_true.mpr ⟨sp, hmem, by simp [hprop.1]⟩
              simp [hany, hq']
          · simp [hp, hq]
      · simp [hg])
  have hset := sum_map_eq_sub st.settlements
    (fun x => if settlementBetween me._id userId x then pairApplySettlement me._id 0 x else 0)
    (fun x => if (x.groupId.isNone && x.paidByUserId == me._id && x.receivedByUserId == userId)
      then x.amount else 0)
    (fun x => if (x.groupId.isNone && x.paidByUserId == userId && x.receivedByUserId == me._id)
      then x.amount else 0)
    (by
      intro s _
      by_cases hg : s.groupId.isNone = true
      · by_cases hp : s.paidByUserId = me._id
        · have hp' : ¬ me._id = userId := hne
          by_cases hr : s.receivedByUserId = userId
          · simp [settlementBetween, pairApplySettlement, hg, hp, hr, hp']
          · simp [settlementBetween, pairApplySettlement, hg, hp, hr, hp']
        · by_cases hq : s.paidByUserId = userId
          · have hq' : ¬ userId = me._id := fun h => hne h.symm
            by_cases hr : s.receivedByUserId = me._id
            · simp [settlementBetween, pairApplySettlement, hg, hq, hr, hq']
            · simp [settlementBetween, pairApplySettlement, hg, hq, hr, hq']
          · simp [settlementBetween, pairApplySettlement, hg, hp, hq]
      · simp [settlementBetween, hg])
  linarith


theorem getExpensesBetweenUsers_antisymm_witness :
    ∃ rAB rBA, getExpensesBetweenUsers (some "token-a") userB._id scenario1 = .ok rAB ∧
      getExpensesBetweenUsers (some "token-b") userA._id scenario1 = .ok rBA ∧
      rAB.balance = - rBA.balance :=
  getExpensesBetweenUsers_antisymm (some "token-a") (some "token-b") scenario1 userA userB
    rfl rfl (by decide)

theorem getExpensesBetweenUsers_balance_formula_witness :
    ∃ r, getExpensesBetweenUsers (some "token-a") 2 scenario1 = .ok r ∧ r.balance = 50 := by
  obtain ⟨r, hr, hb⟩ := getExpensesBetweenUsers_balance_formula (some "token-a") 2 scenario1
    userA userB rfl (by decide) rfl (by decide)
  exact ⟨r, hr, hb.trans (by decide!)⟩

/-! ### deleteExpense -/

theorem cascade_fold_expenses (expenseId : ExpenseId) (l : List Settlement) (st : Store) :
    (l.foldl (cascadeStep expenseId) st).expenses = st.expenses
      ∧ (l.foldl (cascadeStep expenseId) st).users = st.users
      ∧ (l.foldl (cascadeStep expenseId) st).groups = st.groups := by
  induction l generalizing st with
  | nil => simp
  | cons s l ih =>
    rw [List.foldl_cons]
    obtain ⟨h1, h2, h3⟩ := ih (cascadeStep expenseId st s)
    rw [h1, h2, h3]
    unfold cascadeStep dbDeleteSettlement dbPatchRelatedExpenseIds
    split_ifs <;> simp

theorem isRelated_patched (expenseId : ExpenseId) (s d : Settlement) :
    isRelated expenseId { d with relatedExpenseIds := some (updatedIds expenseId s) } = false := by
  simp [isRelated, updatedIds]

theorem cascade_fold_unrelated (expenseId : ExpenseId) (l : List Settlement) (st : Store)
    (h : ∀ d ∈ st.settlements, isRelated expenseId d = true → ∃ s ∈ l, s._id = d._id) :
    ∀ d ∈ (l.foldl (cascadeStep expenseId) st).settlements, isRelated expenseId d = false := by
  induction l generalizing st with
  | nil =>
    intro d hd
    by_contra hc
    obtain ⟨s, hs, _⟩ := h d hd (by simpa using hc)
    cases hs
  | cons s l ih =>
    rw [List.foldl_cons]
    apply ih
    intro d hd hrel
    unfold cascadeStep at hd
    split_ifs at hd with hlen
    · simp only [dbDeleteSettlement, List.mem_filter, bne_iff_ne, ne_eq] at hd
      obtain ⟨s', hs', hid⟩ := h d hd.1 hrel
      rcases List.mem_cons.mp hs' with rfl | hmem
      · exact absurd hid.symm hd.2
      · exact ⟨s', hmem, hid⟩
    · simp only [dbPatchRelatedExpenseIds, List.mem_map] at hd
      obtain ⟨d0, hd0, hdd⟩ := hd
      by_cases hid0 : d0._id = s._id
      · rw [if_pos hid0] at hdd
        rw [← hdd, isRelated_patched] at hrel
        cases hrel
      · rw [if_neg hid0] at hdd
        subst hdd
        obtain ⟨s', hs', hid⟩ := h d0 hd0 hrel
        rcases List.mem_cons.mp hs' with rfl | hmem
        · exact absurd hid.symm hid0
        · exact ⟨s', hmem, hid⟩

/-- The shape of a successful `deleteExpense`. -/
theorem deleteExpense_ok (identity : Option String) (expenseId : ExpenseId) (st : Store)
    (r : DeleteResult) (h : (deleteExpense identity expenseId st).1 = .ok r) :
    deleteExpense identity expenseId st
      = (.ok { success := true },
          dbDeleteExpense
            ((st.settlements.filter (isRelated expenseId)).foldl (cascadeStep expenseId) st)
            expenseId) := by
  unfold deleteExpense at h ⊢
  cases hu : getCurrentUser identity st with
  | error e => rw [hu] at h; cases h
  | ok user =>
    rw [hu] at h
    simp only [] at h ⊢
    cases hf : st.expenses.find? (fun e => e._id == expenseId) with
    | none => rw [hf] at h; cases h
    | some expense =>
      rw [hf] at h
      simp only [] at h ⊢
      by_cases hc : expense.createdBy ≠ user._id ∧ expense.paidByUserId ≠ user._id
      · rw [if_pos hc] at h; cases h
      · rw [if_neg hc]

/-- C4: after a successful `deleteExpense(E)` no expense of the store has the
id `E` and no settlement of the store has `E` among its `relatedExpenseIds`. -/
theorem deleteExpense_cascade_complete (identity : Option String) (expenseId : ExpenseId)
    (st : Store) (r : DeleteResult)
    (h : (deleteExpense identity expenseId st).1 = .ok r) :
    (∀ e ∈ (deleteExpense identity expenseId st).2.expenses, e._id ≠ expenseId)
    ∧ (∀ s ∈ (deleteExpense identity expenseId st).2.settlements,
        ∀ ids, s.relatedExpenseIds = some ids → expenseId ∉ ids) := by
  rw [deleteExpense_ok identity expenseId st r h]
  constructor
  · intro e he
    simp only [dbDeleteExpense, List.mem_filter, bne_iff_ne, ne_eq] at he
    exact he.2
  · intro s hs ids hids hmem
    have hrel := cascade_fold_unrelated expenseId (st.settlements.filter (isRelated expenseId)) st
      (fun d hd hr => ⟨d, List.mem_filter.mpr ⟨hd, hr⟩, rfl⟩) s
      (by simpa [dbDeleteExpense] using hs)
    simp [isRelated, hids, hmem] at hrel


theorem deleteExpense_cascade_complete_witness :
    (deleteExpense (some "token-a") 10 scenario5).1 = .ok { success := true }
    ∧ (∀ e ∈ (deleteExpense (some "token-a") 10 scenario5).2.expenses, e._id ≠ 10)
    ∧ (∀ s ∈ (deleteExpense (some "token-a") 10 scenario5).2.settlements,
        ∀ ids, s.relatedExpenseIds = some ids → 10 ∉ ids) :=
  ⟨rfl, deleteExpense_cascade_complete (some "token-a") 10 scenario5 { success := true } rfl⟩

theorem settlement_eq_of_id_eq (l : List Settlement) (hnd : (l.map (fun s => s._id)).Nodup)
    (s d : Settlement) (hs : s ∈ l) (hd : d ∈ l) (hid : d._id = s._id) : d = s :=
  List.inj_on_of_nodup_map hnd hd hs hid

/-- The documents with id `k` after one iteration of the cascade loop. -/
theorem cascadeStep_filter_id (expenseId : ExpenseId) (st : Store) (s : Settlement)
    (k : SettlementId) :
    (cascadeStep expenseId st s).settlements.filter (fun d => d._id == k)
      = if s._id = k then
          (if (updatedIds expenseId s).length = 0 then []
           else (st.settlements.filter (fun d => d._id == k)).map
             (fun d => { d with relatedExpenseIds := some (updatedIds expenseId s) }))
        else st.settlements.filter (fun d => d._id == k) := by
  unfold cascadeStep
  by_cases hlen : (updatedIds expenseId s).length = 0
  · simp only [if_pos hlen, dbDeleteSettlement, List.filter_filter]
    by_cases hk : s._id = k
    · rw [if_pos hk, List.filter_eq_nil_iff]
      intro d _
      simp [hk]
    · rw [if_neg hk]
      apply List.filter_congr
      intro d _
      by_cases hdk : d._id = k
      · simp [hdk, Ne.symm hk]
      · simp [hdk]
  · simp only [if_neg hlen, dbPatchRelatedExpenseIds]
    generalize st.settlements = l
    by_cases hk : s._id = k
    · subst hk
      rw [if_pos rfl]
      induction l with
      | nil => simp
      | cons d l ih =>
        by_cases hds : d._id = s._id
        · simp only [List.map_cons, if_pos hds, List.filter_cons, hds, beq_self_eq_true, if_true,
            ih]
        · have hds' : (d._id == s._id) = false := by simpa using hds
          simp only [List.map_cons, if_neg hds, List.filter_cons, hds', ih]
          simp
    · rw [if_neg hk]
      induction l with
      | nil => simp
      | cons d l ih =>
        by_cases hds : d._id = s._id
        · have hdk : (d._id == k) = false := by rw [hds]; simpa using hk
          simp only [List.map_cons, if_pos hds, List.filter_cons, hdk, ih]
          simp
        · simp only [List.map_cons, if_neg hds, List.filter_cons, ih]

theorem cascade_fold_filter_id (expenseId : ExpenseId) (k : SettlementId) (l : List Settlement)
    (st : Store) (hnd : (l.map (fun s => s._id)).Nodup) :
    (l.foldl (cascadeStep expenseId) st).settlements.filter (fun d => d._id == k)
      = match l.find? (fun s => s._id == k) with
        | none => st.settlements.filter (fun d => d._id == k)
        | some s =>
          if (updatedIds expenseId s).length = 0 then []
          else (st.settlements.filter (fun d => d._id == k)).map
            (fun d => { d with relatedExpenseIds := some (updatedIds expenseId s) }) := by
  induction l generalizing st with
  | nil => simp
  | cons s l ih =>
    rw [List.map_cons, List.nodup_cons] at hnd
    rw [List.foldl_cons, ih _ hnd.2, cascadeStep_filter_id]
    by_cases hk : s._id = k
    · have hnone : l.find? (fun s => s._id == k) = none := by
        rw [List.find?_eq_none]
        intro y hy hyk
        simp only [beq_iff_eq] at hyk
        exact hnd.1 (List.mem_map.mpr ⟨y, hy, by rw [hyk, hk]⟩)
      simp [List.find?_cons, hk, hnone]
    · simp [List.find?_cons, hk]

/-- C5: in a store with distinct settlement ids, after a successful
`deleteExpense(E)` a settlement that referenced `E` is gone exactly when its
related ids without `E` are empty; otherwise it is in the store with those
ids as its `relatedExpenseIds` and every other field unchanged. -/
theorem deleteExpense_cascade_settlement (identity : Option String) (expenseId : ExpenseId)
    (st : Store) (r : DeleteResult) (s : Settlement) (ids : List ExpenseId)
    (hnd : (st.settlements.map (fun s => s._id)).Nodup)
    (h : (deleteExpense identity expenseId st).1 = .ok r)
    (hs : s ∈ st.settlements) (hids : s.relatedExpenseIds = some ids) (hmem : expenseId ∈ ids) :
    ((∀ d ∈ (deleteExpense identity expenseId st).2.settlements, d._id ≠ s._id)
        ↔ ids.filter (fun id => id != expenseId) = [])
    ∧ (ids.filter (fun id => id != expenseId) ≠ [] →
        (deleteExpense identity expenseId st).2.settlements.filter (fun d => d._id == s._id)
          = [{ s with relatedExpenseIds := some (ids.filter (fun id => id != expenseId)) }]) := by
  rw [deleteExpense_ok identity expenseId st r h]
  have hupd : updatedIds expenseId s = ids.filter (fun id => id != expenseId) := by
    simp [updatedIds, hids]
  have hrel : isRelated expenseId s = true := by simp [isRelated, hids, hmem]
  have hndl : ((st.settlements.filter (isRelated expenseId)).map (fun s => s._id)).Nodup :=
    (List.Sublist.map _ (List.filter_sublist _)).nodup hnd
  have hfind : (st.settlements.filter (isRelated expenseId)).find? (fun d => d._id == s._id)
      = some s := by
    cases hf : (st.settlements.filter (isRelated expenseId)).find? (fun d => d._id == s._id) with
    | none =>
      rw [List.find?_eq_none] at hf
      exact absurd (by simp) (hf s (List.mem_filter.mpr ⟨hs, hrel⟩))
    | some d =>
      have hd := List.mem_of_find?_eq_some hf
      have hp := List.find?_some hf
      simp only [beq_iff_eq] at hp
      rw [settlement_eq_of_id_eq st.settlements hnd s d hs (List.mem_filter.mp hd).1 hp]
  have horig : st.settlements.filter (fun d => d._id == s._id) = [s] := by
    have hsub : ∀ d ∈ st.settlements.filter (fun d => d._id == s._id), d = s := by
      intro d hd
      rw [List.mem_filter] at hd
      exact settlement_eq_of_id_eq st.settlements hnd s d hs hd.1 (by simpa using hd.2)
    have hnd' : (st.settlements.filter (fun d => d._id == s._id)).Nodup :=
      (List.filter_sublist _).nodup (List.Nodup.of_map _ hnd)
    have hmem' : s ∈ st.settlements.filter (fun d => d._id == s._id) :=
      List.mem_filter.mpr ⟨hs, by simp⟩
    cases hl : st.settlements.filter (fun d => d._id == s._id) with
    | nil => rw [hl] at hmem'; cases hmem'
    | cons x xs =>
      rw [hl] at hsub hnd'
      have hx : x = s := hsub x (List.mem_cons_self _ _)
      cases xs with
      | nil => rw [hx]
      | cons y ys =>
        have hy : y = s := hsub y (List.mem_cons_of_mem _ (List.mem_cons_self _ _))
        rw [hx, hy] at hnd'
        simp at hnd'
  have hfinal := cascade_fold_filter_id expenseId s._id (st.settlements.filter (isRelated expenseId))
    st hndl
  rw [hfind] at hfinal
  simp only [horig, hupd, List.map_cons, List.map_nil] at hfinal
  have hset : (dbDeleteExpense ((st.settlements.filter (isRelated expenseId)).foldl
      (cascadeStep expenseId) st) expenseId).settlements
      = ((st.settlements.filter (isRelated expenseId)).foldl (cascadeStep expenseId) st).settlements :=
    rfl
  simp only [hset]
  constructor
  · constructor
    · intro hgone
      by_contra hne
      have hlen : ¬ (ids.filter (fun id => id != expenseId)).length = 0 := by
        rw [List.length_eq_zero]; exact hne
      rw [if_neg hlen] at hfinal
      have hin : ({ s with relatedExpenseIds := some (ids.filter (fun id => id != expenseId)) }
          : Settlement) ∈ ((st.settlements.filter (isRelated expenseId)).foldl
            (cascadeStep expenseId) st).settlements.filter (fun d => d._id == s._id) := by
        rw [hfinal]; exact List.mem_singleton_self _
      exact hgone _ (List.mem_filter.mp hin).1 rfl
    · intro hnil d hd hid
      have hlen : (ids.filter (fun id => id != expenseId)).length = 0 := by
        rw [hnil]; rfl
      rw [if_pos hlen] at hfinal
      have hin : d ∈ ((st.settlements.filter (isRelated expenseId)).foldl
            (cascadeStep expenseId) st).settlements.filter (fun d => d._id == s._id) :=
        List.mem_filter.mpr ⟨hd, by simp [hid]⟩
      rw [hfinal] at hin
      cases hin
  · intro hne
    have hlen : ¬ (ids.filter (fun id => id != expenseId)).length = 0 := by
      rw [List.length_eq_zero]; exact hne
    rw [if_neg hlen] at hfinal
    exact hfinal


theorem deleteExpense_cascade_settlement_witness :
    (∀ d ∈ (deleteExpense (some "token-a") 10 scenario5).2.settlements, d._id ≠ settleDinner._id)
    ∧ (deleteExpense (some "token-a") 10 scenario5).2.settlements.filter
          (fun d => d._id == settleBoth._id)
        = [{ settleBoth with relatedExpenseIds := some [12] }] :=
  ⟨(deleteExpense_cascade_settlement (some "token-a") 10 scenario5 { success := true }
      settleDinner [10] (by decide) rfl (by decide) rfl (by decide)).1.mpr (by decide),
   (deleteExpense_cascade_settlement (some "token-a") 10 scenario5 { success := true }
      settleBoth [10, 12] (by decide) rfl (by decide) rfl (by decide)).2 (by decide)⟩

/-- C6: for an authenticated caller, `deleteExpense` fails with
`Expense not found` when no expense has the id; for an existing expense it
fails with the not-authorized error exactly when the caller is neither its
creator nor its payer, and otherwise it returns `{ success: true }`. -/
theorem deleteExpense_authorization (identity : Option String) (expenseId : ExpenseId)
    (st : Store) (user : User) (hauth : getCurrentUser identity st = .ok user) :
    ((∀ e ∈ st.expenses, e._id ≠ expenseId) →
        deleteExpense identity expenseId st = (.error "Expense not found", st))
    ∧ (∀ expense, st.expenses.find? (fun e => e._id == expenseId) = some expense →
        ((deleteExpense identity expenseId st).1 = .error "Not authorized to delete this expense"
          ↔ expense.createdBy ≠ user._id ∧ expense.paidByUserId ≠ user._id)
        ∧ (¬ (expense.createdBy ≠ user._id ∧ expense.paidByUserId ≠ user._id) →
            (deleteExpense identity expenseId st).1 = .ok { success := true })) := by
  constructor
  · intro hnone
    have hf : st.expenses.find? (fun e => e._id == expenseId) = none := by
      rw [List.find?_eq_none]
      intro e he
      simpa using hnone e he
    simp only [deleteExpense, hauth, hf]
  · intro expense hf
    simp only [deleteExpense, hauth, hf]
    by_cases hc : expense.createdBy ≠ user._id ∧ expense.paidByUserId ≠ user._id
    · rw [if_pos hc]
      exact ⟨⟨fun _ => hc, fun _ => rfl⟩, fun hn => absurd hc hn⟩
    · rw [if_neg hc]
      exact ⟨⟨fun hh => (by cases hh), fun hh => absurd hh hc⟩, fun _ => rfl⟩

theorem deleteExpense_authorization_witness :
    deleteExpense (some "token-c") 99 scenario1 = (.error "Expense not found", scenario1)
    ∧ (deleteExpense (some "token-c") 10 scenario1).1
        = .error "Not authorized to delete this expense"
    ∧ (deleteExpense (some "token-a") 10 scenario1).1 = .ok { success := true } :=
  ⟨(deleteExpense_authorization (some "token-c") 99 scenario1 userC rfl).1 (by decide),
   (((deleteExpense_authorization (some "token-c") 10 scenario1 userC rfl).2 dinner rfl).1).mpr
      (by decide),
   ((deleteExpense_authorization (some "token-a") 10 scenario1 userA rfl).2 dinner rfl).2
      (by decide)⟩

/-- C7: a `createExpense` or `deleteExpense` call that fails, with whatever
error, leaves the store exactly as it was before the call. -/
theorem failed_mutation_leaves_store (identity : Option String) (newId : ExpenseId)
    (args : CreateExpenseArgs) (expenseId : ExpenseId) (st : Store) :
    (∀ msg, (createExpense identity newId args st).1 = .error msg →
        (createExpense identity newId args st).2 = st)
    ∧ (∀ msg, (deleteExpense identity expenseId st).1 = .error msg →
        (deleteExpense identity expenseId st).2 = st) := by
  constructor
  · intro msg h
    unfold createExpense at h ⊢
    cases hu : getCurrentUser identity st with
    | error e => rfl
    | ok user =>
      rw [hu] at h
      simp only [] at h ⊢
      cases hg : validateGroupMembership st user args.groupId with
      | error e => rfl
      | ok u =>
        rw [hg] at h
        simp only [] at h ⊢
        by_cases hc : |args.splits.foldl (fun sum s => sum + s.amount) 0 - args.amount| > 1 / 100
        · rw [if_pos hc]
        · rw [if_neg hc] at h; cases h
  · intro msg h
    unfold deleteExpense at h ⊢
    cases hu : getCurrentUser identity st with
    | error e => rfl
    | ok user =>
      rw [hu] at h
      simp only [] at h ⊢
      cases hf : st.expenses.find? (fun e => e._id == expenseId) with
      | none => rfl
      | some expense =>
        rw [hf] at h
        simp only [] at h ⊢
        by_cases hc : expense.createdBy ≠ user._id ∧ expense.paidByUserId ≠ user._id
        · rw [if_pos hc]
        · rw [if_neg hc] at h; cases h

theorem failed_mutation_leaves_store_witness :
    ((createExpense (some "token-a") 11 { boundaryArgs with amount := 95 } scenario5).1
        = .error "Split amounts must equal total expense"
      ∧ (createExpense (some "token-a") 11 { boundaryArgs with amount := 95 } scenario5).2
        = scenario5)
    ∧ ((deleteExpense (some "token-c") 10 scenario5).1
        = .error "Not authorized to delete this expense"
      ∧ (deleteExpense (some "token-c") 10 scenario5).2 = scenario5) :=
  have hc : (createExpense (some "token-a") 11 { boundaryArgs with amount := 95 } scenario5).1
      = .error "Split amounts must equal total expense" := by
    norm_num [createExpense, getCurrentUser, validateGroupMembership, scenario5, userA,
      boundaryArgs, abs_of_neg]
  have hd : (deleteExpense (some "token-c") 10 scenario5).1
      = .error "Not authorized to delete this expense" := rfl
  ⟨⟨hc, (failed_mutation_leaves_store (some "token-a") 11 { boundaryArgs with amount := 95 } 10
      scenario5).1 _ hc⟩,
    ⟨hd, (failed_mutation_leaves_store (some "token-c") 11 boundaryArgs 10 scenario5).2 _ hd⟩⟩


/-! ### Objects -/

theorem objGet_objUpdate {κ ν : Type} [DecidableEq κ] (m : List (κ × ν)) (k k' : κ)
    (f : Option ν → ν) :
    objGet (objUpdate m k f) k' = if k' = k then some (f (objGet m k)) else objGet m k' := by
  induction m with
  | nil =>
    by_cases h : k' = k
    · simp [objGet, objUpdate, h]
    · simp [objGet, objUpdate, h, Ne.symm h]
  | cons p m ih =>
    obtain ⟨k0, v0⟩ := p
    by_cases h0 : k0 = k
    · subst h0
      by_cases h : k' = k0
      · simp [objGet, objUpdate, h]
      · simp [objGet, objUpdate, h, Ne.symm h]
    · by_cases h : k' = k
      · subst h
        simp [objGet, objUpdate, h0, ih]
      · by_cases h1 : k0 = k'
        · simp [objGet, objUpdate, h0, h1, h]
        · simp [objGet, objUpdate, h0, h1, h, ih]

theorem mem_keys_objUpdate {κ ν : Type} [DecidableEq κ] (m : List (κ × ν)) (k k' : κ)
    (f : Option ν → ν) :
    k' ∈ (objUpdate m k f).map Prod.fst ↔ k' = k ∨ k' ∈ m.map Prod.fst := by
  induction m with
  | nil => simp [objUpdate]
  | cons p m ih =>
    obtain ⟨k0, v0⟩ := p
    by_cases h0 : k0 = k
    · subst h0
      simp [objUpdate]
    · simp only [objUpdate, if_neg h0, List.map_cons, List.mem_cons, ih]
      tauto

theorem nodup_keys_objUpdate {κ ν : Type} [DecidableEq κ] (m : List (κ × ν)) (k : κ)
    (f : Option ν → ν) (h : (m.map Prod.fst).Nodup) :
    ((objUpdate m k f).map Prod.fst).Nodup := by
  induction m with
  | nil => simp [objUpdate]
  | cons p m ih =>
    obtain ⟨k0, v0⟩ := p
    rw [List.map_cons, List.nodup_cons] at h
    by_cases h0 : k0 = k
    · subst h0
      simp only [objUpdate, if_true, List.map_cons, List.nodup_cons]
      exact h
    · simp only [objUpdate, if_neg h0, List.map_cons, List.nodup_cons, mem_keys_objUpdate]
      exact ⟨fun hc => hc.elim h0 h.1, ih h.2⟩

theorem mem_iff_objGet {κ ν : Type} [DecidableEq κ] (m : List (κ × ν))
    (h : (m.map Prod.fst).Nodup) (k : κ) (v : ν) :
    (k, v) ∈ m ↔ objGet m k = some v := by
  induction m with
  | nil => simp [objGet]
  | cons p m ih =>
    obtain ⟨k0, v0⟩ := p
    rw [List.map_cons, List.nodup_cons] at h
    by_cases h0 : k0 = k
    · subst h0
      simp only [objGet, if_true, List.mem_cons, Prod.mk.injEq, true_and, Option.some.injEq]
      constructor
      · rintro (hv | hmem)
        · exact hv.symm
        · exact absurd (List.mem_map.mpr ⟨(k0, v), hmem, rfl⟩) h.1
      · intro hv
        exact Or.inl hv.symm
    · simp only [objGet, if_neg h0, List.mem_cons, Prod.mk.injEq, ← ih h.2]
      constructor
      · rintro (⟨hk, _⟩ | hmem)
        · exact absurd hk.symm h0
        · exact hmem
      · exact Or.inr

/-- Two objects with distinct keys and the same value at every key have the
same entries. -/
theorem perm_of_objGet_eq {κ ν : Type} [DecidableEq κ] (m1 m2 : List (κ × ν))
    (h1 : (m1.map Prod.fst).Nodup) (h2 : (m2.map Prod.fst).Nodup)
    (h : ∀ k, objGet m1 k = objGet m2 k) : m1.Perm m2 := by
  rw [List.perm_ext_iff_of_nodup (List.Nodup.of_map _ h1) (List.Nodup.of_map _ h2)]
  rintro ⟨k, v⟩
  rw [mem_iff_objGet m1 h1, mem_iff_objGet m2 h2, h]


/-! ### getUserBalances -/

theorem balancesApplyPayerSplit_fold (userId : UserId) (l : List Split) (vars : BalanceVars) :
    l.foldl (balancesApplyPayerSplit userId) vars
      = (l.filterMap (fun s =>
          if s.userId = userId ∨ s.paid = true then none
          else some ({ counterparty := s.userId, owed := s.amount, owing := 0 } : BalanceEvent))).foldl
          applyBalanceEvent vars := by
  induction l generalizing vars with
  | nil => rfl
  | cons s l ih =>
    rw [List.foldl_cons, ih]
    by_cases hc : s.userId = userId ∨ s.paid = true
    · simp only [balancesApplyPayerSplit, if_pos hc, List.filterMap_cons]
    · simp only [balancesApplyPayerSplit, if_neg hc, List.filterMap_cons, List.foldl_cons,
        applyBalanceEvent, addOwed, add_zero]

theorem balancesApplyExpense_eq (userId : UserId) (vars : BalanceVars) (e : Expense) :
    balancesApplyExpense userId vars e
      = (expenseBalanceEvents userId e).foldl applyBalanceEvent vars := by
  unfold balancesApplyExpense expenseBalanceEvents
  by_cases hp : e.paidByUserId = userId
  · simp only [if_pos hp, balancesApplyPayerSplit_fold]
  · simp only [if_neg hp]
    cases e.splits.find? (fun s => s.userId == userId) with
    | none => rfl
    | some mySplit =>
      by_cases hpaid : mySplit.paid = true
      · simp [hpaid]
      · simp [hpaid, applyBalanceEvent, addOwing]

theorem balancesApplySettlement_eq (userId : UserId) (vars : BalanceVars) (s : Settlement) :
    balancesApplySettlement userId vars s
      = applyBalanceEvent vars (settlementBalanceEvent userId s) := by
  unfold balancesApplySettlement settlementBalanceEvent
  by_cases hp : s.paidByUserId = userId
  · simp [hp, applyBalanceEvent, addOwing, sub_eq_add_neg]
  · simp [hp, applyBalanceEvent, addOwed, sub_eq_add_neg]

theorem foldl_balancesApplyExpense (userId : UserId) (l : List Expense) (vars : BalanceVars) :
    l.foldl (balancesApplyExpense userId) vars
      = (l.flatMap (expenseBalanceEvents userId)).foldl applyBalanceEvent vars := by
  induction l generalizing vars with
  | nil => rfl
  | cons e l ih =>
    rw [List.foldl_cons, ih, balancesApplyExpense_eq, List.flatMap_cons, List.foldl_append]

theorem foldl_balancesApplySettlement (userId : UserId) (l : List Settlement)
    (vars : BalanceVars) :
    l.foldl (balancesApplySettlement userId) vars
      = (l.map (settlementBalanceEvent userId)).foldl applyBalanceEvent vars := by
  induction l generalizing vars with
  | nil => rfl
  | cons s l ih =>
    rw [List.foldl_cons, ih, balancesApplySettlement_eq, List.map_cons, List.foldl_cons]

theorem foldl_applyBalanceEvent_totals (evs : List BalanceEvent) (vars : BalanceVars) :
    (evs.foldl applyBalanceEvent vars).youOwe
        = vars.youOwe + (evs.map (fun ev => ev.owing)).sum
    ∧ (evs.foldl applyBalanceEvent vars).youAreOwed
        = vars.youAreOwed + (evs.map (fun ev => ev.owed)).sum := by
  induction evs generalizing vars with
  | nil => simp
  | cons ev evs ih =>
    rw [List.foldl_cons, (ih _).1, (ih _).2]
    simp [applyBalanceEvent, add_assoc]

theorem foldl_applyBalanceEvent_nodup (evs : List BalanceEvent) (vars : BalanceVars)
    (h : (vars.balanceByUser.map Prod.fst).Nodup) :
    ((evs.foldl applyBalanceEvent vars).balanceByUser.map Prod.fst).Nodup := by
  induction evs generalizing vars with
  | nil => exact h
  | cons ev evs ih =>
    rw [List.foldl_cons]
    exact ih _ (nodup_keys_objUpdate _ _ _ h)

/-- The entry of a counterparty after a list of events: the sums of the
amounts of its events, added to its initial entry. -/
theorem foldl_applyBalanceEvent_get (evs : List BalanceEvent) (vars : BalanceVars) (k : UserId) :
    objGet (evs.foldl applyBalanceEvent vars).balanceByUser k
      = if (objGet vars.balanceByUser k).isSome = true ∨ k ∈ evs.map (fun ev => ev.counterparty)
        then some
          { owed := ((objGet vars.balanceByUser k).getD { owed := 0, owing := 0 }).owed
              + ((evs.filter (fun ev => ev.counterparty == k)).map (fun ev => ev.owed)).sum
            owing := ((objGet vars.balanceByUser k).getD { owed := 0, owing := 0 }).owing
              + ((evs.filter (fun ev => ev.counterparty == k)).map (fun ev => ev.owing)).sum }
        else none := by
  induction evs generalizing vars with
  | nil =>
    cases h : objGet vars.balanceByUser k with
    | none => simp [h]
    | some b => simp [h]
  | cons ev evs ih =>
    rw [List.foldl_cons, ih]
    simp only [applyBalanceEvent, objGet_objUpdate]
    by_cases hk : k = ev.counterparty
    · subst hk
      simp [add_assoc]
    · have hk' : (ev.counterparty == k) = false := by simpa using Ne.symm hk
      simp [hk, hk', List.filter_cons]

theorem foldl_applyBalanceEvent_perm (evs1 evs2 : List BalanceEvent) (h : evs1.Perm evs2) :
    (evs1.foldl applyBalanceEvent { youOwe := 0, youAreOwed := 0, balanceByUser := [] }).youOwe
      = (evs2.foldl applyBalanceEvent { youOwe := 0, youAreOwed := 0, balanceByUser := [] }).youOwe
    ∧ (evs1.foldl applyBalanceEvent { youOwe := 0, youAreOwed := 0, balanceByUser := [] }).youAreOwed
      = (evs2.foldl applyBalanceEvent
          { youOwe := 0, youAreOwed := 0, balanceByUser := [] }).youAreOwed
    ∧ (evs1.foldl applyBalanceEvent
          { youOwe := 0, youAreOwed := 0, balanceByUser := [] }).balanceByUser.Perm
        (evs2.foldl applyBalanceEvent
          { youOwe := 0, youAreOwed := 0, balanceByUser := [] }).balanceByUser := by
  refine ⟨?_, ?_, ?_⟩
  · rw [(foldl_applyBalanceEvent_totals evs1 _).1, (foldl_applyBalanceEvent_totals evs2 _).1,
      (h.map _).sum_eq]
  · rw [(foldl_applyBalanceEvent_totals evs1 _).2, (foldl_applyBalanceEvent_totals evs2 _).2,
      (h.map _).sum_eq]
  · apply perm_of_objGet_eq
    · exact foldl_applyBalanceEvent_nodup evs1 _ (by simp)
    · exact foldl_applyBalanceEvent_nodup evs2 _ (by simp)
    · intro k
      have hmem : k ∈ evs1.map (fun ev => ev.counterparty)
          ↔ k ∈ evs2.map (fun ev => ev.counterparty) := (h.map _).mem_iff
      rw [foldl_applyBalanceEvent_get, foldl_applyBalanceEvent_get,
        (((h.filter (fun ev => ev.counterparty == k)).map (fun ev => ev.owed)).sum_eq),
        (((h.filter (fun ev => ev.counterparty == k)).map (fun ev => ev.owing)).sum_eq)]
      simp only [hmem]

theorem pushOweEntry_eq (st : Store) (lists : List OweEntry × List OweEntry)
    (entry : UserId × OwedOwing) :
    pushOweEntry st lists entry
      = (lists.1 ++ (oweEntryOf st false entry).toList,
          lists.2 ++ (oweEntryOf st true entry).toList) := by
  unfold pushOweEntry oweEntryOf
  by_cases h0 : entry.2.owed - entry.2.owing = 0
  · simp [h0]
  · by_cases hpos : entry.2.owed - entry.2.owing > 0
    · simp [h0, hpos]
    · simp [h0, hpos]

theorem toList_append_filterMap {α β : Type} (f : α → Option β) (x : α) (l : List α) :
    (f x).toList ++ l.filterMap f = (x :: l).filterMap f := by
  cases h : f x <;> simp [List.filterMap_cons, h]

theorem foldl_pushOweEntry (st : Store) (m : List (UserId × OwedOwing))
    (lists : List OweEntry × List OweEntry) :
    m.foldl (pushOweEntry st) lists
      = (lists.1 ++ m.filterMap (oweEntryOf st false), lists.2 ++ m.filterMap (oweEntryOf st true)) := by
  induction m generalizing lists with
  | nil => simp
  | cons entry m ih =>
    rw [List.foldl_cons, ih, pushOweEntry_eq]
    simp only [List.append_assoc, toList_append_filterMap]


theorem getCurrentUser_congr (identity : Option String) (st1 st2 : Store)
    (h : st1.users = st2.users) : getCurrentUser identity st1 = getCurrentUser identity st2 := by
  unfold getCurrentUser
  rw [h]

theorem oweEntryOf_congr (st1 st2 : Store) (h : st1.users = st2.users) :
    oweEntryOf st1 = oweEntryOf st2 := by
  funext b entry
  unfold oweEntryOf
  rw [h]

/-- The result of `getUserBalances` in terms of the events of the records. -/
theorem getUserBalances_eq (identity : Option String) (st : Store) (user : User)
    (hauth : getCurrentUser identity st = .ok user) :
    getUserBalances identity st
      = .ok
        { youOwe := (balanceVarsOf user._id st).youOwe
          youAreOwed := (balanceVarsOf user._id st).youAreOwed
          totalBalance := (balanceVarsOf user._id st).youAreOwed - (balanceVarsOf user._id st).youOwe
          oweDetails :=
            { youOwe := sortByAmountDesc
                ((balanceVarsOf user._id st).balanceByUser.filterMap (oweEntryOf st false))
              youAreOwedBy := sortByAmountDesc
                ((balanceVarsOf user._id st).balanceByUser.filterMap (oweEntryOf st true)) } } := by
  simp only [getUserBalances, hauth, foldl_balancesApplyExpense, foldl_balancesApplySettlement,
    foldl_pushOweEntry, List.nil_append, balanceVarsOf, balanceEvents, List.foldl_append]

theorem balanceEvents_perm (userId : UserId) (st1 st2 : Store)
    (hexp : st1.expenses.Perm st2.expenses) (hset : st1.settlements.Perm st2.settlements) :
    (balanceEvents userId st1).Perm (balanceEvents userId st2) :=
  ((hexp.filter _).flatMap_right _).append ((hset.filter _).map _)

/-- In exact arithmetic: permuting the expense records and the settlement records leaves the
result of `getUserBalances` unchanged: the same `youOwe`, `youAreOwed` and
`totalBalance`, and the same entries in the lists `youOwe` and `youAreOwedBy`. -/
theorem getUserBalances_order_independent (identity : Option String) (st1 st2 : Store)
    (user : User) (hauth : getCurrentUser identity st1 = .ok user)
    (husers : st1.users = st2.users) (hexp : st1.expenses.Perm st2.expenses)
    (hset : st1.settlements.Perm st2.settlements) :
    ∃ r1 r2, getUserBalances identity st1 = .ok r1 ∧ getUserBalances identity st2 = .ok r2 ∧
      r1.youOwe = r2.youOwe ∧ r1.youAreOwed = r2.youAreOwed ∧
      r1.totalBalance = r2.totalBalance ∧
      r1.oweDetails.youOwe.Perm r2.oweDetails.youOwe ∧
      r1.oweDetails.youAreOwedBy.Perm r2.oweDetails.youAreOwedBy := by
  have hauth2 : getCurrentUser identity st2 = .ok user := by
    rw [← getCurrentUser_congr identity st1 st2 husers]; exact hauth
  have hev := foldl_applyBalanceEvent_perm _ _ (balanceEvents_perm user._id st1 st2 hexp hset)
  change (balanceVarsOf user._id st1).youOwe = (balanceVarsOf user._id st2).youOwe
    ∧ (balanceVarsOf user._id st1).youAreOwed = (balanceVarsOf user._id st2).youAreOwed
    ∧ (balanceVarsOf user._id st1).balanceByUser.Perm (balanceVarsOf user._id st2).balanceByUser
    at hev
  refine ⟨_, _, getUserBalances_eq identity st1 user hauth,
    getUserBalances_eq identity st2 user hauth2, hev.1, hev.2.1, ?_, ?_, ?_⟩
  · simp only []
    rw [hev.1, hev.2.1]
  · simp only [sortByAmountDesc, oweEntryOf_congr st1 st2 husers]
    exact ((List.perm_insertionSort _ _).trans (hev.2.2.filterMap _)).trans
      (List.perm_insertionSort _ _).symm
  · simp only [sortByAmountDesc, oweEntryOf_congr st1 st2 husers]
    exact ((List.perm_insertionSort _ _).trans (hev.2.2.filterMap _)).trans
      (List.perm_insertionSort _ _).symm

theorem getUserBalances_order_independent_witness :
    ∃ r1 r2, getUserBalances (some "token-a") scenario5 = .ok r1 ∧
      getUserBalances (some "token-a") scenario5Swapped = .ok r2 ∧
      r1.youOwe = r2.youOwe ∧ r1.youAreOwed = r2.youAreOwed ∧
      r1.totalBalance = r2.totalBalance ∧
      r1.oweDetails.youOwe.Perm r2.oweDetails.youOwe ∧
      r1.oweDetails.youAreOwedBy.Perm r2.oweDetails.youAreOwedBy :=
  getUserBalances_order_independent (some "token-a") scenario5 scenario5Swapped userA rfl rfl
    (List.Perm.swap _ _ _) (List.Perm.swap _ _ _)


/-! ### getGroupExpenses -/

theorem objUpdate_congr {κ ν : Type} [DecidableEq κ] (m : List (κ × ν)) (k : κ)
    (f g : Option ν → ν) (h : f (objGet m k) = g (objGet m k)) :
    objUpdate m k f = objUpdate m k g := by
  induction m with
  | nil => simpa [objUpdate, objGet] using h
  | cons p m ih =>
    obtain ⟨k0, v0⟩ := p
    by_cases h0 : k0 = k
    · subst h0
      simpa [objUpdate, objGet] using h
    · simp only [objGet, if_neg h0] at h
      simp only [objUpdate, if_neg h0, ih h]

theorem objUpdate_objUpdate_same {κ ν : Type} [DecidableEq κ] (m : List (κ × ν)) (k : κ)
    (f g : Option ν → ν) :
    objUpdate (objUpdate m k f) k g = objUpdate m k (fun o => g (some (f o))) := by
  induction m with
  | nil => simp [objUpdate]
  | cons p m ih =>
    obtain ⟨k0, v0⟩ := p
    by_cases h0 : k0 = k
    · subst h0
      simp [objUpdate]
    · simp only [objUpdate, if_neg h0, ih]

theorem objUpdate_comm_of_ne {κ ν : Type} [DecidableEq κ] (m : List (κ × ν)) (k1 k2 : κ)
    (f1 f2 : Option ν → ν) (hne : k1 ≠ k2)
    (hk : k1 ∈ m.map Prod.fst ∨ k2 ∈ m.map Prod.fst) :
    objUpdate (objUpdate m k1 f1) k2 f2 = objUpdate (objUpdate m k2 f2) k1 f1 := by
  induction m with
  | nil => simp at hk
  | cons p m ih =>
    obtain ⟨k0, v0⟩ := p
    by_cases h1 : k0 = k1
    · subst h1
      simp [objUpdate, hne]
    · by_cases h2 : k0 = k2
      · subst h2
        simp [objUpdate, h1]
      · have hk' : k1 ∈ m.map Prod.fst ∨ k2 ∈ m.map Prod.fst := by
          simp only [List.map_cons, List.mem_cons] at hk
          rcases hk with (h | h) | (h | h)
          · exact absurd h.symm h1
          · exact Or.inl h
          · exact absurd h.symm h2
          · exact Or.inr h
        simp only [objUpdate, if_neg h1, if_neg h2, ih hk']

theorem objUpdate_comm {κ ν : Type} [DecidableEq κ] (m : List (κ × ν)) (k1 k2 : κ)
    (f1 f2 : Option ν → ν)
    (hk : k1 ≠ k2 → k1 ∈ m.map Prod.fst ∨ k2 ∈ m.map Prod.fst)
    (hf : k1 = k2 → f2 (some (f1 (objGet m k1))) = f1 (some (f2 (objGet m k1)))) :
    objUpdate (objUpdate m k1 f1) k2 f2 = objUpdate (objUpdate m k2 f2) k1 f1 := by
  by_cases h : k1 = k2
  · subst h
    rw [objUpdate_objUpdate_same, objUpdate_objUpdate_same]
    exact objUpdate_congr _ _ _ _ (hf rfl)
  · exact objUpdate_comm_of_ne m k1 k2 f1 f2 h (hk h)

theorem minusAssign_eq_plusAssign (m : List (UserId × Option ℚ)) (k : UserId) (d : ℚ) :
    minusAssign m k d = plusAssign m k (-d) := by
  unfold minusAssign plusAssign
  congr 1
  funext o
  congr 1
  funext x
  ring

theorem plusAssign_comm (m : List (UserId × Option ℚ)) (k1 k2 : UserId) (d1 d2 : ℚ)
    (hk : k1 ≠ k2 → k1 ∈ m.map Prod.fst ∨ k2 ∈ m.map Prod.fst) :
    plusAssign (plusAssign m k1 d1) k2 d2 = plusAssign (plusAssign m k2 d2) k1 d1 := by
  unfold plusAssign
  apply objUpdate_comm _ _ _ _ _ hk
  intro _
  cases h : (objGet m k1).join with
  | none => simp [h]
  | some x => simp [h, add_right_comm]

theorem mem_keys_plusAssign (m : List (UserId × Option ℚ)) (k k' : UserId) (d : ℚ) :
    k' ∈ (plusAssign m k d).map Prod.fst ↔ k' = k ∨ k' ∈ m.map Prod.fst :=
  mem_keys_objUpdate m k k' _

/-- A fold is invariant under permutation when its steps commute on the
states of an invariant that the steps preserve. -/
theorem foldl_perm_of_comm {σ α : Type} (f : σ → α → σ) (I : σ → Prop) (P : α → Prop)
    (hstep : ∀ z x, I z → P x → I (f z x))
    (hcomm : ∀ z x y, I z → P x → P y → f (f z x) y = f (f z y) x)
    (l1 l2 : List α) (hp : l1.Perm l2) (hP : ∀ x ∈ l1, P x) (init : σ) (hI : I init) :
    l1.foldl f init = l2.foldl f init := by
  induction hp generalizing init with
  | nil => rfl
  | cons x _ ih =>
    rw [List.foldl_cons, List.foldl_cons]
    exact ih (fun y hy => hP y (List.mem_cons_of_mem _ hy)) _
      (hstep _ _ hI (hP x (List.mem_cons_self _ _)))
  | swap x y l =>
    rw [List.foldl_cons, List.foldl_cons, List.foldl_cons, List.foldl_cons]
    rw [hcomm init y x hI (hP y (List.mem_cons_self _ _))
      (hP x (List.mem_cons_of_mem _ (List.mem_cons_self _ _)))]
  | trans h1 _ ih1 ih2 =>
    rw [ih1 hP init hI]
    exact ih2 (fun y hy => hP y (h1.mem_iff.mpr hy)) init hI


theorem mem_keys_of_objGet {κ ν : Type} [DecidableEq κ] (m : List (κ × ν)) (k : κ) (v : ν)
    (h : objGet m k = some v) : k ∈ m.map Prod.fst := by
  induction m with
  | nil => simp [objGet] at h
  | cons p m ih =>
    obtain ⟨k0, v0⟩ := p
    by_cases h0 : k0 = k
    · simp [h0]
    · simp only [objGet, if_neg h0] at h
      simp [ih h]

theorem groupApplySplit_eq (payer : UserId) (acc : Except String (Totals × Ledger))
    (split : Split) :
    groupApplySplit payer acc split
      = if split.userId = payer ∨ split.paid = true then acc
        else applyGroupEvent acc
          { plus := payer, minus := split.userId, amount := split.amount,
            row := split.userId, col := payer, delta := split.amount } := by
  unfold groupApplySplit applyGroupEvent
  cases acc with
  | error e => simp
  | ok p =>
    obtain ⟨totals, ledger⟩ := p
    by_cases hc : split.userId = payer ∨ split.paid = true
    · simp only [if_pos hc]
    · simp only [if_neg hc]

theorem groupApplyExpense_eq (acc : Except String (Totals × Ledger)) (exp : Expense) :
    groupApplyExpense acc exp = (expenseGroupEvents exp).foldl applyGroupEvent acc := by
  unfold groupApplyExpense expenseGroupEvents
  generalize exp.splits = l
  induction l generalizing acc with
  | nil => rfl
  | cons s l ih =>
    rw [List.foldl_cons, ih, groupApplySplit_eq]
    by_cases hc : s.userId = exp.paidByUserId ∨ s.paid = true
    · simp only [if_pos hc, List.filterMap_cons]
    · simp only [if_neg hc, List.filterMap_cons, List.foldl_cons]

theorem groupApplySettlement_eq (acc : Except String (Totals × Ledger)) (s : Settlement) :
    groupApplySettlement acc s = applyGroupEvent acc (settlementGroupEvent s) := by
  unfold groupApplySettlement applyGroupEvent settlementGroupEvent
  cases acc with
  | error e => rfl
  | ok p =>
    obtain ⟨totals, ledger⟩ := p
    simp only []
    cases objGet ledger s.paidByUserId with
    | none => rfl
    | some row => simp only [minusAssign_eq_plusAssign row]

theorem foldl_groupApply (groupId : GroupId) (st : Store)
    (acc : Except String (Totals × Ledger)) :
    (st.settlements.filter (fun s => s.groupId == some groupId)).foldl groupApplySettlement
        ((st.expenses.filter (fun e => e.groupId == some groupId)).foldl groupApplyExpense acc)
      = (groupEvents groupId st).foldl applyGroupEvent acc := by
  unfold groupEvents
  rw [List.foldl_append]
  generalize st.expenses.filter (fun e => e.groupId == some groupId) = es
  generalize st.settlements.filter (fun s => s.groupId == some groupId) = ss
  have h1 : ∀ acc, es.foldl groupApplyExpense acc
      = (es.flatMap expenseGroupEvents).foldl applyGroupEvent acc := by
    induction es with
    | nil => intro acc; rfl
    | cons e es ih =>
      intro acc
      rw [List.foldl_cons, ih, groupApplyExpense_eq, List.flatMap_cons, List.foldl_append]
  have h2 : ∀ acc, ss.foldl groupApplySettlement acc
      = (ss.map settlementGroupEvent).foldl applyGroupEvent acc := by
    induction ss with
    | nil => intro acc; rfl
    | cons s ss ih =>
      intro acc
      rw [List.foldl_cons, ih, groupApplySettlement_eq, List.map_cons, List.foldl_cons]
  rw [h1, h2]

theorem applyGroupEvent_ok (ids : List UserId) (acc : Except String (Totals × Ledger))
    (ev : GroupEvent) (hacc : GroupAccOk ids acc) (hev : GroupEventOk ids ev) :
    GroupAccOk ids (applyGroupEvent acc ev) := by
  obtain ⟨totals, ledger, rfl, ht, hl⟩ := hacc
  obtain ⟨row, hrow, _⟩ := hl ev.row hev.2.2.1
  have hstep : applyGroupEvent (.ok (totals, ledger)) ev
      = .ok (minusAssign (plusAssign totals ev.plus ev.amount) ev.minus ev.amount,
          objUpdate ledger ev.row (fun _ => plusAssign row ev.col ev.delta)) := by
    simp only [applyGroupEvent, hrow]
  refine ⟨_, _, hstep, ?_, ?_⟩
  · intro a ha
    rw [minusAssign_eq_plusAssign, mem_keys_plusAssign, mem_keys_plusAssign]
    exact Or.inr (Or.inr (ht a ha))
  · intro a ha
    obtain ⟨ra, hra, hkeys⟩ := hl a ha
    rw [objGet_objUpdate]
    by_cases har : a = ev.row
    · subst har
      rw [hrow] at hra
      cases hra
      refine ⟨_, if_pos rfl, ?_⟩
      intro b hb hba
      rw [mem_keys_plusAssign]
      exact Or.inr (hkeys b hb hba)
    · exact ⟨ra, by rw [if_neg har, hra], hkeys⟩

theorem totals_comm (t : List (UserId × Option ℚ)) (p1 m1 p2 m2 : UserId) (a1 a2 : ℚ)
    (hp1 : p1 ∈ t.map Prod.fst) (hm1 : m1 ∈ t.map Prod.fst) :
    minusAssign (plusAssign (minusAssign (plusAssign t p1 a1) m1 a1) p2 a2) m2 a2
      = minusAssign (plusAssign (minusAssign (plusAssign t p2 a2) m2 a2) p1 a1) m1 a1 := by
  simp only [minusAssign_eq_plusAssign]
  rw [plusAssign_comm (plusAssign t p1 a1) m1 p2 (-a1) a2
      (fun _ => Or.inl ((mem_keys_plusAssign _ _ _ _).mpr (Or.inr hm1))),
    plusAssign_comm t p1 p2 a1 a2 (fun _ => Or.inl hp1),
    plusAssign_comm (plusAssign (plusAssign t p2 a2) p1 a1) m1 m2 (-a1) (-a2)
      (fun _ => Or.inl ((mem_keys_plusAssign _ _ _ _).mpr
        (Or.inr ((mem_keys_plusAssign _ _ _ _).mpr (Or.inr hm1))))),
    plusAssign_comm (plusAssign t p2 a2) p1 m2 a1 (-a2)
      (fun _ => Or.inl ((mem_keys_plusAssign _ _ _ _).mpr (Or.inr hp1)))]

theorem applyGroupEvent_comm (ids : List UserId) (acc : Except String (Totals × Ledger))
    (x y : GroupEvent) (hacc : GroupAccOk ids acc) (hx : GroupEventOk ids x)
    (hy : GroupEventOk ids y) :
    applyGroupEvent (applyGroupEvent acc x) y = applyGroupEvent (applyGroupEvent acc y) x := by
  obtain ⟨totals, ledger, rfl, ht, hl⟩ := hacc
  obtain ⟨rx, hrx, hkx⟩ := hl x.row hx.2.2.1
  obtain ⟨ry, hry, hky⟩ := hl y.row hy.2.2.1
  have htot := totals_comm totals x.plus x.minus y.plus y.minus x.amount y.amount
    (ht _ hx.1) (ht _ hx.2.1)
  by_cases hrow : x.row = y.row
  · have hrr : ry = rx := by
      rw [hrow, hry] at hrx
      exact Option.some.inj hrx
    subst hrr
    have hcol : plusAssign (plusAssign ry x.col x.delta) y.col y.delta
        = plusAssign (plusAssign ry y.col y.delta) x.col x.delta := by
      apply plusAssign_comm
      intro hne
      by_cases hxa : x.col = x.row
      · right
        apply hky y.col hy.2.2.2
        intro hya
        exact hne (by rw [hxa, hrow, hya])
      · left
        exact hkx x.col hx.2.2.2 hxa
    simp only [applyGroupEvent, hrx, hry, objGet_objUpdate, hrow, if_true,
      objUpdate_objUpdate_same, htot, hcol]
  · have hrow' : ¬ y.row = x.row := fun h => hrow h.symm
    simp only [applyGroupEvent, hrx, hry, objGet_objUpdate, if_neg hrow, if_neg hrow', htot]
    rw [objUpdate_comm_of_ne ledger x.row y.row _ _ hrow
      (Or.inl (mem_keys_of_objGet _ _ _ hrx))]


theorem mem_keys_foldl_objUpdate {κ ν : Type} [DecidableEq κ] (l : List κ)
    (g : κ → Option ν → ν) (m : List (κ × ν)) (k : κ) :
    k ∈ (l.foldl (fun m a => objUpdate m a (g a)) m).map Prod.fst
      ↔ k ∈ m.map Prod.fst ∨ k ∈ l := by
  induction l generalizing m with
  | nil => simp
  | cons a l ih =>
    rw [List.foldl_cons, ih, mem_keys_objUpdate, List.mem_cons]
    tauto

theorem objGet_foldl_objUpdate {κ ν : Type} [DecidableEq κ] (l : List κ) (g : κ → ν)
    (m : List (κ × ν)) (k : κ) :
    objGet (l.foldl (fun m a => objUpdate m a (fun _ => g a)) m) k
      = if k ∈ l then some (g k) else objGet m k := by
  induction l generalizing m with
  | nil => simp
  | cons a l ih =>
    rw [List.foldl_cons, ih, objGet_objUpdate]
    by_cases hkl : k ∈ l
    · simp [hkl]
    · by_cases hka : k = a
      · simp [hka]
      · simp [hkl, hka]

theorem mem_keys_initRow_aux (l : List UserId) (a k : UserId) (row : List (UserId × Option ℚ)) :
    k ∈ (l.foldl (fun row b => if a ≠ b then objUpdate row b (fun _ => some 0) else row) row).map
        Prod.fst
      ↔ k ∈ row.map Prod.fst ∨ (k ∈ l ∧ a ≠ k) := by
  induction l generalizing row with
  | nil => simp
  | cons b l ih =>
    rw [List.foldl_cons, ih, List.mem_cons]
    by_cases hab : a ≠ b
    · rw [if_pos hab, mem_keys_objUpdate]
      constructor
      · rintro ((h | h) | h)
        · exact Or.inr ⟨Or.inl h, by rw [h]; exact hab⟩
        · exact Or.inl h
        · exact Or.inr ⟨Or.inr h.1, h.2⟩
      · rintro (h | ⟨h | h, hak⟩)
        · exact Or.inl (Or.inr h)
        · exact Or.inl (Or.inl h)
        · exact Or.inr ⟨h, hak⟩
    · rw [if_neg hab]
      have hab' : a = b := not_not.mp hab
      constructor
      · rintro (h | h)
        · exact Or.inl h
        · exact Or.inr ⟨Or.inr h.1, h.2⟩
      · rintro (h | ⟨h | h, hak⟩)
        · exact Or.inl h
        · exact absurd (hab'.trans h.symm) hak
        · exact Or.inr ⟨h, hak⟩

theorem groupAccOk_init (ids : List UserId) :
    GroupAccOk ids (.ok (initTotals ids, initLedger ids)) := by
  refine ⟨_, _, rfl, ?_, ?_⟩
  · intro a ha
    unfold initTotals
    rw [mem_keys_foldl_objUpdate ids (fun _ _ => some 0)]
    exact Or.inr ha
  · intro a ha
    refine ⟨initRow ids a, ?_, ?_⟩
    · unfold initLedger
      rw [objGet_foldl_objUpdate ids (initRow ids), if_pos ha]
    · intro b hb hba
      unfold initRow
      rw [mem_keys_initRow_aux]
      exact Or.inr ⟨hb, Ne.symm hba⟩

theorem memberDetailsOf_congr (st1 st2 : Store) (h : st1.users = st2.users)
    (members : List Member) : memberDetailsOf st1 members = memberDetailsOf st2 members := by
  induction members with
  | nil => rfl
  | cons m rest ih => simp only [memberDetailsOf, h, ih]

theorem memberDetailsOf_ids (st : Store) (members : List Member) (details : List MemberDetail)
    (h : memberDetailsOf st members = .ok details) :
    details.map (fun m => m.id) = members.map (fun m => m.userId) := by
  induction members generalizing details with
  | nil =>
    simp only [memberDetailsOf] at h
    cases h
    rfl
  | cons m rest ih =>
    simp only [memberDetailsOf] at h
    cases hf : st.users.find? (fun u => u._id == m.userId) with
    | none => rw [hf] at h; cases h
    | some u =>
      rw [hf] at h
      simp only [] at h
      cases hr : memberDetailsOf st rest with
      | error e => rw [hr] at h; cases h
      | ok ds =>
        rw [hr] at h
        simp only [] at h
        cases h
        have hu := List.find?_some hf
        simp only [beq_iff_eq] at hu
        simp [ih ds hr, hu]

/-- The accumulators of `getGroupExpenses` do not depend on the order of the
records when the parties of the events are member ids. -/
theorem groupEvents_foldl_perm (groupId : GroupId) (st1 st2 : Store) (ids : List UserId)
    (hexp : st1.expenses.Perm st2.expenses) (hset : st1.settlements.Perm st2.settlements)
    (hok : ∀ ev ∈ groupEvents groupId st1, GroupEventOk ids ev) :
    (groupEvents groupId st1).foldl applyGroupEvent (.ok (initTotals ids, initLedger ids))
      = (groupEvents groupId st2).foldl applyGroupEvent (.ok (initTotals ids, initLedger ids)) :=
  foldl_perm_of_comm applyGroupEvent (GroupAccOk ids) (GroupEventOk ids)
    (fun z x hz hx => applyGroupEvent_ok ids z x hz hx)
    (fun z x y hz hx hy => applyGroupEvent_comm ids z x y hz hx hy)
    _ _ (((hexp.filter _).flatMap_right _).append ((hset.filter _).map _)) hok _
    (groupAccOk_init ids)

theorem groupEventOk_of_members (groupId : GroupId) (st : Store) (ids : List UserId)
    (hexp : ∀ e ∈ st.expenses, e.groupId = some groupId →
      e.paidByUserId ∈ ids ∧ ∀ s ∈ e.splits, s.userId ∈ ids)
    (hset : ∀ s ∈ st.settlements, s.groupId = some groupId →
      s.paidByUserId ∈ ids ∧ s.receivedByUserId ∈ ids) :
    ∀ ev ∈ groupEvents groupId st, GroupEventOk ids ev := by
  intro ev hev
  unfold groupEvents at hev
  rcases List.mem_append.mp hev with h | h
  · obtain ⟨e, he, hin⟩ := List.mem_flatMap.mp h
    rw [List.mem_filter] at he
    obtain ⟨hp, hs⟩ := hexp e he.1 (by simpa using he.2)
    unfold expenseGroupEvents at hin
    obtain ⟨s, hsm, hsome⟩ := List.mem_filterMap.mp hin
    by_cases hc : s.userId = e.paidByUserId ∨ s.paid = true
    · rw [if_pos hc] at hsome; cases hsome
    · rw [if_neg hc] at hsome
      cases hsome
      exact ⟨hp, hs s hsm, hs s hsm, hp⟩
  · obtain ⟨s, hs, rfl⟩ := List.mem_map.mp h
    rw [List.mem_filter] at hs
    obtain ⟨hp, hr⟩ := hset s hs.1 (by simpa using hs.2)
    exact ⟨hp, hr, hp, hr⟩

/-- In exact arithmetic: for a group whose expense and settlement parties are all members,
permuting the expense records and the settlement records leaves the
`balances` of `getGroupExpenses` unchanged: the same `totalBalance`, `owes`
and `owedBy` for every member. -/
theorem getGroupExpenses_order_independent (identity : Option String) (groupId : GroupId)
    (st1 st2 : Store) (group : Group)
    (husers : st1.users = st2.users) (hgroups : st1.groups = st2.groups)
    (hexp : st1.expenses.Perm st2.expenses) (hset : st1.settlements.Perm st2.settlements)
    (hgroup : st1.groups.find? (fun g => g._id == groupId) = some group)
    (hexpMembers : ∀ e ∈ st1.expenses, e.groupId = some groupId →
      e.paidByUserId ∈ group.members.map (fun m => m.userId)
        ∧ ∀ s ∈ e.splits, s.userId ∈ group.members.map (fun m => m.userId))
    (hsetMembers : ∀ s ∈ st1.settlements, s.groupId = some groupId →
      s.paidByUserId ∈ group.members.map (fun m => m.userId)
        ∧ s.receivedByUserId ∈ group.members.map (fun m => m.userId)) :
    (getGroupExpenses identity groupId st1).map (fun r => r.balances)
      = (getGroupExpenses identity groupId st2).map (fun r => r.balances) := by
  unfold getGroupExpenses
  rw [← getCurrentUser_congr identity st1 st2 husers, ← hgroups, hgroup]
  cases getCurrentUser identity st1 with
  | error e => rfl
  | ok currentUser =>
    simp only []
    rw [← memberDetailsOf_congr st1 st2 husers group.members]
    by_cases hm : (!group.members.any (fun m => m.userId == currentUser._id)) = true
    · simp only [hm, if_true]
    · simp only [hm]
      cases hd : memberDetailsOf st1 group.members with
      | error e => rfl
      | ok memberDetails =>
        simp only [foldl_groupApply]
        have hids := memberDetailsOf_ids st1 group.members memberDetails hd
        rw [groupEvents_foldl_perm groupId st1 st2 _ hexp hset
          (groupEventOk_of_members groupId st1 _
            (by rw [hids]; exact hexpMembers) (by rw [hids]; exact hsetMembers))]
        cases (groupEvents groupId st2).foldl applyGroupEvent
            (.ok (initTotals (memberDetails.map (fun m => m.id)),
              initLedger (memberDetails.map (fun m => m.id)))) with
        | error e => rfl
        | ok p => rfl


theorem getGroupExpenses_order_independent_witness :
    (getGroupExpenses (some "token-a") 7 scenario3).map (fun r => r.balances)
        = (getGroupExpenses (some "token-a") 7 scenario3Swapped).map (fun r => r.balances)
    ∧ (getGroupExpenses (some "token-a") 7 scenario3).map
        (fun r => r.balances.map (fun b => b.totalBalance)) = .ok [some 6, some 0, some (-6)] :=
  ⟨getGroupExpenses_order_independent (some "token-a") 7 scenario3 scenario3Swapped trip rfl rfl
    (List.Perm.swap _ _ _) (List.Perm.swap _ _ _) rfl (by decide) (by decide), by decide!⟩

/-! ### getUsersWithOutstandingDebts -/

/-- C10: the debts that `getUsersWithOutstandingDebts` reports depend on the
order of the settlement records. User A owes B 80 and pays 80 and then 10: the
entry is deleted when it reaches zero and the second settlement is dropped, so
nobody is reported. With the settlements in the other order the entries never
pass through zero, and B is reported as owing A 10. -/
theorem getUsersWithOutstandingDebts_order_dependent :
    overpaid.users = overpaidSwapped.users
    ∧ overpaid.expenses.Perm overpaidSwapped.expenses
    ∧ overpaid.settlements.Perm overpaidSwapped.settlements
    ∧ getUsersWithOutstandingDebts overpaid = []
    ∧ getUsersWithOutstandingDebts overpaidSwapped
        = [{ _id := 2, name := "B", email := "b@splitr.test",
             debts := [{ userId := 1, name := "A", amount := 10, since := 5000 }] }] :=
  ⟨rfl, List.Perm.refl _, List.Perm.swap _ _ _, by decide!, by decide!⟩

/-! ### getUserBalances: which counterparties are listed -/

theorem balanceLoops_eq (userId : UserId) (st : Store) :
    balanceLoops userId st = balanceVarsOf userId st := by
  simp only [balanceLoops, balanceVarsOf, balanceEvents, foldl_balancesApplyExpense,
    foldl_balancesApplySettlement, List.foldl_append]

theorem balanceVarsOf_nodup (userId : UserId) (st : Store) :
    ((balanceVarsOf userId st).balanceByUser.map Prod.fst).Nodup :=
  foldl_applyBalanceEvent_nodup _ _ (by simp)

theorem oweEntryOf_some (st : Store) (w : Bool) (entry : UserId × OwedOwing) (e : OweEntry)
    (h : oweEntryOf st w entry = some e) :
    e.userId = entry.1 ∧ e.amount = |entry.2.owed - entry.2.owing|
      ∧ entry.2.owed - entry.2.owing ≠ 0
      ∧ decide (entry.2.owed - entry.2.owing > 0) = w := by
  unfold oweEntryOf at h
  by_cases h0 : entry.2.owed - entry.2.owing = 0
  · simp [h0] at h
  · by_cases hw : decide (entry.2.owed - entry.2.owing > 0) = w
    · simp only [h0, hw, if_false, if_true, Option.some.injEq] at h
      subst h
      exact ⟨rfl, rfl, h0, hw⟩
    · simp only [h0, hw, if_false] at h
      cases h

/-- An entry of one of the two lists comes from a property of `balanceByUser`
with a nonzero net. -/
theorem mem_oweList (st : Store) (w : Bool) (m : List (UserId × OwedOwing))
    (hnd : (m.map Prod.fst).Nodup) (e : OweEntry)
    (h : e ∈ sortByAmountDesc (m.filterMap (oweEntryOf st w))) :
    ∃ b, objGet m e.userId = some b ∧ e.amount = |b.owed - b.owing|
      ∧ b.owed - b.owing ≠ 0 ∧ decide (b.owed - b.owing > 0) = w := by
  unfold sortByAmountDesc at h
  rw [(List.perm_insertionSort _ _).mem_iff, List.mem_filterMap] at h
  obtain ⟨⟨k, b⟩, hmem, hsome⟩ := h
  obtain ⟨h1, h2, h3, h4⟩ := oweEntryOf_some st w (k, b) e hsome
  refine ⟨b, ?_, h2, h3, h4⟩
  rw [h1]
  exact (mem_iff_objGet m hnd k b).mp hmem

/-! ### getGroupExpenses: the cells of the ledger -/

theorem ledgerCell_setLedgerCell (ledger : Ledger) (a b a' b' : UserId) (v : ℚ) :
    ledgerCell (setLedgerCell ledger a b v) a' b'
      = if a' = a ∧ b' = b then some v else ledgerCell ledger a' b' := by
  unfold ledgerCell setLedgerCell
  rw [objGet_objUpdate]
  by_cases ha : a' = a
  · subst ha
    rw [if_pos rfl, Option.some_bind, objGet_objUpdate]
    by_cases hb : b' = b
    · rw [if_pos hb, if_pos ⟨rfl, hb⟩]
      rfl
    · rw [if_neg hb, if_neg (fun h => hb h.2)]
      cases objGet ledger a' <;> rfl
  · rw [if_neg ha, if_neg (fun h => ha h.1)]

theorem ledgerCell_objUpdate_plusAssign (ledger : Ledger) (r c a b : UserId) (d : ℚ)
    (row : List (UserId × Option ℚ)) (hrow : objGet ledger r = some row) :
    ledgerCell (objUpdate ledger r (fun _ => plusAssign row c d)) a b
      = if a = r ∧ b = c then (ledgerCell ledger a b).map (fun x => x + d)
        else ledgerCell ledger a b := by
  unfold ledgerCell plusAssign
  rw [objGet_objUpdate]
  by_cases ha : a = r
  · subst ha
    rw [if_pos rfl, Option.some_bind, objGet_objUpdate, hrow, Option.some_bind]
    by_cases hb : b = c
    · subst hb
      rw [if_pos rfl, if_pos ⟨rfl, rfl⟩]
      rfl
    · rw [if_neg hb, if_neg (fun h => hb h.2)]
  · rw [if_neg ha, if_neg (fun h => ha h.1)]

theorem foldl_applyGroupEvent_error (evs : List GroupEvent) (e : String) :
    evs.foldl applyGroupEvent (.error e) = .error e := by
  induction evs with
  | nil => rfl
  | cons ev evs ih => rw [List.foldl_cons]; exact ih

/-- The cell `(a, b)` after a list of events that does not throw: the deltas
of the events of that cell, added to its initial value. -/
theorem ledgerCell_foldl_applyGroupEvent (evs : List GroupEvent) (totals totals' : Totals)
    (ledger ledger' : Ledger) (a b : UserId)
    (h : evs.foldl applyGroupEvent (.ok (totals, ledger)) = .ok (totals', ledger')) :
    ledgerCell ledger' a b
      = (ledgerCell ledger a b).map (fun x =>
          x + ((evs.filter (fun ev => ev.row == a && ev.col == b)).map (fun ev => ev.delta)).sum) := by
  induction evs generalizing totals ledger with
  | nil =>
    simp only [List.foldl_nil, Except.ok.injEq, Prod.mk.injEq] at h
    rw [h.2]
    cases ledgerCell ledger' a b <;> simp
  | cons ev evs ih =>
    rw [List.foldl_cons] at h
    cases hrow : objGet ledger ev.row with
    | none =>
      simp only [applyGroupEvent, hrow, foldl_applyGroupEvent_error] at h
      cases h
    | some row =>
      simp only [applyGroupEvent, hrow] at h
      rw [ih _ _ h, ledgerCell_objUpdate_plusAssign ledger ev.row ev.col a b ev.delta row hrow]
      by_cases hc : a = ev.row ∧ b = ev.col
      · have hc' : (ev.row == a && ev.col == b) = true := by simp [hc.1, hc.2]
        rw [if_pos hc, List.filter_cons, if_pos hc']
        cases ledgerCell ledger a b <;> simp [add_assoc]
      · have hc' : (ev.row == a && ev.col == b) = false := by
          rw [Bool.eq_false_iff]
          intro hh
          simp only [Bool.and_eq_true, beq_iff_eq] at hh
          exact hc ⟨hh.1.symm, hh.2.symm⟩
        rw [if_neg hc, List.filter_cons, hc']
        rfl

theorem rowsNodup_objUpdate (ledger : Ledger) (a : UserId)
    (f : Option (List (UserId × Option ℚ)) → List (UserId × Option ℚ))
    (h : RowsNodup ledger) (hf : ((f (objGet ledger a)).map Prod.fst).Nodup) :
    RowsNodup (objUpdate ledger a f) := by
  intro a' row hrow
  rw [objGet_objUpdate] at hrow
  by_cases ha : a' = a
  · rw [if_pos ha] at hrow
    cases hrow
    exact hf
  · rw [if_neg ha] at hrow
    exact h a' row hrow

theorem rowsNodup_setLedgerCell (ledger : Ledger) (a b : UserId) (v : ℚ) (h : RowsNodup ledger) :
    RowsNodup (setLedgerCell ledger a b v) := by
  apply rowsNodup_objUpdate _ _ _ h
  apply nodup_keys_objUpdate
  cases hr : objGet ledger a with
  | none => simp
  | some row => exact h a row hr

theorem rowsNodup_foldl_applyGroupEvent (evs : List GroupEvent) (totals totals' : Totals)
    (ledger ledger' : Ledger) (hnd : RowsNodup ledger)
    (h : evs.foldl applyGroupEvent (.ok (totals, ledger)) = .ok (totals', ledger')) :
    RowsNodup ledger' := by
  induction evs generalizing totals ledger with
  | nil =>
    simp only [List.foldl_nil, Except.ok.injEq, Prod.mk.injEq] at h
    rw [← h.2]
    exact hnd
  | cons ev evs ih =>
    rw [List.foldl_cons] at h
    cases hrow : objGet ledger ev.row with
    | none =>
      simp only [applyGroupEvent, hrow, foldl_applyGroupEvent_error] at h
      cases h
    | some row =>
      simp only [applyGroupEvent, hrow] at h
      refine ih _ _ ?_ h
      apply rowsNodup_objUpdate _ _ _ hnd
      exact nodup_keys_objUpdate _ _ _ (hnd ev.row row hrow)

theorem objGet_initRow_aux (l : List UserId) (a k : UserId) (row : List (UserId × Option ℚ)) :
    objGet (l.foldl (fun row b => if a ≠ b then objUpdate row b (fun _ => some 0) else row) row) k
      = if k ∈ l ∧ a ≠ k then some (some 0) else objGet row k := by
  induction l generalizing row with
  | nil => simp
  | cons b l ih =>
    rw [List.foldl_cons, ih]
    by_cases hkl : k ∈ l ∧ a ≠ k
    · rw [if_pos hkl, if_pos ⟨List.mem_cons_of_mem _ hkl.1, hkl.2⟩]
    · rw [if_neg hkl]
      by_cases hab : a ≠ b
      · rw [if_pos hab, objGet_objUpdate]
        by_cases hkb : k = b
        · subst hkb
          simp [hab]
        · have : ¬ (k ∈ b :: l ∧ a ≠ k) := by
            rintro ⟨hm, hak⟩
            rcases List.mem_cons.mp hm with h | h
            · exact hkb h
            · exact hkl ⟨h, hak⟩
          rw [if_neg hkb, if_neg this]
      · rw [if_neg hab]
        have hab' : a = b := not_not.mp hab
        have : ¬ (k ∈ b :: l ∧ a ≠ k) := by
          rintro ⟨hm, hak⟩
          rcases List.mem_cons.mp hm with h | h
          · exact hak (hab'.trans h.symm)
          · exact hkl ⟨h, hak⟩
        rw [if_neg this]

theorem nodup_keys_initRow (ids : List UserId) (a : UserId) :
    ((initRow ids a).map Prod.fst).Nodup := by
  unfold initRow
  have h : ∀ (l : List UserId) (row : List (UserId × Option ℚ)), (row.map Prod.fst).Nodup →
      ((l.foldl (fun row b => if a ≠ b then objUpdate row b (fun _ => some 0) else row) row).map
        Prod.fst).Nodup := by
    intro l
    induction l with
    | nil => intro row hr; exact hr
    | cons b l ih =>
      intro row hr
      rw [List.foldl_cons]
      apply ih
      by_cases hab : a ≠ b
      · rw [if_pos hab]; exact nodup_keys_objUpdate _ _ _ hr
      · rw [if_neg hab]; exact hr
  exact h ids [] (by simp)

theorem objGet_initLedger (ids : List UserId) (a : UserId) :
    objGet (initLedger ids) a = if a ∈ ids then some (initRow ids a) else none := by
  unfold initLedger
  rw [objGet_foldl_objUpdate ids (initRow ids)]
  rfl

theorem rowsNodup_initLedger (ids : List UserId) : RowsNodup (initLedger ids) := by
  intro a row hrow
  rw [objGet_initLedger] at hrow
  by_cases ha : a ∈ ids
  · rw [if_pos ha] at hrow
    cases hrow
    exact nodup_keys_initRow ids a
  · rw [if_neg ha] at hrow
    cases hrow

theorem ledgerCell_initLedger (ids : List UserId) (a b : UserId) (ha : a ∈ ids) (hb : b ∈ ids)
    (hab : a ≠ b) : ledgerCell (initLedger ids) a b = some 0 := by
  unfold ledgerCell
  rw [objGet_initLedger, if_pos ha, Option.some_bind]
  unfold initRow
  rw [objGet_initRow_aux, if_pos ⟨hb, hab⟩]
  rfl

/-! ### getGroupExpenses: netting -/

theorem max_sub_max_neg (d : ℚ) : max d 0 - max (-d) 0 = d := by
  rcases le_total d 0 with h | h
  · rw [max_eq_right h, max_eq_left (by linarith)]; ring
  · rw [max_eq_left h, max_eq_right (by linarith)]; ring

theorem pairDiff_of_pairNetted (ledger : Ledger) (a b : UserId) (d : ℚ)
    (h : PairNetted ledger a b d) : PairDiff ledger a b d :=
  ⟨_, _, h.1, h.2, max_sub_max_neg d⟩

theorem ledgerCell_netPair_other (ledger : Ledger) (a' b' p q : UserId)
    (h1 : ¬ (p = a' ∧ q = b')) (h2 : ¬ (p = b' ∧ q = a')) :
    ledgerCell (netPair a' ledger b') p q = ledgerCell ledger p q := by
  unfold netPair
  by_cases hge : a' ≥ b'
  · rw [if_pos hge]
  · rw [if_neg hge]
    split
    · simp only []
      split_ifs <;> simp only [ledgerCell_setLedgerCell, if_neg h1, if_neg h2]
    · simp only [ledgerCell_setLedgerCell, if_neg h1, if_neg h2]

theorem ledgerCell_netPair_same (ledger : Ledger) (a' b' : UserId) (x y : ℚ) (hlt : a' < b')
    (hx : ledgerCell ledger a' b' = some x) (hy : ledgerCell ledger b' a' = some y) :
    ledgerCell (netPair a' ledger b') a' b' = some (max (x - y) 0)
      ∧ ledgerCell (netPair a' ledger b') b' a' = some (max (-(x - y)) 0) := by
  have hne : a' ≠ b' := Nat.ne_of_lt hlt
  have hne' : b' ≠ a' := Ne.symm hne
  unfold netPair
  rw [if_neg (Nat.not_le.mpr hlt), hx, hy]
  simp only []
  by_cases hpos : x - y > 0
  · rw [if_pos hpos]
    simp only [ledgerCell_setLedgerCell]
    rw [max_eq_left (le_of_lt hpos), max_eq_right (by linarith)]
    simp [hne, hne']
  · rw [if_neg hpos]
    by_cases hneg : x - y < 0
    · rw [if_pos hneg]
      simp only [ledgerCell_setLedgerCell]
      rw [max_eq_right (le_of_lt hneg), max_eq_left (by linarith)]
      simp [hne, hne']
    · rw [if_neg hneg]
      have hz : x - y = 0 := le_antisymm (not_lt.mp hpos) (not_lt.mp hneg)
      simp only [ledgerCell_setLedgerCell]
      rw [hz]
      simp [hne, hne']

theorem pairNetted_netPair_same (ledger : Ledger) (a' b' a b : UserId) (d : ℚ) (hlt : a' < b')
    (hpair : (a = a' ∧ b = b') ∨ (a = b' ∧ b = a')) (h : PairDiff ledger a b d) :
    PairNetted (netPair a' ledger b') a b d := by
  obtain ⟨x, y, hx, hy, hd⟩ := h
  rcases hpair with ⟨rfl, rfl⟩ | ⟨rfl, rfl⟩
  · have := ledgerCell_netPair_same ledger a b x y hlt hx hy
    rw [hd] at this
    exact this
  · have := ledgerCell_netPair_same ledger b a y x hlt hy hx
    have hd' : y - x = -d := by linarith
    rw [hd', neg_neg] at this
    exact ⟨this.2, this.1⟩

theorem pairDiff_netPair (ledger : Ledger) (a' b' a b : UserId) (d : ℚ)
    (h : PairDiff ledger a b d) : PairDiff (netPair a' ledger b') a b d := by
  by_cases hlt : a' < b'
  · by_cases hpair : (a = a' ∧ b = b') ∨ (a = b' ∧ b = a')
    · exact pairDiff_of_pairNetted _ _ _ _ (pairNetted_netPair_same ledger a' b' a b d hlt hpair h)
    · obtain ⟨x, y, hx, hy, hd⟩ := h
      rw [not_or] at hpair
      refine ⟨x, y, ?_, ?_, hd⟩
      · rw [ledgerCell_netPair_other ledger a' b' a b hpair.1 hpair.2, hx]
      · rw [ledgerCell_netPair_other ledger a' b' b a (fun hh => hpair.2 ⟨hh.2, hh.1⟩)
          (fun hh => hpair.1 ⟨hh.2, hh.1⟩), hy]
  · unfold netPair
    rw [if_pos (Nat.not_lt.mp hlt)]
    exact h

theorem pairNetted_netPair (ledger : Ledger) (a' b' a b : UserId) (d : ℚ)
    (h : PairNetted ledger a b d) : PairNetted (netPair a' ledger b') a b d := by
  by_cases hlt : a' < b'
  · by_cases hpair : (a = a' ∧ b = b') ∨ (a = b' ∧ b = a')
    · exact pairNetted_netPair_same ledger a' b' a b d hlt hpair
        (pairDiff_of_pairNetted _ _ _ _ h)
    · rw [not_or] at hpair
      refine ⟨?_, ?_⟩
      · rw [ledgerCell_netPair_other ledger a' b' a b hpair.1 hpair.2, h.1]
      · rw [ledgerCell_netPair_other ledger a' b' b a (fun hh => hpair.2 ⟨hh.2, hh.1⟩)
          (fun hh => hpair.1 ⟨hh.2, hh.1⟩), h.2]
  · unfold netPair
    rw [if_pos (Nat.not_lt.mp hlt)]
    exact h

theorem foldl_preserve {σ α : Type} (f : σ → α → σ) (P : σ → Prop)
    (hP : ∀ z x, P z → P (f z x)) (l : List α) (init : σ) (h : P init) :
    P (l.foldl f init) := by
  induction l generalizing init with
  | nil => exact h
  | cons x l ih => exact ih _ (hP _ _ h)

/-- A property that one element of the list establishes and every step
preserves holds after the fold. -/
theorem foldl_establish {σ α : Type} (f : σ → α → σ) (P Q : σ → Prop)
    (hP : ∀ z x, P z → P (f z x)) (hQ : ∀ z x, Q z → Q (f z x))
    (x0 : α) (hx0 : ∀ z, P z → Q (f z x0)) (l : List α) (hmem : x0 ∈ l)
    (init : σ) (h : P init) : Q (l.foldl f init) := by
  induction l generalizing init with
  | nil => cases hmem
  | cons x l ih =>
    rw [List.foldl_cons]
    rcases List.mem_cons.mp hmem with rfl | hin
    · exact foldl_preserve f Q hQ l _ (hx0 _ h)
    · exact ih hin _ (hP _ _ h)

theorem rowsNodup_netPair (ledger : Ledger) (a b : UserId) (h : RowsNodup ledger) :
    RowsNodup (netPair a ledger b) := by
  unfold netPair
  split_ifs
  · exact h
  · split
    · simp only []
      split_ifs <;> exact rowsNodup_setLedgerCell _ _ _ _ (rowsNodup_setLedgerCell _ _ _ _ h)
    · exact rowsNodup_setLedgerCell _ _ _ _ (rowsNodup_setLedgerCell _ _ _ _ h)

theorem rowsNodup_netLedger (ids : List UserId) (ledger : Ledger) (h : RowsNodup ledger) :
    RowsNodup (netLedger ids ledger) := by
  unfold netLedger
  apply foldl_preserve _ RowsNodup _ _ _ h
  intro z a hz
  exact foldl_preserve _ RowsNodup (fun z b hz => rowsNodup_netPair z a b hz) _ _ hz

/-- After the netting loop every pair of distinct member ids is netted. -/
theorem pairNetted_netLedger (ids : List UserId) (ledger : Ledger) (a b : UserId) (d : ℚ)
    (ha : a ∈ ids) (hb : b ∈ ids) (hab : a ≠ b) (h : PairDiff ledger a b d) :
    PairNetted (netLedger ids ledger) a b d := by
  unfold netLedger
  have hPin : ∀ a' z, PairDiff z a b d → PairDiff (ids.foldl (netPair a') z) a b d :=
    fun a' z hz => foldl_preserve _ (fun z => PairDiff z a b d)
      (fun z b' hz => pairDiff_netPair z a' b' a b d hz) _ _ hz
  have hQin : ∀ a' z, PairNetted z a b d → PairNetted (ids.foldl (netPair a') z) a b d :=
    fun a' z hz => foldl_preserve _ (fun z => PairNetted z a b d)
      (fun z b' hz => pairNetted_netPair z a' b' a b d hz) _ _ hz
  rcases Nat.lt_or_gt_of_ne hab with hlt | hgt
  · refine foldl_establish _ (fun z => PairDiff z a b d) (fun z => PairNetted z a b d)
      (fun z a' hz => hPin a' z hz) (fun z a' hz => hQin a' z hz) a ?_ ids ha ledger h
    intro z hz
    exact foldl_establish (netPair a) (fun z => PairDiff z a b d) (fun z => PairNetted z a b d)
      (fun z b' hz => pairDiff_netPair z a b' a b d hz)
      (fun z b' hz => pairNetted_netPair z a b' a b d hz) b
      (fun z hz => pairNetted_netPair_same z a b a b d hlt (Or.inl ⟨rfl, rfl⟩) hz) ids hb z hz
  · refine foldl_establish _ (fun z => PairDiff z a b d) (fun z => PairNetted z a b d)
      (fun z a' hz => hPin a' z hz) (fun z a' hz => hQin a' z hz) b ?_ ids hb ledger h
    intro z hz
    exact foldl_establish (netPair b) (fun z => PairDiff z a b d) (fun z => PairNetted z a b d)
      (fun z b' hz => pairDiff_netPair z b b' a b d hz)
      (fun z b' hz => pairNetted_netPair z b b' a b d hz) a
      (fun z hz => pairNetted_netPair_same z b a a b d hgt (Or.inr ⟨rfl, rfl⟩) hz) ids ha z hz

/-! ### getGroupExpenses: the netted ledger and the specification's accumulation -/

theorem sum_flatMap_filter_map {α β : Type} (l : List α) (g : α → List β) (p : β → Bool)
    (f : β → ℚ) :
    (((l.flatMap g).filter p).map f).sum = (l.map (fun x => (((g x).filter p).map f).sum)).sum := by
  induction l with
  | nil => simp
  | cons x l ih =>
    rw [List.flatMap_cons, List.filter_append, List.map_append, List.sum_append, ih]
    simp

theorem sum_expenseGroupEvents (e : Expense) (a b : UserId) (hab : a ≠ b) :
    (((expenseGroupEvents e).filter (fun ev => ev.row == a && ev.col == b)).map
        (fun ev => ev.delta)).sum
      = if e.paidByUserId == b then unpaidShare a e else 0 := by
  unfold expenseGroupEvents unpaidShare
  generalize e.splits = l
  induction l with
  | nil => simp
  | cons s l ih =>
    by_cases hc : s.userId = e.paidByUserId ∨ s.paid = true
    · rw [List.filterMap_cons, if_pos hc, ih]
      by_cases hpb : e.paidByUserId = b
      · have hf : (s.userId == a && !s.paid) = false := by
          rcases hc with h | h
          · have : ¬ s.userId = a := by rw [h, hpb]; exact Ne.symm hab
            simp [this]
          · simp [h]
        simp [hpb, List.filter_cons, hf]
      · simp [hpb]
    · rw [List.filterMap_cons, if_neg hc]
      rw [not_or] at hc
      have hpaid : s.paid = false := by simpa using hc.2
      simp only [List.filter_cons]
      by_cases hpb : e.paidByUserId = b
      · by_cases hsa : s.userId = a
        · have h1 : (s.userId == a && e.paidByUserId == b) = true := by simp [hsa, hpb]
          have h2 : (s.userId == a && !s.paid) = true := by simp [hsa, hpaid]
          rw [if_pos h1, if_pos h2, List.map_cons, List.sum_cons, ih]
          simp [hpb]
        · have h1 : (s.userId == a && e.paidByUserId == b) = false := by simp [hsa]
          have h2 : (s.userId == a && !s.paid) = false := by simp [hsa]
          simp only [h1, h2, Bool.false_eq_true, if_false, ih]
      · have h1 : (s.userId == a && e.paidByUserId == b) = false := by simp [hpb]
        simp only [h1, Bool.false_eq_true, if_false, ih]
        simp [hpb]

theorem sum_settlementGroupEvents (l : List Settlement) (a b : UserId) :
    (((l.map settlementGroupEvent).filter (fun ev => ev.row == a && ev.col == b)).map
        (fun ev => ev.delta)).sum
      = - ((l.filter (fun s => s.paidByUserId == a && s.receivedByUserId == b)).map
          (fun s => s.amount)).sum := by
  induction l with
  | nil => simp
  | cons s l ih =>
    by_cases hc : (s.paidByUserId == a && s.receivedByUserId == b) = true
    · simp only [List.map_cons, List.filter_cons, settlementGroupEvent, hc, if_true,
        List.sum_cons]
      simp only [settlementGroupEvent] at ih
      rw [ih]
      ring
    · have hc' : (s.paidByUserId == a && s.receivedByUserId == b) = false := by simpa using hc
      simp only [List.map_cons, List.filter_cons, settlementGroupEvent, hc',
        Bool.false_eq_true, if_false]
      simp only [settlementGroupEvent] at ih
      rw [ih]

/-- The deltas of the events of the cell `(a, b)` add up to the directional
accumulation of the specification. -/
theorem sum_groupEvents_eq_specRawOwes (groupId : GroupId) (st : Store) (a b : UserId)
    (hab : a ≠ b) :
    (((groupEvents groupId st).filter (fun ev => ev.row == a && ev.col == b)).map
        (fun ev => ev.delta)).sum
      = specRawOwes groupId st a b := by
  unfold groupEvents specRawOwes
  rw [List.filter_append, List.map_append, List.sum_append, sum_flatMap_filter_map,
    sum_settlementGroupEvents, List.filter_filter]
  have h1 : ((st.expenses.filter (fun e => e.groupId == some groupId)).map (fun x =>
        (((expenseGroupEvents x).filter (fun ev => ev.row == a && ev.col == b)).map
          (fun ev => ev.delta)).sum)).sum
      = ((st.expenses.filter (fun e => e.groupId == some groupId && e.paidByUserId == b)).map
          (unpaidShare a)).sum := by
    rw [List.map_congr_left (fun e _ => sum_expenseGroupEvents e a b hab),
      ← sum_filter_map, List.filter_filter]
    congr 2
    apply List.filter_congr
    intro e _
    rw [Bool.and_comm]
  have h2 : st.settlements.filter (fun s =>
        (s.paidByUserId == a && s.receivedByUserId == b) && s.groupId == some groupId)
      = st.settlements.filter (fun s =>
        s.groupId == some groupId && s.paidByUserId == a && s.receivedByUserId == b) := by
    apply List.filter_congr
    intro s _
    rw [Bool.and_comm, Bool.and_assoc]
  rw [h1, h2]
  ring

/-- The shape of a successful `getGroupExpenses`. -/
theorem getGroupExpenses_inv (identity : Option String) (groupId : GroupId) (st : Store)
    (r : GroupExpenses) (h : getGroupExpenses identity groupId st = .ok r) :
    ∃ currentUser group totals ledger,
      getCurrentUser identity st = .ok currentUser
      ∧ st.groups.find? (fun g => g._id == groupId) = some group
      ∧ group.members.any (fun m => m.userId == currentUser._id) = true
      ∧ memberDetailsOf st group.members = .ok r.members
      ∧ (groupEvents groupId st).foldl applyGroupEvent
          (.ok (initTotals (r.members.map (fun m => m.id)),
            initLedger (r.members.map (fun m => m.id)))) = .ok (totals, ledger)
      ∧ r.expenses = st.expenses.filter (fun e => e.groupId == some groupId)
      ∧ r.settlements = st.settlements.filter (fun s => s.groupId == some groupId)
      ∧ r.group = { id := group._id, name := group.name, description := group.description }
      ∧ r.balances = r.members.map (memberBalance (r.members.map (fun m => m.id)) totals
          (netLedger (r.members.map (fun m => m.id)) ledger)) := by
  unfold getGroupExpenses at h
  cases hu : getCurrentUser identity st with
  | error e => rw [hu] at h; cases h
  | ok currentUser =>
    rw [hu] at h
    simp only [] at h
    cases hg : st.groups.find? (fun g => g._id == groupId) with
    | none => rw [hg] at h; cases h
    | some group =>
      rw [hg] at h
      simp only [] at h
      by_cases hm : (!group.members.any (fun m => m.userId == currentUser._id)) = true
      · rw [if_pos hm] at h; cases h
      · rw [if_neg hm] at h
        cases hd : memberDetailsOf st group.members with
        | error e => rw [hd] at h; cases h
        | ok memberDetails =>
          rw [hd] at h
          simp only [foldl_groupApply] at h
          cases hacc : (groupEvents groupId st).foldl applyGroupEvent
              (.ok (initTotals (memberDetails.map (fun m => m.id)),
                initLedger (memberDetails.map (fun m => m.id)))) with
          | error e => rw [hacc] at h; cases h
          | ok p =>
            obtain ⟨totals, ledger⟩ := p
            rw [hacc] at h
            simp only [Except.ok.injEq] at h
            subst h
            exact ⟨currentUser, group, totals, ledger, rfl, rfl, by simpa using hm, hd, hacc,
              rfl, rfl, rfl, rfl⟩

/-- The netted ledger of a successful `getGroupExpenses`: for distinct member
ids the cell `(a, b)` holds the positive part of `raw[a][b] - raw[b][a]`. -/
theorem getGroupExpenses_cells (identity : Option String) (groupId : GroupId) (st : Store)
    (r : GroupExpenses) (h : getGroupExpenses identity groupId st = .ok r) :
    ∃ totals ledger,
      r.balances = r.members.map (memberBalance (r.members.map (fun m => m.id)) totals ledger)
      ∧ RowsNodup ledger
      ∧ ∀ a ∈ r.members.map (fun m => m.id), ∀ b ∈ r.members.map (fun m => m.id), a ≠ b →
          ledgerCell ledger a b
            = some (max (specRawOwes groupId st a b - specRawOwes groupId st b a) 0) := by
  obtain ⟨_, _, totals, ledger, _, _, _, _, hacc, _, _, _, hbal⟩ :=
    getGroupExpenses_inv identity groupId st r h
  refine ⟨totals, _, hbal, ?_, ?_⟩
  · exact rowsNodup_netLedger _ _
      (rowsNodup_foldl_applyGroupEvent _ _ _ _ _ (rowsNodup_initLedger _) hacc)
  · intro a ha b hb hab
    have hcell : ∀ p q, p ∈ r.members.map (fun m => m.id) → q ∈ r.members.map (fun m => m.id) →
        p ≠ q → ledgerCell ledger p q = some (specRawOwes groupId st p q) := by
      intro p q hp hq hpq
      rw [ledgerCell_foldl_applyGroupEvent _ _ _ _ _ p q hacc,
        ledgerCell_initLedger _ p q hp hq hpq, sum_groupEvents_eq_specRawOwes groupId st p q hpq]
      simp
    exact (pairNetted_netLedger _ ledger a b _ ha hb hab
      ⟨_, _, hcell a b ha hb hab, hcell b a hb ha (Ne.symm hab), rfl⟩).1

theorem mem_owes_iff (ids : List UserId) (totals : Totals) (ledger : Ledger) (m : MemberDetail)
    (hnd : RowsNodup ledger) (b : UserId) (x : ℚ) :
    ({ to_ := b, amount := x } : OwesEntry) ∈ (memberBalance ids totals ledger m).owes
      ↔ ledgerCell ledger m.id b = some x ∧ x > 0 := by
  unfold memberBalance ledgerCell
  simp only [List.mem_filterMap]
  cases hrow : objGet ledger m.id with
  | none => simp
  | some row =>
    have hrn := hnd m.id row hrow
    simp only [Option.getD_some, Option.some_bind]
    constructor
    · rintro ⟨⟨k, v⟩, hmem, hsome⟩
      cases v with
      | none => simp at hsome
      | some v =>
        simp only [] at hsome
        by_cases hv : v > 0
        · rw [if_pos hv] at hsome
          simp only [Option.some.injEq, OwesEntry.mk.injEq] at hsome
          obtain ⟨rfl, rfl⟩ := hsome
          rw [(mem_iff_objGet row hrn k (some v)).mp hmem]
          exact ⟨rfl, hv⟩
        · rw [if_neg hv] at hsome
          cases hsome
    · rintro ⟨hcell, hx⟩
      refine ⟨(b, some x), ?_, by simp [hx]⟩
      rw [mem_iff_objGet row hrn]
      cases hget : objGet row b with
      | none => rw [hget] at hcell; cases hcell
      | some v =>
        rw [hget] at hcell
        cases v with
        | none => cases hcell
        | some v =>
          simp only [Option.join, Option.some_bind] at hcell
          cases hcell
          rfl

theorem mem_owedBy_iff (ids : List UserId) (totals : Totals) (ledger : Ledger)
    (m : MemberDetail) (a : UserId) (x : ℚ) :
    ({ from_ := a, amount := x } : OwedByEntry) ∈ (memberBalance ids totals ledger m).owedBy
      ↔ a ∈ ids ∧ ledgerCell ledger a m.id = some x ∧ x > 0 := by
  unfold memberBalance
  simp only [List.mem_filterMap]
  constructor
  · rintro ⟨other, hmem, hsome⟩
    cases hc : ledgerCell ledger other m.id with
    | none => rw [hc] at hsome; cases hsome
    | some v =>
      rw [hc] at hsome
      simp only [] at hsome
      by_cases hv : v > 0
      · rw [if_pos hv] at hsome
        simp only [Option.some.injEq, OwedByEntry.mk.injEq] at hsome
        obtain ⟨rfl, rfl⟩ := hsome
        exact ⟨hmem, hc, hv⟩
      · rw [if_neg hv] at hsome
        cases hsome
  · rintro ⟨hmem, hc, hx⟩
    exact ⟨a, hmem, by simp [hc, hx]⟩

theorem except_ok_of_toBool {ε α : Type} (x : Except ε α) (h : x.toBool = true) :
    ∃ r, x = .ok r := by
  cases x with
  | error e => cases h
  | ok r => exact ⟨r, rfl⟩

/-! ### Paid splits -/

theorem map_modifyAt {α β : Type} (f : α → α) (g : α → β) (n : Nat) (l : List α)
    (h : ∀ a, l[n]? = some a → g (f a) = g a) : (modifyAt f n l).map g = l.map g := by
  induction l generalizing n with
  | nil => cases n <;> rfl
  | cons x xs ih =>
    cases n with
    | zero =>
      simp only [modifyAt, List.map_cons]
      rw [h x (by simp)]
    | succ n =>
      simp only [modifyAt, List.map_cons]
      rw [ih n (fun a ha => h a (by simpa using ha))]

theorem forgetPaidStore_replaceSplitAmount (i j : Nat) (x : ℚ) (st : Store)
    (hpaid : ∀ e s, st.expenses[i]? = some e → e.splits[j]? = some s → s.paid = true) :
    forgetPaidStore (replaceSplitAmount i j x st) = forgetPaidStore st := by
  unfold forgetPaidStore replaceSplitAmount
  simp only []
  congr 1
  apply map_modifyAt
  intro e he
  unfold forgetPaid setSplitAmount
  simp only []
  congr 1
  apply map_modifyAt
  intro s hs
  have hp := hpaid e s he hs
  simp [forgetPaidSplit, hp]

theorem find?_map_forgetPaidSplit (p : Split → Bool) (l : List Split)
    (hp : ∀ s, p (forgetPaidSplit s) = p s) :
    (l.map forgetPaidSplit).find? p = (l.find? p).map forgetPaidSplit := by
  have hpg : p ∘ forgetPaidSplit = p := funext hp
  rw [List.find?_map, hpg]

theorem forgetPaidSplit_userId (s : Split) : (forgetPaidSplit s).userId = s.userId := by
  unfold forgetPaidSplit
  split_ifs <;> rfl

theorem forgetPaidSplit_paid (s : Split) : (forgetPaidSplit s).paid = s.paid := by
  unfold forgetPaidSplit
  split_ifs <;> rfl

theorem forgetPaidSplit_of_unpaid (s : Split) (h : s.paid = false) : forgetPaidSplit s = s := by
  unfold forgetPaidSplit
  simp [h]

theorem forgetPaid_paidByUserId (e : Expense) : (forgetPaid e).paidByUserId = e.paidByUserId :=
  rfl

theorem forgetPaid_date (e : Expense) : (forgetPaid e).date = e.date := rfl

theorem forgetPaid_groupId (e : Expense) : (forgetPaid e).groupId = e.groupId := rfl

theorem any_userId_forgetPaid (e : Expense) (u : UserId) :
    (forgetPaid e).splits.any (fun s => s.userId == u) = e.splits.any (fun s => s.userId == u) := by
  unfold forgetPaid
  simp only [List.any_map]
  congr 1
  funext s
  simp [forgetPaidSplit_userId]

/-- The first unpaid split of a user is not changed by forgetting the paid
amounts. -/
theorem find?_unpaid_forgetPaid (e : Expense) (u : UserId) :
    (forgetPaid e).splits.find? (fun s => s.userId == u && !s.paid)
      = e.splits.find? (fun s => s.userId == u && !s.paid) := by
  unfold forgetPaid
  simp only []
  rw [find?_map_forgetPaidSplit _ _
    (fun s => by simp [forgetPaidSplit_userId, forgetPaidSplit_paid])]
  cases hf : e.splits.find? (fun s => s.userId == u && !s.paid) with
  | none => rfl
  | some s =>
    have hp := List.find?_some hf
    simp only [Bool.and_eq_true, Bool.not_eq_true', beq_iff_eq] at hp
    simp [forgetPaidSplit_of_unpaid s hp.2]

/-- A fold over the filtered expenses does not see the forgotten amounts when
neither the filter nor the step does. -/
theorem foldl_filter_forgetPaid {σ : Type} (f : σ → Expense → σ) (p : Expense → Bool)
    (hp : ∀ e, p (forgetPaid e) = p e) (hf : ∀ z e, f z (forgetPaid e) = f z e)
    (l : List Expense) (init : σ) :
    ((l.map forgetPaid).filter p).foldl f init = (l.filter p).foldl f init := by
  induction l generalizing init with
  | nil => rfl
  | cons e l ih =>
    simp only [List.map_cons, List.filter_cons, hp]
    by_cases hpe : p e = true
    · simp only [hpe, if_true, List.foldl_cons, hf, ih]
    · simp only [hpe, Bool.false_eq_true, if_false, ih]

theorem pairApplyExpense_forgetPaid (me u : UserId) (balance : ℚ) (e : Expense) :
    pairApplyExpense me u balance (forgetPaid e) = pairApplyExpense me u balance e := by
  unfold pairApplyExpense
  rw [find?_unpaid_forgetPaid, find?_unpaid_forgetPaid]
  rfl

theorem bothInvolved_forgetPaid (me u : UserId) (e : Expense) :
    bothInvolved me u (forgetPaid e) = bothInvolved me u e := by
  unfold bothInvolved
  simp only [any_userId_forgetPaid]
  rfl

theorem balancesApplyExpense_forgetPaid (u : UserId) (vars : BalanceVars) (e : Expense) :
    balancesApplyExpense u vars (forgetPaid e) = balancesApplyExpense u vars e := by
  unfold balancesApplyExpense
  by_cases hp : e.paidByUserId = u
  · have hp' : (forgetPaid e).paidByUserId = u := hp
    simp only [hp, hp', if_true]
    unfold forgetPaid
    simp only [List.foldl_map]
    congr 1
    funext vars s
    unfold balancesApplyPayerSplit
    rw [forgetPaidSplit_userId, forgetPaidSplit_paid]
    by_cases hc : s.userId = u ∨ s.paid = true
    · rw [if_pos hc, if_pos hc]
    · rw [if_neg hc, if_neg hc]
      rw [not_or] at hc
      rw [forgetPaidSplit_of_unpaid s (by simpa using hc.2)]
  · have hp' : ¬ (forgetPaid e).paidByUserId = u := hp
    simp only [hp, hp', if_false]
    unfold forgetPaid
    simp only []
    rw [find?_map_forgetPaidSplit _ _ (fun s => by simp [forgetPaidSplit_userId])]
    cases e.splits.find? (fun s => s.userId == u) with
    | none => rfl
    | some s =>
      simp only [Option.map_some', forgetPaidSplit_paid]
      by_cases hpaid : s.paid = true
      · simp [hpaid]
      · rw [forgetPaidSplit_of_unpaid s (by simpa using hpaid)]

theorem groupApplyExpense_forgetPaid (acc : Except String (Totals × Ledger)) (e : Expense) :
    groupApplyExpense acc (forgetPaid e) = groupApplyExpense acc e := by
  unfold groupApplyExpense forgetPaid
  simp only [List.foldl_map]
  congr 1
  funext acc s
  unfold groupApplySplit
  cases acc with
  | error e => rfl
  | ok p =>
    obtain ⟨totals, ledger⟩ := p
    simp only [forgetPaidSplit_userId, forgetPaidSplit_paid]
    by_cases hc : s.userId = e.paidByUserId ∨ s.paid = true
    · rw [if_pos hc, if_pos hc]
    · rw [if_neg hc, if_neg hc]
      rw [not_or] at hc
      rw [forgetPaidSplit_of_unpaid s (by simpa using hc.2)]

theorem userGroupApplyExpense_forgetPaid (u : UserId) (balance : ℚ) (e : Expense) :
    userGroupApplyExpense u balance (forgetPaid e) = userGroupApplyExpense u balance e := by
  unfold userGroupApplyExpense
  by_cases hp : e.paidByUserId = u
  · have hp' : (forgetPaid e).paidByUserId = u := hp
    simp only [hp, hp', if_true]
    unfold forgetPaid
    simp only [List.foldl_map]
    congr 1
    funext balance s
    unfold userGroupApplyPayerSplit
    rw [forgetPaidSplit_userId, forgetPaidSplit_paid]
    by_cases hc : s.userId ≠ u ∧ s.paid = false
    · rw [if_pos hc, if_pos hc, forgetPaidSplit_of_unpaid s hc.2]
    · rw [if_neg hc, if_neg hc]
  · have hp' : ¬ (forgetPaid e).paidByUserId = u := hp
    simp only [hp, hp', if_false]
    unfold forgetPaid
    simp only []
    rw [find?_map_forgetPaidSplit _ _ (fun s => by simp [forgetPaidSplit_userId])]
    cases e.splits.find? (fun s => s.userId == u) with
    | none => rfl
    | some s =>
      simp only [Option.map_some', forgetPaidSplit_paid]
      by_cases hpaid : s.paid = true
      · simp [hpaid]
      · rw [forgetPaidSplit_of_unpaid s (by simpa using hpaid)]

theorem debtsApplyExpense_forgetPaid (u : UserId) (ledger : List (UserId × DebtEntry))
    (e : Expense) :
    debtsApplyExpense u ledger (forgetPaid e) = debtsApplyExpense u ledger e := by
  unfold debtsApplyExpense
  rw [find?_unpaid_forgetPaid, forgetPaid_paidByUserId, forgetPaid_date]
  by_cases hp : e.paidByUserId ≠ u
  · rw [if_pos hp, if_pos hp]
  · rw [if_neg hp, if_neg hp]
    unfold forgetPaid
    simp only [List.foldl_map]
    congr 1
    funext ledger s
    unfold debtsApplyPayerSplit
    rw [forgetPaidSplit_userId, forgetPaidSplit_paid]
    by_cases hc : s.userId = u ∨ s.paid = true
    · rw [if_pos hc, if_pos hc]
    · rw [if_neg hc, if_neg hc]
      rw [not_or] at hc
      rw [forgetPaidSplit_of_unpaid s (by simpa using hc.2)]

theorem filter_map_forgetPaid (p : Expense → Bool) (hp : ∀ e, p (forgetPaid e) = p e)
    (l : List Expense) : (l.map forgetPaid).filter p = (l.filter p).map forgetPaid := by
  have hpg : p ∘ forgetPaid = p := funext hp
  rw [List.filter_map, hpg]

theorem sortExpensesByDateDesc_map_forgetPaid (l : List Expense) :
    sortExpensesByDateDesc (l.map forgetPaid) = (sortExpensesByDateDesc l).map forgetPaid := by
  unfold sortExpensesByDateDesc
  exact (List.map_insertionSort (fun a b : Expense => b.date ≤ a.date)
    (fun a b : Expense => b.date ≤ a.date) forgetPaid l (fun a _ b _ => Iff.rfl)).symm

theorem getExpensesBetweenUsers_forgetPaid (identity : Option String) (userId : UserId)
    (st : Store) :
    (getExpensesBetweenUsers identity userId (forgetPaidStore st)).map (fun r => r.balance)
      = (getExpensesBetweenUsers identity userId st).map (fun r => r.balance) := by
  unfold getExpensesBetweenUsers
  have hu : getCurrentUser identity (forgetPaidStore st) = getCurrentUser identity st := rfl
  rw [hu]
  cases getCurrentUser identity st with
  | error e => rfl
  | ok me =>
    simp only []
    by_cases hme : me._id = userId
    · rw [if_pos hme, if_pos hme]
    · rw [if_neg hme, if_neg hme]
      have hbal : (sortExpensesByDateDesc
            (((forgetPaidStore st).expenses.filter
                (fun e => e.paidByUserId == me._id && e.groupId.isNone)
              ++ (forgetPaidStore st).expenses.filter
                (fun e => e.paidByUserId == userId && e.groupId.isNone)).filter
              (bothInvolved me._id userId))).foldl (pairApplyExpense me._id userId) 0
          = (sortExpensesByDateDesc
            ((st.expenses.filter (fun e => e.paidByUserId == me._id && e.groupId.isNone)
              ++ st.expenses.filter (fun e => e.paidByUserId == userId && e.groupId.isNone)).filter
              (bothInvolved me._id userId))).foldl (pairApplyExpense me._id userId) 0 := by
        simp only [forgetPaidStore]
        rw [filter_map_forgetPaid (fun e => e.paidByUserId == me._id && e.groupId.isNone)
            (fun e => rfl),
          filter_map_forgetPaid (fun e => e.paidByUserId == userId && e.groupId.isNone)
            (fun e => rfl),
          ← List.map_append, filter_map_forgetPaid _ (bothInvolved_forgetPaid me._id userId),
          sortExpensesByDateDesc_map_forgetPaid, List.foldl_map]
        congr 1
        funext b e
        exact pairApplyExpense_forgetPaid me._id userId b e
      have hs : (forgetPaidStore st).settlements = st.settlements := rfl
      have hus : (forgetPaidStore st).users = st.users := rfl
      simp only [hbal, hs, hus]
      cases st.users.find? (fun u => u._id == userId) <;> rfl

theorem getUserBalances_forgetPaid (identity : Option String) (st : Store) :
    getUserBalances identity (forgetPaidStore st) = getUserBalances identity st := by
  unfold getUserBalances
  have hu : getCurrentUser identity (forgetPaidStore st) = getCurrentUser identity st := rfl
  rw [hu]
  cases getCurrentUser identity st with
  | error e => rfl
  | ok user =>
    simp only []
    have hfold : ((forgetPaidStore st).expenses.filter (fun e =>
          e.groupId.isNone &&
            (e.paidByUserId == user._id || e.splits.any (fun s => s.userId == user._id)))).foldl
          (balancesApplyExpense user._id) { youOwe := 0, youAreOwed := 0, balanceByUser := [] }
        = (st.expenses.filter (fun e =>
          e.groupId.isNone &&
            (e.paidByUserId == user._id || e.splits.any (fun s => s.userId == user._id)))).foldl
          (balancesApplyExpense user._id) { youOwe := 0, youAreOwed := 0, balanceByUser := [] } :=
      foldl_filter_forgetPaid _ _
        (fun e => by
          simp only [any_userId_forgetPaid, forgetPaid_paidByUserId, forgetPaid_groupId])
        (balancesApplyExpense_forgetPaid user._id) _ _
    have hs : (forgetPaidStore st).settlements = st.settlements := rfl
    have hpush : pushOweEntry (forgetPaidStore st) = pushOweEntry st := rfl
    rw [hfold, hs, hpush]

theorem getGroupExpenses_forgetPaid (identity : Option String) (groupId : GroupId)
    (st : Store) :
    (getGroupExpenses identity groupId (forgetPaidStore st)).map (fun r => r.balances)
      = (getGroupExpenses identity groupId st).map (fun r => r.balances) := by
  unfold getGroupExpenses
  have hu : getCurrentUser identity (forgetPaidStore st) = getCurrentUser identity st := rfl
  have hg : (forgetPaidStore st).groups = st.groups := rfl
  have hs : (forgetPaidStore st).settlements = st.settlements := rfl
  have hmd : ∀ members, memberDetailsOf (forgetPaidStore st) members = memberDetailsOf st members :=
    fun members => memberDetailsOf_congr (forgetPaidStore st) st rfl members
  have hfold : ∀ acc, ((forgetPaidStore st).expenses.filter (fun e =>
        e.groupId == some groupId)).foldl groupApplyExpense acc
      = (st.expenses.filter (fun e => e.groupId == some groupId)).foldl groupApplyExpense acc :=
    fun acc => foldl_filter_forgetPaid groupApplyExpense (fun e => e.groupId == some groupId)
      (fun e => rfl) groupApplyExpense_forgetPaid _ _
  rw [hu, hg, hs]
  cases getCurrentUser identity st with
  | error e => rfl
  | ok currentUser =>
    simp only []
    cases st.groups.find? (fun g => g._id == groupId) with
    | none => rfl
    | some group =>
      simp only []
      by_cases hm : (!group.members.any (fun m => m.userId == currentUser._id)) = true
      · simp only [hm, if_true]
      · simp only [hm, hmd, hfold]
        cases memberDetailsOf st group.members with
        | error e => rfl
        | ok memberDetails =>
          simp only []
          cases (st.settlements.filter (fun s => s.groupId == some groupId)).foldl
              groupApplySettlement
              ((st.expenses.filter (fun e => e.groupId == some groupId)).foldl groupApplyExpense
                (.ok (initTotals (memberDetails.map (fun m => m.id)),
                  initLedger (memberDetails.map (fun m => m.id))))) with
          | error e => rfl
          | ok p => rfl

theorem userGroupBalance_forgetPaid (userId : UserId) (st : Store) (group : Group) :
    userGroupBalance userId (forgetPaidStore st) group = userGroupBalance userId st group := by
  unfold userGroupBalance
  have hs : (forgetPaidStore st).settlements = st.settlements := rfl
  have hfold : ((forgetPaidStore st).expenses.filter (fun e =>
        e.groupId == some group._id)).foldl (userGroupApplyExpense userId) 0
      = (st.expenses.filter (fun e => e.groupId == some group._id)).foldl
          (userGroupApplyExpense userId) 0 :=
    foldl_filter_forgetPaid (userGroupApplyExpense userId) (fun e => e.groupId == some group._id)
      (fun e => rfl) (userGroupApplyExpense_forgetPaid userId) _ _
  simp only [hs, hfold]

theorem getUserGroups_forgetPaid (identity : Option String) (st : Store) :
    getUserGroups identity (forgetPaidStore st) = getUserGroups identity st := by
  unfold getUserGroups
  have hu : getCurrentUser identity (forgetPaidStore st) = getCurrentUser identity st := rfl
  have hg : (forgetPaidStore st).groups = st.groups := rfl
  rw [hu, hg]
  simp only [userGroupBalance_forgetPaid]

theorem getUsersWithOutstandingDebts_forgetPaid (st : Store) :
    getUsersWithOutstandingDebts (forgetPaidStore st) = getUsersWithOutstandingDebts st := by
  unfold getUsersWithOutstandingDebts debtsOf
  have hu : (forgetPaidStore st).users = st.users := rfl
  have hs : (forgetPaidStore st).settlements = st.settlements := rfl
  have hfold : ∀ uid, ((forgetPaidStore st).expenses.filter (fun e => e.groupId.isNone)).foldl
        (debtsApplyExpense uid) []
      = (st.expenses.filter (fun e => e.groupId.isNone)).foldl (debtsApplyExpense uid) [] :=
    fun uid => foldl_filter_forgetPaid (debtsApplyExpense uid) (fun e => e.groupId.isNone)
      (fun e => rfl) (debtsApplyExpense_forgetPaid uid) _ _
  simp only [hu, hs, hfold]

/-- C14: a split marked paid never contributes to a debt balance. Replacing
the amount of split `j` of expense `i`, a split marked paid, by any number `x`
changes neither the balance of `getExpensesBetweenUsers`, nor the result of
`getUserBalances`, nor the balances of `getGroupExpenses`, nor the result of
`getUserGroups`, nor the result of `getUsersWithOutstandingDebts`, for any
caller. -/
theorem paid_split_amount_irrelevant (i j : Nat) (x : ℚ) (st : Store)
    (hpaid : ∀ e s, st.expenses[i]? = some e → e.splits[j]? = some s → s.paid = true) :
    (∀ identity userId,
      (getExpensesBetweenUsers identity userId (replaceSplitAmount i j x st)).map
          (fun r => r.balance)
        = (getExpensesBetweenUsers identity userId st).map (fun r => r.balance))
    ∧ (∀ identity,
        getUserBalances identity (replaceSplitAmount i j x st) = getUserBalances identity st)
    ∧ (∀ identity groupId,
        (getGroupExpenses identity groupId (replaceSplitAmount i j x st)).map (fun r => r.balances)
          = (getGroupExpenses identity groupId st).map (fun r => r.balances))
    ∧ (∀ identity,
        getUserGroups identity (replaceSplitAmount i j x st) = getUserGroups identity st)
    ∧ getUsersWithOutstandingDebts (replaceSplitAmount i j x st)
        = getUsersWithOutstandingDebts st := by
  have hst := forgetPaidStore_replaceSplitAmount i j x st hpaid
  refine ⟨?_, ?_, ?_, ?_, ?_⟩
  · intro identity userId
    rw [← getExpensesBetweenUsers_forgetPaid identity userId (replaceSplitAmount i j x st), hst,
      getExpensesBetweenUsers_forgetPaid]
  · intro identity
    rw [← getUserBalances_forgetPaid identity (replaceSplitAmount i j x st), hst,
      getUserBalances_forgetPaid]
  · intro identity groupId
    rw [← getGroupExpenses_forgetPaid identity groupId (replaceSplitAmount i j x st), hst,
      getGroupExpenses_forgetPaid]
  · intro identity
    rw [← getUserGroups_forgetPaid identity (replaceSplitAmount i j x st), hst,
      getUserGroups_forgetPaid]
  · rw [← getUsersWithOutstandingDebts_forgetPaid (replaceSplitAmount i j x st), hst,
      getUsersWithOutstandingDebts_forgetPaid]

theorem paid_split_amount_irrelevant_witness :
    (replaceSplitAmount 0 0 999 scenario3).expenses.map (fun e => e.splits.map (fun s => s.amount))
        = [[999, 10, 10], [10, 10, 10]]
    ∧ (getExpensesBetweenUsers (some "token-a") 2 (replaceSplitAmount 0 0 999 scenario3)).map
          (fun r => r.balance)
        = (getExpensesBetweenUsers (some "token-a") 2 scenario3).map (fun r => r.balance)
    ∧ getUserBalances (some "token-a") (replaceSplitAmount 0 0 999 scenario3)
        = getUserBalances (some "token-a") scenario3
    ∧ (getGroupExpenses (some "token-a") 7 (replaceSplitAmount 0 0 999 scenario3)).map
          (fun r => r.balances)
        = (getGroupExpenses (some "token-a") 7 scenario3).map (fun r => r.balances)
    ∧ getUserGroups (some "token-a") (replaceSplitAmount 0 0 999 scenario3)
        = getUserGroups (some "token-a") scenario3
    ∧ getUsersWithOutstandingDebts (replaceSplitAmount 0 0 999 scenario3)
        = getUsersWithOutstandingDebts scenario3 :=
  have h := paid_split_amount_irrelevant 0 0 999 scenario3
    (fun e s he hs => by
      simp only [scenario3, List.getElem?_cons_zero, Option.some.injEq] at he
      subst he
      simp only [fuel, List.getElem?_cons_zero, Option.some.injEq] at hs
      subst hs
      rfl)
  ⟨by decide!, h.1 _ _, h.2.1 _, h.2.2.1 _ _, h.2.2.2.1 _, h.2.2.2.2⟩

/-! ### Group records and 1-to-1 records -/

theorem filter_append_singleton_of_false {α : Type} (p : α → Bool) (l : List α) (x : α)
    (h : p x = false) : (l ++ [x]).filter p = l.filter p := by
  rw [List.filter_append, List.filter_cons, h]
  simp

/-- C15: group records and 1-to-1 records never net against each other.
Inserting an expense or a settlement whose `groupId` is set changes neither
the result of `getExpensesBetweenUsers`, nor the result of `getUserBalances`,
nor the result of `getUsersWithOutstandingDebts`; inserting an expense or a
settlement whose `groupId` is absent or another group changes nothing in the
result of `getGroupExpenses` for the group `G`. -/
theorem group_and_pairwise_records_separate (st : Store) :
    (∀ e : Expense, e.groupId ≠ none →
      (∀ identity userId, getExpensesBetweenUsers identity userId (insertExpense e st)
          = getExpensesBetweenUsers identity userId st)
      ∧ (∀ identity, getUserBalances identity (insertExpense e st) = getUserBalances identity st)
      ∧ getUsersWithOutstandingDebts (insertExpense e st) = getUsersWithOutstandingDebts st)
    ∧ (∀ s : Settlement, s.groupId ≠ none →
      (∀ identity userId, getExpensesBetweenUsers identity userId (insertSettlement s st)
          = getExpensesBetweenUsers identity userId st)
      ∧ (∀ identity,
          getUserBalances identity (insertSettlement s st) = getUserBalances identity st)
      ∧ getUsersWithOutstandingDebts (insertSettlement s st) = getUsersWithOutstandingDebts st)
    ∧ (∀ (e : Expense) (G : GroupId), e.groupId ≠ some G →
      ∀ identity, getGroupExpenses identity G (insertExpense e st)
        = getGroupExpenses identity G st)
    ∧ (∀ (s : Settlement) (G : GroupId), s.groupId ≠ some G →
      ∀ identity, getGroupExpenses identity G (insertSettlement s st)
        = getGroupExpenses identity G st) := by
  refine ⟨?_, ?_, ?_, ?_⟩
  · intro e he
    have hnone : e.groupId.isNone = false := by
      cases hg : e.groupId with
      | none => exact absurd hg he
      | some g => rfl
    have f1 : ∀ (u : UserId) (l : List Expense),
        (l ++ [e]).filter (fun x => x.paidByUserId == u && x.groupId.isNone)
          = l.filter (fun x => x.paidByUserId == u && x.groupId.isNone) :=
      fun u l => filter_append_singleton_of_false _ l e (by rw [hnone, Bool.and_false])
    have f2 : ∀ (u : UserId) (l : List Expense),
        (l ++ [e]).filter (fun x => x.groupId.isNone &&
            (x.paidByUserId == u || x.splits.any (fun s => s.userId == u)))
          = l.filter (fun x => x.groupId.isNone &&
            (x.paidByUserId == u || x.splits.any (fun s => s.userId == u))) :=
      fun u l => filter_append_singleton_of_false _ l e (by rw [hnone, Bool.false_and])
    have f3 : ∀ l : List Expense, (l ++ [e]).filter (fun x => x.groupId.isNone)
        = l.filter (fun x => x.groupId.isNone) :=
      fun l => filter_append_singleton_of_false _ l e hnone
    refine ⟨?_, ?_, ?_⟩
    · intro identity userId
      unfold getExpensesBetweenUsers insertExpense
      simp only [getCurrentUser, f1]
      try rfl
    · intro identity
      unfold getUserBalances insertExpense
      simp only [getCurrentUser, f2]
      try rfl
    · unfold getUsersWithOutstandingDebts insertExpense
      simp only [f3]
      try rfl
  · intro s hs
    have hnone : s.groupId.isNone = false := by
      cases hg : s.groupId with
      | none => exact absurd hg hs
      | some g => rfl
    have f1 : ∀ (a b : UserId) (l : List Settlement),
        (l ++ [s]).filter (settlementBetween a b) = l.filter (settlementBetween a b) :=
      fun a b l => filter_append_singleton_of_false _ l s
        (by unfold settlementBetween; rw [hnone, Bool.false_and])
    have f2 : ∀ (u : UserId) (l : List Settlement),
        (l ++ [s]).filter (fun x => x.groupId.isNone &&
            (x.paidByUserId == u || x.receivedByUserId == u))
          = l.filter (fun x => x.groupId.isNone &&
            (x.paidByUserId == u || x.receivedByUserId == u)) :=
      fun u l => filter_append_singleton_of_false _ l s (by rw [hnone, Bool.false_and])
    have f3 : ∀ l : List Settlement, (l ++ [s]).filter (fun x => x.groupId.isNone)
        = l.filter (fun x => x.groupId.isNone) :=
      fun l => filter_append_singleton_of_false _ l s hnone
    refine ⟨?_, ?_, ?_⟩
    · intro identity userId
      unfold getExpensesBetweenUsers insertSettlement
      simp only [getCurrentUser, f1]
      try rfl
    · intro identity
      unfold getUserBalances insertSettlement
      simp only [getCurrentUser, f2]
      try rfl
    · unfold getUsersWithOutstandingDebts insertSettlement
      simp only [f3]
      try rfl
  · intro e G he identity
    have f1 : ∀ l : List Expense, (l ++ [e]).filter (fun x => x.groupId == some G)
        = l.filter (fun x => x.groupId == some G) :=
      fun l => filter_append_singleton_of_false _ l e (by simpa using he)
    have hmd : ∀ members, memberDetailsOf { st with expenses := st.expenses ++ [e] } members
        = memberDetailsOf st members :=
      fun members => memberDetailsOf_congr { st with expenses := st.expenses ++ [e] } st rfl members
    unfold getGroupExpenses insertExpense
    simp only [getCurrentUser, f1, hmd]
  · intro s G hs identity
    have f1 : ∀ l : List Settlement, (l ++ [s]).filter (fun x => x.groupId == some G)
        = l.filter (fun x => x.groupId == some G) :=
      fun l => filter_append_singleton_of_false _ l s (by simpa using hs)
    have hmd : ∀ members,
        memberDetailsOf { st with settlements := st.settlements ++ [s] } members
          = memberDetailsOf st members :=
      fun members =>
        memberDetailsOf_congr { st with settlements := st.settlements ++ [s] } st rfl members
    unfold getGroupExpenses insertSettlement
    simp only [getCurrentUser, f1, hmd]

theorem group_and_pairwise_records_separate_witness :
    (getUserBalances (some "token-a") (insertExpense fuel scenario1)
        = getUserBalances (some "token-a") scenario1
      ∧ getUsersWithOutstandingDebts (insertSettlement repay scenario1)
        = getUsersWithOutstandingDebts scenario1)
    ∧ (getGroupExpenses (some "token-a") 7 (insertExpense dinner scenario3)
        = getGroupExpenses (some "token-a") 7 scenario3
      ∧ getGroupExpenses (some "token-a") 7 (insertSettlement settleUp scenario3)
        = getGroupExpenses (some "token-a") 7 scenario3) :=
  ⟨⟨((group_and_pairwise_records_separate scenario1).1 fuel (by decide)).2.1 _,
    ((group_and_pairwise_records_separate scenario1).2.1 repay (by decide)).2.2⟩,
   ⟨(group_and_pairwise_records_separate scenario3).2.2.1 dinner 7 (by decide) _,
    (group_and_pairwise_records_separate scenario3).2.2.2 settleUp 7 (by decide) _⟩⟩

/-! ### getGroupExpenses: access and success -/

theorem groupRowsExist_applyGroupEvent (ids : List UserId)
    (acc : Except String (Totals × Ledger)) (ev : GroupEvent)
    (hacc : GroupRowsExist ids acc) (hev : ev.row ∈ ids) :
    GroupRowsExist ids (applyGroupEvent acc ev) := by
  obtain ⟨totals, ledger, rfl, hl⟩ := hacc
  have hsome := hl ev.row hev
  obtain ⟨row, hrow⟩ := Option.isSome_iff_exists.mp hsome
  have hstep : applyGroupEvent (.ok (totals, ledger)) ev
      = .ok (minusAssign (plusAssign totals ev.plus ev.amount) ev.minus ev.amount,
          objUpdate ledger ev.row (fun _ => plusAssign row ev.col ev.delta)) := by
    simp only [applyGroupEvent, hrow]
  refine ⟨_, _, hstep, ?_⟩
  intro a ha
  rw [objGet_objUpdate]
  by_cases har : a = ev.row
  · rw [if_pos har]; rfl
  · rw [if_neg har]; exact hl a ha

theorem groupRowsExist_foldl (ids : List UserId) (evs : List GroupEvent)
    (acc : Except String (Totals × Ledger)) (hacc : GroupRowsExist ids acc)
    (hevs : ∀ ev ∈ evs, ev.row ∈ ids) :
    GroupRowsExist ids (evs.foldl applyGroupEvent acc) := by
  induction evs generalizing acc with
  | nil => exact hacc
  | cons ev evs ih =>
    rw [List.foldl_cons]
    exact ih _ (groupRowsExist_applyGroupEvent ids acc ev hacc (hevs ev (List.mem_cons_self _ _)))
      (fun ev' h' => hevs ev' (List.mem_cons_of_mem _ h'))

theorem groupRowsExist_init (ids : List UserId) :
    GroupRowsExist ids (.ok (initTotals ids, initLedger ids)) := by
  refine ⟨_, _, rfl, ?_⟩
  intro a ha
  rw [objGet_initLedger, if_pos ha]
  rfl

theorem memberDetailsOf_ok (st : Store) (members : List Member)
    (h : ∀ m ∈ members, ∃ u ∈ st.users, u._id = m.userId) :
    ∃ details, memberDetailsOf st members = .ok details := by
  induction members with
  | nil => exact ⟨[], rfl⟩
  | cons m rest ih =>
    obtain ⟨details, hd⟩ := ih (fun m' hm' => h m' (List.mem_cons_of_mem _ hm'))
    obtain ⟨u, hu, hid⟩ := h m (List.mem_cons_self _ _)
    have hsome : (st.users.find? (fun v => v._id == m.userId)).isSome = true := by
      rw [List.find?_isSome]
      exact ⟨u, hu, by simp [hid]⟩
    obtain ⟨v, hv⟩ := Option.isSome_iff_exists.mp hsome
    exact ⟨{ id := v._id, name := v.name, imageUrl := v.imageUrl, role := m.role } :: details,
      by simp only [memberDetailsOf, hv, hd]⟩

theorem groupEvents_row_mem (groupId : GroupId) (st : Store) (ids : List UserId)
    (hexp : ∀ e ∈ st.expenses, e.groupId = some groupId →
      ∀ s ∈ e.splits, s.userId ≠ e.paidByUserId → s.paid = false → s.userId ∈ ids)
    (hset : ∀ s ∈ st.settlements, s.groupId = some groupId → s.paidByUserId ∈ ids) :
    ∀ ev ∈ groupEvents groupId st, ev.row ∈ ids := by
  intro ev hev
  unfold groupEvents at hev
  rcases List.mem_append.mp hev with h | h
  · obtain ⟨e, he, hin⟩ := List.mem_flatMap.mp h
    rw [List.mem_filter] at he
    unfold expenseGroupEvents at hin
    obtain ⟨s, hsm, hsome⟩ := List.mem_filterMap.mp hin
    by_cases hc : s.userId = e.paidByUserId ∨ s.paid = true
    · rw [if_pos hc] at hsome; cases hsome
    · rw [if_neg hc] at hsome
      cases hsome
      rw [not_or] at hc
      exact hexp e he.1 (by simpa using he.2) s hsm hc.1 (by simpa using hc.2)
  · obtain ⟨s, hs, rfl⟩ := List.mem_map.mp h
    rw [List.mem_filter] at hs
    exact hset s hs.1 (by simpa using hs.2)

/-- C16: for an authenticated caller `getGroupExpenses` fails with
`Group not found` when no group has the id, and with `Not a group member` when
the caller is not among the members of the group, whatever the expenses and
settlements of the store are. It succeeds for a caller who is a member when
the records are well formed: every member has a user document, and in the
records of the group every participant of an unpaid split and every payer of a
settlement is a member. -/
theorem getGroupExpenses_access (identity : Option String) (groupId : GroupId) (st : Store)
    (user : User) (hauth : getCurrentUser identity st = .ok user) :
    ((∀ g ∈ st.groups, g._id ≠ groupId) →
      ∀ es ss, getGroupExpenses identity groupId { st with expenses := es, settlements := ss }
        = .error "Group not found")
    ∧ (∀ group, st.groups.find? (fun g => g._id == groupId) = some group →
        (∀ m ∈ group.members, m.userId ≠ user._id) →
        ∀ es ss, getGroupExpenses identity groupId { st with expenses := es, settlements := ss }
          = .error "Not a group member")
    ∧ (∀ group, st.groups.find? (fun g => g._id == groupId) = some group →
        (∃ m ∈ group.members, m.userId = user._id) →
        (∀ m ∈ group.members, ∃ u ∈ st.users, u._id = m.userId) →
        (∀ e ∈ st.expenses, e.groupId = some groupId →
          ∀ s ∈ e.splits, s.userId ≠ e.paidByUserId → s.paid = false →
            s.userId ∈ group.members.map (fun m => m.userId)) →
        (∀ s ∈ st.settlements, s.groupId = some groupId →
          s.paidByUserId ∈ group.members.map (fun m => m.userId)) →
        ∃ r, getGroupExpenses identity groupId st = .ok r) := by
  refine ⟨?_, ?_, ?_⟩
  · intro hnone es ss
    have hf : st.groups.find? (fun g => g._id == groupId) = none := by
      rw [List.find?_eq_none]
      intro g hg
      simpa using hnone g hg
    have hauth' : getCurrentUser identity { st with expenses := es, settlements := ss }
        = .ok user := hauth
    simp only [getGroupExpenses, hauth', hf]
  · intro group hg hnot es ss
    have hauth' : getCurrentUser identity { st with expenses := es, settlements := ss }
        = .ok user := hauth
    have hany : group.members.any (fun m => m.userId == user._id) = false := by
      rw [Bool.eq_false_iff]
      intro h
      obtain ⟨m, hm, hmu⟩ := List.any_eq_true.mp h
      exact hnot m hm (by simpa using hmu)
    simp only [getGroupExpenses, hauth', hg, hany, Bool.not_false, if_true]
  · intro group hg hmem husers hexp hset
    have hany : group.members.any (fun m => m.userId == user._id) = true := by
      obtain ⟨m, hm, hmu⟩ := hmem
      exact List.any_eq_true.mpr ⟨m, hm, by simp [hmu]⟩
    obtain ⟨details, hd⟩ := memberDetailsOf_ok st group.members husers
    have hids := memberDetailsOf_ids st group.members details hd
    have hrows := groupRowsExist_foldl (details.map (fun m => m.id)) (groupEvents groupId st) _
      (groupRowsExist_init _)
      (groupEvents_row_mem groupId st _ (by rw [hids]; exact hexp) (by rw [hids]; exact hset))
    obtain ⟨totals, ledger, hacc, _⟩ := hrows
    simp only [getGroupExpenses, hauth, hg, hany, hd, foldl_groupApply, hacc, Bool.not_true,
      Bool.false_eq_true, if_false]
    exact ⟨_, rfl⟩

theorem getGroupExpenses_access_witness :
    getGroupExpenses (some "token-a") 99 scenario3 = .error "Group not found"
    ∧ getGroupExpenses (some "token-b") 7 scenario3Solo = .error "Not a group member"
    ∧ ∃ r, getGroupExpenses (some "token-c") 7 scenario3 = .ok r :=
  ⟨(getGroupExpenses_access (some "token-a") 99 scenario3 userA rfl).1 (by decide) _ _,
   (getGroupExpenses_access (some "token-b") 7 scenario3Solo userB rfl).2.1 _ rfl (by decide) _ _,
   (getGroupExpenses_access (some "token-c") 7 scenario3 userC rfl).2.2 trip rfl (by decide)
      (by decide) (by decide) (by decide)⟩

/-! ### createExpense: the validation gate -/

/-- C17: with a `groupId`, `createExpense` fails with `Group not found` when
no group has the id and with the not-a-member error when the caller is not
among the members, whatever the splits are: a non-member caller whose splits
do not sum to the amount gets the membership error, not the split-mismatch
error. -/
theorem createExpense_group_check_first (identity : Option String) (newId : ExpenseId)
    (args : CreateExpenseArgs) (st : Store) (user : User) (gid : GroupId)
    (hauth : getCurrentUser identity st = .ok user) (hgid : args.groupId = some gid) :
    ((∀ g ∈ st.groups, g._id ≠ gid) →
      createExpense identity newId args st = (.error "Group not found", st))
    ∧ (∀ group, st.groups.find? (fun g => g._id == gid) = some group →
        (∀ m ∈ group.members, m.userId ≠ user._id) →
        createExpense identity newId args st
            = (.error "You are not a member of this group", st)
          ∧ (|(args.splits.map (fun s => s.amount)).sum - args.amount| > 1 / 100 →
              (createExpense identity newId args st).1
                ≠ .error "Split amounts must equal total expense")) := by
  constructor
  · intro hnone
    have hf : st.groups.find? (fun g => g._id == gid) = none := by
      rw [List.find?_eq_none]
      intro g hg
      simpa using hnone g hg
    simp only [createExpense, hauth, validateGroupMembership, hgid, hf]
  · intro group hg hnot
    have hany : group.members.any (fun m => m.userId == user._id) = false := by
      rw [Bool.eq_false_iff]
      intro h
      obtain ⟨m, hm, hmu⟩ := List.any_eq_true.mp h
      exact hnot m hm (by simpa using hmu)
    have hres : createExpense identity newId args st
        = (.error "You are not a member of this group", st) := by
      simp only [createExpense, hauth, validateGroupMembership, hgid, hg, hany,
        Bool.false_eq_true, if_false]
    refine ⟨hres, fun _ => ?_⟩
    rw [hres]
    intro h
    have h2 := Except.error.inj h
    revert h2
    decide

theorem createExpense_group_check_first_witness :
    createExpense (some "token-a") 80 { mismatchedGroupArgs with groupId := some 99 } scenario3Solo
        = (.error "Group not found", scenario3Solo)
    ∧ createExpense (some "token-b") 80 mismatchedGroupArgs scenario3Solo
        = (.error "You are not a member of this group", scenario3Solo) :=
  ⟨(createExpense_group_check_first (some "token-a") 80
      { mismatchedGroupArgs with groupId := some 99 } scenario3Solo userA 99 rfl rfl).1 (by decide),
   ((createExpense_group_check_first (some "token-b") 80 mismatchedGroupArgs scenario3Solo userB 7
      rfl rfl).2 _ rfl (by decide)).1⟩

/-- C19: `createExpense` accepts amounts that are not positive. An expense of
amount 0 without splits and an expense of amount -10 whose splits sum to -10
are inserted. -/
theorem createExpense_accepts_nonpositive_amount :
    createExpense (some "token-a") 81 zeroArgs scenario1
        = (.ok 81, insertExpense (newExpenseDoc 81 zeroArgs userA) scenario1)
    ∧ createExpense (some "token-a") 82 negativeArgs scenario1
        = (.ok 82, insertExpense (newExpenseDoc 82 negativeArgs userA) scenario1) := by
  decide!

/-- C20: the debts of `getUsersWithOutstandingDebts` differ from the `youOwe`
list of `getUserBalances`. Without any expense, A pays 20 to B: for
`getUserBalances` B owes A 20, while `getUsersWithOutstandingDebts` finds no
ledger entry to apply the settlement to and reports nobody. -/
theorem outstandingDebts_differ_from_youOwe :
    (∀ e ∈ advance.expenses, (e.splits.map (fun s => s.userId)).Nodup)
    ∧ (getUserBalances (some "token-b") advance).map (fun r => r.oweDetails.youOwe)
        = .ok [{ userId := 1, name := "A", imageUrl := none, amount := 20 }]
    ∧ getUsersWithOutstandingDebts advance = [] := by
  decide!

/-! ### getUsersWithOutstandingDebts: the date and the sign of a debt -/

/-- C21: the `since` of a debt is not the minimum date of the contributing
expenses and depends on their order. A owes B 50 from an expense dated 200 and
B owes A 10 from an expense dated 100: with the later expense first the debt
of A towards B is reported since 200, with the earlier one first since 100. -/
theorem outstandingDebts_since_order_dependent :
    getUsersWithOutstandingDebts mixedDates
        = [{ _id := 1, name := "A", email := "a@splitr.test",
             debts := [{ userId := 2, name := "B", amount := 40, since := 200 }] }]
    ∧ getUsersWithOutstandingDebts mixedDatesSwapped
        = [{ _id := 1, name := "A", email := "a@splitr.test",
             debts := [{ userId := 2, name := "B", amount := 40, since := 100 }] }]
    ∧ mixedDatesSwapped.expenses.Perm mixedDates.expenses := by
  refine ⟨by decide!, by decide!, ?_⟩
  exact List.Perm.swap _ _ _

theorem debtsOf_eq (st : Store) (userId : UserId) :
    debtsOf st (st.expenses.filter (fun e => e.groupId.isNone))
        (st.settlements.filter (fun s => s.groupId.isNone)) userId
      = ((debtsLedger userId st).filter (fun entry => decide (entry.2.amount > 0))).map
          (debtOfEntry st) := by
  unfold debtsOf debtsLedger
  simp only []
  generalize List.foldl (debtsApplySettlement userId) _ _ = ledger
  induction ledger with
  | nil => rfl
  | cons x xs ih =>
    by_cases hx : x.2.amount > 0
    · simp only [List.filterMap_cons, List.filter_cons, hx, if_true, decide_True, List.map_cons,
        ih]
      rfl
    · simp only [List.filterMap_cons, List.filter_cons, hx, if_false, decide_False, ih]
      rfl

/-- C22: every debt that `getUsersWithOutstandingDebts` reports has a
positive amount; the debts of a reported user are the entries of that user's
ledger with a positive amount; the result lists, in the order of the users
table, the users whose ledger has an entry with a positive amount, and no
other user. -/
theorem getUsersWithOutstandingDebts_positive (st : Store) :
    (∀ r ∈ getUsersWithOutstandingDebts st, ∀ d ∈ r.debts, 0 < d.amount)
    ∧ getUsersWithOutstandingDebts st
        = ((st.users.filter (fun u =>
              (debtsLedger u._id st).any (fun entry => decide (entry.2.amount > 0)))).map
            (fun u =>
              { _id := u._id, name := u.name, email := u.email,
                debts := ((debtsLedger u._id st).filter
                  (fun entry => decide (entry.2.amount > 0))).map (debtOfEntry st) }))
    ∧ (∀ u ∈ st.users,
        (∃ r ∈ getUsersWithOutstandingDebts st, r._id = u._id ∧ r.name = u.name ∧ r.email = u.email)
          ↔ ∃ entry ∈ debtsLedger u._id st, 0 < entry.2.amount) := by
  have hres : getUsersWithOutstandingDebts st
      = ((st.users.filter (fun u =>
            (debtsLedger u._id st).any (fun entry => decide (entry.2.amount > 0)))).map
          (fun u =>
            ({ _id := u._id, name := u.name, email := u.email,
               debts := ((debtsLedger u._id st).filter
                (fun entry => decide (entry.2.amount > 0))).map (debtOfEntry st) } : Debtor))) := by
    unfold getUsersWithOutstandingDebts
    simp only [debtsOf_eq]
    generalize st.users = users
    induction users with
    | nil => rfl
    | cons u us ih =>
      by_cases hu : (debtsLedger u._id st).any (fun entry => decide (entry.2.amount > 0)) = true
      · have hlen : (((debtsLedger u._id st).filter
            (fun entry => decide (entry.2.amount > 0))).map (debtOfEntry st)).length ≠ 0 := by
          rw [List.length_map]
          obtain ⟨x, hx, hpx⟩ := List.any_eq_true.mp hu
          exact List.length_pos.mpr
            (List.ne_nil_of_mem (List.mem_filter.mpr ⟨hx, hpx⟩)) |>.ne'
        simp only [List.filterMap_cons, List.filter_cons, hu, if_true, List.map_cons, hlen,
          ne_eq, not_false_eq_true, ih]
      · have hlen : (((debtsLedger u._id st).filter
            (fun entry => decide (entry.2.amount > 0))).map (debtOfEntry st)).length = 0 := by
          rw [List.length_map, List.length_eq_zero, List.filter_eq_nil_iff]
          intro x hx hpx
          exact hu (List.any_eq_true.mpr ⟨x, hx, hpx⟩)
        simp only [List.filterMap_cons, List.filter_cons, hu, hlen, ne_eq, not_true_eq_false,
          if_false, ih, Bool.false_eq_true]
  refine ⟨?_, hres, ?_⟩
  · intro r hr d hd
    rw [hres, List.mem_map] at hr
    obtain ⟨u, _, rfl⟩ := hr
    simp only [List.mem_map, List.mem_filter, decide_eq_true_eq] at hd
    obtain ⟨entry, ⟨_, hpos⟩, rfl⟩ := hd
    exact hpos
  · intro u hu
    rw [hres]
    constructor
    · rintro ⟨r, hr, hid, _, _⟩
      rw [List.mem_map] at hr
      obtain ⟨u', hu', rfl⟩ := hr
      rw [List.mem_filter] at hu'
      obtain ⟨x, hx, hpx⟩ := List.any_eq_true.mp hu'.2
      simp only at hid
      rw [hid] at hx
      exact ⟨x, hx, by simpa using hpx⟩
    · rintro ⟨entry, hmem, hpos⟩
      refine ⟨_, List.mem_map.mpr ⟨u, List.mem_filter.mpr ⟨hu, ?_⟩, rfl⟩, rfl, rfl, rfl⟩
      exact List.any_eq_true.mpr ⟨entry, hmem, by simpa using hpos⟩

theorem getUsersWithOutstandingDebts_positive_witness :
    (∀ d ∈ ([{ _id := 1, name := "A", email := "a@splitr.test",
               debts := [{ userId := 2, name := "B", amount := 40, since := 200 }] }]
            : List Debtor).flatMap (fun r => r.debts), 0 < d.amount)
    ∧ ((∃ r ∈ getUsersWithOutstandingDebts mixedDates,
          r._id = userB._id ∧ r.name = userB.name ∧ r.email = userB.email)
        ↔ ∃ entry ∈ debtsLedger userB._id mixedDates, 0 < entry.2.amount)
    ∧ debtsLedger userB._id mixedDates = [(1, { amount := -40, since := 100 })] :=
  ⟨by decide!, (getUsersWithOutstandingDebts_positive mixedDates).2.2 userB (by decide),
    by decide!⟩

/-! ### getExpensesBetweenUsers: the records returned -/

theorem filter_append_filter_perm {α : Type} (p q : α → Bool) (l : List α)
    (h : ∀ x ∈ l, ¬ (p x = true ∧ q x = true)) :
    (l.filter p ++ l.filter q).Perm (l.filter (fun x => p x || q x)) := by
  induction l with
  | nil => simp
  | cons x xs ih =>
    have ih' := ih (fun y hy => h y (List.mem_cons_of_mem _ hy))
    have hx := h x (List.mem_cons_self _ _)
    by_cases hp : p x = true
    · have hq : q x = false := by
        cases hqx : q x
        · rfl
        · exact absurd ⟨hp, hqx⟩ hx
      simp only [List.filter_cons, hp, hq, if_true, Bool.true_or, Bool.false_eq_true, if_false,
        List.cons_append]
      exact List.Perm.cons _ ih'
    · have hp' : p x = false := by simpa using hp
      by_cases hq : q x = true
      · simp only [List.filter_cons, hp', hq, if_true, Bool.false_or, Bool.false_eq_true,
          if_false]
        exact (List.perm_middle).trans (List.Perm.cons _ ih')
      · have hq' : q x = false := by simpa using hq
        simp only [List.filter_cons, hp', hq', Bool.or_self, Bool.false_eq_true, if_false]
        exact ih'

/-- The successful result of `getExpensesBetweenUsers`. -/
theorem getExpensesBetweenUsers_ok (identity : Option String) (userId : UserId)
    (st : Store) (me other : User)
    (hauth : getCurrentUser identity st = .ok me) (hne : me._id ≠ userId)
    (hother : st.users.find? (fun u => u._id == userId) = some other) :
    ∃ r, getExpensesBetweenUsers identity userId st = .ok r
      ∧ r.expenses = sortExpensesByDateDesc
          (((st.expenses.filter (fun e => e.paidByUserId == me._id && e.groupId.isNone))
            ++ (st.expenses.filter (fun e => e.paidByUserId == userId && e.groupId.isNone))).filter
              (bothInvolved me._id userId))
      ∧ r.settlements = sortSettlementsByDateDesc
          (st.settlements.filter (settlementBetween me._id userId)) :=
  ⟨_, by simp only [getExpensesBetweenUsers, hauth, if_neg hne, hother]; rfl, rfl, rfl⟩

/-- The counterexample to C24: an expense outside any group, paid by C, in
which A and B are both split participants, is not among the expenses that
`getExpensesBetweenUsers` returns to A for the counterparty B. -/
theorem getExpensesBetweenUsers_third_payer_counterexample :
    (sharedByThird ∈ thirdParty.expenses ∧ sharedByThird.groupId = none
      ∧ sharedByThird.splits.map (fun s => s.userId) = [1, 2, 3])
    ∧ (getExpensesBetweenUsers (some "token-a") 2 thirdParty).map (fun r => r.expenses)
        = .ok [] := by
  decide!

/-- C24, amended: `getExpensesBetweenUsers` returns exactly the expenses
outside any group that the caller paid and in which the counterparty is a
split participant, and those that the counterparty paid and in which the
caller is a split participant (an expense paid by a third user is not
returned), and exactly the settlements outside any group that one of the two
users paid to the other. -/
theorem getExpensesBetweenUsers_records (identity : Option String) (userId : UserId)
    (st : Store) (me other : User)
    (hauth : getCurrentUser identity st = .ok me) (hne : me._id ≠ userId)
    (hother : st.users.find? (fun u => u._id == userId) = some other) :
    ∃ r, getExpensesBetweenUsers identity userId st = .ok r
      ∧ r.expenses.Perm (st.expenses.filter (fun e =>
          e.groupId.isNone &&
            ((e.paidByUserId == me._id && e.splits.any (fun s => s.userId == userId))
              || (e.paidByUserId == userId && e.splits.any (fun s => s.userId == me._id)))))
      ∧ r.settlements.Perm (st.settlements.filter (fun s =>
          s.groupId.isNone &&
            ((s.paidByUserId == me._id && s.receivedByUserId == userId)
              || (s.paidByUserId == userId && s.receivedByUserId == me._id)))) := by
  obtain ⟨r, hr, hexp, hset⟩ := getExpensesBetweenUsers_ok identity userId st me other hauth hne hother
  refine ⟨r, hr, ?_, ?_⟩
  · rw [hexp]
    unfold sortExpensesByDateDesc
    refine (List.perm_insertionSort _ _).trans ?_
    rw [List.filter_append, List.filter_filter, List.filter_filter]
    refine (filter_append_filter_perm _ _ st.expenses ?_).trans ?_
    · intro e _ h
      simp only [Bool.and_eq_true, beq_iff_eq] at h
      exact hne (h.1.2.1.symm.trans h.2.2.1)
    · refine List.Perm.of_eq (List.filter_congr ?_)
      intro e _
      have hpq : ¬ ((e.paidByUserId == me._id) = true ∧ (e.paidByUserId == userId) = true) := by
        intro h
        simp only [beq_iff_eq] at h
        exact hne (h.1.symm.trans h.2)
      unfold bothInvolved
      simp only []
      generalize (e.paidByUserId == me._id) = p at hpq ⊢
      generalize (e.paidByUserId == userId) = q at hpq ⊢
      generalize (e.splits.any fun s => s.userId == me._id) = x
      generalize (e.splits.any fun s => s.userId == userId) = y
      generalize e.groupId.isNone = g
      revert hpq
      cases p <;> cases q <;> cases x <;> cases y <;> cases g <;> decide
  · rw [hset]
    unfold sortSettlementsByDateDesc
    refine (List.perm_insertionSort _ _).trans ?_
    exact List.Perm.of_eq (List.filter_congr (fun s _ => rfl))

theorem getExpensesBetweenUsers_records_witness :
    ∃ r, getExpensesBetweenUsers (some "token-a") 2 scenario5 = .ok r
      ∧ r.expenses.Perm (scenario5.expenses.filter (fun e =>
          e.groupId.isNone &&
            ((e.paidByUserId == userA._id && e.splits.any (fun s => s.userId == 2))
              || (e.paidByUserId == 2 && e.splits.any (fun s => s.userId == userA._id)))))
      ∧ r.settlements.Perm (scenario5.settlements.filter (fun s =>
          s.groupId.isNone &&
            ((s.paidByUserId == userA._id && s.receivedByUserId == 2)
              || (s.paidByUserId == 2 && s.receivedByUserId == userA._id)))) :=
  getExpensesBetweenUsers_records (some "token-a") 2 scenario5 userA userB rfl (by decide) rfl

/-- C25: in the result of `getExpensesBetweenUsers` the expenses and the
settlements are sorted by non-increasing date, and each list is a permutation
of the filtered records. -/
theorem getExpensesBetweenUsers_sorted (identity : Option String) (userId : UserId)
    (st : Store) (me other : User)
    (hauth : getCurrentUser identity st = .ok me) (hne : me._id ≠ userId)
    (hother : st.users.find? (fun u => u._id == userId) = some other) :
    ∃ r, getExpensesBetweenUsers identity userId st = .ok r
      ∧ r.expenses.Sorted (fun a b => a.date ≥ b.date)
      ∧ r.expenses.Perm
          (((st.expenses.filter (fun e => e.paidByUserId == me._id && e.groupId.isNone))
            ++ (st.expenses.filter (fun e => e.paidByUserId == userId && e.groupId.isNone))).filter
              (bothInvolved me._id userId))
      ∧ r.settlements.Sorted (fun a b => a.date ≥ b.date)
      ∧ r.settlements.Perm (st.settlements.filter (settlementBetween me._id userId)) := by
  obtain ⟨r, hr, hexp, hset⟩ := getExpensesBetweenUsers_ok identity userId st me other hauth hne hother
  haveI : IsTotal Expense (fun a b => b.date ≤ a.date) := ⟨fun a b => le_total b.date a.date⟩
  haveI : IsTrans Expense (fun a b => b.date ≤ a.date) := ⟨fun _ _ _ h1 h2 => le_trans h2 h1⟩
  haveI : IsTotal Settlement (fun a b => b.date ≤ a.date) := ⟨fun a b => le_total b.date a.date⟩
  haveI : IsTrans Settlement (fun a b => b.date ≤ a.date) := ⟨fun _ _ _ h1 h2 => le_trans h2 h1⟩
  refine ⟨r, hr, ?_, ?_, ?_, ?_⟩
  · rw [hexp]
    exact List.sorted_insertionSort (fun a b : Expense => b.date ≤ a.date) _
  · rw [hexp]
    exact List.perm_insertionSort _ _
  · rw [hset]
    exact List.sorted_insertionSort (fun a b : Settlement => b.date ≤ a.date) _
  · rw [hset]
    exact List.perm_insertionSort _ _

theorem getExpensesBetweenUsers_sorted_witness :
    (∃ r, getExpensesBetweenUsers (some "token-a") 2 scenario5 = .ok r
      ∧ r.expenses.Sorted (fun a b => a.date ≥ b.date)
      ∧ r.expenses.Perm
          (((scenario5.expenses.filter (fun e => e.paidByUserId == userA._id && e.groupId.isNone))
            ++ (scenario5.expenses.filter (fun e => e.paidByUserId == 2 && e.groupId.isNone))).filter
              (bothInvolved userA._id 2))
      ∧ r.settlements.Sorted (fun a b => a.date ≥ b.date)
      ∧ r.settlements.Perm (scenario5.settlements.filter (settlementBetween userA._id 2)))
    ∧ (getExpensesBetweenUsers (some "token-a") 2 scenario5).map
        (fun r => (r.expenses.map (fun e => e.date), r.settlements.map (fun s => s.date)))
        = .ok ([1500, 1000], [3500, 3000]) :=
  ⟨getExpensesBetweenUsers_sorted (some "token-a") 2 scenario5 userA userB rfl (by decide) rfl,
    by decide!⟩

/-- C26: `getExpensesBetweenUsers` fails with `Cannot query yourself` when
the counterparty id is the id of the caller, whatever the store holds, and
with `User not found` when the counterparty id is another id without a user
document. -/
theorem getExpensesBetweenUsers_errors (identity : Option String) (userId : UserId)
    (st : Store) (me : User) (hauth : getCurrentUser identity st = .ok me) :
    (me._id = userId →
      getExpensesBetweenUsers identity userId st = .error "Cannot query yourself")
    ∧ (me._id ≠ userId → st.users.find? (fun u => u._id == userId) = none →
      getExpensesBetweenUsers identity userId st = .error "User not found") := by
  constructor
  · intro h
    simp only [getExpensesBetweenUsers, hauth, if_pos h]
  · intro hne hnone
    simp only [getExpensesBetweenUsers, hauth, if_neg hne, hnone]

theorem getExpensesBetweenUsers_errors_witness :
    getExpensesBetweenUsers (some "token-a") 1 scenario5 = .error "Cannot query yourself"
    ∧ getExpensesBetweenUsers (some "token-a") 9 scenario5 = .error "User not found" :=
  ⟨(getExpensesBetweenUsers_errors (some "token-a") 1 scenario5 userA rfl).1 rfl,
   (getExpensesBetweenUsers_errors (some "token-a") 9 scenario5 userA rfl).2 (by decide) rfl⟩

/-! ### getUserBalances and getExpensesBetweenUsers agree on a pair -/

theorem mem_oweList_of_objGet (st : Store) (w : Bool) (m : List (UserId × OwedOwing))
    (hnd : (m.map Prod.fst).Nodup) (k : UserId) (b : OwedOwing)
    (hk : objGet m k = some b) (hne : b.owed - b.owing ≠ 0)
    (hw : decide (b.owed - b.owing > 0) = w) :
    ∃ e ∈ sortByAmountDesc (m.filterMap (oweEntryOf st w)), e.userId = k := by
  have hmem : (k, b) ∈ m := (mem_iff_objGet m hnd k b).mpr hk
  have hsome : (oweEntryOf st w (k, b)).isSome = true := by
    unfold oweEntryOf
    simp only [if_neg hne, hw, if_true, Option.isSome_some]
  obtain ⟨e, he⟩ := Option.isSome_iff_exists.mp hsome
  refine ⟨e, ?_, (oweEntryOf_some st w (k, b) e he).1⟩
  unfold sortByAmountDesc
  rw [(List.perm_insertionSort _ _).mem_iff, List.mem_filterMap]
  exact ⟨(k, b), hmem, he⟩

/-- The amount that one of the two lists shows for a counterparty. -/
theorem find?_oweList (st : Store) (w : Bool) (m : List (UserId × OwedOwing))
    (hnd : (m.map Prod.fst).Nodup) (k : UserId) :
    (match (sortByAmountDesc (m.filterMap (oweEntryOf st w))).find? (fun e => e.userId == k) with
      | some e => e.amount
      | none => 0)
      = match objGet m k with
        | some b =>
          if b.owed - b.owing ≠ 0 ∧ decide (b.owed - b.owing > 0) = w then |b.owed - b.owing|
          else 0
        | none => 0 := by
  cases hf : (sortByAmountDesc (m.filterMap (oweEntryOf st w))).find? (fun e => e.userId == k) with
  | some e =>
    have hmem := List.mem_of_find?_eq_some hf
    have hid : e.userId = k := by simpa using List.find?_some hf
    obtain ⟨b, hb, hamt, hne, hw⟩ := mem_oweList st w m hnd e hmem
    rw [hid] at hb
    simp only [hb, hamt]
    rw [if_pos ⟨hne, hw⟩]
  | none =>
    rw [List.find?_eq_none] at hf
    cases hb : objGet m k with
    | none => rfl
    | some b =>
      simp only []
      by_cases hc : b.owed - b.owing ≠ 0 ∧ decide (b.owed - b.owing > 0) = w
      · obtain ⟨e, he, hid⟩ := mem_oweList_of_objGet st w m hnd k b hb hc.1 hc.2
        exact absurd (by simpa using hid) (hf e he)
      · rw [if_neg hc]

theorem sum_map_sub_map {α : Type} (l : List α) (f g : α → ℚ) :
    (l.map f).sum - (l.map g).sum = (l.map (fun x => f x - g x)).sum := by
  induction l with
  | nil => simp
  | cons x xs ih =>
    simp only [List.map_cons, List.sum_cons, ← ih]
    ring

theorem sum_map_eq_add {α : Type} (l : List α) (f h1 h2 : α → ℚ)
    (h : ∀ x ∈ l, f x = h1 x + h2 x) :
    (l.map f).sum = (l.map h1).sum + (l.map h2).sum := by
  induction l with
  | nil => simp
  | cons x xs ih =>
    have hx := h x (List.mem_cons_self _ _)
    have hxs := ih (fun y hy => h y (List.mem_cons_of_mem _ hy))
    simp only [List.map_cons, List.sum_cons]
    linarith

theorem sum_map_congr {α : Type} (l : List α) (f g : α → ℚ) (h : ∀ x ∈ l, f x = g x) :
    (l.map f).sum = (l.map g).sum := by
  rw [List.map_congr_left h]

/-- The net that `getUserBalances` shows for a counterparty is the sum of the
nets of the events of that counterparty. -/
theorem specCounterpartyNet_eq (identity : Option String) (st : Store) (user : User)
    (v : UserId) (hauth : getCurrentUser identity st = .ok user) :
    ∃ r, getUserBalances identity st = .ok r
      ∧ specCounterpartyNet r v
        = (((balanceEvents user._id st).filter (fun ev => ev.counterparty == v)).map
            (fun ev => ev.owed - ev.owing)).sum := by
  refine ⟨_, getUserBalances_eq identity st user hauth, ?_⟩
  unfold specCounterpartyNet
  simp only []
  rw [find?_oweList st true _ (balanceVarsOf_nodup user._id st) v,
    find?_oweList st false _ (balanceVarsOf_nodup user._id st) v]
  have hget := foldl_applyBalanceEvent_get (balanceEvents user._id st)
    { youOwe := 0, youAreOwed := 0, balanceByUser := [] } v
  have hb : objGet (balanceVarsOf user._id st).balanceByUser v
      = if v ∈ (balanceEvents user._id st).map (fun ev => ev.counterparty) then
          some
            { owed := (((balanceEvents user._id st).filter
                (fun ev => ev.counterparty == v)).map (fun ev => ev.owed)).sum
              owing := (((balanceEvents user._id st).filter
                (fun ev => ev.counterparty == v)).map (fun ev => ev.owing)).sum }
        else none := by
    unfold balanceVarsOf
    rw [hget]
    simp [objGet]
  rw [hb, ← sum_map_sub_map]
  by_cases hmem : v ∈ (balanceEvents user._id st).map (fun ev => ev.counterparty)
  · simp only [if_pos hmem]
    generalize (((balanceEvents user._id st).filter
      (fun ev => ev.counterparty == v)).map (fun ev => ev.owed)).sum = x
    generalize (((balanceEvents user._id st).filter
      (fun ev => ev.counterparty == v)).map (fun ev => ev.owing)).sum = y
    rcases lt_trichotomy (x - y) 0 with hlt | heq | hgt
    · have h1 : ¬ (x - y > 0) := not_lt.mpr (le_of_lt hlt)
      simp only [ne_eq, ne_of_lt hlt, not_false_eq_true, h1, decide_False, true_and,
        Bool.false_eq_true, if_false, if_true, abs_of_neg hlt]
      ring
    · simp [heq]
    · simp only [ne_eq, ne_of_gt hgt, not_false_eq_true, gt_iff_lt, hgt, decide_True, true_and,
        if_true, Bool.true_eq_false, if_false, abs_of_pos hgt]
      ring
  · simp only [if_neg hmem]
    have hnil : (balanceEvents user._id st).filter (fun ev => ev.counterparty == v) = [] := by
      rw [List.filter_eq_nil_iff]
      intro ev hev hc
      exact hmem (List.mem_map.mpr ⟨ev, hev, by simpa using hc⟩)
    simp [hnil]
theorem find?_unpaid_of_nodup (u : UserId) (l : List Split)
    (hnd : (l.map (fun s => s.userId)).Nodup) :
    l.find? (fun s => s.userId == u && !s.paid)
      = (l.find? (fun s => s.userId == u)).bind (fun s => if s.paid then none else some s) := by
  induction l with
  | nil => rfl
  | cons x xs ih =>
    rw [List.map_cons, List.nodup_cons] at hnd
    by_cases hx : x.userId = u
    · cases hp : x.paid
      · simp [List.find?_cons, hx, hp]
      · have hnone : xs.find? (fun s => s.userId == u && !s.paid) = none := by
          rw [List.find?_eq_none]
          intro y hy hyp
          simp only [Bool.and_eq_true, beq_iff_eq] at hyp
          exact hnd.1 (List.mem_map.mpr ⟨y, hy, by rw [hyp.1, hx]⟩)
        simp [List.find?_cons, hx, hp, hnone]
    · have hx' : (x.userId == u) = false := by simpa using hx
      simp only [List.find?_cons, hx', Bool.false_and]
      exact ih hnd.2

/-- The net of the events of one expense for the counterparty `v`. -/
theorem sum_expenseBalanceEvents (u v : UserId) (huv : u ≠ v) (e : Expense)
    (hnd : (e.splits.map (fun s => s.userId)).Nodup) :
    (((expenseBalanceEvents u e).filter (fun ev => ev.counterparty == v)).map
        (fun ev => ev.owed - ev.owing)).sum
      = if e.paidByUserId = u ∨ e.paidByUserId = v then pairApplyExpense u v 0 e else 0 := by
  unfold expenseBalanceEvents pairApplyExpense
  by_cases hp : e.paidByUserId = u
  · rw [if_pos hp, if_pos (Or.inl hp), if_pos hp]
    have hfind := unpaidShare_eq_find v e hnd
    have hsum : (((e.splits.filterMap (fun s =>
          if s.userId = u ∨ s.paid = true then none
          else some ({ counterparty := s.userId, owed := s.amount, owing := 0 } : BalanceEvent))).filter
            (fun ev => ev.counterparty == v)).map (fun ev => ev.owed - ev.owing)).sum
        = unpaidShare v e := by
      unfold unpaidShare
      generalize e.splits = l
      induction l with
      | nil => simp
      | cons s l ih =>
        by_cases hc : s.userId = u ∨ s.paid = true
        · have hf : (s.userId == v && !s.paid) = false := by
            rcases hc with h | h
            · have : ¬ s.userId = v := by rw [h]; exact huv
              simp [this]
            · simp [h]
          rw [List.filterMap_cons, if_pos hc, ih]
          simp [List.filter_cons, hf]
        · rw [List.filterMap_cons, if_neg hc]
          rw [not_or] at hc
          have hpaid : s.paid = false := by simpa using hc.2
          simp only [List.filter_cons]
          by_cases hsv : s.userId = v
          · have h2 : (s.userId == v && !s.paid) = true := by simp [hsv, hpaid]
            have h1 : (s.userId == v) = true := by simp [hsv]
            rw [if_pos h1, if_pos h2, List.map_cons, List.sum_cons, List.map_cons, List.sum_cons,
              ih]
            simp
          · have h2 : (s.userId == v && !s.paid) = false := by simp [hsv]
            have h1 : (s.userId == v) = false := by simp [hsv]
            simp only [h1, h2, Bool.false_and, Bool.false_eq_true, if_false, ih]
    rw [hsum, hfind]
    cases e.splits.find? (fun s => s.userId == v && !s.paid) <;> simp
  · rw [if_neg hp, if_neg hp]
    rw [find?_unpaid_of_nodup u e.splits hnd]
    cases hf : e.splits.find? (fun s => s.userId == u) with
    | none => simp
    | some ms =>
      cases hpaid : ms.paid
      · by_cases hv : e.paidByUserId = v
        · simp [hpaid, hv, hp]
        · simp [hpaid, hv, hp]
      · simp [hpaid]

/-- The net of the event of one settlement for the counterparty `v`. -/
theorem settlementBalanceEvent_net (u v : UserId) (huv : u ≠ v) (s : Settlement) :
    (if s.groupId.isNone && (s.paidByUserId == u || s.receivedByUserId == u) then
        (if (settlementBalanceEvent u s).counterparty == v then
          (settlementBalanceEvent u s).owed - (settlementBalanceEvent u s).owing else 0)
      else 0)
      = if settlementBetween u v s then pairApplySettlement u 0 s else 0 := by
  unfold settlementBalanceEvent settlementBetween pairApplySettlement
  by_cases hp : s.paidByUserId = u
  · have hpv : ¬ s.paidByUserId = v := fun h => huv (hp.symm.trans h)
    by_cases hr : s.receivedByUserId = v
    · cases s.groupId <;> simp [hp, hr, huv]
    · cases s.groupId <;> simp [hp, hr, huv]
  · by_cases hpv : s.paidByUserId = v
    · by_cases hr : s.receivedByUserId = u
      · cases s.groupId <;> simp [hp, hr, hpv, Ne.symm huv]
      · cases s.groupId <;> simp [hp, hr, hpv, Ne.symm huv]
    · cases s.groupId <;> simp [hp, hpv]

/-- The net of the events of the counterparty `v` is the balance that
`getExpensesBetweenUsers` accumulates. -/
theorem sum_balanceEvents_pair (u v : UserId) (huv : u ≠ v) (st : Store)
    (hsplits : ∀ e ∈ st.expenses, (e.splits.map (fun s => s.userId)).Nodup) :
    (((balanceEvents u st).filter (fun ev => ev.counterparty == v)).map
        (fun ev => ev.owed - ev.owing)).sum
      = (((st.expenses.filter (fun e => e.paidByUserId == u && e.groupId.isNone)).filter
            (bothInvolved u v)).map (pairApplyExpense u v 0)).sum
        + (((st.expenses.filter (fun e => e.paidByUserId == v && e.groupId.isNone)).filter
            (bothInvolved u v)).map (pairApplyExpense u v 0)).sum
        + ((st.settlements.filter (settlementBetween u v)).map
            (pairApplySettlement u 0)).sum := by
  unfold balanceEvents
  rw [List.filter_append, List.map_append, List.sum_append, sum_flatMap_filter_map,
    List.filter_filter, List.filter_filter]
  congr 1
  · rw [sum_filter_map, sum_filter_map, sum_filter_map]
    refine sum_map_eq_add st.expenses _ _ _ ?_
    intro e he
    rw [sum_expenseBalanceEvents u v huv e (hsplits e he)]
    unfold bothInvolved pairApplyExpense
    by_cases hp : e.paidByUserId = u
    · have hpv : ¬ e.paidByUserId = v := fun h => huv (hp.symm.trans h)
      by_cases hany : e.splits.any (fun s => s.userId == v) = true
      · cases e.groupId <;> simp [hp, hany, huv]
      · have hnone : e.splits.find? (fun s => s.userId == v && !s.paid) = none := by
          rw [List.find?_eq_none]
          intro s hs hc
          simp only [Bool.and_eq_true, beq_iff_eq] at hc
          exact hany (List.any_eq_true.mpr ⟨s, hs, by simp [hc.1]⟩)
        cases e.groupId <;> simp [hp, hnone, huv]
    · by_cases hpv : e.paidByUserId = v
      · by_cases hany : e.splits.any (fun s => s.userId == u) = true
        · cases e.groupId <;> simp [hp, hpv, hany, Ne.symm huv]
        · have hnone : e.splits.find? (fun s => s.userId == u && !s.paid) = none := by
            rw [List.find?_eq_none]
            intro s hs hc
            simp only [Bool.and_eq_true, beq_iff_eq] at hc
            exact hany (List.any_eq_true.mpr ⟨s, hs, by simp [hc.1]⟩)
          cases e.groupId <;> simp [hp, hpv, hnone, Ne.symm huv]
      · cases e.groupId <;> simp [hp, hpv]
  · rw [sum_filter_map, List.map_map, sum_filter_map, sum_filter_map]
    refine sum_map_congr st.settlements _ _ ?_
    intro s _
    simp only [Function.comp]
    exact settlementBalanceEvent_net u v huv s

/-- In exact arithmetic: for a caller U, a counterparty V other than U with a user document,
and a store in which every expense has at most one split per user, the net
that the lists of `getUserBalances` show for V (the amount of V in
`youAreOwedBy`, minus the amount of V in `youOwe`) is the balance that
`getExpensesBetweenUsers` returns for U and V. -/
theorem getUserBalances_net_eq_pair_balance (identity : Option String) (userId : UserId)
    (st : Store) (me other : User)
    (hauth : getCurrentUser identity st = .ok me) (hne : me._id ≠ userId)
    (hother : st.users.find? (fun u => u._id == userId) = some other)
    (hsplits : ∀ e ∈ st.expenses, (e.splits.map (fun s => s.userId)).Nodup) :
    ∃ rb rp, getUserBalances identity st = .ok rb
      ∧ getExpensesBetweenUsers identity userId st = .ok rp
      ∧ specCounterpartyNet rb userId = rp.balance := by
  obtain ⟨rb, hrb, hnet⟩ := specCounterpartyNet_eq identity st me userId hauth
  obtain ⟨rp, hrp, hbal⟩ := getExpensesBetweenUsers_balance identity userId st me other hauth hne
    hother
  exact ⟨rb, rp, hrb, hrp, by rw [hnet, hbal, sum_balanceEvents_pair me._id userId hne st hsplits]⟩

theorem getUserBalances_net_eq_pair_balance_witness :
    (∃ rb rp, getUserBalances (some "token-a") scenario5 = .ok rb
      ∧ getExpensesBetweenUsers (some "token-a") 2 scenario5 = .ok rp
      ∧ specCounterpartyNet rb 2 = rp.balance)
    ∧ (getUserBalances (some "token-a") scenario5).map (fun r => specCounterpartyNet r 2)
        = .ok (-50)
    ∧ (getExpensesBetweenUsers (some "token-a") 2 scenario5).map (fun r => r.balance)
        = .ok (-50) :=
  ⟨getUserBalances_net_eq_pair_balance (some "token-a") 2 scenario5 userA userB rfl (by decide)
    rfl (by decide), by decide!, by decide!⟩

/-! ### The calendar of `Date` -/

theorem daysInYear_cases (y : Int) : daysInYear y = 365 ∨ daysInYear y = 366 := by
  unfold daysInYear
  split_ifs <;> simp

theorem inLeapYear_eq (y : Int) : inLeapYear y = daysInYear y - 365 := by
  unfold inLeapYear
  rcases daysInYear_cases y with h | h <;> simp [h]

theorem dayFromYear_succ (y : Int) : dayFromYear (y + 1) = dayFromYear y + daysInYear y := by
  unfold dayFromYear daysInYear
  split_ifs <;> omega

theorem dayFromYear_strictMono : StrictMono dayFromYear := by
  apply strictMono_int_of_lt_succ
  intro y
  rw [dayFromYear_succ]
  rcases daysInYear_cases y with h | h <;> omega

/-- The year of a day number is the year `YearFromTime` specifies: its first
day is not after the day, and the first day of the next year is. -/
theorem yearFromDay_spec (d : Int) :
    dayFromYear (yearFromDay d) ≤ d ∧ d < dayFromYear (yearFromDay d + 1) := by
  unfold yearFromDay
  simp only []
  split_ifs with h1 h2
  · refine ⟨h1, ?_⟩
    unfold dayFromYear at *
    omega
  · exact ⟨h2, by omega⟩
  · refine ⟨?_, by simpa using (not_le.mp h2)⟩
    unfold dayFromYear at *
    omega

theorem yearFromDay_unique (d y : Int) (h1 : dayFromYear y ≤ d)
    (h2 : d < dayFromYear (y + 1)) : yearFromDay d = y := by
  obtain ⟨s1, s2⟩ := yearFromDay_spec d
  rcases lt_trichotomy (yearFromDay d) y with hlt | heq | hgt
  · have : dayFromYear (yearFromDay d + 1) ≤ dayFromYear y :=
      dayFromYear_strictMono.monotone (by omega)
    omega
  · exact heq
  · have : dayFromYear (y + 1) ≤ dayFromYear (yearFromDay d) :=
      dayFromYear_strictMono.monotone (by omega)
    omega

theorem yearFromDay_ge (d : Int) (hd : 0 ≤ d) : 1970 ≤ yearFromDay d := by
  obtain ⟨_, s2⟩ := yearFromDay_spec d
  by_contra hlt
  have h : dayFromYear (yearFromDay d + 1) ≤ dayFromYear 1970 :=
    dayFromYear_strictMono.monotone (by omega)
  have h0 : dayFromYear 1970 = 0 := by decide
  omega

/-- The values of `daysBeforeMonthOf` at the months 0 to 12. -/
theorem daysBeforeMonthOf_values (l : Int) :
    daysBeforeMonthOf l 0 = 0
      ∧ daysBeforeMonthOf l 1 = 31
      ∧ daysBeforeMonthOf l 2 = 59 + l
      ∧ daysBeforeMonthOf l 3 = 90 + l
      ∧ daysBeforeMonthOf l 4 = 120 + l
      ∧ daysBeforeMonthOf l 5 = 151 + l
      ∧ daysBeforeMonthOf l 6 = 181 + l
      ∧ daysBeforeMonthOf l 7 = 212 + l
      ∧ daysBeforeMonthOf l 8 = 243 + l
      ∧ daysBeforeMonthOf l 9 = 273 + l
      ∧ daysBeforeMonthOf l 10 = 304 + l
      ∧ daysBeforeMonthOf l 11 = 334 + l
      ∧ daysBeforeMonthOf l 12 = 365 + l := by
  refine ⟨?_, ?_, ?_, ?_, ?_, ?_, ?_, ?_, ?_, ?_, ?_, ?_, ?_⟩ <;> (unfold daysBeforeMonthOf; norm_num)

/-- The values of `daysBeforeMonthOf` at a month and at the next one. -/
theorem daysBeforeMonthOf_pair (l m : Int) (hm0 : 0 ≤ m) (hm : m ≤ 11) :
    ∃ a b, daysBeforeMonthOf l m = a ∧ daysBeforeMonthOf l (m + 1) = b ∧
      ((m = 0 ∧ a = 0 ∧ b = 31)
        ∨ (m = 1 ∧ a = 31 ∧ b = 59 + l)
        ∨ (m = 2 ∧ a = 59 + l ∧ b = 90 + l)
        ∨ (m = 3 ∧ a = 90 + l ∧ b = 120 + l)
        ∨ (m = 4 ∧ a = 120 + l ∧ b = 151 + l)
        ∨ (m = 5 ∧ a = 151 + l ∧ b = 181 + l)
        ∨ (m = 6 ∧ a = 181 + l ∧ b = 212 + l)
        ∨ (m = 7 ∧ a = 212 + l ∧ b = 243 + l)
        ∨ (m = 8 ∧ a = 243 + l ∧ b = 273 + l)
        ∨ (m = 9 ∧ a = 273 + l ∧ b = 304 + l)
        ∨ (m = 10 ∧ a = 304 + l ∧ b = 334 + l)
        ∨ (m = 11 ∧ a = 334 + l ∧ b = 365 + l)) := by
  have hcases : m = 0 ∨ m = 1 ∨ m = 2 ∨ m = 3 ∨ m = 4 ∨ m = 5 ∨ m = 6 ∨ m = 7 ∨ m = 8 ∨ m = 9 ∨ m = 10 ∨ m = 11 := by omega
  rcases hcases with rfl | rfl | rfl | rfl | rfl | rfl | rfl | rfl | rfl | rfl | rfl | rfl
  · exact ⟨_, _, (daysBeforeMonthOf_values l).1, (daysBeforeMonthOf_values l).2.1, Or.inl ⟨rfl, rfl, rfl⟩⟩
  · exact ⟨_, _, (daysBeforeMonthOf_values l).2.1, (daysBeforeMonthOf_values l).2.2.1, Or.inr (Or.inl ⟨rfl, rfl, rfl⟩)⟩
  · exact ⟨_, _, (daysBeforeMonthOf_values l).2.2.1, (daysBeforeMonthOf_values l).2.2.2.1, Or.inr (Or.inr (Or.inl ⟨rfl, rfl, rfl⟩))⟩
  · exact ⟨_, _, (daysBeforeMonthOf_values l).2.2.2.1, (daysBeforeMonthOf_values l).2.2.2.2.1, Or.inr (Or.inr (Or.inr (Or.inl ⟨rfl, rfl, rfl⟩)))⟩
  · exact ⟨_, _, (daysBeforeMonthOf_values l).2.2.2.2.1, (daysBeforeMonthOf_values l).2.2.2.2.2.1, Or.inr (Or.inr (Or.inr (Or.inr (Or.inl ⟨rfl, rfl, rfl⟩))))⟩
  · exact ⟨_, _, (daysBeforeMonthOf_values l).2.2.2.2.2.1, (daysBeforeMonthOf_values l).2.2.2.2.2.2.1, Or.inr (Or.inr (Or.inr (Or.inr (Or.inr (Or.inl ⟨rfl, rfl, rfl⟩)))))⟩
  · exact ⟨_, _, (daysBeforeMonthOf_values l).2.2.2.2.2.2.1, (daysBeforeMonthOf_values l).2.2.2.2.2.2.2.1, Or.inr (Or.inr (Or.inr (Or.inr (Or.inr (Or.inr (Or.inl ⟨rfl, rfl, rfl⟩))))))⟩
  · exact ⟨_, _, (daysBeforeMonthOf_values l).2.2.2.2.2.2.2.1, (daysBeforeMonthOf_values l).2.2.2.2.2.2.2.2.1, Or.inr (Or.inr (Or.inr (Or.inr (Or.inr (Or.inr (Or.inr (Or.inl ⟨rfl, rfl, rfl⟩)))))))⟩
  · exact ⟨_, _, (daysBeforeMonthOf_values l).2.2.2.2.2.2.2.2.1, (daysBeforeMonthOf_values l).2.2.2.2.2.2.2.2.2.1, Or.inr (Or.inr (Or.inr (Or.inr (Or.inr (Or.inr (Or.inr (Or.inr (Or.inl ⟨rfl, rfl, rfl⟩))))))))⟩
  · exact ⟨_, _, (daysBeforeMonthOf_values l).2.2.2.2.2.2.2.2.2.1, (daysBeforeMonthOf_values l).2.2.2.2.2.2.2.2.2.2.1, Or.inr (Or.inr (Or.inr (Or.inr (Or.inr (Or.inr (Or.inr (Or.inr (Or.inr (Or.inl ⟨rfl, rfl, rfl⟩)))))))))⟩
  · exact ⟨_, _, (daysBeforeMonthOf_values l).2.2.2.2.2.2.2.2.2.2.1, (daysBeforeMonthOf_values l).2.2.2.2.2.2.2.2.2.2.2.1, Or.inr (Or.inr (Or.inr (Or.inr (Or.inr (Or.inr (Or.inr (Or.inr (Or.inr (Or.inr (Or.inl ⟨rfl, rfl, rfl⟩))))))))))⟩
  · exact ⟨_, _, (daysBeforeMonthOf_values l).2.2.2.2.2.2.2.2.2.2.2.1, (daysBeforeMonthOf_values l).2.2.2.2.2.2.2.2.2.2.2.2, Or.inr (Or.inr (Or.inr (Or.inr (Or.inr (Or.inr (Or.inr (Or.inr (Or.inr (Or.inr (Or.inr (⟨rfl, rfl, rfl⟩)))))))))))⟩

/-- The value of `monthInYear` on each interval of its table. -/
theorem monthInYear_table (l d m a b : Int) (hl : 0 ≤ l) (h1 : a ≤ d) (h2 : d < b)
    (h : (m = 0 ∧ a = 0 ∧ b = 31)
      ∨ (m = 1 ∧ a = 31 ∧ b = 59 + l)
      ∨ (m = 2 ∧ a = 59 + l ∧ b = 90 + l)
      ∨ (m = 3 ∧ a = 90 + l ∧ b = 120 + l)
      ∨ (m = 4 ∧ a = 120 + l ∧ b = 151 + l)
      ∨ (m = 5 ∧ a = 151 + l ∧ b = 181 + l)
      ∨ (m = 6 ∧ a = 181 + l ∧ b = 212 + l)
      ∨ (m = 7 ∧ a = 212 + l ∧ b = 243 + l)
      ∨ (m = 8 ∧ a = 243 + l ∧ b = 273 + l)
      ∨ (m = 9 ∧ a = 273 + l ∧ b = 304 + l)
      ∨ (m = 10 ∧ a = 304 + l ∧ b = 334 + l)
      ∨ (m = 11 ∧ a = 334 + l ∧ b = 365 + l)) :
    monthInYear l d = m := by
  unfold monthInYear
  rcases h with ⟨rfl, rfl, rfl⟩ | ⟨rfl, rfl, rfl⟩ | ⟨rfl, rfl, rfl⟩ | ⟨rfl, rfl, rfl⟩ | ⟨rfl, rfl, rfl⟩ | ⟨rfl, rfl, rfl⟩ | ⟨rfl, rfl, rfl⟩ | ⟨rfl, rfl, rfl⟩ | ⟨rfl, rfl, rfl⟩ | ⟨rfl, rfl, rfl⟩ | ⟨rfl, rfl, rfl⟩ | ⟨rfl, rfl, rfl⟩
  · rw [if_pos (by omega)]
  · rw [if_neg (by omega), if_pos (by omega)]
  · rw [if_neg (by omega), if_neg (by omega), if_pos (by omega)]
  · rw [if_neg (by omega), if_neg (by omega), if_neg (by omega), if_pos (by omega)]
  · rw [if_neg (by omega), if_neg (by omega), if_neg (by omega), if_neg (by omega), if_pos (by omega)]
  · rw [if_neg (by omega), if_neg (by omega), if_neg (by omega), if_neg (by omega), if_neg (by omega), if_pos (by omega)]
  · rw [if_neg (by omega), if_neg (by omega), if_neg (by omega), if_neg (by omega), if_neg (by omega), if_neg (by omega), if_pos (by omega)]
  · rw [if_neg (by omega), if_neg (by omega), if_neg (by omega), if_neg (by omega), if_neg (by omega), if_neg (by omega), if_neg (by omega), if_pos (by omega)]
  · rw [if_neg (by omega), if_neg (by omega), if_neg (by omega), if_neg (by omega), if_neg (by omega), if_neg (by omega), if_neg (by omega), if_neg (by omega), if_pos (by omega)]
  · rw [if_neg (by omega), if_neg (by omega), if_neg (by omega), if_neg (by omega), if_neg (by omega), if_neg (by omega), if_neg (by omega), if_neg (by omega), if_neg (by omega), if_pos (by omega)]
  · rw [if_neg (by omega), if_neg (by omega), if_neg (by omega), if_neg (by omega), if_neg (by omega), if_neg (by omega), if_neg (by omega), if_neg (by omega), if_neg (by omega), if_neg (by omega), if_pos (by omega)]
  · rw [if_neg (by omega), if_neg (by omega), if_neg (by omega), if_neg (by omega), if_neg (by omega), if_neg (by omega), if_neg (by omega), if_neg (by omega), if_neg (by omega), if_neg (by omega), if_neg (by omega)]

theorem monthInYear_of_mem (l d m : Int)
    (h1 : daysBeforeMonthOf l m ≤ d) (h2 : d < daysBeforeMonthOf l (m + 1))
    (hm0 : 0 ≤ m) (hm : m ≤ 11) (hl : 0 ≤ l) : monthInYear l d = m := by
  obtain ⟨a, b, ha, hb, htab⟩ := daysBeforeMonthOf_pair l m hm0 hm
  rw [ha] at h1
  rw [hb] at h2
  exact monthInYear_table l d m a b hl h1 h2 htab

/-- Every day of a year lies in one interval of the table. -/
theorem monthInYear_exists (l d : Int) (hd0 : 0 ≤ d) (hd : d < 365 + l) :
    ∃ m a b : Int, a ≤ d ∧ d < b ∧
      ((m = 0 ∧ a = 0 ∧ b = 31)
        ∨ (m = 1 ∧ a = 31 ∧ b = 59 + l)
        ∨ (m = 2 ∧ a = 59 + l ∧ b = 90 + l)
        ∨ (m = 3 ∧ a = 90 + l ∧ b = 120 + l)
        ∨ (m = 4 ∧ a = 120 + l ∧ b = 151 + l)
        ∨ (m = 5 ∧ a = 151 + l ∧ b = 181 + l)
        ∨ (m = 6 ∧ a = 181 + l ∧ b = 212 + l)
        ∨ (m = 7 ∧ a = 212 + l ∧ b = 243 + l)
        ∨ (m = 8 ∧ a = 243 + l ∧ b = 273 + l)
        ∨ (m = 9 ∧ a = 273 + l ∧ b = 304 + l)
        ∨ (m = 10 ∧ a = 304 + l ∧ b = 334 + l)
        ∨ (m = 11 ∧ a = 334 + l ∧ b = 365 + l)) := by
  by_cases c0 : d < 31
  · exact ⟨0, _, _, by omega, by omega, Or.inl ⟨rfl, rfl, rfl⟩⟩
  by_cases c1 : d < 59 + l
  · exact ⟨1, _, _, by omega, by omega, Or.inr (Or.inl ⟨rfl, rfl, rfl⟩)⟩
  by_cases c2 : d < 90 + l
  · exact ⟨2, _, _, by omega, by omega, Or.inr (Or.inr (Or.inl ⟨rfl, rfl, rfl⟩))⟩
  by_cases c3 : d < 120 + l
  · exact ⟨3, _, _, by omega, by omega, Or.inr (Or.inr (Or.inr (Or.inl ⟨rfl, rfl, rfl⟩)))⟩
  by_cases c4 : d < 151 + l
  · exact ⟨4, _, _, by omega, by omega, Or.inr (Or.inr (Or.inr (Or.inr (Or.inl ⟨rfl, rfl, rfl⟩))))⟩
  by_cases c5 : d < 181 + l
  · exact ⟨5, _, _, by omega, by omega, Or.inr (Or.inr (Or.inr (Or.inr (Or.inr (Or.inl ⟨rfl, rfl, rfl⟩)))))⟩
  by_cases c6 : d < 212 + l
  · exact ⟨6, _, _, by omega, by omega, Or.inr (Or.inr (Or.inr (Or.inr (Or.inr (Or.inr (Or.inl ⟨rfl, rfl, rfl⟩))))))⟩
  by_cases c7 : d < 243 + l
  · exact ⟨7, _, _, by omega, by omega, Or.inr (Or.inr (Or.inr (Or.inr (Or.inr (Or.inr (Or.inr (Or.inl ⟨rfl, rfl, rfl⟩)))))))⟩
  by_cases c8 : d < 273 + l
  · exact ⟨8, _, _, by omega, by omega, Or.inr (Or.inr (Or.inr (Or.inr (Or.inr (Or.inr (Or.inr (Or.inr (Or.inl ⟨rfl, rfl, rfl⟩))))))))⟩
  by_cases c9 : d < 304 + l
  · exact ⟨9, _, _, by omega, by omega, Or.inr (Or.inr (Or.inr (Or.inr (Or.inr (Or.inr (Or.inr (Or.inr (Or.inr (Or.inl ⟨rfl, rfl, rfl⟩)))))))))⟩
  by_cases c10 : d < 334 + l
  · exact ⟨10, _, _, by omega, by omega, Or.inr (Or.inr (Or.inr (Or.inr (Or.inr (Or.inr (Or.inr (Or.inr (Or.inr (Or.inr (Or.inl ⟨rfl, rfl, rfl⟩))))))))))⟩
  exact ⟨11, _, _, by omega, by omega, Or.inr (Or.inr (Or.inr (Or.inr (Or.inr (Or.inr (Or.inr (Or.inr (Or.inr (Or.inr (Or.inr (⟨rfl, rfl, rfl⟩)))))))))))⟩

theorem table_month_bounds (l m a b : Int) (hl : l = 0 ∨ l = 1)
    (h : (m = 0 ∧ a = 0 ∧ b = 31)
      ∨ (m = 1 ∧ a = 31 ∧ b = 59 + l)
      ∨ (m = 2 ∧ a = 59 + l ∧ b = 90 + l)
      ∨ (m = 3 ∧ a = 90 + l ∧ b = 120 + l)
      ∨ (m = 4 ∧ a = 120 + l ∧ b = 151 + l)
      ∨ (m = 5 ∧ a = 151 + l ∧ b = 181 + l)
      ∨ (m = 6 ∧ a = 181 + l ∧ b = 212 + l)
      ∨ (m = 7 ∧ a = 212 + l ∧ b = 243 + l)
      ∨ (m = 8 ∧ a = 243 + l ∧ b = 273 + l)
      ∨ (m = 9 ∧ a = 273 + l ∧ b = 304 + l)
      ∨ (m = 10 ∧ a = 304 + l ∧ b = 334 + l)
      ∨ (m = 11 ∧ a = 334 + l ∧ b = 365 + l)) :
    0 ≤ m ∧ m ≤ 11 ∧ 0 ≤ a ∧ a < b ∧ b ≤ 365 + l := by
  omega

theorem monthInYear_spec (l d : Int) (hl : l = 0 ∨ l = 1) (hd0 : 0 ≤ d) (hd : d < 365 + l) :
    0 ≤ monthInYear l d ∧ monthInYear l d ≤ 11
      ∧ daysBeforeMonthOf l (monthInYear l d) ≤ d
      ∧ d < daysBeforeMonthOf l (monthInYear l d + 1) := by
  have hl0 : 0 ≤ l := by omega
  obtain ⟨m, a, b, h1, h2, htab⟩ := monthInYear_exists l d hd0 hd
  obtain ⟨hm0, hm, _, _, _⟩ := table_month_bounds l m a b hl htab
  obtain ⟨a', b', ha, hb, htab'⟩ := daysBeforeMonthOf_pair l m hm0 hm
  have hab : a' = a ∧ b' = b := by
    clear ha hb h1 h2
    omega
  rw [monthInYear_table l d m a b hl0 h1 h2 htab, ha, hb, hab.1, hab.2]
  exact ⟨hm0, hm, h1, h2⟩

theorem daysBeforeMonthOf_bounds (l m : Int) (hl : l = 0 ∨ l = 1) (hm0 : 0 ≤ m) (hm : m ≤ 11) :
    0 ≤ daysBeforeMonthOf l m ∧ daysBeforeMonthOf l m < daysBeforeMonthOf l (m + 1)
      ∧ daysBeforeMonthOf l (m + 1) ≤ 365 + l := by
  obtain ⟨a, b, ha, hb, htab⟩ := daysBeforeMonthOf_pair l m hm0 hm
  obtain ⟨_, _, h1, h2, h3⟩ := table_month_bounds l m a b hl htab
  rw [ha, hb]
  exact ⟨h1, h2, h3⟩

theorem daysBeforeMonth_bounds (y m : Int) (hm0 : 0 ≤ m) (hm : m ≤ 11) :
    0 ≤ daysBeforeMonth y m ∧ daysBeforeMonth y m < daysBeforeMonth y (m + 1)
      ∧ daysBeforeMonth y (m + 1) ≤ daysInYear y := by
  have hl := inLeapYear_eq y
  have hc := daysInYear_cases y
  have hl' : inLeapYear y = 0 ∨ inLeapYear y = 1 := by omega
  obtain ⟨b1, b2, b3⟩ := daysBeforeMonthOf_bounds (inLeapYear y) m hl' hm0 hm
  unfold daysBeforeMonth
  refine ⟨b1, b2, ?_⟩
  generalize daysBeforeMonthOf (inLeapYear y) (m + 1) = b at *
  clear b1 b2
  omega

/-- The month of a day number is the month `MonthFromTime` specifies. -/
theorem monthFromDay_spec (d : Int) :
    0 ≤ monthFromDay d ∧ monthFromDay d ≤ 11
      ∧ dayFromYear (yearFromDay d) + daysBeforeMonth (yearFromDay d) (monthFromDay d) ≤ d
      ∧ d < dayFromYear (yearFromDay d) + daysBeforeMonth (yearFromDay d) (monthFromDay d + 1) := by
  obtain ⟨s1, s2⟩ := yearFromDay_spec d
  rw [dayFromYear_succ] at s2
  have hl := inLeapYear_eq (yearFromDay d)
  have hc := daysInYear_cases (yearFromDay d)
  obtain ⟨m0, m1, m2, m3⟩ := monthInYear_spec (inLeapYear (yearFromDay d))
    (d - dayFromYear (yearFromDay d)) (by omega) (by omega) (by omega)
  unfold monthFromDay daysBeforeMonth
  refine ⟨m0, m1, ?_, ?_⟩
  · generalize daysBeforeMonthOf _ _ = a at m2 ⊢
    clear m3
    omega
  · generalize daysBeforeMonthOf _ _ = b at m3 ⊢
    clear m2
    omega

theorem monthFromDay_unique (d y m : Int) (hm0 : 0 ≤ m) (hm : m ≤ 11)
    (h1 : dayFromYear y + daysBeforeMonth y m ≤ d)
    (h2 : d < dayFromYear y + daysBeforeMonth y (m + 1)) :
    yearFromDay d = y ∧ monthFromDay d = m := by
  obtain ⟨b1, b2, b3⟩ := daysBeforeMonth_bounds y m hm0 hm
  have hl := inLeapYear_eq y
  have hc := daysInYear_cases y
  have hl0 : 0 ≤ inLeapYear y := by omega
  unfold daysBeforeMonth at h1 h2 b1 b2 b3
  have g1 : daysBeforeMonthOf (inLeapYear y) m ≤ d - dayFromYear y := by
    generalize daysBeforeMonthOf (inLeapYear y) m = a at *
    clear h2 b2 b3
    omega
  have g2 : d - dayFromYear y < daysBeforeMonthOf (inLeapYear y) (m + 1) := by
    generalize daysBeforeMonthOf (inLeapYear y) (m + 1) = b at *
    clear h1 b1 b2 g1
    omega
  have hy : yearFromDay d = y := by
    apply yearFromDay_unique
    · generalize daysBeforeMonthOf (inLeapYear y) m = a at *
      clear h2 b2 b3 g2
      omega
    · rw [dayFromYear_succ]
      generalize daysBeforeMonthOf (inLeapYear y) (m + 1) = b at *
      clear h1 b1 b2 g1
      omega
  refine ⟨hy, ?_⟩
  unfold monthFromDay
  rw [hy]
  exact monthInYear_of_mem _ _ m g1 g2 hm0 hm hl0

/-! ### Time values -/

theorem specMonthStart_zero (y : Int) : specMonthStart y 0 = dayFromYear y * msPerDay := by
  unfold specMonthStart daysBeforeMonth
  rw [(daysBeforeMonthOf_values (inLeapYear y)).1, add_zero]

theorem specMonthStart_twelve (y : Int) : specMonthStart y 12 = specMonthStart (y + 1) 0 := by
  rw [specMonthStart_zero, dayFromYear_succ]
  unfold specMonthStart daysBeforeMonth
  rw [(daysBeforeMonthOf_values (inLeapYear y)).2.2.2.2.2.2.2.2.2.2.2.2, inLeapYear_eq]
  congr 1
  ring

theorem specMonthStart_lt_succ (y m : Int) (hm0 : 0 ≤ m) (hm : m ≤ 11) :
    specMonthStart y 0 ≤ specMonthStart y m
      ∧ specMonthStart y m < specMonthStart y (m + 1) := by
  obtain ⟨b1, b2, _⟩ := daysBeforeMonth_bounds y m hm0 hm
  rw [specMonthStart_zero]
  unfold specMonthStart msPerDay
  generalize daysBeforeMonth y m = a at *
  generalize daysBeforeMonth y (m + 1) = b at *
  omega

/-- The year and the month of a time value: the month starts at or before
the time value and the next month starts after it. -/
theorem getMonth_spec (tv : Int) :
    0 ≤ getMonth tv ∧ getMonth tv ≤ 11
      ∧ specMonthStart (getFullYear tv) (getMonth tv) ≤ tv
      ∧ tv < specMonthStart (getFullYear tv) (getMonth tv + 1) := by
  obtain ⟨m0, m1, m2, m3⟩ := monthFromDay_spec (tv / msPerDay)
  unfold getMonth getFullYear specMonthStart
  refine ⟨m0, m1, ?_, ?_⟩
  · exact (Int.le_ediv_iff_mul_le (by decide)).mp m2
  · exact (Int.ediv_lt_iff_lt_mul (by decide)).mp m3

theorem getMonth_unique (tv y m : Int) (hm0 : 0 ≤ m) (hm : m ≤ 11)
    (h1 : specMonthStart y m ≤ tv) (h2 : tv < specMonthStart y (m + 1)) :
    getFullYear tv = y ∧ getMonth tv = m := by
  unfold specMonthStart at h1 h2
  unfold getMonth getFullYear
  exact monthFromDay_unique (tv / msPerDay) y m hm0 hm
    ((Int.le_ediv_iff_mul_le (by decide)).mpr h1) ((Int.ediv_lt_iff_lt_mul (by decide)).mpr h2)

/-- The current year: it starts at or before the time value and the next
year starts after it. -/
theorem getFullYear_spec (tv : Int) :
    specMonthStart (getFullYear tv) 0 ≤ tv ∧ tv < specMonthStart (getFullYear tv + 1) 0 := by
  obtain ⟨s1, s2⟩ := yearFromDay_spec (tv / msPerDay)
  rw [specMonthStart_zero, specMonthStart_zero]
  unfold getFullYear
  exact ⟨(Int.le_ediv_iff_mul_le (by decide)).mp s1, (Int.ediv_lt_iff_lt_mul (by decide)).mp s2⟩

theorem getFullYear_ge (tv : Int) (h : 0 ≤ tv) : 1970 ≤ getFullYear tv := by
  unfold getFullYear
  exact yearFromDay_ge _ (Int.ediv_nonneg h (by decide))

theorem specMonthStart_nonneg (y : Int) (hy : 1970 ≤ y) : 0 ≤ specMonthStart y 0 := by
  rw [specMonthStart_zero]
  have h : dayFromYear 1970 ≤ dayFromYear y := dayFromYear_strictMono.monotone hy
  have h0 : dayFromYear 1970 = 0 := by decide
  unfold msPerDay
  omega

theorem specMonthStart_injective (y m y' m' : Int) (hm0 : 0 ≤ m) (hm : m ≤ 11)
    (hm0' : 0 ≤ m') (hm' : m' ≤ 11) (h : specMonthStart y m = specMonthStart y' m') :
    y = y' ∧ m = m' := by
  obtain ⟨a1, a2⟩ := getMonth_unique (specMonthStart y m) y m hm0 hm le_rfl
    (specMonthStart_lt_succ y m hm0 hm).2
  obtain ⟨b1, b2⟩ := getMonth_unique (specMonthStart y m) y' m' hm0' hm' (le_of_eq h.symm)
    (h ▸ (specMonthStart_lt_succ y' m' hm0' hm').2)
  exact ⟨a1.symm.trans b1, a2.symm.trans b2⟩

/-- From the year 100 on, `new Date(year, month, 1)` is the start of the month. -/
theorem newDate_eq (y m : Int) (hy : 100 ≤ y) (hm0 : 0 ≤ m) (hm : m ≤ 11) :
    newDate y m = specMonthStart y m := by
  unfold newDate makeDay specMonthStart
  have h1 : m / 12 = 0 := Int.ediv_eq_zero_of_lt hm0 (by omega)
  have h2 : m % 12 = m := Int.emod_eq_of_lt hm0 (by omega)
  have h3 : ¬ (0 ≤ y ∧ y ≤ 99) := by omega
  simp only [h1, h2, h3, if_false, add_zero]

theorem timeClip_of_nonneg (q : ℚ) (h : 0 ≤ q) : timeClip q = ⌊q⌋ := by
  unfold timeClip
  rw [if_pos h]

/-- For a date from the start of the year `y` on, the key of its month in
`monthlyTotals` is the start of month `i` of year `y` exactly when the date
lies in that month. -/
theorem monthKey_eq_iff (y : Int) (hy : 1970 ≤ y) (i : Int) (hi0 : 0 ≤ i) (hi : i ≤ 11) (q : ℚ)
    (hq : ((specMonthStart y 0 : Int) : ℚ) ≤ q) :
    newDate (getFullYear (timeClip q)) (getMonth (timeClip q)) = specMonthStart y i
      ↔ (((specMonthStart y i : Int) : ℚ) ≤ q ∧ q < ((specMonthStart y (i + 1) : Int) : ℚ)) := by
  have h0 : (0 : ℚ) ≤ q := le_trans (by exact_mod_cast specMonthStart_nonneg y hy) hq
  rw [timeClip_of_nonneg q h0]
  have htv : 0 ≤ ⌊q⌋ := Int.floor_nonneg.mpr h0
  obtain ⟨m0, m1, m2, m3⟩ := getMonth_spec ⌊q⌋
  have hyear := getFullYear_ge ⌊q⌋ htv
  rw [newDate_eq _ _ (by omega) m0 m1, ← Int.le_floor, ← Int.floor_lt]
  constructor
  · intro h
    obtain ⟨e1, e2⟩ := specMonthStart_injective _ _ _ _ m0 m1 hi0 hi h
    rw [e1, e2] at m2 m3
    exact ⟨m2, m3⟩
  · rintro ⟨h1, h2⟩
    obtain ⟨e1, e2⟩ := getMonth_unique ⌊q⌋ y i hi0 hi h1 h2
    rw [e1, e2]

/-! ### getTotalSpent and getMonthlySpending -/

theorem totalSpentApply_eq (u : UserId) (acc : ℚ) (e : Expense) :
    totalSpentApply u acc e = acc + specOwnShare u e := by
  unfold totalSpentApply specOwnShare
  cases e.splits.find? (fun s => s.userId == u) <;> simp

theorem foldl_totalSpentApply (u : UserId) (l : List Expense) (init : ℚ) :
    l.foldl (totalSpentApply u) init = init + (l.map (specOwnShare u)).sum := by
  induction l generalizing init with
  | nil => simp
  | cons x xs ih =>
    rw [List.foldl_cons, ih, totalSpentApply_eq]
    simp [add_assoc]

/-- The expenses that both handlers iterate over, up to their order. -/
theorem userExpenses_perm (u : UserId) (start : ℚ) (st : Store) :
    ((expensesByDateFrom start st).filter (isUserExpense u)).Perm
      (st.expenses.filter (fun e => decide (start ≤ e.date) && isUserExpense u e)) := by
  unfold expensesByDateFrom
  refine ((List.perm_insertionSort _ _).filter _).trans ?_
  rw [List.filter_filter]
  refine List.Perm.of_eq (List.filter_congr ?_)
  intro e _
  rw [Bool.and_comm]

/-- The value of `getTotalSpent` as a sum over the expenses table. -/
theorem getTotalSpent_eq (identity : Option String) (now : Int) (st : Store) (user : User)
    (hauth : getCurrentUser identity st = .ok user) :
    getTotalSpent identity now st
      = .ok (((st.expenses.filter (fun e =>
          decide (((newDate (getFullYear now) 0 : Int) : ℚ) ≤ e.date)
            && isUserExpense user._id e)).map (specOwnShare user._id)).sum) := by
  simp only [getTotalSpent, hauth, foldl_totalSpentApply, zero_add]
  rw [((userExpenses_perm user._id _ st).map (specOwnShare user._id)).sum_eq]

/-- C27: `getTotalSpent` is the sum, over the expenses dated on or after the
start of the current year in which the caller is the payer or a split
participant, of the amount of the caller's first split, 0 for an expense
without a split of the caller; the paid flag is not read. The start of the
current year is at or before the clock and the start of the next year after
it. -/
theorem getTotalSpent_own_share (identity : Option String) (now : Int) (st : Store)
    (user : User) (hauth : getCurrentUser identity st = .ok user) (hnow : 0 ≤ now) :
    getTotalSpent identity now st
      = .ok (((st.expenses.filter (fun e =>
          decide (((specMonthStart (getFullYear now) 0 : Int) : ℚ) ≤ e.date)
            && (e.paidByUserId == user._id || e.splits.any (fun s => s.userId == user._id)))).map
          (specOwnShare user._id)).sum)
    ∧ specMonthStart (getFullYear now) 0 ≤ now
    ∧ now < specMonthStart (getFullYear now + 1) 0 := by
  have hy := getFullYear_ge now hnow
  refine ⟨?_, getFullYear_spec now⟩
  rw [getTotalSpent_eq identity now st user hauth, newDate_eq _ _ (by omega) le_rfl (by decide)]
  rfl

theorem getTotalSpent_own_share_witness :
    getTotalSpent (some "token-a") midJune2024 spending = .ok 30
    ∧ (getTotalSpent (some "token-a") midJune2024 spending
        = .ok (((spending.expenses.filter (fun e =>
            decide (((specMonthStart (getFullYear midJune2024) 0 : Int) : ℚ) ≤ e.date)
              && (e.paidByUserId == userA._id
                || e.splits.any (fun s => s.userId == userA._id)))).map
            (specOwnShare userA._id)).sum)
      ∧ specMonthStart (getFullYear midJune2024) 0 ≤ midJune2024
      ∧ midJune2024 < specMonthStart (getFullYear midJune2024 + 1) 0) :=
  ⟨by decide!, getTotalSpent_own_share (some "token-a") midJune2024 spending userA rfl
    (by decide)⟩

/-- C28: an expense dated after the current year is counted. With the clock
in June 2024 and one expense of the caller dated 10 February 2025,
`getTotalSpent` returns the caller's share 45 and `getMonthlySpending` returns
13 entries, the last one for February 2025 with total 45. -/
theorem spending_counts_next_year :
    getFullYear midJune2024 = 2024
    ∧ ((specMonthStart 2025 0 : Int) : ℚ) ≤ nextYear.date
    ∧ getTotalSpent (some "token-a") midJune2024 spendingAhead = .ok 45
    ∧ (getMonthlySpending (some "token-a") midJune2024 spendingAhead).map (fun r => r.length)
        = .ok 13
    ∧ (getMonthlySpending (some "token-a") midJune2024 spendingAhead).map
        (fun r => r.drop 12) = .ok [{ month := specMonthStart 2025 1, total := 45 }] := by
  decide!

theorem monthlyApplyExpense_nodup (u : UserId) (m : List (Int × ℚ)) (e : Expense)
    (h : (m.map Prod.fst).Nodup) : ((monthlyApplyExpense u m e).map Prod.fst).Nodup := by
  unfold monthlyApplyExpense
  simp only []
  cases e.splits.find? (fun s => s.userId == u) with
  | none => exact h
  | some s => exact nodup_keys_objUpdate _ _ _ h

/-- The total of a bucket that exists before the loop of lines 156-171. -/
theorem objGet_foldl_monthlyApplyExpense (u : UserId) (l : List Expense) (m0 : List (Int × ℚ))
    (k : Int) (x : ℚ) (h : objGet m0 k = some x) :
    objGet (l.foldl (monthlyApplyExpense u) m0) k
      = some (x + ((l.filter (fun e =>
          decide (newDate (getFullYear (timeClip e.date)) (getMonth (timeClip e.date)) = k))).map
          (specOwnShare u)).sum) := by
  induction l generalizing m0 x with
  | nil => simpa using h
  | cons e l ih =>
    rw [List.foldl_cons]
    by_cases hk : newDate (getFullYear (timeClip e.date)) (getMonth (timeClip e.date)) = k
    · have hstep : objGet (monthlyApplyExpense u m0 e) k = some (x + specOwnShare u e) := by
        unfold monthlyApplyExpense specOwnShare
        simp only []
        cases e.splits.find? (fun s => s.userId == u) with
        | none => simpa using h
        | some s =>
          simp only [objGet_objUpdate, hk, if_true, h, Option.getD_some]
      rw [ih _ _ hstep, List.filter_cons, if_pos (by simpa using hk), List.map_cons,
        List.sum_cons, add_assoc]
    · have hstep : objGet (monthlyApplyExpense u m0 e) k = some x := by
        unfold monthlyApplyExpense
        simp only []
        cases e.splits.find? (fun s => s.userId == u) with
        | none => exact h
        | some s =>
          simp only [objGet_objUpdate, if_neg (Ne.symm hk), h]
      rw [ih _ _ hstep, List.filter_cons, if_neg (by simpa using hk)]

theorem initMonthlyTotals_eq (y : Int) :
    initMonthlyTotals y
      = List.foldl (fun m a => objUpdate m a (fun _ => (0 : ℚ))) []
          (List.map (fun i : Nat => newDate y (i : Int)) (List.range 12)) := by
  unfold initMonthlyTotals
  rw [List.foldl_map]

theorem objGet_initMonthlyTotals (y i : Int) (hi0 : 0 ≤ i) (hi : i ≤ 11) :
    objGet (initMonthlyTotals y) (newDate y i) = some 0 := by
  rw [initMonthlyTotals_eq, objGet_foldl_objUpdate, if_pos]
  refine List.mem_map.mpr ⟨i.toNat, List.mem_range.mpr (by omega), ?_⟩
  rw [Int.toNat_of_nonneg hi0]

theorem initMonthlyTotals_nodup (y : Int) : ((initMonthlyTotals y).map Prod.fst).Nodup := by
  rw [initMonthlyTotals_eq]
  exact foldl_preserve (fun (m : List (Int × ℚ)) (a : Int) => objUpdate m a (fun _ => (0 : ℚ)))
    (fun m => (m.map Prod.fst).Nodup)
    (fun m a hm => nodup_keys_objUpdate m a _ hm) _ [] (by simp)

/-- The successful result of `getMonthlySpending`. -/
theorem getMonthlySpending_ok (identity : Option String) (now : Int) (st : Store) (user : User)
    (hauth : getCurrentUser identity st = .ok user) :
    getMonthlySpending identity now st
      = .ok ((((((expensesByDateFrom ((newDate (getFullYear now) 0 : Int) : ℚ) st).filter
            (isUserExpense user._id)).foldl (monthlyApplyExpense user._id)
              (initMonthlyTotals (getFullYear now))).map
            (fun entry => ({ month := entry.1, total := entry.2 } : MonthTotal)))).insertionSort
          (fun a b => a.month ≤ b.month)) := by
  simp only [getMonthlySpending, hauth]

/-- C29: `getMonthlySpending` returns a list in increasing order of month
start that has, for each of the 12 months of the current year, an entry whose
total is the sum of the caller's own split amounts over the expenses in which
the caller is the payer or a split participant and whose date falls in that
month. -/
theorem getMonthlySpending_buckets (identity : Option String) (now : Int) (st : Store)
    (user : User) (hauth : getCurrentUser identity st = .ok user) (hnow : 0 ≤ now) :
    ∃ r, getMonthlySpending identity now st = .ok r
      ∧ (r.map (fun entry => entry.month)).Sorted (fun a b => a < b)
      ∧ ∀ i : Int, 0 ≤ i → i ≤ 11 →
        ({ month := specMonthStart (getFullYear now) i
           total := ((st.expenses.filter (fun e =>
              (e.paidByUserId == user._id || e.splits.any (fun s => s.userId == user._id))
                && decide (((specMonthStart (getFullYear now) i : Int) : ℚ) ≤ e.date)
                && decide (e.date < ((specMonthStart (getFullYear now) (i + 1) : Int) : ℚ)))).map
              (specOwnShare user._id)).sum } : MonthTotal) ∈ r := by
  have hy := getFullYear_ge now hnow
  refine ⟨_, getMonthlySpending_ok identity now st user hauth, ?_, ?_⟩
  · have hnd : ((((expensesByDateFrom ((newDate (getFullYear now) 0 : Int) : ℚ) st).filter
          (isUserExpense user._id)).foldl (monthlyApplyExpense user._id)
            (initMonthlyTotals (getFullYear now))).map Prod.fst).Nodup :=
      foldl_preserve _ (fun m => (m.map Prod.fst).Nodup)
        (fun m e hm => monthlyApplyExpense_nodup user._id m e hm) _ _
        (initMonthlyTotals_nodup _)
    haveI : IsTotal MonthTotal (fun a b => a.month ≤ b.month) :=
      ⟨fun a b => le_total a.month b.month⟩
    haveI : IsTrans MonthTotal (fun a b => a.month ≤ b.month) :=
      ⟨fun _ _ _ h1 h2 => le_trans h1 h2⟩
    have hsorted := List.sorted_insertionSort (fun a b : MonthTotal => a.month ≤ b.month)
      ((((expensesByDateFrom ((newDate (getFullYear now) 0 : Int) : ℚ) st).filter
        (isUserExpense user._id)).foldl (monthlyApplyExpense user._id)
          (initMonthlyTotals (getFullYear now))).map
        (fun entry => ({ month := entry.1, total := entry.2 } : MonthTotal)))
    have hperm := List.perm_insertionSort (fun a b : MonthTotal => a.month ≤ b.month)
      ((((expensesByDateFrom ((newDate (getFullYear now) 0 : Int) : ℚ) st).filter
        (isUserExpense user._id)).foldl (monthlyApplyExpense user._id)
          (initMonthlyTotals (getFullYear now))).map
        (fun entry => ({ month := entry.1, total := entry.2 } : MonthTotal)))
    have hle : (List.map (fun entry : MonthTotal => entry.month) _).Sorted (fun a b => a ≤ b) :=
      List.pairwise_map.mpr hsorted
    refine hle.lt_of_le ?_
    refine ((hperm.map (fun entry : MonthTotal => entry.month)).nodup_iff).mpr ?_
    rw [List.map_map]
    exact hnd
  · intro i hi0 hi
    have hkey : newDate (getFullYear now) i = specMonthStart (getFullYear now) i :=
      newDate_eq _ _ (by omega) hi0 hi
    have hstart : newDate (getFullYear now) 0 = specMonthStart (getFullYear now) 0 :=
      newDate_eq _ _ (by omega) le_rfl (by decide)
    have hget := objGet_foldl_monthlyApplyExpense user._id
      ((expensesByDateFrom ((newDate (getFullYear now) 0 : Int) : ℚ) st).filter
        (isUserExpense user._id)) (initMonthlyTotals (getFullYear now))
      (newDate (getFullYear now) i) 0 (objGet_initMonthlyTotals _ i hi0 hi)
    have hnd : ((((expensesByDateFrom ((newDate (getFullYear now) 0 : Int) : ℚ) st).filter
          (isUserExpense user._id)).foldl (monthlyApplyExpense user._id)
            (initMonthlyTotals (getFullYear now))).map Prod.fst).Nodup :=
      foldl_preserve _ (fun m => (m.map Prod.fst).Nodup)
        (fun m e hm => monthlyApplyExpense_nodup user._id m e hm) _ _
        (initMonthlyTotals_nodup _)
    have hsum : ((((expensesByDateFrom ((newDate (getFullYear now) 0 : Int) : ℚ) st).filter
          (isUserExpense user._id)).filter (fun e =>
            decide (newDate (getFullYear (timeClip e.date)) (getMonth (timeClip e.date))
              = newDate (getFullYear now) i))).map (specOwnShare user._id)).sum
        = ((st.expenses.filter (fun e =>
              (e.paidByUserId == user._id || e.splits.any (fun s => s.userId == user._id))
                && decide (((specMonthStart (getFullYear now) i : Int) : ℚ) ≤ e.date)
                && decide (e.date < ((specMonthStart (getFullYear now) (i + 1) : Int) : ℚ)))).map
              (specOwnShare user._id)).sum := by
      have hperm := ((userExpenses_perm user._id
        ((newDate (getFullYear now) 0 : Int) : ℚ) st).filter (fun e =>
          decide (newDate (getFullYear (timeClip e.date)) (getMonth (timeClip e.date))
            = newDate (getFullYear now) i))).map (specOwnShare user._id)
      rw [hperm.sum_eq, List.filter_filter]
      have hfilter : st.expenses.filter (fun e =>
            decide (newDate (getFullYear (timeClip e.date)) (getMonth (timeClip e.date))
                = newDate (getFullYear now) i)
              && (decide (((newDate (getFullYear now) 0 : Int) : ℚ) ≤ e.date)
                && isUserExpense user._id e))
          = st.expenses.filter (fun e =>
              (e.paidByUserId == user._id || e.splits.any (fun s => s.userId == user._id))
                && decide (((specMonthStart (getFullYear now) i : Int) : ℚ) ≤ e.date)
                && decide (e.date
                    < ((specMonthStart (getFullYear now) (i + 1) : Int) : ℚ))) := by
        refine List.filter_congr ?_
        intro e _
        rw [hstart, hkey]
        unfold isUserExpense
        by_cases hs : ((specMonthStart (getFullYear now) 0 : Int) : ℚ) ≤ e.date
        · have hiff := monthKey_eq_iff (getFullYear now) hy i hi0 hi e.date hs
          by_cases hk : newDate (getFullYear (timeClip e.date)) (getMonth (timeClip e.date))
              = specMonthStart (getFullYear now) i
          · obtain ⟨h1, h2⟩ := hiff.mp hk
            simp [hs, hk, h1, h2]
          · have hnot : ¬ ((((specMonthStart (getFullYear now) i : Int) : ℚ) ≤ e.date)
                ∧ e.date < ((specMonthStart (getFullYear now) (i + 1) : Int) : ℚ)) :=
              fun h => hk (hiff.mpr h)
            by_cases h1 : ((specMonthStart (getFullYear now) i : Int) : ℚ) ≤ e.date
            · have h2 : ¬ e.date < ((specMonthStart (getFullYear now) (i + 1) : Int) : ℚ) :=
                fun h => hnot ⟨h1, h⟩
              simp [hk, h2]
            · simp [hk, h1]
        · have h1 : ¬ ((specMonthStart (getFullYear now) i : Int) : ℚ) ≤ e.date := by
            intro h
            apply hs
            refine le_trans ?_ h
            exact_mod_cast (specMonthStart_lt_succ (getFullYear now) i hi0 hi).1
          simp [hs, h1]
      rw [hfilter]
    rw [hsum, zero_add, hkey] at hget
    have hmem := (mem_iff_objGet _ hnd _ _).mpr hget
    rw [(List.perm_insertionSort _ _).mem_iff, List.mem_map]
    exact ⟨_, hmem, rfl⟩

theorem getMonthlySpending_buckets_witness :
    (getMonthlySpending (some "token-a") midJune2024 spending).map
        (fun r => r.map (fun entry => entry.total))
      = .ok [0, 0, 30, 0, 0, 0, 0, 0, 0, 0, 0, 0]
    ∧ ∃ r, getMonthlySpending (some "token-a") midJune2024 spending = .ok r
      ∧ (r.map (fun entry => entry.month)).Sorted (fun a b => a < b)
      ∧ ∀ i : Int, 0 ≤ i → i ≤ 11 →
        ({ month := specMonthStart (getFullYear midJune2024) i
           total := ((spending.expenses.filter (fun e =>
              (e.paidByUserId == userA._id || e.splits.any (fun s => s.userId == userA._id))
                && decide (((specMonthStart (getFullYear midJune2024) i : Int) : ℚ) ≤ e.date)
                && decide (e.date
                    < ((specMonthStart (getFullYear midJune2024) (i + 1) : Int) : ℚ)))).map
              (specOwnShare userA._id)).sum } : MonthTotal) ∈ r :=
  ⟨by decide!, getMonthlySpending_buckets (some "token-a") midJune2024 spending userA rfl
    (by decide)⟩

/-! ### getGroupExpenses: the two lists of a pair -/

theorem owes_amount_pos (ids : List UserId) (totals : Totals) (ledger : Ledger) (m : MemberDetail)
    (e : OwesEntry) (h : e ∈ (memberBalance ids totals ledger m).owes) : 0 < e.amount := by
  unfold memberBalance at h
  simp only [List.mem_filterMap] at h
  obtain ⟨entry, _, hsome⟩ := h
  cases hv : entry.2 with
  | none => simp [hv] at hsome
  | some v =>
    by_cases hpos : v > 0
    · simp only [hv, hpos, if_true, Option.some.injEq] at hsome
      rw [← hsome]
      exact hpos
    · simp [hv, hpos] at hsome

theorem owedBy_amount_pos (ids : List UserId) (totals : Totals) (ledger : Ledger)
    (m : MemberDetail) (e : OwedByEntry) (h : e ∈ (memberBalance ids totals ledger m).owedBy) :
    0 < e.amount := by
  unfold memberBalance at h
  simp only [List.mem_filterMap] at h
  obtain ⟨other, _, hsome⟩ := h
  cases hv : ledgerCell ledger other m.id with
  | none => simp [hv] at hsome
  | some v =>
    by_cases hpos : v > 0
    · simp only [hv, hpos, if_true, Option.some.injEq] at hsome
      rw [← hsome]
      exact hpos
    · simp [hv, hpos] at hsome

/-- C30: in the balances of a successful `getGroupExpenses`, for members `a`
and `b` with distinct ids: the `owedBy` list of `b` contains
`{from: a, amount: x}` if and only if the `owes` list of `a` contains
`{to: b, amount: x}`; every amount of the lists `owes` and `owedBy` is
positive; and `a owes b` and `b owes a` are not both listed. -/
theorem getGroupExpenses_lists_consistent (identity : Option String) (groupId : GroupId)
    (st : Store) (r : GroupExpenses) (ma mb : MemberBalance)
    (h : getGroupExpenses identity groupId st = .ok r)
    (hma : ma ∈ r.balances) (hmb : mb ∈ r.balances) (hab : ma.id ≠ mb.id) :
    (∀ x, ({ from_ := ma.id, amount := x } : OwedByEntry) ∈ mb.owedBy
        ↔ ({ to_ := mb.id, amount := x } : OwesEntry) ∈ ma.owes)
    ∧ (∀ e ∈ ma.owes, 0 < e.amount) ∧ (∀ e ∈ ma.owedBy, 0 < e.amount)
    ∧ ¬ ((∃ x, ({ to_ := mb.id, amount := x } : OwesEntry) ∈ ma.owes)
          ∧ (∃ y, ({ to_ := ma.id, amount := y } : OwesEntry) ∈ mb.owes)) := by
  obtain ⟨totals, ledger, hbal, hnd, hcells⟩ := getGroupExpenses_cells identity groupId st r h
  rw [hbal] at hma hmb
  obtain ⟨da, hda, rfl⟩ := List.mem_map.mp hma
  obtain ⟨db, hdb, rfl⟩ := List.mem_map.mp hmb
  have hia : da.id ∈ r.members.map (fun m => m.id) := List.mem_map.mpr ⟨da, hda, rfl⟩
  have hib : db.id ∈ r.members.map (fun m => m.id) := List.mem_map.mpr ⟨db, hdb, rfl⟩
  have hab' : da.id ≠ db.id := hab
  refine ⟨?_, ?_, ?_, ?_⟩
  · intro x
    have h1 := mem_owedBy_iff (r.members.map (fun m => m.id)) totals ledger db da.id x
    have h2 := mem_owes_iff (r.members.map (fun m => m.id)) totals ledger da hnd db.id x
    exact h1.trans ⟨fun hh => h2.mpr hh.2, fun hh => ⟨hia, h2.mp hh⟩⟩
  · intro e he
    exact owes_amount_pos _ _ _ _ e he
  · intro e he
    exact owedBy_amount_pos _ _ _ _ e he
  · rintro ⟨⟨x, hx⟩, ⟨y, hy⟩⟩
    have h1 := (mem_owes_iff (r.members.map (fun m => m.id)) totals ledger da hnd db.id x).mp hx
    have h2 := (mem_owes_iff (r.members.map (fun m => m.id)) totals ledger db hnd da.id y).mp hy
    rw [hcells da.id hia db.id hib hab'] at h1
    rw [hcells db.id hib da.id hia (Ne.symm hab')] at h2
    have e1 := Option.some.inj h1.1
    have e2 := Option.some.inj h2.1
    rcases le_total (specRawOwes groupId st da.id db.id - specRawOwes groupId st db.id da.id) 0
      with hle | hle
    · rw [max_eq_right hle] at e1
      linarith [h1.2]
    · have hle' : specRawOwes groupId st db.id da.id - specRawOwes groupId st da.id db.id ≤ 0 := by
        linarith
      rw [max_eq_right hle'] at e2
      linarith [h2.2]

theorem getGroupExpenses_lists_consistent_witness :
    (getGroupExpenses (some "token-a") 7 scenario3).map
        (fun r => r.balances.map (fun m => (m.id, m.owes, m.owedBy)))
      = .ok [(1, [], [{ from_ := 3, amount := 6 }]), (2, [], []),
             (3, [{ to_ := 1, amount := 6 }], [])]
    ∧ ∃ r, getGroupExpenses (some "token-a") 7 scenario3 = .ok r
      ∧ ∀ ma ∈ r.balances, ∀ mb ∈ r.balances, ma.id ≠ mb.id →
        (∀ x, ({ from_ := ma.id, amount := x } : OwedByEntry) ∈ mb.owedBy
            ↔ ({ to_ := mb.id, amount := x } : OwesEntry) ∈ ma.owes)
        ∧ (∀ e ∈ ma.owes, 0 < e.amount) ∧ (∀ e ∈ ma.owedBy, 0 < e.amount)
        ∧ ¬ ((∃ x, ({ to_ := mb.id, amount := x } : OwesEntry) ∈ ma.owes)
              ∧ (∃ y, ({ to_ := ma.id, amount := y } : OwesEntry) ∈ mb.owes)) := by
  refine ⟨by decide!, ?_⟩
  obtain ⟨r, hr⟩ := except_ok_of_toBool (getGroupExpenses (some "token-a") 7 scenario3)
    (by decide!)
  exact ⟨r, hr, fun ma hma mb hmb hab =>
    getGroupExpenses_lists_consistent (some "token-a") 7 scenario3 r ma mb hr hma hmb hab⟩

/-! ### getUserBalances: the shape and the sums of the two lists -/

theorem oweList_userId_mem (st : Store) (w : Bool) (m : List (UserId × OwedOwing))
    (e : OweEntry) (h : e ∈ m.filterMap (oweEntryOf st w)) : e.userId ∈ m.map Prod.fst := by
  rw [List.mem_filterMap] at h
  obtain ⟨entry, hmem, hsome⟩ := h
  rw [(oweEntryOf_some st w entry e hsome).1]
  exact List.mem_map.mpr ⟨entry, hmem, rfl⟩

theorem oweEntryOf_not_both (st : Store) (entry : UserId × OwedOwing) (e0 e1 : OweEntry)
    (h0 : oweEntryOf st false entry = some e0) (h1 : oweEntryOf st true entry = some e1) :
    False := by
  have a := (oweEntryOf_some st false entry e0 h0).2.2.2
  have b := (oweEntryOf_some st true entry e1 h1).2.2.2
  rw [a] at b
  cases b

/-- No counterparty is in both lists or twice in one list. -/
theorem oweLists_nodup (st : Store) (m : List (UserId × OwedOwing))
    (hnd : (m.map Prod.fst).Nodup) :
    ((m.filterMap (oweEntryOf st false) ++ m.filterMap (oweEntryOf st true)).map
      (fun e => e.userId)).Nodup := by
  induction m with
  | nil => simp
  | cons entry rest ih =>
    rw [List.map_cons, List.nodup_cons] at hnd
    have ih' := ih hnd.2
    have hnot : entry.1 ∉ (rest.filterMap (oweEntryOf st false)
        ++ rest.filterMap (oweEntryOf st true)).map (fun e => e.userId) := by
      intro h
      obtain ⟨e, he, hid⟩ := List.mem_map.mp h
      rw [List.mem_append] at he
      rcases he with he | he
      · exact hnd.1 (hid ▸ oweList_userId_mem st false rest e he)
      · exact hnd.1 (hid ▸ oweList_userId_mem st true rest e he)
    cases h0 : oweEntryOf st false entry with
    | none =>
      cases h1 : oweEntryOf st true entry with
      | none =>
        simp only [List.filterMap_cons, h0, h1]
        exact ih'
      | some e1 =>
        simp only [List.filterMap_cons, h0, h1]
        refine ((List.perm_middle.map (fun e : OweEntry => e.userId)).nodup_iff).mpr ?_
        rw [List.map_cons, List.nodup_cons, (oweEntryOf_some st true entry e1 h1).1]
        exact ⟨hnot, ih'⟩
    | some e0 =>
      cases h1 : oweEntryOf st true entry with
      | none =>
        simp only [List.filterMap_cons, h0, h1, List.cons_append, List.map_cons]
        rw [List.nodup_cons, (oweEntryOf_some st false entry e0 h0).1]
        exact ⟨hnot, ih'⟩
      | some e1 => exact (oweEntryOf_not_both st entry e0 e1 h0 h1).elim

/-- C31: in the result of `getUserBalances` the lists `youOwe` and
`youAreOwedBy` are sorted by non-increasing amount, every amount is positive,
and no counterparty is in both lists or twice in one list. -/
theorem getUserBalances_lists_shape (identity : Option String) (st : Store) (user : User)
    (hauth : getCurrentUser identity st = .ok user) :
    ∃ r, getUserBalances identity st = .ok r
      ∧ r.oweDetails.youOwe.Sorted (fun a b => a.amount ≥ b.amount)
      ∧ r.oweDetails.youAreOwedBy.Sorted (fun a b => a.amount ≥ b.amount)
      ∧ (∀ e ∈ r.oweDetails.youOwe ++ r.oweDetails.youAreOwedBy, 0 < e.amount)
      ∧ ((r.oweDetails.youOwe ++ r.oweDetails.youAreOwedBy).map (fun e => e.userId)).Nodup := by
  refine ⟨_, getUserBalances_eq identity st user hauth, ?_, ?_, ?_, ?_⟩
  · haveI : IsTotal OweEntry (fun a b => b.amount ≤ a.amount) :=
      ⟨fun a b => le_total b.amount a.amount⟩
    haveI : IsTrans OweEntry (fun a b => b.amount ≤ a.amount) :=
      ⟨fun _ _ _ h1 h2 => le_trans h2 h1⟩
    exact List.sorted_insertionSort (fun a b : OweEntry => b.amount ≤ a.amount) _
  · haveI : IsTotal OweEntry (fun a b => b.amount ≤ a.amount) :=
      ⟨fun a b => le_total b.amount a.amount⟩
    haveI : IsTrans OweEntry (fun a b => b.amount ≤ a.amount) :=
      ⟨fun _ _ _ h1 h2 => le_trans h2 h1⟩
    exact List.sorted_insertionSort (fun a b : OweEntry => b.amount ≤ a.amount) _
  · intro e he
    rw [List.mem_append] at he
    rcases he with he | he
    · obtain ⟨b, _, hamt, hne, _⟩ := mem_oweList st false _ (balanceVarsOf_nodup user._id st) e he
      rw [hamt]
      exact abs_pos.mpr hne
    · obtain ⟨b, _, hamt, hne, _⟩ := mem_oweList st true _ (balanceVarsOf_nodup user._id st) e he
      rw [hamt]
      exact abs_pos.mpr hne
  · have hperm : (sortByAmountDesc ((balanceVarsOf user._id st).balanceByUser.filterMap
          (oweEntryOf st false))
        ++ sortByAmountDesc ((balanceVarsOf user._id st).balanceByUser.filterMap
          (oweEntryOf st true))).Perm
        ((balanceVarsOf user._id st).balanceByUser.filterMap (oweEntryOf st false)
          ++ (balanceVarsOf user._id st).balanceByUser.filterMap (oweEntryOf st true)) :=
      (List.perm_insertionSort _ _).append (List.perm_insertionSort _ _)
    exact ((hperm.map (fun e : OweEntry => e.userId)).nodup_iff).mpr
      (oweLists_nodup st _ (balanceVarsOf_nodup user._id st))

theorem getUserBalances_lists_shape_witness :
    (getUserBalances (some "token-a") scenario5).map
        (fun r => (r.oweDetails.youOwe.map (fun e => (e.userId, e.amount)),
          r.oweDetails.youAreOwedBy.map (fun e => (e.userId, e.amount))))
      = .ok ([(2, 50)], [])
    ∧ ∃ r, getUserBalances (some "token-a") scenario5 = .ok r
      ∧ r.oweDetails.youOwe.Sorted (fun a b => a.amount ≥ b.amount)
      ∧ r.oweDetails.youAreOwedBy.Sorted (fun a b => a.amount ≥ b.amount)
      ∧ (∀ e ∈ r.oweDetails.youOwe ++ r.oweDetails.youAreOwedBy, 0 < e.amount)
      ∧ ((r.oweDetails.youOwe ++ r.oweDetails.youAreOwedBy).map (fun e => e.userId)).Nodup :=
  ⟨by decide!, getUserBalances_lists_shape (some "token-a") scenario5 userA rfl⟩

theorem sum_net_objUpdate (m : List (UserId × OwedOwing)) (k : UserId) (a c : ℚ) :
    ((objUpdate m k (fun o =>
        let b := o.getD { owed := 0, owing := 0 }
        ({ owed := b.owed + a, owing := b.owing + c } : OwedOwing))).map
          (fun p => p.2.owed - p.2.owing)).sum
      = (m.map (fun p => p.2.owed - p.2.owing)).sum + (a - c) := by
  induction m with
  | nil => simp [objUpdate]
  | cons p rest ih =>
    obtain ⟨k', v⟩ := p
    by_cases hk : k' = k
    · simp only [objUpdate, hk, if_true, List.map_cons, List.sum_cons, Option.getD_some]
      ring
    · simp only [objUpdate, hk, if_false, List.map_cons, List.sum_cons, ih]
      ring

theorem sum_net_foldl_applyBalanceEvent (evs : List BalanceEvent) (vars : BalanceVars) :
    ((evs.foldl applyBalanceEvent vars).balanceByUser.map (fun p => p.2.owed - p.2.owing)).sum
      = (vars.balanceByUser.map (fun p => p.2.owed - p.2.owing)).sum
        + ((evs.map (fun ev => ev.owed)).sum - (evs.map (fun ev => ev.owing)).sum) := by
  induction evs generalizing vars with
  | nil => simp
  | cons ev evs ih =>
    rw [List.foldl_cons, ih]
    unfold applyBalanceEvent
    simp only [sum_net_objUpdate, List.map_cons, List.sum_cons]
    ring

theorem sum_oweLists (st : Store) (m : List (UserId × OwedOwing)) :
    ((m.filterMap (oweEntryOf st true)).map (fun e => e.amount)).sum
      - ((m.filterMap (oweEntryOf st false)).map (fun e => e.amount)).sum
      = (m.map (fun p => p.2.owed - p.2.owing)).sum := by
  induction m with
  | nil => simp
  | cons p rest ih =>
    rw [List.map_cons, List.sum_cons, ← ih]
    unfold oweEntryOf
    rcases lt_trichotomy (p.2.owed - p.2.owing) 0 with hlt | heq | hgt
    · have h1 : ¬ (p.2.owed - p.2.owing > 0) := not_lt.mpr (le_of_lt hlt)
      simp only [List.filterMap_cons, ne_of_lt hlt, h1, decide_False, if_false,
        Bool.false_eq_true, if_true, List.map_cons, List.sum_cons, abs_of_neg hlt]
      ring
    · simp only [List.filterMap_cons, heq, if_true]
      ring
    · simp only [List.filterMap_cons, ne_of_gt hgt, gt_iff_lt, hgt, decide_True, if_false,
        if_true, Bool.true_eq_false, List.map_cons, List.sum_cons, abs_of_pos hgt]
      ring

/-- In exact arithmetic: in the result of `getUserBalances` the amounts of `youAreOwedBy`
minus the amounts of `youOwe` sum to `totalBalance`, which is
`youAreOwed - youOwe`. -/
theorem getUserBalances_lists_sum (identity : Option String) (st : Store) (user : User)
    (hauth : getCurrentUser identity st = .ok user) :
    ∃ r, getUserBalances identity st = .ok r
      ∧ (r.oweDetails.youAreOwedBy.map (fun e => e.amount)).sum
          - (r.oweDetails.youOwe.map (fun e => e.amount)).sum = r.totalBalance
      ∧ r.totalBalance = r.youAreOwed - r.youOwe := by
  refine ⟨_, getUserBalances_eq identity st user hauth, ?_, rfl⟩
  simp only []
  unfold sortByAmountDesc
  rw [((List.perm_insertionSort _ _).map (fun e : OweEntry => e.amount)).sum_eq,
    ((List.perm_insertionSort _ _).map (fun e : OweEntry => e.amount)).sum_eq, sum_oweLists]
  unfold balanceVarsOf
  rw [sum_net_foldl_applyBalanceEvent, (foldl_applyBalanceEvent_totals _ _).1,
    (foldl_applyBalanceEvent_totals _ _).2]
  simp

theorem getUserBalances_lists_sum_witness :
    (getUserBalances (some "token-a") scenario5).map
        (fun r => (r.youAreOwed, r.youOwe, r.totalBalance)) = .ok (-30, 20, -50)
    ∧ ∃ r, getUserBalances (some "token-a") scenario5 = .ok r
      ∧ (r.oweDetails.youAreOwedBy.map (fun e => e.amount)).sum
          - (r.oweDetails.youOwe.map (fun e => e.amount)).sum = r.totalBalance
      ∧ r.totalBalance = r.youAreOwed - r.youOwe :=
  ⟨by decide!, getUserBalances_lists_sum (some "token-a") scenario5 userA rfl⟩

/-! ### The payer's own split -/

theorem forgetPayerSplit_userId (p : UserId) (s : Split) :
    (forgetPayerSplit p s).userId = s.userId := by
  unfold forgetPayerSplit
  split_ifs <;> rfl

theorem forgetPayerSplit_of_ne (p : UserId) (s : Split) (h : s.userId ≠ p) :
    forgetPayerSplit p s = s := by
  unfold forgetPayerSplit
  rw [if_neg h]

theorem forgetPayerStore_replaceSplitAmountPaid (i j : Nat) (x : ℚ) (p : Bool) (st : Store)
    (hpayer : ∀ e s, st.expenses[i]? = some e → e.splits[j]? = some s →
      s.userId = e.paidByUserId) :
    forgetPayerStore (replaceSplitAmountPaid i j x p st) = forgetPayerStore st := by
  unfold forgetPayerStore replaceSplitAmountPaid
  simp only []
  congr 1
  apply map_modifyAt
  intro e he
  unfold forgetPayer setSplitAmountPaid
  simp only []
  congr 1
  apply map_modifyAt
  intro s hs
  have hp := hpayer e s he hs
  simp [forgetPayerSplit, hp]

/-- A search that never stops at a split of the payer does not see the
forgotten splits. -/
theorem find?_map_forgetPayerSplit (p : UserId) (q : Split → Bool) (l : List Split)
    (hq : ∀ s, s.userId = p → q s = false) :
    (l.map (forgetPayerSplit p)).find? q = l.find? q := by
  induction l with
  | nil => rfl
  | cons s l ih =>
    by_cases hs : s.userId = p
    · have h1 : q s = false := hq s hs
      have h2 : q (forgetPayerSplit p s) = false :=
        hq _ ((forgetPayerSplit_userId p s).trans hs)
      simp only [List.map_cons, List.find?_cons, h1, h2, ih]
    · simp only [List.map_cons, forgetPayerSplit_of_ne p s hs, List.find?_cons, ih]

/-- A loop over the splits that skips the splits of the payer does not see the
forgotten splits. -/
theorem foldl_map_forgetPayerSplit {σ : Type} (p : UserId) (f : σ → Split → σ)
    (l : List Split) (init : σ) (hf : ∀ z s, s.userId = p → f z s = z) :
    (l.map (forgetPayerSplit p)).foldl f init = l.foldl f init := by
  induction l generalizing init with
  | nil => rfl
  | cons s l ih =>
    by_cases hs : s.userId = p
    · simp only [List.map_cons, List.foldl_cons,
        hf init _ ((forgetPayerSplit_userId p s).trans hs), hf init s hs, ih]
    · simp only [List.map_cons, List.foldl_cons, forgetPayerSplit_of_ne p s hs, ih]

theorem any_userId_forgetPayer (e : Expense) (u : UserId) :
    (forgetPayer e).splits.any (fun s => s.userId == u) = e.splits.any (fun s => s.userId == u) := by
  unfold forgetPayer
  simp only [List.any_map]
  congr 1
  funext s
  simp [forgetPayerSplit_userId]

theorem foldl_filter_forgetPayer {σ : Type} (f : σ → Expense → σ) (p : Expense → Bool)
    (hp : ∀ e, p (forgetPayer e) = p e) (hf : ∀ z e, f z (forgetPayer e) = f z e)
    (l : List Expense) (init : σ) :
    ((l.map forgetPayer).filter p).foldl f init = (l.filter p).foldl f init := by
  induction l generalizing init with
  | nil => rfl
  | cons e l ih =>
    simp only [List.map_cons, List.filter_cons, hp]
    by_cases hpe : p e = true
    · simp only [hpe, if_true, List.foldl_cons, hf, ih]
    · simp only [hpe, Bool.false_eq_true, if_false, ih]

theorem pairApplyExpense_forgetPayer (me u : UserId) (hne : me ≠ u) (balance : ℚ)
    (e : Expense) :
    pairApplyExpense me u balance (forgetPayer e) = pairApplyExpense me u balance e := by
  unfold pairApplyExpense
  have hp : (forgetPayer e).paidByUserId = e.paidByUserId := rfl
  rw [hp]
  unfold forgetPayer
  simp only []
  by_cases hpay : e.paidByUserId = me
  · rw [if_pos hpay, if_pos hpay,
      find?_map_forgetPayerSplit e.paidByUserId _ e.splits (fun s hs => by
        have : ¬ s.userId = u := by rw [hs, hpay]; exact hne
        simp [this])]
  · rw [if_neg hpay, if_neg hpay,
      find?_map_forgetPayerSplit e.paidByUserId _ e.splits (fun s hs => by
        have : ¬ s.userId = me := by rw [hs]; exact hpay
        simp [this])]

theorem bothInvolved_forgetPayer (me u : UserId) (e : Expense) :
    bothInvolved me u (forgetPayer e) = bothInvolved me u e := by
  unfold bothInvolved
  simp only [any_userId_forgetPayer]
  rfl

theorem balancesApplyExpense_forgetPayer (u : UserId) (vars : BalanceVars) (e : Expense) :
    balancesApplyExpense u vars (forgetPayer e) = balancesApplyExpense u vars e := by
  unfold balancesApplyExpense
  have hp : (forgetPayer e).paidByUserId = e.paidByUserId := rfl
  rw [hp]
  unfold forgetPayer
  simp only []
  by_cases hpay : e.paidByUserId = u
  · simp only [hpay, if_true]
    exact foldl_map_forgetPayerSplit u _ _ _ (fun z s hs => by
      unfold balancesApplyPayerSplit
      rw [if_pos (Or.inl hs)])
  · simp only [hpay, if_false]
    rw [find?_map_forgetPayerSplit e.paidByUserId _ e.splits (fun s hs => by
      have : ¬ s.userId = u := by rw [hs]; exact hpay
      simp [this])]

theorem groupApplyExpense_forgetPayer (acc : Except String (Totals × Ledger)) (e : Expense) :
    groupApplyExpense acc (forgetPayer e) = groupApplyExpense acc e := by
  unfold groupApplyExpense
  have hp : (forgetPayer e).paidByUserId = e.paidByUserId := rfl
  rw [hp]
  unfold forgetPayer
  simp only []
  exact foldl_map_forgetPayerSplit e.paidByUserId _ _ _ (fun z s hs => by
    unfold groupApplySplit
    cases z with
    | error err => rfl
    | ok p =>
      obtain ⟨totals, ledger⟩ := p
      simp only []
      rw [if_pos (Or.inl hs)])

theorem userGroupApplyExpense_forgetPayer (u : UserId) (balance : ℚ) (e : Expense) :
    userGroupApplyExpense u balance (forgetPayer e) = userGroupApplyExpense u balance e := by
  unfold userGroupApplyExpense
  have hp : (forgetPayer e).paidByUserId = e.paidByUserId := rfl
  rw [hp]
  unfold forgetPayer
  simp only []
  by_cases hpay : e.paidByUserId = u
  · simp only [hpay, if_true]
    exact foldl_map_forgetPayerSplit u _ _ _ (fun z s hs => by
      unfold userGroupApplyPayerSplit
      rw [if_neg (fun h => h.1 hs)])
  · simp only [hpay, if_false]
    rw [find?_map_forgetPayerSplit e.paidByUserId _ e.splits (fun s hs => by
      have : ¬ s.userId = u := by rw [hs]; exact hpay
      simp [this])]

theorem debtsApplyExpense_forgetPayer (u : UserId) (ledger : List (UserId × DebtEntry))
    (e : Expense) :
    debtsApplyExpense u ledger (forgetPayer e) = debtsApplyExpense u ledger e := by
  unfold debtsApplyExpense
  have hp : (forgetPayer e).paidByUserId = e.paidByUserId := rfl
  have hd : (forgetPayer e).date = e.date := rfl
  rw [hp, hd]
  unfold forgetPayer
  simp only []
  by_cases hpay : e.paidByUserId ≠ u
  · rw [if_pos hpay, if_pos hpay,
      find?_map_forgetPayerSplit e.paidByUserId _ e.splits (fun s hs => by
        have : ¬ s.userId = u := by rw [hs]; exact hpay
        simp [this])]
  · rw [if_neg hpay, if_neg hpay]
    have hpay' : e.paidByUserId = u := not_not.mp hpay
    rw [hpay']
    exact foldl_map_forgetPayerSplit u _ _ _ (fun z s hs => by
      unfold debtsApplyPayerSplit
      rw [if_pos (Or.inl hs)])

theorem filter_map_forgetPayer (p : Expense → Bool) (hp : ∀ e, p (forgetPayer e) = p e)
    (l : List Expense) : (l.map forgetPayer).filter p = (l.filter p).map forgetPayer := by
  have hpg : p ∘ forgetPayer = p := funext hp
  rw [List.filter_map, hpg]

theorem sortExpensesByDateDesc_map_forgetPayer (l : List Expense) :
    sortExpensesByDateDesc (l.map forgetPayer) = (sortExpensesByDateDesc l).map forgetPayer := by
  unfold sortExpensesByDateDesc
  exact (List.map_insertionSort (fun a b : Expense => b.date ≤ a.date)
    (fun a b : Expense => b.date ≤ a.date) forgetPayer l (fun a _ b _ => Iff.rfl)).symm

theorem getExpensesBetweenUsers_forgetPayer (identity : Option String) (userId : UserId)
    (st : Store) :
    (getExpensesBetweenUsers identity userId (forgetPayerStore st)).map (fun r => r.balance)
      = (getExpensesBetweenUsers identity userId st).map (fun r => r.balance) := by
  unfold getExpensesBetweenUsers
  have hu : getCurrentUser identity (forgetPayerStore st) = getCurrentUser identity st := rfl
  rw [hu]
  cases getCurrentUser identity st with
  | error e => rfl
  | ok me =>
    simp only []
    by_cases hme : me._id = userId
    · rw [if_pos hme, if_pos hme]
    · rw [if_neg hme, if_neg hme]
      have hbal : (sortExpensesByDateDesc
            (((forgetPayerStore st).expenses.filter
                (fun e => e.paidByUserId == me._id && e.groupId.isNone)
              ++ (forgetPayerStore st).expenses.filter
                (fun e => e.paidByUserId == userId && e.groupId.isNone)).filter
              (bothInvolved me._id userId))).foldl (pairApplyExpense me._id userId) 0
          = (sortExpensesByDateDesc
            ((st.expenses.filter (fun e => e.paidByUserId == me._id && e.groupId.isNone)
              ++ st.expenses.filter (fun e => e.paidByUserId == userId && e.groupId.isNone)).filter
              (bothInvolved me._id userId))).foldl (pairApplyExpense me._id userId) 0 := by
        simp only [forgetPayerStore]
        rw [filter_map_forgetPayer (fun e => e.paidByUserId == me._id && e.groupId.isNone)
            (fun e => rfl),
          filter_map_forgetPayer (fun e => e.paidByUserId == userId && e.groupId.isNone)
            (fun e => rfl),
          ← List.map_append, filter_map_forgetPayer _ (bothInvolved_forgetPayer me._id userId),
          sortExpensesByDateDesc_map_forgetPayer, List.foldl_map]
        congr 1
        funext b e
        exact pairApplyExpense_forgetPayer me._id userId hme b e
      have hs : (forgetPayerStore st).settlements = st.settlements := rfl
      have hus : (forgetPayerStore st).users = st.users := rfl
      simp only [hbal, hs, hus]
      cases st.users.find? (fun u => u._id == userId) <;> rfl

theorem getUserBalances_forgetPayer (identity : Option String) (st : Store) :
    getUserBalances identity (forgetPayerStore st) = getUserBalances identity st := by
  unfold getUserBalances
  have hu : getCurrentUser identity (forgetPayerStore st) = getCurrentUser identity st := rfl
  rw [hu]
  cases getCurrentUser identity st with
  | error e => rfl
  | ok user =>
    simp only []
    have hfold : ((forgetPayerStore st).expenses.filter (fun e =>
          e.groupId.isNone &&
            (e.paidByUserId == user._id || e.splits.any (fun s => s.userId == user._id)))).foldl
          (balancesApplyExpense user._id) { youOwe := 0, youAreOwed := 0, balanceByUser := [] }
        = (st.expenses.filter (fun e =>
          e.groupId.isNone &&
            (e.paidByUserId == user._id || e.splits.any (fun s => s.userId == user._id)))).foldl
          (balancesApplyExpense user._id) { youOwe := 0, youAreOwed := 0, balanceByUser := [] } :=
      foldl_filter_forgetPayer _ _
        (fun e => by
          have h1 : (forgetPayer e).paidByUserId = e.paidByUserId := rfl
          have h2 : (forgetPayer e).groupId = e.groupId := rfl
          simp only [any_userId_forgetPayer, h1, h2])
        (balancesApplyExpense_forgetPayer user._id) _ _
    have hs : (forgetPayerStore st).settlements = st.settlements := rfl
    have hpush : pushOweEntry (forgetPayerStore st) = pushOweEntry st := rfl
    rw [hfold, hs, hpush]

theorem getGroupExpenses_forgetPayer (identity : Option String) (groupId : GroupId)
    (st : Store) :
    (getGroupExpenses identity groupId (forgetPayerStore st)).map (fun r => r.balances)
      = (getGroupExpenses identity groupId st).map (fun r => r.balances) := by
  unfold getGroupExpenses
  have hu : getCurrentUser identity (forgetPayerStore st) = getCurrentUser identity st := rfl
  have hg : (forgetPayerStore st).groups = st.groups := rfl
  have hs : (forgetPayerStore st).settlements = st.settlements := rfl
  have hmd : ∀ members,
      memberDetailsOf (forgetPayerStore st) members = memberDetailsOf st members :=
    fun members => memberDetailsOf_congr (forgetPayerStore st) st rfl members
  have hfold : ∀ acc, ((forgetPayerStore st).expenses.filter (fun e =>
        e.groupId == some groupId)).foldl groupApplyExpense acc
      = (st.expenses.filter (fun e => e.groupId == some groupId)).foldl groupApplyExpense acc :=
    fun acc => foldl_filter_forgetPayer groupApplyExpense (fun e => e.groupId == some groupId)
      (fun e => rfl) groupApplyExpense_forgetPayer _ _
  rw [hu, hg, hs]
  cases getCurrentUser identity st with
  | error e => rfl
  | ok currentUser =>
    simp only []
    cases st.groups.find? (fun g => g._id == groupId) with
    | none => rfl
    | some group =>
      simp only []
      by_cases hm : (!group.members.any (fun m => m.userId == currentUser._id)) = true
      · simp only [hm, if_true]
      · simp only [hm, hmd, hfold]
        cases memberDetailsOf st group.members with
        | error e => rfl
        | ok memberDetails =>
          simp only []
          cases (st.settlements.filter (fun s => s.groupId == some groupId)).foldl
              groupApplySettlement
              ((st.expenses.filter (fun e => e.groupId == some groupId)).foldl groupApplyExpense
                (.ok (initTotals (memberDetails.map (fun m => m.id)),
                  initLedger (memberDetails.map (fun m => m.id))))) with
          | error e => rfl
          | ok p => rfl

theorem userGroupBalance_forgetPayer (userId : UserId) (st : Store) (group : Group) :
    userGroupBalance userId (forgetPayerStore st) group = userGroupBalance userId st group := by
  unfold userGroupBalance
  have hs : (forgetPayerStore st).settlements = st.settlements := rfl
  have hfold : ((forgetPayerStore st).expenses.filter (fun e =>
        e.groupId == some group._id)).foldl (userGroupApplyExpense userId) 0
      = (st.expenses.filter (fun e => e.groupId == some group._id)).foldl
          (userGroupApplyExpense userId) 0 :=
    foldl_filter_forgetPayer (userGroupApplyExpense userId) (fun e => e.groupId == some group._id)
      (fun e => rfl) (userGroupApplyExpense_forgetPayer userId) _ _
  simp only [hs, hfold]

theorem getUserGroups_forgetPayer (identity : Option String) (st : Store) :
    getUserGroups identity (forgetPayerStore st) = getUserGroups identity st := by
  unfold getUserGroups
  have hu : getCurrentUser identity (forgetPayerStore st) = getCurrentUser identity st := rfl
  have hg : (forgetPayerStore st).groups = st.groups := rfl
  rw [hu, hg]
  simp only [userGroupBalance_forgetPayer]

theorem getUsersWithOutstandingDebts_forgetPayer (st : Store) :
    getUsersWithOutstandingDebts (forgetPayerStore st) = getUsersWithOutstandingDebts st := by
  unfold getUsersWithOutstandingDebts debtsOf
  have hu : (forgetPayerStore st).users = st.users := rfl
  have hs : (forgetPayerStore st).settlements = st.settlements := rfl
  have hfold : ∀ uid, ((forgetPayerStore st).expenses.filter (fun e => e.groupId.isNone)).foldl
        (debtsApplyExpense uid) []
      = (st.expenses.filter (fun e => e.groupId.isNone)).foldl (debtsApplyExpense uid) [] :=
    fun uid => foldl_filter_forgetPayer (debtsApplyExpense uid) (fun e => e.groupId.isNone)
      (fun e => rfl) (debtsApplyExpense_forgetPayer uid) _ _
  simp only [hu, hs, hfold]

/-- C32: the payer's own share never enters a debt balance. Replacing the
amount and the paid flag of split `j` of expense `i`, a split of the payer of
that expense, by any number `x` and any flag `p` changes neither the balance
of `getExpensesBetweenUsers`, nor the result of `getUserBalances`, nor the
balances of `getGroupExpenses`, nor the result of `getUserGroups`, nor the
result of `getUsersWithOutstandingDebts`, for any caller. -/
theorem payer_split_irrelevant (i j : Nat) (x : ℚ) (p : Bool) (st : Store)
    (hpayer : ∀ e s, st.expenses[i]? = some e → e.splits[j]? = some s →
      s.userId = e.paidByUserId) :
    (∀ identity userId,
      (getExpensesBetweenUsers identity userId (replaceSplitAmountPaid i j x p st)).map
          (fun r => r.balance)
        = (getExpensesBetweenUsers identity userId st).map (fun r => r.balance))
    ∧ (∀ identity,
        getUserBalances identity (replaceSplitAmountPaid i j x p st)
          = getUserBalances identity st)
    ∧ (∀ identity groupId,
        (getGroupExpenses identity groupId (replaceSplitAmountPaid i j x p st)).map
            (fun r => r.balances)
          = (getGroupExpenses identity groupId st).map (fun r => r.balances))
    ∧ (∀ identity,
        getUserGroups identity (replaceSplitAmountPaid i j x p st) = getUserGroups identity st)
    ∧ getUsersWithOutstandingDebts (replaceSplitAmountPaid i j x p st)
        = getUsersWithOutstandingDebts st := by
  have hst := forgetPayerStore_replaceSplitAmountPaid i j x p st hpayer
  refine ⟨?_, ?_, ?_, ?_, ?_⟩
  · intro identity userId
    rw [← getExpensesBetweenUsers_forgetPayer identity userId (replaceSplitAmountPaid i j x p st),
      hst, getExpensesBetweenUsers_forgetPayer]
  · intro identity
    rw [← getUserBalances_forgetPayer identity (replaceSplitAmountPaid i j x p st), hst,
      getUserBalances_forgetPayer]
  · intro identity groupId
    rw [← getGroupExpenses_forgetPayer identity groupId (replaceSplitAmountPaid i j x p st), hst,
      getGroupExpenses_forgetPayer]
  · intro identity
    rw [← getUserGroups_forgetPayer identity (replaceSplitAmountPaid i j x p st), hst,
      getUserGroups_forgetPayer]
  · rw [← getUsersWithOutstandingDebts_forgetPayer (replaceSplitAmountPaid i j x p st), hst,
      getUsersWithOutstandingDebts_forgetPayer]

theorem payer_split_irrelevant_witness :
    (replaceSplitAmountPaid 0 0 999 false scenario3).expenses.map
        (fun e => e.splits.map (fun s => (s.amount, s.paid)))
        = [[(999, false), (10, false), (10, false)], [(10, false), (10, true), (10, false)]]
    ∧ (getExpensesBetweenUsers (some "token-a") 2
          (replaceSplitAmountPaid 0 0 999 false scenario3)).map (fun r => r.balance)
        = (getExpensesBetweenUsers (some "token-a") 2 scenario3).map (fun r => r.balance)
    ∧ getUserBalances (some "token-a") (replaceSplitAmountPaid 0 0 999 false scenario3)
        = getUserBalances (some "token-a") scenario3
    ∧ (getGroupExpenses (some "token-a") 7
          (replaceSplitAmountPaid 0 0 999 false scenario3)).map (fun r => r.balances)
        = (getGroupExpenses (some "token-a") 7 scenario3).map (fun r => r.balances)
    ∧ getUserGroups (some "token-a") (replaceSplitAmountPaid 0 0 999 false scenario3)
        = getUserGroups (some "token-a") scenario3
    ∧ getUsersWithOutstandingDebts (replaceSplitAmountPaid 0 0 999 false scenario3)
        = getUsersWithOutstandingDebts scenario3 :=
  have h := payer_split_irrelevant 0 0 999 false scenario3
    (fun e s he hs => by
      simp only [scenario3, List.getElem?_cons_zero, Option.some.injEq] at he
      subst he
      simp only [fuel, List.getElem?_cons_zero, Option.some.injEq] at hs
      subst hs
      rfl)
  ⟨by decide!, h.1 _ _, h.2.1 _, h.2.2.1 _ _, h.2.2.2.1 _, h.2.2.2.2⟩

/-! ### getMonthlySpending and getTotalSpent agree -/

theorem sum_values_objUpdate_add (m : List (Int × ℚ)) (k : Int) (a : ℚ) :
    ((objUpdate m k (fun o => o.getD 0 + a)).map Prod.snd).sum = (m.map Prod.snd).sum + a := by
  induction m with
  | nil => simp [objUpdate]
  | cons p rest ih =>
    obtain ⟨k', v⟩ := p
    by_cases hk : k' = k
    · simp only [objUpdate, hk, if_true, List.map_cons, List.sum_cons, Option.getD_some]
      ring
    · simp only [objUpdate, hk, if_false, List.map_cons, List.sum_cons, ih]
      ring

theorem sum_values_monthlyApplyExpense (u : UserId) (m : List (Int × ℚ)) (e : Expense) :
    ((monthlyApplyExpense u m e).map Prod.snd).sum = (m.map Prod.snd).sum + specOwnShare u e := by
  unfold monthlyApplyExpense specOwnShare
  simp only []
  cases e.splits.find? (fun s => s.userId == u) with
  | none => simp
  | some s => exact sum_values_objUpdate_add _ _ _

theorem sum_values_foldl_monthlyApplyExpense (u : UserId) (l : List Expense)
    (m : List (Int × ℚ)) :
    ((l.foldl (monthlyApplyExpense u) m).map Prod.snd).sum
      = (m.map Prod.snd).sum + (l.map (specOwnShare u)).sum := by
  induction l generalizing m with
  | nil => simp
  | cons e l ih =>
    rw [List.foldl_cons, ih, sum_values_monthlyApplyExpense, List.map_cons, List.sum_cons,
      add_assoc]

theorem values_objUpdate_zero (m : List (Int × ℚ)) (k : Int) (h : ∀ p ∈ m, p.2 = 0) :
    ∀ p ∈ objUpdate m k (fun _ => (0 : ℚ)), p.2 = 0 := by
  induction m with
  | nil =>
    intro p hp
    simp only [objUpdate, List.mem_singleton] at hp
    rw [hp]
  | cons q rest ih =>
    obtain ⟨k', v⟩ := q
    intro p hp
    by_cases hk : k' = k
    · simp only [objUpdate, hk, if_true, List.mem_cons] at hp
      rcases hp with rfl | hp
      · rfl
      · exact h p (List.mem_cons_of_mem _ hp)
    · simp only [objUpdate, hk, if_false, List.mem_cons] at hp
      rcases hp with rfl | hp
      · exact h _ (List.mem_cons_self _ _)
      · exact ih (fun p hp => h p (List.mem_cons_of_mem _ hp)) p hp

theorem sum_values_initMonthlyTotals (y : Int) :
    ((initMonthlyTotals y).map Prod.snd).sum = 0 := by
  have hz : ∀ p ∈ initMonthlyTotals y, p.2 = 0 := by
    rw [initMonthlyTotals_eq]
    exact foldl_preserve
      (fun (m : List (Int × ℚ)) (a : Int) => objUpdate m a (fun _ => (0 : ℚ)))
      (fun m => ∀ p ∈ m, p.2 = 0) (fun m a hm => values_objUpdate_zero m a hm) _ []
      (by simp)
  apply List.sum_eq_zero
  intro x hx
  obtain ⟨p, hp, rfl⟩ := List.mem_map.mp hx
  exact hz p hp

/-- In exact arithmetic: the totals of the entries of `getMonthlySpending` sum to the value
of `getTotalSpent`, for the same caller, store and clock. -/
theorem monthly_totals_sum_eq_total (identity : Option String) (now : Int) (st : Store)
    (user : User) (hauth : getCurrentUser identity st = .ok user) :
    ∃ r total, getMonthlySpending identity now st = .ok r
      ∧ getTotalSpent identity now st = .ok total
      ∧ (r.map (fun entry => entry.total)).sum = total := by
  have htotal : getTotalSpent identity now st
      = .ok (((expensesByDateFrom ((newDate (getFullYear now) 0 : Int) : ℚ) st).filter
          (isUserExpense user._id)).foldl (totalSpentApply user._id) 0) := by
    simp only [getTotalSpent, hauth]
  refine ⟨_, _, getMonthlySpending_ok identity now st user hauth, htotal, ?_⟩
  rw [((List.perm_insertionSort _ _).map (fun entry : MonthTotal => entry.total)).sum_eq,
    List.map_map, foldl_totalSpentApply, zero_add]
  have hcomp : ((fun entry : MonthTotal => entry.total)
      ∘ fun entry : Int × ℚ => ({ month := entry.1, total := entry.2 } : MonthTotal))
      = Prod.snd := rfl
  rw [hcomp, sum_values_foldl_monthlyApplyExpense, sum_values_initMonthlyTotals, zero_add]

theorem monthly_totals_sum_eq_total_witness :
    ((getMonthlySpending (some "token-a") midJune2024 spendingAhead).map
        (fun r => (r.map (fun entry => entry.total)).sum),
      getTotalSpent (some "token-a") midJune2024 spendingAhead) = (.ok 45, .ok 45)
    ∧ ∃ r total, getMonthlySpending (some "token-a") midJune2024 spendingAhead = .ok r
      ∧ getTotalSpent (some "token-a") midJune2024 spendingAhead = .ok total
      ∧ (r.map (fun entry => entry.total)).sum = total :=
  ⟨by decide!, monthly_totals_sum_eq_total (some "token-a") midJune2024 spendingAhead userA rfl⟩

/-! ### deleteExpense: what stays -/

theorem filter_id_eq_singleton (l : List Settlement) (hnd : (l.map (fun s => s._id)).Nodup)
    (s : Settlement) (hs : s ∈ l) : l.filter (fun d => d._id == s._id) = [s] := by
  induction l with
  | nil => cases hs
  | cons x xs ih =>
    rw [List.map_cons, List.nodup_cons] at hnd
    rcases List.mem_cons.mp hs with rfl | hmem
    · have hnil : xs.filter (fun d => d._id == s._id) = [] := by
        rw [List.filter_eq_nil_iff]
        intro d hd hid
        exact hnd.1 (List.mem_map.mpr ⟨d, hd, by simpa using hid⟩)
      simp [List.filter_cons, hnil]
    · have hx : (x._id == s._id) = false := by
        rw [beq_eq_false_iff_ne]
        intro hid
        exact hnd.1 (List.mem_map.mpr ⟨s, hmem, hid.symm⟩)
      rw [List.filter_cons, hx]
      exact ih hnd.2 hmem

/-- C38: a successful `deleteExpense(E)` leaves the users and the groups as
they are, keeps every expense with another id, and keeps every settlement
whose `relatedExpenseIds` is absent or does not contain `E` as it is. -/
theorem deleteExpense_frame (identity : Option String) (expenseId : ExpenseId) (st : Store)
    (r : DeleteResult) (hnd : (st.settlements.map (fun s => s._id)).Nodup)
    (h : (deleteExpense identity expenseId st).1 = .ok r) :
    (deleteExpense identity expenseId st).2.users = st.users
    ∧ (deleteExpense identity expenseId st).2.groups = st.groups
    ∧ (deleteExpense identity expenseId st).2.expenses
        = st.expenses.filter (fun e => e._id != expenseId)
    ∧ ∀ s ∈ st.settlements, (∀ ids, s.relatedExpenseIds = some ids → expenseId ∉ ids) →
        (deleteExpense identity expenseId st).2.settlements.filter (fun d => d._id == s._id)
          = [s] := by
  rw [deleteExpense_ok identity expenseId st r h]
  obtain ⟨h1, h2, h3⟩ := cascade_fold_expenses expenseId
    (st.settlements.filter (isRelated expenseId)) st
  refine ⟨?_, ?_, ?_, ?_⟩
  · simp only [dbDeleteExpense]
    exact h2
  · simp only [dbDeleteExpense]
    exact h3
  · simp only [dbDeleteExpense, h1]
  · intro s hs hun
    have hrel : isRelated expenseId s = false := by
      unfold isRelated
      cases hids : s.relatedExpenseIds with
      | none => rfl
      | some ids =>
        simp only []
        simpa using hun ids hids
    have hndl : ((st.settlements.filter (isRelated expenseId)).map (fun s => s._id)).Nodup :=
      (List.filter_sublist _).map _ |>.nodup hnd
    have hfind : (st.settlements.filter (isRelated expenseId)).find? (fun d => d._id == s._id)
        = none := by
      rw [List.find?_eq_none]
      intro d hd hid
      have hd' := List.mem_filter.mp hd
      have heq := settlement_eq_of_id_eq st.settlements hnd s d hs hd'.1 (by simpa using hid)
      rw [heq, hrel] at hd'
      cases hd'.2
    have hfold := cascade_fold_filter_id expenseId s._id
      (st.settlements.filter (isRelated expenseId)) st hndl
    rw [hfind] at hfold
    simp only [dbDeleteExpense]
    rw [hfold]
    exact filter_id_eq_singleton st.settlements hnd s hs

theorem deleteExpense_frame_witness :
    (deleteExpense (some "token-b") 12 scenario5).2.users = scenario5.users
    ∧ (deleteExpense (some "token-b") 12 scenario5).2.groups = scenario5.groups
    ∧ (deleteExpense (some "token-b") 12 scenario5).2.expenses
        = scenario5.expenses.filter (fun e => e._id != 12)
    ∧ ∀ s ∈ scenario5.settlements, (∀ ids, s.relatedExpenseIds = some ids → 12 ∉ ids) →
        (deleteExpense (some "token-b") 12 scenario5).2.settlements.filter
            (fun d => d._id == s._id) = [s] :=
  deleteExpense_frame (some "token-b") 12 scenario5 { success := true } (by decide) (by decide!)

/-! ### getGroupExpenses: the totals -/

theorem objGet_plusAssign_join (m : List (UserId × Option ℚ)) (k x : UserId) (d : ℚ) :
    (objGet (plusAssign m k d) x).join
      = if x = k then (objGet m k).join.map (fun v => v + d) else (objGet m x).join := by
  unfold plusAssign
  rw [objGet_objUpdate]
  by_cases h : x = k
  · rw [if_pos h, if_pos h]
    rfl
  · rw [if_neg h, if_neg h]

theorem objGet_minusAssign_join (m : List (UserId × Option ℚ)) (k x : UserId) (d : ℚ) :
    (objGet (minusAssign m k d) x).join
      = if x = k then (objGet m k).join.map (fun v => v - d) else (objGet m x).join := by
  unfold minusAssign
  rw [objGet_objUpdate]
  by_cases h : x = k
  · rw [if_pos h, if_pos h]
    rfl
  · rw [if_neg h, if_neg h]

theorem totals_step_join (totals : Totals) (ev : GroupEvent) (x : UserId) :
    (objGet (minusAssign (plusAssign totals ev.plus ev.amount) ev.minus ev.amount) x).join
      = (objGet totals x).join.map (fun v => v + groupEventNet x ev) := by
  rw [objGet_minusAssign_join]
  simp only [objGet_plusAssign_join]
  unfold groupEventNet
  generalize ev.plus = p
  generalize ev.minus = q
  generalize ev.amount = d
  by_cases hq : q = x
  · subst hq
    by_cases hp : p = q
    · subst hp
      simp only [if_true]
      cases (objGet totals p).join <;> simp
    · rw [if_pos rfl, if_neg (fun h => hp h.symm), if_neg hp, if_pos rfl]
      cases (objGet totals q).join <;> simp [sub_eq_add_neg]
  · rw [if_neg (fun h => hq h.symm), if_neg hq]
    by_cases hp : p = x
    · subst hp
      rw [if_pos rfl, if_pos rfl]
      cases (objGet totals p).join <;> simp
    · rw [if_neg (fun h => hp h.symm), if_neg hp]
      cases (objGet totals x).join <;> simp

/-- The total of `x` after a list of events that does not throw: the nets of
the events, added to its initial value. -/
theorem totals_foldl_applyGroupEvent (evs : List GroupEvent) (totals totals' : Totals)
    (ledger ledger' : Ledger) (x : UserId)
    (h : evs.foldl applyGroupEvent (.ok (totals, ledger)) = .ok (totals', ledger')) :
    (objGet totals' x).join
      = (objGet totals x).join.map (fun v => v + (evs.map (groupEventNet x)).sum) := by
  induction evs generalizing totals ledger with
  | nil =>
    simp only [List.foldl_nil, Except.ok.injEq, Prod.mk.injEq] at h
    rw [h.1]
    cases (objGet totals' x).join <;> simp
  | cons ev evs ih =>
    rw [List.foldl_cons] at h
    cases hrow : objGet ledger ev.row with
    | none =>
      simp only [applyGroupEvent, hrow, foldl_applyGroupEvent_error] at h
      cases h
    | some row =>
      simp only [applyGroupEvent, hrow] at h
      rw [ih _ _ h, totals_step_join]
      cases (objGet totals x).join <;> simp [add_assoc]

theorem objGet_initTotals (ids : List UserId) (x : UserId) :
    objGet (initTotals ids) x = if x ∈ ids then some (some 0) else none := by
  unfold initTotals
  rw [objGet_foldl_objUpdate]
  rfl

/-- On success every `totalBalance` is a number: the sum of the nets of the
events of the group for that member. -/
theorem getGroupExpenses_totals (identity : Option String) (groupId : GroupId) (st : Store)
    (r : GroupExpenses) (h : getGroupExpenses identity groupId st = .ok r) :
    r.balances.map (fun mb => (mb.id, mb.totalBalance))
      = r.members.map (fun d =>
          (d.id, some (((groupEvents groupId st).map (groupEventNet d.id)).sum))) := by
  obtain ⟨_, _, totals, ledger, _, _, _, _, hacc, _, _, _, hbal⟩ :=
    getGroupExpenses_inv identity groupId st r h
  rw [hbal, List.map_map]
  apply List.map_congr_left
  intro d hd
  have hmem : d.id ∈ r.members.map (fun m => m.id) := List.mem_map.mpr ⟨d, hd, rfl⟩
  have ht := totals_foldl_applyGroupEvent _ _ _ _ _ d.id hacc
  rw [objGet_initTotals, if_pos hmem] at ht
  simp only [Function.comp, memberBalance, ht]
  simp

theorem groupEvents_cases (groupId : GroupId) (st : Store) (ev : GroupEvent)
    (hev : ev ∈ groupEvents groupId st) :
    (∃ e ∈ st.expenses, e.groupId = some groupId ∧ ∃ s ∈ e.splits,
        s.userId ≠ e.paidByUserId ∧ s.paid = false
          ∧ ev = { plus := e.paidByUserId, minus := s.userId, amount := s.amount,
                   row := s.userId, col := e.paidByUserId, delta := s.amount })
    ∨ (∃ s ∈ st.settlements, s.groupId = some groupId ∧ ev = settlementGroupEvent s) := by
  unfold groupEvents at hev
  rcases List.mem_append.mp hev with h | h
  · left
    obtain ⟨e, he, hin⟩ := List.mem_flatMap.mp h
    rw [List.mem_filter] at he
    unfold expenseGroupEvents at hin
    obtain ⟨s, hsm, hsome⟩ := List.mem_filterMap.mp hin
    by_cases hc : s.userId = e.paidByUserId ∨ s.paid = true
    · rw [if_pos hc] at hsome; cases hsome
    · rw [if_neg hc] at hsome
      rw [not_or] at hc
      exact ⟨e, he.1, by simpa using he.2, s, hsm, hc.1, by simpa using hc.2,
        (Option.some.inj hsome).symm⟩
  · right
    obtain ⟨s, hs, rfl⟩ := List.mem_map.mp h
    rw [List.mem_filter] at hs
    exact ⟨s, hs.1, by simpa using hs.2, rfl⟩

/-- When the parties of the records of a group are members, the parties of
its events are. -/
theorem groupEvents_parties_mem (groupId : GroupId) (st : Store) (ids : List UserId)
    (hexp : ∀ e ∈ st.expenses, e.groupId = some groupId →
      e.paidByUserId ∈ ids
        ∧ ∀ s ∈ e.splits, s.userId ≠ e.paidByUserId → s.paid = false → s.userId ∈ ids)
    (hset : ∀ s ∈ st.settlements, s.groupId = some groupId →
      s.paidByUserId ∈ ids ∧ s.receivedByUserId ∈ ids) :
    ∀ ev ∈ groupEvents groupId st, GroupEventOk ids ev := by
  intro ev hev
  rcases groupEvents_cases groupId st ev hev with
    ⟨e, he, hg, s, hs, hne, hpaid, rfl⟩ | ⟨s, hs, hg, rfl⟩
  · exact ⟨(hexp e he hg).1, (hexp e he hg).2 s hs hne hpaid, (hexp e he hg).2 s hs hne hpaid,
      (hexp e he hg).1⟩
  · exact ⟨(hset s hs hg).1, (hset s hs hg).2, (hset s hs hg).1, (hset s hs hg).2⟩

theorem sum_map_ite_eq_of_nodup (ids : List UserId) (hnd : ids.Nodup) (k : UserId) (a : ℚ) :
    (ids.map (fun x => if k = x then a else 0)).sum = if k ∈ ids then a else 0 := by
  induction ids with
  | nil => simp
  | cons y ys ih =>
    rw [List.nodup_cons] at hnd
    rw [List.map_cons, List.sum_cons, ih hnd.2]
    by_cases hk : k = y
    · have : k ∉ ys := hk ▸ hnd.1
      simp [hk, hnd.1]
    · simp [hk]

theorem sum_map_sum_swap {α β : Type} (l : List α) (m : List β) (f : α → β → ℚ) :
    (l.map (fun x => (m.map (f x)).sum)).sum
      = (m.map (fun y => (l.map (fun x => f x y)).sum)).sum := by
  induction l with
  | nil => simp
  | cons x xs ih =>
    simp only [List.map_cons, List.sum_cons, ih]
    exact (sum_map_eq_add m _ (f x) _ (fun _ _ => rfl)).symm

/-- Over pairwise distinct ids that contain the parties of every event, the
nets of the events add up to zero. -/
theorem sum_groupEventNet_eq_zero (ids : List UserId) (hnd : ids.Nodup)
    (evs : List GroupEvent) (hevs : ∀ ev ∈ evs, GroupEventOk ids ev) :
    (ids.map (fun x => (evs.map (groupEventNet x)).sum)).sum = 0 := by
  rw [sum_map_sum_swap]
  apply List.sum_eq_zero
  intro v hv
  obtain ⟨ev, hev, rfl⟩ := List.mem_map.mp hv
  obtain ⟨hp, hm, _, _⟩ := hevs ev hev
  unfold groupEventNet
  have h1 := sum_map_ite_eq_of_nodup ids hnd ev.plus ev.amount
  have h2 := sum_map_ite_eq_of_nodup ids hnd ev.minus ev.amount
  rw [if_pos hp] at h1
  rw [if_pos hm] at h2
  rw [← sum_map_sub_map, h1, h2, sub_self]

/-- In exact arithmetic: for a group with pairwise distinct members in which every
expense payer, every participant of an unpaid split other than the payer and
every settlement payer and receiver is a member, every `totalBalance` that
`getGroupExpenses` returns is a number and the values sum to 0. -/
theorem getGroupExpenses_totals_sum_zero (identity : Option String) (groupId : GroupId)
    (st : Store) (r : GroupExpenses) (group : Group)
    (h : getGroupExpenses identity groupId st = .ok r)
    (hg : st.groups.find? (fun g => g._id == groupId) = some group)
    (hnd : (group.members.map (fun m => m.userId)).Nodup)
    (hexp : ∀ e ∈ st.expenses, e.groupId = some groupId →
      e.paidByUserId ∈ group.members.map (fun m => m.userId)
        ∧ ∀ s ∈ e.splits, s.userId ≠ e.paidByUserId → s.paid = false →
            s.userId ∈ group.members.map (fun m => m.userId))
    (hset : ∀ s ∈ st.settlements, s.groupId = some groupId →
      s.paidByUserId ∈ group.members.map (fun m => m.userId)
        ∧ s.receivedByUserId ∈ group.members.map (fun m => m.userId)) :
    (∀ mb ∈ r.balances, mb.totalBalance.isSome = true)
    ∧ (r.balances.map (fun mb => mb.totalBalance.getD 0)).sum = 0 := by
  obtain ⟨_, group', _, _, _, hg', _, hmd, _, _, _, _, _⟩ :=
    getGroupExpenses_inv identity groupId st r h
  rw [hg] at hg'
  cases hg'
  have hids := memberDetailsOf_ids st group.members r.members hmd
  have htot := getGroupExpenses_totals identity groupId st r h
  have htb : r.balances.map (fun mb => mb.totalBalance)
      = r.members.map (fun d => some (((groupEvents groupId st).map (groupEventNet d.id)).sum)) := by
    have := congrArg (List.map Prod.snd) htot
    simpa [List.map_map, Function.comp] using this
  constructor
  · intro mb hmb
    have hmem : mb.totalBalance ∈ r.balances.map (fun mb => mb.totalBalance) :=
      List.mem_map.mpr ⟨mb, hmb, rfl⟩
    rw [htb] at hmem
    obtain ⟨d, _, hd⟩ := List.mem_map.mp hmem
    rw [← hd]
    rfl
  · have hsum : r.balances.map (fun mb => mb.totalBalance.getD 0)
        = (r.balances.map (fun mb => mb.totalBalance)).map (fun o => o.getD 0) := by
      rw [List.map_map]
      rfl
    rw [hsum, htb, List.map_map]
    have hcomp : ((fun o : Option ℚ => o.getD 0)
        ∘ fun d : MemberDetail => some (((groupEvents groupId st).map (groupEventNet d.id)).sum))
        = (fun x => ((groupEvents groupId st).map (groupEventNet x)).sum)
          ∘ (fun d : MemberDetail => d.id) := rfl
    rw [hcomp, ← List.map_map, hids]
    exact sum_groupEventNet_eq_zero _ hnd _
      (groupEvents_parties_mem groupId st _ hexp hset)

theorem getGroupExpenses_totals_sum_zero_witness :
    (getGroupExpenses (some "token-a") 7 scenario3).map
        (fun r => r.balances.map (fun mb => mb.totalBalance))
      = .ok [some 6, some 0, some (-6)]
    ∧ ∃ r, getGroupExpenses (some "token-a") 7 scenario3 = .ok r
      ∧ (∀ mb ∈ r.balances, mb.totalBalance.isSome = true)
      ∧ (r.balances.map (fun mb => mb.totalBalance.getD 0)).sum = 0 := by
  refine ⟨by decide!, ?_⟩
  obtain ⟨r, hr⟩ := except_ok_of_toBool (getGroupExpenses (some "token-a") 7 scenario3)
    (by decide!)
  exact ⟨r, hr, getGroupExpenses_totals_sum_zero (some "token-a") 7 scenario3 r trip hr rfl
    (by decide) (by decide) (by decide)⟩

/-! ### getUserGroups against getGroupExpenses -/

theorem foldl_userGroupApplyPayerSplit (u : UserId) (l : List Split) (b : ℚ) :
    l.foldl (userGroupApplyPayerSplit u) b
      = b + (l.map (fun s => if s.userId ≠ u ∧ s.paid = false then s.amount else 0)).sum := by
  induction l generalizing b with
  | nil => simp
  | cons s l ih =>
    rw [List.foldl_cons, ih, List.map_cons, List.sum_cons]
    unfold userGroupApplyPayerSplit
    by_cases hc : s.userId ≠ u ∧ s.paid = false
    · rw [if_pos hc, if_pos hc]; ring
    · rw [if_neg hc, if_neg hc]; ring

theorem userGroupApplyExpense_add (u : UserId) (b : ℚ) (e : Expense) :
    userGroupApplyExpense u b e = b + userGroupApplyExpense u 0 e := by
  unfold userGroupApplyExpense
  by_cases hp : e.paidByUserId = u
  · rw [if_pos hp, if_pos hp, foldl_userGroupApplyPayerSplit, foldl_userGroupApplyPayerSplit,
      zero_add]
  · rw [if_neg hp, if_neg hp]
    cases e.splits.find? (fun split => split.userId == u) with
    | none => simp
    | some s =>
      by_cases hs : s.paid = true <;> simp [hs, sub_eq_add_neg]

theorem foldl_userGroupApplyExpense (u : UserId) (l : List Expense) (b : ℚ) :
    l.foldl (userGroupApplyExpense u) b = b + (l.map (userGroupApplyExpense u 0)).sum := by
  induction l generalizing b with
  | nil => simp
  | cons e l ih =>
    rw [List.foldl_cons, ih, List.map_cons, List.sum_cons, userGroupApplyExpense_add u b e]
    ring

/-- What the payer gains from the events of an expense. -/
theorem sum_groupEventNet_payer (u : UserId) (e : Expense) (hp : e.paidByUserId = u) :
    ((expenseGroupEvents e).map (groupEventNet u)).sum
      = (e.splits.map (fun s => if s.userId ≠ u ∧ s.paid = false then s.amount else 0)).sum := by
  unfold expenseGroupEvents
  rw [hp]
  generalize e.splits = l
  induction l with
  | nil => rfl
  | cons s l ih =>
    rw [List.map_cons, List.sum_cons, ← ih]
    by_cases hc : s.userId = u ∨ s.paid = true
    · rw [List.filterMap_cons_none (by rw [if_pos hc])]
      have hn : ¬ (s.userId ≠ u ∧ s.paid = false) := by
        rcases hc with h | h
        · exact fun hh => hh.1 h
        · exact fun hh => by rw [hh.2] at h; cases h
      rw [if_neg hn, zero_add]
    · rw [List.filterMap_cons_some (by rw [if_neg hc]), List.map_cons, List.sum_cons]
      rw [not_or] at hc
      have hy : s.userId ≠ u ∧ s.paid = false := ⟨hc.1, by simpa using hc.2⟩
      rw [if_pos hy]
      simp [groupEventNet, hc.1]

/-- What a user who did not pay loses from the events of an expense. -/
theorem sum_groupEventNet_other (u : UserId) (e : Expense) (hp : e.paidByUserId ≠ u) :
    ((expenseGroupEvents e).map (groupEventNet u)).sum = - unpaidShare u e := by
  unfold expenseGroupEvents unpaidShare
  generalize e.splits = l
  induction l with
  | nil => simp
  | cons s l ih =>
    by_cases hc : s.userId = e.paidByUserId ∨ s.paid = true
    · rw [List.filterMap_cons_none (by rw [if_pos hc]), ih]
      have hn : (s.userId == u && !s.paid) = false := by
        rcases hc with h | h
        · have : s.userId ≠ u := fun hh => hp (h.symm.trans hh)
          simp [this]
        · simp [h]
      rw [List.filter_cons_of_neg (by simp [hn])]
    · rw [List.filterMap_cons_some (by rw [if_neg hc]), List.map_cons, List.sum_cons, ih]
      rw [not_or] at hc
      have hpaid : s.paid = false := by simpa using hc.2
      by_cases hu : s.userId = u
      · rw [List.filter_cons_of_pos (by simp [hu, hpaid]), List.map_cons, List.sum_cons]
        simp [groupEventNet, hp, hu]
        ring
      · rw [List.filter_cons_of_neg (by simp [hu])]
        simp [groupEventNet, hp, hu]

/-- With at most one split per user, the step of `getUserGroups` for an
expense is the net of its events. -/
theorem userGroupApplyExpense_eq_events (u : UserId) (e : Expense)
    (hnd : (e.splits.map (fun s => s.userId)).Nodup) :
    userGroupApplyExpense u 0 e = ((expenseGroupEvents e).map (groupEventNet u)).sum := by
  by_cases hp : e.paidByUserId = u
  · rw [sum_groupEventNet_payer u e hp]
    unfold userGroupApplyExpense
    rw [if_pos hp, foldl_userGroupApplyPayerSplit, zero_add]
  · rw [sum_groupEventNet_other u e hp, unpaidShare_eq_find u e hnd,
      find?_unpaid_of_nodup u e.splits hnd]
    unfold userGroupApplyExpense
    rw [if_neg hp]
    cases e.splits.find? (fun split => split.userId == u) with
    | none => simp
    | some s =>
      by_cases hs : s.paid = true <;> simp [hs]

theorem sum_expenseEvents_eq (u : UserId) (l : List Expense)
    (hnd : ∀ e ∈ l, (e.splits.map (fun s => s.userId)).Nodup) :
    (l.map (userGroupApplyExpense u 0)).sum
      = ((l.flatMap expenseGroupEvents).map (groupEventNet u)).sum := by
  induction l with
  | nil => rfl
  | cons e l ih =>
    rw [List.map_cons, List.sum_cons, List.flatMap_cons, List.map_append, List.sum_append,
      ih (fun x hx => hnd x (List.mem_cons_of_mem _ hx)),
      userGroupApplyExpense_eq_events u e (hnd e (List.mem_cons_self _ _))]

/-- Without settlements of a user to themself, the settlement loop of
`getUserGroups` adds the nets of the settlement events. -/
theorem foldl_userGroupApplySettlement (u : UserId) (g : GroupId) (l : List Settlement)
    (hself : ∀ s ∈ l, s.groupId = some g → s.paidByUserId ≠ s.receivedByUserId) (b : ℚ) :
    (l.filter (fun s => s.groupId == some g
        && (s.paidByUserId == u || s.receivedByUserId == u))).foldl
        (userGroupApplySettlement u) b
      = b + (((l.filter (fun s => s.groupId == some g)).map settlementGroupEvent).map
          (groupEventNet u)).sum := by
  induction l generalizing b with
  | nil => simp
  | cons s l ih =>
    have ih2 := ih (fun x hx => hself x (List.mem_cons_of_mem _ hx))
    by_cases hg : s.groupId = some g
    · have hne := hself s (List.mem_cons_self _ _) hg
      rw [List.filter_cons_of_pos (p := fun s : Settlement => s.groupId == some g) (by simp [hg]),
        List.map_cons, List.map_cons, List.sum_cons]
      by_cases hp : s.paidByUserId = u
      · have hr : s.receivedByUserId ≠ u := fun h => hne (hp.trans h.symm)
        rw [List.filter_cons_of_pos (by simp [hg, hp]), List.foldl_cons, ih2]
        simp [userGroupApplySettlement, groupEventNet, settlementGroupEvent, hp, hr]
        ring
      · by_cases hr : s.receivedByUserId = u
        · rw [List.filter_cons_of_pos (by simp [hg, hr]), List.foldl_cons, ih2]
          simp [userGroupApplySettlement, groupEventNet, settlementGroupEvent, hp, hr]
          ring
        · rw [List.filter_cons_of_neg (by simp [hp, hr]), ih2]
          simp [groupEventNet, settlementGroupEvent, hp, hr]
    · rw [List.filter_cons_of_neg (p := fun s : Settlement => s.groupId == some g) (by simp [hg]),
        List.filter_cons_of_neg (by simp [hg]), ih2]

/-- The balance of `getUserGroups` for a group is the sum of the nets of the
events of the group. -/
theorem userGroupBalance_eq_events (u : UserId) (st : Store) (group : Group)
    (hsplits : ∀ e ∈ st.expenses, e.groupId = some group._id →
      (e.splits.map (fun s => s.userId)).Nodup)
    (hself : ∀ s ∈ st.settlements, s.groupId = some group._id →
      s.paidByUserId ≠ s.receivedByUserId) :
    userGroupBalance u st group = ((groupEvents group._id st).map (groupEventNet u)).sum := by
  unfold userGroupBalance groupEvents
  simp only []
  rw [foldl_userGroupApplySettlement u group._id st.settlements hself,
    foldl_userGroupApplyExpense, zero_add, List.map_append, List.sum_append,
    sum_expenseEvents_eq]
  intro e he
  rw [List.mem_filter] at he
  exact hsplits e he.1 (by simpa using he.2)

/-- C35: when `getGroupExpenses` returns for a caller U and a group G whose
expenses have at most one split per user and whose settlements never have the
same payer and receiver, `getUserGroups` returns an entry for G, and the
balance of that entry is the `totalBalance` of member U in the result of
`getGroupExpenses`. -/
theorem getUserGroups_balance_eq_totalBalance (identity : Option String) (groupId : GroupId)
    (st : Store) (user : User) (r : GroupExpenses)
    (hauth : getCurrentUser identity st = .ok user)
    (h : getGroupExpenses identity groupId st = .ok r)
    (hsplits : ∀ e ∈ st.expenses, e.groupId = some groupId →
      (e.splits.map (fun s => s.userId)).Nodup)
    (hself : ∀ s ∈ st.settlements, s.groupId = some groupId →
      s.paidByUserId ≠ s.receivedByUserId) :
    ∃ gs, getUserGroups identity st = .ok gs
      ∧ (∃ g ∈ gs, g.id = groupId)
      ∧ (∃ mb ∈ r.balances, mb.id = user._id)
      ∧ ∀ g ∈ gs, g.id = groupId → ∀ mb ∈ r.balances, mb.id = user._id →
          mb.totalBalance = some g.balance := by
  obtain ⟨user', group, _, _, hauth', hg, hany, hmd, _, _, _, _, _⟩ :=
    getGroupExpenses_inv identity groupId st r h
  rw [hauth] at hauth'
  cases hauth'
  have hids := memberDetailsOf_ids st group.members r.members hmd
  have htot := getGroupExpenses_totals identity groupId st r h
  have hgid : group._id = groupId := by
    have := List.find?_some hg
    simpa using this
  have hgs : getUserGroups identity st
      = .ok (((st.groups.filter (fun group =>
          group.members.any (fun member => member.userId == user._id))).map (fun group =>
            { toGroup := group, id := group._id,
              balance := userGroupBalance user._id st group })) : List GroupWithBalance) := by
    simp only [getUserGroups, hauth]
  refine ⟨_, hgs, ?_, ?_, ?_⟩
  · refine ⟨{ toGroup := group, id := group._id,
              balance := userGroupBalance user._id st group }, ?_, hgid⟩
    exact List.mem_map.mpr ⟨group,
      List.mem_filter.mpr ⟨List.mem_of_find?_eq_some hg, hany⟩, rfl⟩
  · obtain ⟨m, hm, hmu⟩ := List.any_eq_true.mp hany
    have hin : user._id ∈ r.members.map (fun d => d.id) := by
      rw [hids]
      exact List.mem_map.mpr ⟨m, hm, by simpa using hmu⟩
    obtain ⟨d, hd, hdu⟩ := List.mem_map.mp hin
    have hpair : (d.id, some (((groupEvents groupId st).map (groupEventNet d.id)).sum))
        ∈ r.balances.map (fun mb => (mb.id, mb.totalBalance)) := by
      rw [htot]
      exact List.mem_map.mpr ⟨d, hd, rfl⟩
    obtain ⟨mb, hmb, hpe⟩ := List.mem_map.mp hpair
    exact ⟨mb, hmb, (congrArg Prod.fst hpe).trans hdu⟩
  · intro g hgm hgi mb hmb hmu
    obtain ⟨g0, hg0, rfl⟩ := List.mem_map.mp hgm
    simp only at hgi
    have hpair : (mb.id, mb.totalBalance)
        ∈ r.members.map (fun d =>
            (d.id, some (((groupEvents groupId st).map (groupEventNet d.id)).sum))) := by
      rw [← htot]
      exact List.mem_map.mpr ⟨mb, hmb, rfl⟩
    obtain ⟨d, _, hpe⟩ := List.mem_map.mp hpair
    have h1 := congrArg Prod.fst hpe
    have h2 := congrArg Prod.snd hpe
    simp only at h1 h2
    rw [← h2, h1, hmu]
    simp only
    rw [userGroupBalance_eq_events user._id st g0 (hgi ▸ hsplits) (hgi ▸ hself), hgi]

theorem getUserGroups_balance_eq_totalBalance_witness :
    (getUserGroups (some "token-a") scenario3).map
        (fun gs => gs.map (fun g => (g.id, g.balance))) = .ok [(7, 6)]
    ∧ ∃ r, getGroupExpenses (some "token-a") 7 scenario3 = .ok r
      ∧ ∃ gs, getUserGroups (some "token-a") scenario3 = .ok gs
        ∧ (∃ g ∈ gs, g.id = 7)
        ∧ (∃ mb ∈ r.balances, mb.id = userA._id)
        ∧ ∀ g ∈ gs, g.id = 7 → ∀ mb ∈ r.balances, mb.id = userA._id →
            mb.totalBalance = some g.balance := by
  refine ⟨by decide!, ?_⟩
  obtain ⟨r, hr⟩ := except_ok_of_toBool (getGroupExpenses (some "token-a") 7 scenario3)
    (by decide!)
  exact ⟨r, hr, getUserGroups_balance_eq_totalBalance (some "token-a") 7 scenario3 userA r
    rfl hr (by decide) (by decide)⟩

/-! ### getGroupExpenses: every entry it touches is defined -/

theorem groupEvents_row_ne_col (groupId : GroupId) (st : Store)
    (hself : ∀ s ∈ st.settlements, s.groupId = some groupId →
      s.paidByUserId ≠ s.receivedByUserId) :
    ∀ ev ∈ groupEvents groupId st, ev.row ≠ ev.col := by
  intro ev hev
  rcases groupEvents_cases groupId st ev hev with
    ⟨e, _, _, s, _, hne, _, rfl⟩ | ⟨s, hs, hg, rfl⟩
  · exact hne
  · exact hself s hs hg

theorem cellsDefined_netPair (ids : List UserId) (ledger : Ledger) (a b : UserId)
    (h : CellsDefined ids ledger) : CellsDefined ids (netPair a ledger b) := by
  intro p hp q hq hpq
  have hold := h p hp q hq hpq
  unfold netPair
  split_ifs
  · exact hold
  · split
    · simp only []
      split_ifs <;>
        (simp only [ledgerCell_setLedgerCell]; split_ifs <;> first | rfl | exact hold)
    · simp only [ledgerCell_setLedgerCell]; split_ifs <;> first | rfl | exact hold

/-- The states of the event loops: after any number of events whose parties
are members and differ, the accumulators are defined and hold a number for
every member and for every pair of distinct members. -/
theorem groupEvents_prefix_defined (ids : List UserId) (evs : List GroupEvent)
    (hrow : ∀ ev ∈ evs, ev.row ∈ ids) (k : Nat) :
    ∃ totals ledger,
      (evs.take k).foldl applyGroupEvent (.ok (initTotals ids, initLedger ids))
          = .ok (totals, ledger)
      ∧ TotalsDefined ids totals ∧ CellsDefined ids ledger := by
  obtain ⟨totals, ledger, hacc, _⟩ := groupRowsExist_foldl ids (evs.take k) _
    (groupRowsExist_init ids) (fun ev hev => hrow ev (List.mem_of_mem_take hev))
  refine ⟨totals, ledger, hacc, ?_, ?_⟩
  · intro a ha
    rw [totals_foldl_applyGroupEvent _ _ _ _ _ a hacc, objGet_initTotals, if_pos ha]
    rfl
  · intro a ha b hb hab
    rw [ledgerCell_foldl_applyGroupEvent _ _ _ _ _ a b hacc, ledgerCell_initLedger ids a b ha hb hab]
    rfl

/-- C39: for a group whose members all resolve to user records, and in
which every expense payer, every unpaid non-payer split participant and every
settlement payer and receiver is a member, with settlement payer different
from receiver, `getGroupExpenses` returns for a caller who is a member. Every
event of the two loops names members, in a row and a column that differ; in
every state of the loops the totals of the members and the ledger cells of
the pairs of distinct members are numbers, and they stay numbers in every
state of the netting loop; every returned `totalBalance` is a number and every
returned amount is a positive number. The members need not be pairwise
distinct for this. -/
theorem getGroupExpenses_entries_defined (identity : Option String) (groupId : GroupId)
    (st : Store) (user : User) (group : Group)
    (hauth : getCurrentUser identity st = .ok user)
    (hg : st.groups.find? (fun g => g._id == groupId) = some group)
    (hmem : ∃ m ∈ group.members, m.userId = user._id)
    (husers : ∀ m ∈ group.members, ∃ u ∈ st.users, u._id = m.userId)
    (hexp : ∀ e ∈ st.expenses, e.groupId = some groupId →
      e.paidByUserId ∈ group.members.map (fun m => m.userId)
        ∧ ∀ s ∈ e.splits, s.userId ≠ e.paidByUserId → s.paid = false →
            s.userId ∈ group.members.map (fun m => m.userId))
    (hset : ∀ s ∈ st.settlements, s.groupId = some groupId →
      s.paidByUserId ∈ group.members.map (fun m => m.userId)
        ∧ s.receivedByUserId ∈ group.members.map (fun m => m.userId)
        ∧ s.paidByUserId ≠ s.receivedByUserId) :
    ∃ r, getGroupExpenses identity groupId st = .ok r
      ∧ r.members.map (fun m => m.id) = group.members.map (fun m => m.userId)
      ∧ (∀ ev ∈ groupEvents groupId st,
          GroupEventOk (group.members.map (fun m => m.userId)) ev ∧ ev.row ≠ ev.col)
      ∧ (∀ k, ∃ totals ledger,
          ((groupEvents groupId st).take k).foldl applyGroupEvent
              (.ok (initTotals (group.members.map (fun m => m.userId)),
                initLedger (group.members.map (fun m => m.userId)))) = .ok (totals, ledger)
          ∧ TotalsDefined (group.members.map (fun m => m.userId)) totals
          ∧ CellsDefined (group.members.map (fun m => m.userId)) ledger)
      ∧ (∀ totals ledger,
          (groupEvents groupId st).foldl applyGroupEvent
              (.ok (initTotals (group.members.map (fun m => m.userId)),
                initLedger (group.members.map (fun m => m.userId)))) = .ok (totals, ledger) →
          ∀ i j a, CellsDefined (group.members.map (fun m => m.userId))
            (((group.members.map (fun m => m.userId)).take j).foldl (netPair a)
              (((group.members.map (fun m => m.userId)).take i).foldl
                (fun ledger a =>
                  (group.members.map (fun m => m.userId)).foldl (netPair a) ledger) ledger)))
      ∧ ∀ mb ∈ r.balances, mb.totalBalance.isSome = true
          ∧ (∀ o ∈ mb.owes, 0 < o.amount) ∧ ∀ o ∈ mb.owedBy, 0 < o.amount := by
  have hany : group.members.any (fun m => m.userId == user._id) = true := by
    obtain ⟨m, hm, hmu⟩ := hmem
    exact List.any_eq_true.mpr ⟨m, hm, by simp [hmu]⟩
  have hevs := groupEvents_parties_mem groupId st (group.members.map (fun m => m.userId)) hexp
    (fun s hs hgs => ⟨(hset s hs hgs).1, (hset s hs hgs).2.1⟩)
  have hne := groupEvents_row_ne_col groupId st (fun s hs hgs => (hset s hs hgs).2.2)
  obtain ⟨details, hd⟩ := memberDetailsOf_ok st group.members husers
  have hids := memberDetailsOf_ids st group.members details hd
  have hprefix := groupEvents_prefix_defined (group.members.map (fun m => m.userId))
    (groupEvents groupId st) (fun ev hev => (hevs ev hev).2.2.1)
  obtain ⟨totals, ledger, hacc, htd, hcd⟩ := hprefix (groupEvents groupId st).length
  rw [List.take_length] at hacc
  have hacc' := hacc
  rw [← hids] at hacc'
  have hr : getGroupExpenses identity groupId st
      = .ok { group := { id := group._id, name := group.name, description := group.description }
              members := details
              expenses := st.expenses.filter (fun e => e.groupId == some groupId)
              settlements := st.settlements.filter (fun s => s.groupId == some groupId)
              balances := details.map (memberBalance (details.map (fun m => m.id)) totals
                (netLedger (details.map (fun m => m.id)) ledger))
              userLookupMap := details.foldl (fun m d => objUpdate m d.id (fun _ => d)) [] } := by
    simp only [getGroupExpenses, hauth, hg, hany, hd, foldl_groupApply, hacc', Bool.not_true,
      Bool.false_eq_true, if_false]
  refine ⟨_, hr, hids, fun ev hev => ⟨hevs ev hev, hne ev hev⟩, hprefix, ?_, ?_⟩
  · intro totals2 ledger2 hacc2 i j a
    rw [hacc] at hacc2
    cases hacc2
    apply foldl_preserve _ (CellsDefined (group.members.map (fun m => m.userId)))
      (fun z b hz => cellsDefined_netPair _ z a b hz)
    apply foldl_preserve _ (CellsDefined (group.members.map (fun m => m.userId))) _ _ _ hcd
    intro z a2 hz
    exact foldl_preserve _ (CellsDefined (group.members.map (fun m => m.userId)))
      (fun z b hz => cellsDefined_netPair _ z a2 b hz) _ _ hz
  · intro mb hmb
    simp only at hmb
    obtain ⟨d, hdm, rfl⟩ := List.mem_map.mp hmb
    refine ⟨?_, fun o ho => owes_amount_pos _ _ _ _ o ho,
      fun o ho => owedBy_amount_pos _ _ _ _ o ho⟩
    have hin : d.id ∈ group.members.map (fun m => m.userId) := by
      rw [← hids]
      exact List.mem_map.mpr ⟨d, hdm, rfl⟩
    exact htd d.id hin

theorem getGroupExpenses_entries_defined_witness :
    ∃ r, getGroupExpenses (some "token-a") 7 scenario3 = .ok r
      ∧ r.members.map (fun m => m.id) = trip.members.map (fun m => m.userId)
      ∧ (∀ ev ∈ groupEvents 7 scenario3,
          GroupEventOk (trip.members.map (fun m => m.userId)) ev ∧ ev.row ≠ ev.col)
      ∧ (∀ k, ∃ totals ledger,
          ((groupEvents 7 scenario3).take k).foldl applyGroupEvent
              (.ok (initTotals (trip.members.map (fun m => m.userId)),
                initLedger (trip.members.map (fun m => m.userId)))) = .ok (totals, ledger)
          ∧ TotalsDefined (trip.members.map (fun m => m.userId)) totals
          ∧ CellsDefined (trip.members.map (fun m => m.userId)) ledger)
      ∧ (∀ totals ledger,
          (groupEvents 7 scenario3).foldl applyGroupEvent
              (.ok (initTotals (trip.members.map (fun m => m.userId)),
                initLedger (trip.members.map (fun m => m.userId)))) = .ok (totals, ledger) →
          ∀ i j a, CellsDefined (trip.members.map (fun m => m.userId))
            (((trip.members.map (fun m => m.userId)).take j).foldl (netPair a)
              (((trip.members.map (fun m => m.userId)).take i).foldl
                (fun ledger a =>
                  (trip.members.map (fun m => m.userId)).foldl (netPair a) ledger) ledger)))
      ∧ ∀ mb ∈ r.balances, mb.totalBalance.isSome = true
          ∧ (∀ o ∈ mb.owes, 0 < o.amount) ∧ ∀ o ∈ mb.owedBy, 0 < o.amount :=
  getGroupExpenses_entries_defined (some "token-a") 7 scenario3 userA trip rfl rfl
    (by decide) (by decide) (by decide) (by decide)

/-! ### getGroupExpenses: the total against the two lists -/

theorem foldl_preserve_mem {σ α : Type} (f : σ → α → σ) (P : σ → Prop) (l : List α)
    (hP : ∀ z, ∀ x ∈ l, P z → P (f z x)) (init : σ) (h : P init) :
    P (l.foldl f init) := by
  induction l generalizing init with
  | nil => exact h
  | cons x l ih =>
    exact ih (fun z y hy hz => hP z y (List.mem_cons_of_mem _ hy) hz) _
      (hP _ x (List.mem_cons_self _ _) h)

theorem rowKeysMembers_initLedger (ids : List UserId) : RowKeysMembers ids (initLedger ids) := by
  intro a row hrow k hk
  rw [objGet_initLedger] at hrow
  by_cases ha : a ∈ ids
  · rw [if_pos ha] at hrow
    cases hrow
    unfold initRow at hk
    rw [mem_keys_initRow_aux] at hk
    rcases hk with hk | ⟨hk, hne⟩
    · simp at hk
    · exact ⟨hk, Ne.symm hne⟩
  · rw [if_neg ha] at hrow
    cases hrow

theorem rowKeysMembers_objUpdate (ids : List UserId) (ledger : Ledger) (a : UserId)
    (f : Option (List (UserId × Option ℚ)) → List (UserId × Option ℚ))
    (h : RowKeysMembers ids ledger)
    (hf : ∀ k ∈ (f (objGet ledger a)).map Prod.fst, k ∈ ids ∧ k ≠ a) :
    RowKeysMembers ids (objUpdate ledger a f) := by
  intro a' row hrow
  rw [objGet_objUpdate] at hrow
  by_cases ha : a' = a
  · rw [if_pos ha] at hrow
    cases hrow
    rw [ha]
    exact hf
  · rw [if_neg ha] at hrow
    exact h a' row hrow

theorem rowKeysMembers_foldl_applyGroupEvent (ids : List UserId) (evs : List GroupEvent)
    (totals totals' : Totals) (ledger ledger' : Ledger) (hk : RowKeysMembers ids ledger)
    (hevs : ∀ ev ∈ evs, ev.col ∈ ids ∧ ev.row ≠ ev.col)
    (h : evs.foldl applyGroupEvent (.ok (totals, ledger)) = .ok (totals', ledger')) :
    RowKeysMembers ids ledger' := by
  induction evs generalizing totals ledger with
  | nil =>
    simp only [List.foldl_nil, Except.ok.injEq, Prod.mk.injEq] at h
    rw [← h.2]
    exact hk
  | cons ev evs ih =>
    rw [List.foldl_cons] at h
    cases hrow : objGet ledger ev.row with
    | none =>
      simp only [applyGroupEvent, hrow, foldl_applyGroupEvent_error] at h
      cases h
    | some row =>
      simp only [applyGroupEvent, hrow] at h
      refine ih _ _ ?_ (fun ev' h' => hevs ev' (List.mem_cons_of_mem _ h')) h
      apply rowKeysMembers_objUpdate _ _ _ _ hk
      intro k hk'
      rw [mem_keys_plusAssign] at hk'
      obtain ⟨hc, hne⟩ := hevs ev (List.mem_cons_self _ _)
      rcases hk' with rfl | hk'
      · exact ⟨hc, Ne.symm hne⟩
      · exact hk ev.row row hrow k hk'

theorem rowKeysMembers_setLedgerCell (ids : List UserId) (ledger : Ledger) (a b : UserId) (v : ℚ)
    (h : RowKeysMembers ids ledger) (hb : b ∈ ids) (hba : b ≠ a) :
    RowKeysMembers ids (setLedgerCell ledger a b v) := by
  unfold setLedgerCell
  apply rowKeysMembers_objUpdate _ _ _ _ h
  intro k hk
  rw [mem_keys_objUpdate] at hk
  rcases hk with rfl | hk
  · exact ⟨hb, hba⟩
  · cases hr : objGet ledger a with
    | none => rw [hr] at hk; simp at hk
    | some row =>
      rw [hr] at hk
      exact h a row hr k hk

theorem rowKeysMembers_netPair (ids : List UserId) (ledger : Ledger) (a b : UserId)
    (h : RowKeysMembers ids ledger) (ha : a ∈ ids) (hb : b ∈ ids) :
    RowKeysMembers ids (netPair a ledger b) := by
  unfold netPair
  by_cases hge : a ≥ b
  · rw [if_pos hge]
    exact h
  · rw [if_neg hge]
    have hne : a ≠ b := fun hab => hge (by rw [hab])
    have h1 : ∀ z v w, RowKeysMembers ids z →
        RowKeysMembers ids (setLedgerCell (setLedgerCell z a b v) b a w) :=
      fun z v w hz => rowKeysMembers_setLedgerCell _ _ _ _ _
        (rowKeysMembers_setLedgerCell _ _ _ _ _ hz hb (Ne.symm hne)) ha hne
    have h2 : ∀ z v w, RowKeysMembers ids z →
        RowKeysMembers ids (setLedgerCell (setLedgerCell z b a v) a b w) :=
      fun z v w hz => rowKeysMembers_setLedgerCell _ _ _ _ _
        (rowKeysMembers_setLedgerCell _ _ _ _ _ hz ha hne) hb (Ne.symm hne)
    split
    · simp only []
      split_ifs
      · exact h1 _ _ _ h
      · exact h2 _ _ _ h
      · exact h2 _ _ _ h
    · exact h2 _ _ _ h

theorem rowKeysMembers_netLedger (ids : List UserId) (ledger : Ledger)
    (h : RowKeysMembers ids ledger) : RowKeysMembers ids (netLedger ids ledger) := by
  unfold netLedger
  apply foldl_preserve_mem _ (RowKeysMembers ids) _ _ _ h
  intro z a ha hz
  exact foldl_preserve_mem _ (RowKeysMembers ids) _
    (fun z b hb hz => rowKeysMembers_netPair ids z a b hz ha hb) _ hz

theorem ledgerCell_self_of_rowKeys (ids : List UserId) (ledger : Ledger) (x : UserId)
    (h : RowKeysMembers ids ledger) : ledgerCell ledger x x = none := by
  unfold ledgerCell
  cases hrow : objGet ledger x with
  | none => rfl
  | some row =>
    cases hget : objGet row x with
    | none => simp [hget]
    | some v => exact absurd rfl (h x row hrow x (mem_keys_of_objGet row x v hget)).2

theorem sum_owes_amounts (ids : List UserId) (totals : Totals) (ledger : Ledger)
    (m : MemberDetail) :
    ((memberBalance ids totals ledger m).owes.map (fun o => o.amount)).sum
      = (((objGet ledger m.id).getD []).map (fun entry => positivePart entry.2)).sum := by
  unfold memberBalance
  simp only []
  generalize (objGet ledger m.id).getD [] = row
  induction row with
  | nil => rfl
  | cons entry row ih =>
    rw [List.map_cons, List.sum_cons, ← ih]
    cases hv : entry.2 with
    | none =>
      rw [List.filterMap_cons_none (by simp only [hv])]
      simp [positivePart]
    | some v =>
      by_cases hpos : v > 0
      · rw [List.filterMap_cons_some (b := { to_ := entry.1, amount := v })
          (by simp only [hv, if_pos hpos])]
        simp [positivePart, max_eq_left (le_of_lt hpos)]
      · rw [List.filterMap_cons_none (by simp only [hv, if_neg hpos])]
        simp [positivePart, max_eq_right (not_lt.mp hpos)]

theorem sum_owedBy_amounts (ids : List UserId) (totals : Totals) (ledger : Ledger)
    (m : MemberDetail) :
    ((memberBalance ids totals ledger m).owedBy.map (fun o => o.amount)).sum
      = (ids.map (fun o => positivePart (ledgerCell ledger o m.id))).sum := by
  unfold memberBalance
  simp only []
  induction ids with
  | nil => rfl
  | cons o ids ih =>
    rw [List.map_cons, List.sum_cons, ← ih]
    cases hv : ledgerCell ledger o m.id with
    | none =>
      rw [List.filterMap_cons_none (by simp only [hv])]
      simp [positivePart]
    | some v =>
      by_cases hpos : v > 0
      · rw [List.filterMap_cons_some (b := { from_ := o, amount := v })
          (by simp only [hv, if_pos hpos])]
        simp [positivePart, max_eq_left (le_of_lt hpos)]
      · rw [List.filterMap_cons_none (by simp only [hv, if_neg hpos])]
        simp [positivePart, max_eq_right (not_lt.mp hpos)]

theorem sum_row_eq_sum_keys (row : List (UserId × Option ℚ)) (hnd : (row.map Prod.fst).Nodup)
    (g : Option ℚ → ℚ) :
    (row.map (fun entry => g entry.2)).sum
      = ((row.map Prod.fst).map (fun k => g (objGet row k).join)).sum := by
  rw [List.map_map]
  apply sum_map_congr
  intro entry he
  have hget := (mem_iff_objGet row hnd entry.1 entry.2).mp he
  simp only [Function.comp, hget]
  rfl

theorem sum_filter_ne (ids : List UserId) (x : UserId) (f : UserId → ℚ) (hx : f x = 0) :
    (ids.map f).sum = ((ids.filter (fun o => o != x)).map f).sum := by
  rw [sum_filter_map]
  apply sum_map_congr
  intro o _
  by_cases ho : o = x
  · simp [ho, hx]
  · simp [ho]

/-- With the cells of a member netted against every other member, the
amounts of `owedBy` minus the amounts of `owes` add up to the differences. -/
theorem memberBalance_lists_sum (ids : List UserId) (hnd : ids.Nodup) (totals : Totals)
    (ledger : Ledger) (m : MemberDetail) (hrn : RowsNodup ledger)
    (hk : RowKeysMembers ids ledger) (D : UserId → ℚ)
    (hcells : ∀ o ∈ ids, o ≠ m.id →
      ledgerCell ledger o m.id = some (max (D o) 0)
        ∧ ledgerCell ledger m.id o = some (max (-(D o)) 0)) :
    ((memberBalance ids totals ledger m).owedBy.map (fun o => o.amount)).sum
        - ((memberBalance ids totals ledger m).owes.map (fun o => o.amount)).sum
      = ((ids.filter (fun o => o != m.id)).map D).sum := by
  have hF : ∀ o, o ∈ ids.filter (fun o => o != m.id) ↔ o ∈ ids ∧ o ≠ m.id := by
    intro o
    rw [List.mem_filter]
    simp
  have howes : (((objGet ledger m.id).getD []).map (fun entry => positivePart entry.2)).sum
      = ((ids.filter (fun o => o != m.id)).map
          (fun o => positivePart (ledgerCell ledger m.id o))).sum := by
    cases hrow : objGet ledger m.id with
    | none =>
      have hnil : ids.filter (fun o => o != m.id) = [] := by
        rw [List.eq_nil_iff_forall_not_mem]
        intro o ho
        have hc := (hcells o ((hF o).mp ho).1 ((hF o).mp ho).2).2
        unfold ledgerCell at hc
        rw [hrow] at hc
        cases hc
      rw [hnil]
      rfl
    | some row =>
      have hcell : ∀ k, (objGet row k).join = ledgerCell ledger m.id k := by
        intro k
        unfold ledgerCell
        rw [hrow]
        rfl
      have hperm : (row.map Prod.fst).Perm (ids.filter (fun o => o != m.id)) := by
        rw [List.perm_ext_iff_of_nodup (hrn m.id row hrow) (hnd.filter _)]
        intro k
        rw [hF]
        constructor
        · exact hk m.id row hrow k
        · rintro ⟨hki, hkm⟩
          have hc := (hcells k hki hkm).2
          rw [← hcell] at hc
          cases hget : objGet row k with
          | none => rw [hget] at hc; cases hc
          | some v => exact mem_keys_of_objGet row k v hget
      rw [Option.getD_some, sum_row_eq_sum_keys row (hrn m.id row hrow) positivePart]
      simp only [hcell]
      exact (hperm.map _).sum_eq
  rw [sum_owedBy_amounts, sum_owes_amounts, howes,
    sum_filter_ne ids m.id (fun o => positivePart (ledgerCell ledger o m.id))
      (by simp only [ledgerCell_self_of_rowKeys ids ledger m.id hk]; rfl),
    sum_map_sub_map]
  apply sum_map_congr
  intro o ho
  obtain ⟨h1, h2⟩ := hcells o ((hF o).mp ho).1 ((hF o).mp ho).2
  rw [h1, h2]
  simp only [positivePart]
  rw [max_eq_left (le_max_right _ _), max_eq_left (le_max_right _ _)]
  exact max_sub_max_neg (D o)

theorem sum_map_ite_and_left (l : List UserId) (hnd : l.Nodup) (k : UserId) (b : Bool) (d : ℚ) :
    (l.map (fun o => if (k == o && b) = true then d else 0)).sum
      = if b = true ∧ k ∈ l then d else 0 := by
  cases b
  · simp
  · have h := sum_map_ite_eq_of_nodup l hnd k d
    simpa using h

theorem sum_map_ite_and_right (l : List UserId) (hnd : l.Nodup) (k : UserId) (b : Bool) (d : ℚ) :
    (l.map (fun o => if (b && k == o) = true then d else 0)).sum
      = if b = true ∧ k ∈ l then d else 0 := by
  cases b
  · simp
  · have h := sum_map_ite_eq_of_nodup l hnd k d
    simpa using h

/-- The net of the events for a member, pair by pair: what the others owe
the member minus what the member owes them. -/
theorem sum_groupEventNet_eq_pairs (ids : List UserId) (hnd : ids.Nodup)
    (evs : List GroupEvent) (x : UserId)
    (hevs : ∀ ev ∈ evs, ev.row ∈ ids ∧ ev.col ∈ ids ∧ ev.row ≠ ev.col
      ∧ groupEventNet x ev
          = (if ev.col = x then ev.delta else 0) - (if ev.row = x then ev.delta else 0)) :
    (evs.map (groupEventNet x)).sum
      = ((ids.filter (fun o => o != x)).map
          (fun o => cellDelta evs o x - cellDelta evs x o)).sum := by
  have hF : ∀ o, o ∈ ids.filter (fun o => o != x) ↔ o ∈ ids ∧ o ≠ x := by
    intro o
    rw [List.mem_filter]
    simp
  have hrhs : (fun o => cellDelta evs o x - cellDelta evs x o)
      = fun o => (evs.map (fun ev =>
          (if (ev.row == o && ev.col == x) = true then ev.delta else 0)
            - (if (ev.row == x && ev.col == o) = true then ev.delta else 0))).sum := by
    funext o
    unfold cellDelta
    rw [sum_filter_map, sum_filter_map, sum_map_sub_map]
  rw [hrhs, sum_map_sum_swap]
  apply sum_map_congr
  intro ev hev
  obtain ⟨hr, hc, hne, hnet⟩ := hevs ev hev
  rw [hnet, ← sum_map_sub_map,
    sum_map_ite_and_left _ (hnd.filter _) ev.row (ev.col == x) ev.delta,
    sum_map_ite_and_right _ (hnd.filter _) ev.col (ev.row == x) ev.delta]
  congr 1
  · by_cases hcx : ev.col = x
    · rw [if_pos hcx, if_pos ⟨by simp [hcx], (hF _).mpr ⟨hr, hcx ▸ hne⟩⟩]
    · rw [if_neg hcx, if_neg (fun h => hcx (by simpa using h.1))]
  · by_cases hrx : ev.row = x
    · rw [if_pos hrx, if_pos ⟨by simp [hrx], (hF _).mpr ⟨hc, hrx ▸ (Ne.symm hne)⟩⟩]
    · rw [if_neg hrx, if_neg (fun h => hrx (by simpa using h.1))]

/-- The net of an event of a group, in terms of its cell. -/
theorem groupEventNet_eq_cell (groupId : GroupId) (st : Store) (x : UserId) (ev : GroupEvent)
    (hev : ev ∈ groupEvents groupId st) :
    groupEventNet x ev
      = (if ev.col = x then ev.delta else 0) - (if ev.row = x then ev.delta else 0) := by
  rcases groupEvents_cases groupId st ev hev with
    ⟨e, _, _, s, _, _, _, rfl⟩ | ⟨s, _, _, rfl⟩
  · rfl
  · unfold groupEventNet settlementGroupEvent
    simp only []
    by_cases h1 : s.paidByUserId = x <;> by_cases h2 : s.receivedByUserId = x <;>
      simp [h1, h2]

/-- In exact arithmetic: for a group with pairwise distinct members in which every expense
payer, every participant of an unpaid split other than the payer and every
settlement payer and receiver is a member, and no settlement has the same
payer and receiver, the `totalBalance` of every member in the result of
`getGroupExpenses` is the sum of the amounts of the member's `owedBy` list
minus the sum of the amounts of the member's `owes` list. -/
theorem getGroupExpenses_total_eq_lists (identity : Option String) (groupId : GroupId)
    (st : Store) (r : GroupExpenses) (group : Group)
    (h : getGroupExpenses identity groupId st = .ok r)
    (hg : st.groups.find? (fun g => g._id == groupId) = some group)
    (hnd : (group.members.map (fun m => m.userId)).Nodup)
    (hexp : ∀ e ∈ st.expenses, e.groupId = some groupId →
      e.paidByUserId ∈ group.members.map (fun m => m.userId)
        ∧ ∀ s ∈ e.splits, s.userId ≠ e.paidByUserId → s.paid = false →
            s.userId ∈ group.members.map (fun m => m.userId))
    (hset : ∀ s ∈ st.settlements, s.groupId = some groupId →
      s.paidByUserId ∈ group.members.map (fun m => m.userId)
        ∧ s.receivedByUserId ∈ group.members.map (fun m => m.userId)
        ∧ s.paidByUserId ≠ s.receivedByUserId) :
    ∀ mb ∈ r.balances,
      mb.totalBalance
        = some ((mb.owedBy.map (fun o => o.amount)).sum - (mb.owes.map (fun o => o.amount)).sum) := by
  obtain ⟨_, group', totals, ledger, _, hg', _, hmd, hacc, _, _, _, hbal⟩ :=
    getGroupExpenses_inv identity groupId st r h
  rw [hg] at hg'
  cases hg'
  have hids := memberDetailsOf_ids st group.members r.members hmd
  rw [hids] at hacc hbal
  have hevs := groupEvents_parties_mem groupId st (group.members.map (fun m => m.userId)) hexp
    (fun s hs hgs => ⟨(hset s hs hgs).1, (hset s hs hgs).2.1⟩)
  have hne := groupEvents_row_ne_col groupId st (fun s hs hgs => (hset s hs hgs).2.2)
  have hrn : RowsNodup (netLedger (group.members.map (fun m => m.userId)) ledger) :=
    rowsNodup_netLedger _ _
      (rowsNodup_foldl_applyGroupEvent _ _ _ _ _ (rowsNodup_initLedger _) hacc)
  have hk : RowKeysMembers (group.members.map (fun m => m.userId))
      (netLedger (group.members.map (fun m => m.userId)) ledger) :=
    rowKeysMembers_netLedger _ _
      (rowKeysMembers_foldl_applyGroupEvent _ _ _ _ _ _ (rowKeysMembers_initLedger _)
        (fun ev hev => ⟨(hevs ev hev).2.2.2, hne ev hev⟩) hacc)
  have hraw : ∀ p q, p ∈ group.members.map (fun m => m.userId) →
      q ∈ group.members.map (fun m => m.userId) → p ≠ q →
      ledgerCell ledger p q = some (cellDelta (groupEvents groupId st) p q) := by
    intro p q hp hq hpq
    rw [ledgerCell_foldl_applyGroupEvent _ _ _ _ _ p q hacc,
      ledgerCell_initLedger _ p q hp hq hpq]
    unfold cellDelta
    simp
  intro mb hmb
  rw [hbal] at hmb
  obtain ⟨d, hdm, rfl⟩ := List.mem_map.mp hmb
  have hin : d.id ∈ group.members.map (fun m => m.userId) := by
    rw [← hids]
    exact List.mem_map.mpr ⟨d, hdm, rfl⟩
  have hlists := memberBalance_lists_sum (group.members.map (fun m => m.userId)) hnd totals
    (netLedger (group.members.map (fun m => m.userId)) ledger) d hrn hk
    (fun o => cellDelta (groupEvents groupId st) o d.id
      - cellDelta (groupEvents groupId st) d.id o)
    (fun o ho hod => pairNetted_netLedger _ ledger o d.id _ ho hin hod
      ⟨_, _, hraw o d.id ho hin hod, hraw d.id o hin ho (Ne.symm hod), rfl⟩)
  rw [hlists, ← sum_groupEventNet_eq_pairs (group.members.map (fun m => m.userId)) hnd
    (groupEvents groupId st) d.id
    (fun ev hev => ⟨(hevs ev hev).2.2.1, (hevs ev hev).2.2.2, hne ev hev,
      groupEventNet_eq_cell groupId st d.id ev hev⟩)]
  have ht := totals_foldl_applyGroupEvent _ _ _ _ _ d.id hacc
  rw [objGet_initTotals, if_pos hin] at ht
  simp only [memberBalance, ht]
  simp

theorem getGroupExpenses_total_eq_lists_witness :
    (getGroupExpenses (some "token-a") 7 scenario3).map
        (fun r => r.balances.map (fun mb =>
          (mb.totalBalance, mb.owedBy.map (fun o => o.amount), mb.owes.map (fun o => o.amount))))
      = .ok [(some 6, [6], []), (some 0, [], []), (some (-6), [], [6])]
    ∧ ∃ r, getGroupExpenses (some "token-a") 7 scenario3 = .ok r
      ∧ ∀ mb ∈ r.balances,
          mb.totalBalance
            = some ((mb.owedBy.map (fun o => o.amount)).sum
                - (mb.owes.map (fun o => o.amount)).sum) := by
  refine ⟨by decide!, ?_⟩
  obtain ⟨r, hr⟩ := except_ok_of_toBool (getGroupExpenses (some "token-a") 7 scenario3)
    (by decide!)
  exact ⟨r, hr, getGroupExpenses_total_eq_lists (some "token-a") 7 scenario3 r trip hr rfl
    (by decide) (by decide) (by decide)⟩

/-! ### Binary64 rounding -/

theorem pow2_eq_zpow (e : Int) : pow2 e = (2 : ℚ) ^ e := by
  unfold pow2
  by_cases h : 0 ≤ e
  · rw [if_pos h]
    obtain ⟨n, rfl⟩ := Int.eq_ofNat_of_zero_le h
    simp
  · rw [if_neg h]
    push_neg at h
    obtain ⟨n, hn⟩ := Int.eq_ofNat_of_zero_le (show 0 ≤ -e by omega)
    have he : e = -(n : Int) := by omega
    subst he
    simp

theorem pow2_pos (e : Int) : 0 < pow2 e := by
  rw [pow2_eq_zpow]
  positivity

theorem roundDouble_zero : roundDouble 0 = 0 := by
  unfold roundDouble
  rw [if_pos rfl]

theorem roundHalfEven_intCast (m : Int) : roundHalfEven (m : ℚ) = m := by
  unfold roundHalfEven
  simp

theorem roundHalfEven_neg (x : ℚ) : roundHalfEven (-x) = -roundHalfEven x := by
  unfold roundHalfEven
  by_cases hx : (⌊x⌋ : ℚ) = x
  · have hfl : ⌊-x⌋ = -⌊x⌋ := by
      rw [← hx]
      rw [← Int.cast_neg, Int.floor_intCast, Int.floor_intCast]
    simp only [hfl]
    have h1 : -x - ((-⌊x⌋ : Int) : ℚ) = 0 := by push_cast; rw [hx]; ring
    have h2 : x - (⌊x⌋ : ℚ) = 0 := by rw [hx]; ring
    rw [h1, h2]
    norm_num
  · have hlt : (⌊x⌋ : ℚ) < x := lt_of_le_of_ne (Int.floor_le x) hx
    have hfl : ⌊-x⌋ = -⌊x⌋ - 1 := by
      rw [Int.floor_eq_iff]
      push_cast
      constructor
      · have := Int.lt_floor_add_one x
        linarith
      · linarith
    simp only [hfl]
    have hr : -x - ((-⌊x⌋ - 1 : Int) : ℚ) = 1 - (x - ⌊x⌋) := by push_cast; ring
    rw [hr]
    generalize hrr : x - (⌊x⌋ : ℚ) = r
    generalize ⌊x⌋ = f
    rcases lt_trichotomy r (1 / 2) with h | h | h
    · have h1 : ¬ (1 - r < 1 / 2) := by linarith
      have h2 : 1 / 2 < 1 - r := by linarith
      rw [if_neg h1, if_pos h2, if_pos h]
      ring
    · have h1 : ¬ (1 - r < 1 / 2) := by linarith
      have h2 : ¬ (1 / 2 < 1 - r) := by linarith
      have h3 : ¬ (r < 1 / 2) := by linarith
      have h4 : ¬ (1 / 2 < r) := by linarith
      rw [if_neg h1, if_neg h2, if_neg h3, if_neg h4]
      by_cases hev : f % 2 = 0
      · have hod : ¬ ((-f - 1) % 2 = 0) := by omega
        rw [if_pos hev, if_neg hod]
        ring
      · have hod : (-f - 1) % 2 = 0 := by omega
        rw [if_neg hev, if_pos hod]
        ring
    · have h1 : 1 - r < 1 / 2 := by linarith
      have h3 : ¬ (r < 1 / 2) := by linarith
      rw [if_pos h1, if_neg h3, if_pos h]
      ring

theorem bitLog2Loop_eq (fuel : Nat) : ∀ n, n ≤ fuel → bitLog2Loop fuel n = Nat.log2 n := by
  induction fuel with
  | zero =>
    intro n hn
    have : n = 0 := by omega
    subst this
    rw [Nat.log2]
    simp [bitLog2Loop]
  | succ fuel ih =>
    intro n hn
    rw [Nat.log2]
    unfold bitLog2Loop
    by_cases h : n < 2
    · rw [if_pos h, if_neg (by omega)]
    · rw [if_neg h, if_pos (by omega), ih (n / 2) (by omega)]

theorem bitLog2_eq (n : Nat) : bitLog2 n = Nat.log2 n := bitLog2Loop_eq n n (le_refl n)

theorem binaryExponent_neg (q : ℚ) : binaryExponent (-q) = binaryExponent q := by
  unfold binaryExponent
  simp

/-- Rounding commutes with negation. -/
theorem roundDouble_neg (q : ℚ) : roundDouble (-q) = -roundDouble q := by
  unfold roundDouble
  by_cases h : q = 0
  · simp [h]
  · have h' : -q ≠ 0 := neg_ne_zero.mpr h
    rw [if_neg h, if_neg h']
    simp only [binaryExponent_neg, neg_div, roundHalfEven_neg, Int.cast_neg, neg_mul]

/-- The binary exponent brackets the magnitude. -/
theorem binaryExponent_spec (q : ℚ) (hq : q ≠ 0) :
    (2 : ℚ) ^ binaryExponent q ≤ |q| ∧ |q| < (2 : ℚ) ^ (binaryExponent q + 1) := by
  have hnum : q.num.natAbs ≠ 0 := by
    rw [Ne, Int.natAbs_eq_zero]
    exact Rat.num_ne_zero.mpr hq
  have hden : q.den ≠ 0 := q.den_nz
  have ha1 : 2 ^ Nat.log2 q.num.natAbs ≤ q.num.natAbs := Nat.log2_self_le hnum
  have ha2 : q.num.natAbs < 2 ^ (Nat.log2 q.num.natAbs + 1) := Nat.lt_log2_self
  have hb1 : 2 ^ Nat.log2 q.den ≤ q.den := Nat.log2_self_le hden
  have hb2 : q.den < 2 ^ (Nat.log2 q.den + 1) := Nat.lt_log2_self
  have habs : |q| = (q.num.natAbs : ℚ) / (q.den : ℚ) := by
    rw [Rat.abs_def, Rat.divInt_eq_div]
    simp [Nat.cast_natAbs]
  have hdpos : (0 : ℚ) < q.den := by exact_mod_cast Nat.pos_of_ne_zero hden
  generalize hla : Nat.log2 q.num.natAbs = la at ha1 ha2
  generalize hlb : Nat.log2 q.den = lb at hb1 hb2
  have ha1q : (2 : ℚ) ^ (la : Int) ≤ (q.num.natAbs : ℚ) := by
    rw [zpow_natCast]; exact_mod_cast ha1
  have ha2q : (q.num.natAbs : ℚ) < (2 : ℚ) ^ ((la : Int) + 1) := by
    have : (q.num.natAbs : ℚ) < (2 : ℚ) ^ (la + 1) := by exact_mod_cast ha2
    rwa [← zpow_natCast, Nat.cast_add, Nat.cast_one] at this
  have hb1q : (2 : ℚ) ^ (lb : Int) ≤ (q.den : ℚ) := by
    rw [zpow_natCast]; exact_mod_cast hb1
  have hb2q : (q.den : ℚ) < (2 : ℚ) ^ ((lb : Int) + 1) := by
    have : (q.den : ℚ) < (2 : ℚ) ^ (lb + 1) := by exact_mod_cast hb2
    rwa [← zpow_natCast, Nat.cast_add, Nat.cast_one] at this
  have hlow : (2 : ℚ) ^ ((la : Int) - lb - 1) < |q| := by
    rw [habs, lt_div_iff₀ hdpos]
    calc (2 : ℚ) ^ ((la : Int) - lb - 1) * q.den
        < (2 : ℚ) ^ ((la : Int) - lb - 1) * (2 : ℚ) ^ ((lb : Int) + 1) :=
          mul_lt_mul_of_pos_left hb2q (by positivity)
      _ = (2 : ℚ) ^ (la : Int) := by
          rw [← zpow_add₀ (by norm_num : (2 : ℚ) ≠ 0)]
          congr 1
          ring
      _ ≤ q.num.natAbs := ha1q
  have hhigh : |q| < (2 : ℚ) ^ ((la : Int) - lb + 1) := by
    rw [habs, div_lt_iff₀ hdpos]
    calc (q.num.natAbs : ℚ) < (2 : ℚ) ^ ((la : Int) + 1) := ha2q
      _ = (2 : ℚ) ^ ((la : Int) - lb + 1) * (2 : ℚ) ^ (lb : Int) := by
          rw [← zpow_add₀ (by norm_num : (2 : ℚ) ≠ 0)]
          congr 1
          ring
      _ ≤ (2 : ℚ) ^ ((la : Int) - lb + 1) * q.den :=
          mul_le_mul_of_nonneg_left hb1q (by positivity)
  unfold binaryExponent
  simp only [bitLog2_eq, hla, hlb, pow2_eq_zpow]
  by_cases hlt : |q| < (2 : ℚ) ^ ((la : Int) - lb)
  · rw [if_pos hlt]
    refine ⟨le_of_lt hlow, ?_⟩
    rw [sub_add_cancel]
    exact hlt
  · rw [if_neg hlt]
    exact ⟨not_lt.mp hlt, hhigh⟩

/-- A multiple of `2 ^ (-k)` with fewer than 54 significant bits is a binary64
value: rounding returns it unchanged. -/
theorem roundDouble_of_onGrid (k : Nat) (hk : k ≤ 1074) (x : ℚ) (hx : OnGrid k x)
    (hb : |x| * 2 ^ k < 2 ^ 53) : roundDouble x = x := by
  obtain ⟨n, rfl⟩ := hx
  unfold roundDouble
  by_cases h0 : (n : ℚ) / 2 ^ k = 0
  · rw [if_pos h0, h0]
  · rw [if_neg h0]
    obtain ⟨hE1, _⟩ := binaryExponent_spec _ h0
    generalize binaryExponent ((n : ℚ) / 2 ^ k) = E at hE1
    have hElt : E < 53 - (k : Int) := by
      by_contra hcon
      push_neg at hcon
      have h1 : (2 : ℚ) ^ (53 - (k : Int)) ≤ |(n : ℚ) / 2 ^ k| :=
        le_trans (zpow_le_zpow_right₀ (by norm_num) hcon) hE1
      have h2 : (2 : ℚ) ^ (53 - (k : Int)) * 2 ^ k = 2 ^ 53 := by
        rw [← zpow_natCast (2 : ℚ) k, ← zpow_add₀ (by norm_num : (2 : ℚ) ≠ 0)]
        have : (53 - (k : Int) + k) = ((53 : Nat) : Int) := by push_cast; ring
        rw [this, zpow_natCast]
      have h3 : (2 : ℚ) ^ (53 - (k : Int)) * 2 ^ k ≤ |(n : ℚ) / 2 ^ k| * 2 ^ k :=
        mul_le_mul_of_nonneg_right h1 (by positivity)
      linarith
    have hle : max (E - 52) (-1074) ≤ -(k : Int) := by
      apply max_le <;> omega
    generalize max (E - 52) (-1074) = e at hle
    obtain ⟨j, hj⟩ := Int.eq_ofNat_of_zero_le (show 0 ≤ -(k : Int) - e by omega)
    have hdiv : (n : ℚ) / 2 ^ k / pow2 e = ((n * 2 ^ j : Int) : ℚ) := by
      rw [pow2_eq_zpow]
      have he : e = -(k : Int) - j := by omega
      rw [he]
      push_cast
      rw [zpow_sub₀ (by norm_num : (2 : ℚ) ≠ 0), zpow_neg, zpow_natCast, zpow_natCast]
      field_simp
      ring
    simp only []
    rw [hdiv, roundHalfEven_intCast, ← hdiv]
    have hp := pow2_pos e
    field_simp
    ring

theorem fixesGrid_roundDouble (k : Nat) (hk : k ≤ 1074) (B : ℚ) (hB : B * 2 ^ k < 2 ^ 53) :
    FixesGrid roundDouble k B := by
  intro x hx hb
  apply roundDouble_of_onGrid k hk x hx
  calc |x| * 2 ^ k ≤ B * 2 ^ k := mul_le_mul_of_nonneg_right hb (by positivity)
    _ < 2 ^ 53 := hB

theorem onGrid_zero (k : Nat) : OnGrid k 0 := ⟨0, by simp⟩

theorem onGrid_add (k : Nat) (x y : ℚ) (hx : OnGrid k x) (hy : OnGrid k y) :
    OnGrid k (x + y) := by
  obtain ⟨n, rfl⟩ := hx
  obtain ⟨m, rfl⟩ := hy
  exact ⟨n + m, by push_cast; ring⟩

theorem onGrid_neg (k : Nat) (x : ℚ) (hx : OnGrid k x) : OnGrid k (-x) := by
  obtain ⟨n, rfl⟩ := hx
  exact ⟨-n, by push_cast; ring⟩

theorem onGrid_sub (k : Nat) (x y : ℚ) (hx : OnGrid k x) (hy : OnGrid k y) :
    OnGrid k (x - y) := by
  rw [sub_eq_add_neg]
  exact onGrid_add k _ _ hx (onGrid_neg k _ hy)

/-! ### Rounded arithmetic that does not round

When the amounts of a store are multiples of `2 ^ (-k)` and `R` returns the
multiples of magnitude at most `B` unchanged, a handler in arithmetic rounded
by `R` computes what the handler in exact arithmetic computes, as long as
the absolute values of the amounts it adds up stay within `B`. -/

theorem within_mono (k : Nat) (P Q x : ℚ) (h : Within k P x) (hPQ : P ≤ Q) : Within k Q x :=
  ⟨h.1, le_trans h.2 hPQ⟩

theorem within_zero (k : Nat) (P : ℚ) (hP : 0 ≤ P) : Within k P 0 :=
  ⟨onGrid_zero k, by simpa using hP⟩

theorem within_add (k : Nat) (P x a : ℚ) (hx : Within k P x) (ha : OnGrid k a) :
    Within k (P + |a|) (x + a) :=
  ⟨onGrid_add k _ _ hx.1 ha, le_trans (abs_add x a) (add_le_add_right hx.2 _)⟩

theorem within_sub (k : Nat) (P x a : ℚ) (hx : Within k P x) (ha : OnGrid k a) :
    Within k (P + |a|) (x - a) :=
  ⟨onGrid_sub k _ _ hx.1 ha, le_trans (abs_sub x a) (add_le_add_right hx.2 _)⟩

theorem fixesGrid_within (R : ℚ → ℚ) (k : Nat) (B P x : ℚ) (hR : FixesGrid R k B)
    (hx : Within k P x) (hPB : P ≤ B) : R x = x :=
  hR x hx.1 (le_trans hx.2 hPB)

/-- Two folds whose steps agree on the states of an invariant `Inv P` that
the steps keep, the bound `P` growing by the weight of each element, agree as
long as the bound stays within `B`. -/
theorem foldl_transfer {σ α : Type} (f g : σ → α → σ) (Inv : ℚ → σ → Prop) (w : α → ℚ)
    (B : ℚ) (l : List α) (hw : ∀ x ∈ l, 0 ≤ w x)
    (hstep : ∀ P s, ∀ x ∈ l, 0 ≤ P → Inv P s → P + w x ≤ B →
      f s x = g s x ∧ Inv (P + w x) (g s x))
    (P : ℚ) (s : σ) (hP : 0 ≤ P) (hs : Inv P s) (hB : P + (l.map w).sum ≤ B) :
    l.foldl f s = l.foldl g s ∧ Inv (P + (l.map w).sum) (l.foldl g s) := by
  induction l generalizing P s with
  | nil => simpa using hs
  | cons x l ih =>
    have hwx := hw x (List.mem_cons_self _ _)
    have hsum : 0 ≤ (l.map w).sum :=
      List.sum_nonneg (fun y hy => by
        obtain ⟨z, hz, rfl⟩ := List.mem_map.mp hy
        exact hw z (List.mem_cons_of_mem _ hz))
    rw [List.map_cons, List.sum_cons] at hB ⊢
    obtain ⟨h1, h2⟩ := hstep P s x (List.mem_cons_self _ _) hP hs (by linarith)
    obtain ⟨h3, h4⟩ := ih (fun y hy => hw y (List.mem_cons_of_mem _ hy))
      (fun P s y hy => hstep P s y (List.mem_cons_of_mem _ hy)) (P + w x) (g s x)
      (by linarith) h2 (by linarith)
    rw [List.foldl_cons, List.foldl_cons, h1, h3, ← add_assoc]
    exact ⟨rfl, h4⟩

theorem sum_map_nonneg {α : Type} (l : List α) (w : α → ℚ) (hw : ∀ x ∈ l, 0 ≤ w x) :
    0 ≤ (l.map w).sum :=
  List.sum_nonneg (fun y hy => by
    obtain ⟨z, hz, rfl⟩ := List.mem_map.mp hy
    exact hw z hz)

theorem sum_map_filter_le {α : Type} (l : List α) (p : α → Bool) (w : α → ℚ)
    (hw : ∀ x ∈ l, 0 ≤ w x) : ((l.filter p).map w).sum ≤ (l.map w).sum := by
  induction l with
  | nil => simp
  | cons x l ih =>
    have hx := hw x (List.mem_cons_self _ _)
    have ih2 := ih (fun y hy => hw y (List.mem_cons_of_mem _ hy))
    by_cases hp : p x = true
    · rw [List.filter_cons_of_pos hp]
      simp only [List.map_cons, List.sum_cons]
      linarith
    · rw [List.filter_cons_of_neg hp]
      simp only [List.map_cons, List.sum_cons]
      linarith

theorem abs_le_sum_abs (l : List ℚ) (a : ℚ) (ha : a ∈ l) : |a| ≤ (l.map (fun x => |x|)).sum := by
  induction l with
  | nil => cases ha
  | cons x l ih =>
    have hnn : 0 ≤ (l.map (fun x => |x|)).sum :=
      sum_map_nonneg l _ (fun y _ => abs_nonneg y)
    simp only [List.map_cons, List.sum_cons]
    rcases List.mem_cons.mp ha with rfl | h
    · linarith
    · have := ih h
      have := abs_nonneg x
      linarith

theorem expenseMagnitude_nonneg (e : Expense) : 0 ≤ expenseMagnitude e :=
  sum_map_nonneg _ _ (fun s _ => abs_nonneg s.amount)

theorem abs_amount_le_expenseMagnitude (e : Expense) (s : Split) (hs : s ∈ e.splits) :
    |s.amount| ≤ expenseMagnitude e := by
  unfold expenseMagnitude
  have h := abs_le_sum_abs (e.splits.map (fun s => s.amount)) s.amount
    (List.mem_map.mpr ⟨s, hs, rfl⟩)
  rwa [List.map_map] at h

theorem expensesMagnitude_le (st : Store) :
    (st.expenses.map expenseMagnitude).sum ≤ amountsMagnitude st := by
  unfold amountsMagnitude
  have := sum_map_nonneg st.settlements (fun s => |s.amount|) (fun s _ => abs_nonneg s.amount)
  linarith

theorem settlementsMagnitude_le (st : Store) :
    (st.settlements.map (fun s => |s.amount|)).sum ≤ amountsMagnitude st := by
  unfold amountsMagnitude
  have := sum_map_nonneg st.expenses expenseMagnitude (fun e _ => expenseMagnitude_nonneg e)
  linarith

theorem amountsMagnitude_nonneg (st : Store) : 0 ≤ amountsMagnitude st :=
  le_trans (sum_map_nonneg st.expenses expenseMagnitude (fun e _ => expenseMagnitude_nonneg e))
    (expensesMagnitude_le st)

/-! #### getExpensesBetweenUsers -/

theorem pairApplyExpenseRounded_eq (R : ℚ → ℚ) (k : Nat) (B : ℚ) (hR : FixesGrid R k B)
    (meId userId : UserId) (P b : ℚ) (e : Expense) (hg : ∀ s ∈ e.splits, OnGrid k s.amount)
    (hb : Within k P b) (hB : P + expenseMagnitude e ≤ B) :
    pairApplyExpenseRounded R meId userId b e = pairApplyExpense meId userId b e
      ∧ Within k (P + expenseMagnitude e) (pairApplyExpense meId userId b e) := by
  have hkeep : Within k (P + expenseMagnitude e) b :=
    within_mono k _ _ _ hb (by have := expenseMagnitude_nonneg e; linarith)
  unfold pairApplyExpenseRounded pairApplyExpense
  by_cases hp : e.paidByUserId = meId
  · rw [if_pos hp, if_pos hp]
    cases hf : e.splits.find? (fun s => s.userId == userId && !s.paid) with
    | none => exact ⟨rfl, hkeep⟩
    | some split =>
      have hmem := List.mem_of_find?_eq_some hf
      have hw := within_mono k _ _ _ (within_add k P b split.amount hb (hg split hmem))
        (add_le_add_left (abs_amount_le_expenseMagnitude e split hmem) P)
      exact ⟨fixesGrid_within R k B _ _ hR hw hB, hw⟩
  · rw [if_neg hp, if_neg hp]
    cases hf : e.splits.find? (fun s => s.userId == meId && !s.paid) with
    | none => exact ⟨rfl, hkeep⟩
    | some split =>
      have hmem := List.mem_of_find?_eq_some hf
      have hw := within_mono k _ _ _ (within_sub k P b split.amount hb (hg split hmem))
        (add_le_add_left (abs_amount_le_expenseMagnitude e split hmem) P)
      exact ⟨fixesGrid_within R k B _ _ hR hw hB, hw⟩

theorem pairApplySettlementRounded_eq (R : ℚ → ℚ) (k : Nat) (B : ℚ) (hR : FixesGrid R k B)
    (meId : UserId) (P b : ℚ) (s : Settlement) (hg : OnGrid k s.amount)
    (hb : Within k P b) (hB : P + |s.amount| ≤ B) :
    pairApplySettlementRounded R meId b s = pairApplySettlement meId b s
      ∧ Within k (P + |s.amount|) (pairApplySettlement meId b s) := by
  unfold pairApplySettlementRounded pairApplySettlement
  by_cases hp : s.paidByUserId = meId
  · rw [if_pos hp, if_pos hp]
    have hw := within_add k P b s.amount hb hg
    exact ⟨fixesGrid_within R k B _ _ hR hw hB, hw⟩
  · rw [if_neg hp, if_neg hp]
    have hw := within_sub k P b s.amount hb hg
    exact ⟨fixesGrid_within R k B _ _ hR hw hB, hw⟩

/-- On a store whose sums stay on the grid, `getExpensesBetweenUsers` in
rounded arithmetic returns what it returns in exact arithmetic. -/
theorem getExpensesBetweenUsersRounded_eq (R : ℚ → ℚ) (k : Nat) (B : ℚ) (hR : FixesGrid R k B)
    (identity : Option String) (userId : UserId) (st : Store) (hg : AmountsOnGrid k st)
    (hM : 3 * amountsMagnitude st ≤ B) :
    getExpensesBetweenUsersRounded R identity userId st
      = getExpensesBetweenUsers identity userId st := by
  have hMe := expensesMagnitude_le st
  have hMs := settlementsMagnitude_le st
  have hM0 := amountsMagnitude_nonneg st
  unfold getExpensesBetweenUsersRounded getExpensesBetweenUsers
  cases getCurrentUser identity st with
  | error e => rfl
  | ok me =>
    simp only []
    by_cases hself : me._id = userId
    · rw [if_pos hself, if_pos hself]
    · rw [if_neg hself, if_neg hself]
      generalize hL : sortExpensesByDateDesc
        ((st.expenses.filter (fun e => e.paidByUserId == me._id && e.groupId.isNone)
          ++ st.expenses.filter (fun e => e.paidByUserId == userId && e.groupId.isNone)).filter
            (bothInvolved me._id userId)) = L
      generalize hS : sortSettlementsByDateDesc
        (st.settlements.filter (settlementBetween me._id userId)) = S
      have hLmem : ∀ e ∈ L, e ∈ st.expenses := by
        intro e he
        rw [← hL] at he
        unfold sortExpensesByDateDesc at he
        rw [(List.perm_insertionSort _ _).mem_iff, List.mem_filter, List.mem_append] at he
        rcases he.1 with h | h
        · exact (List.mem_filter.mp h).1
        · exact (List.mem_filter.mp h).1
      have hSmem : ∀ s ∈ S, s ∈ st.settlements := by
        intro s hs
        rw [← hS] at hs
        unfold sortSettlementsByDateDesc at hs
        rw [(List.perm_insertionSort _ _).mem_iff] at hs
        exact (List.mem_filter.mp hs).1
      have hLsum : (L.map expenseMagnitude).sum ≤ 2 * amountsMagnitude st := by
        rw [← hL]
        unfold sortExpensesByDateDesc
        rw [((List.perm_insertionSort _ _).map expenseMagnitude).sum_eq]
        refine le_trans (sum_map_filter_le _ _ _ (fun e _ => expenseMagnitude_nonneg e)) ?_
        rw [List.map_append, List.sum_append]
        have h1 := sum_map_filter_le st.expenses
          (fun e => e.paidByUserId == me._id && e.groupId.isNone) expenseMagnitude
          (fun e _ => expenseMagnitude_nonneg e)
        have h2 := sum_map_filter_le st.expenses
          (fun e => e.paidByUserId == userId && e.groupId.isNone) expenseMagnitude
          (fun e _ => expenseMagnitude_nonneg e)
        linarith
      have hSsum : (S.map (fun s => |s.amount|)).sum ≤ amountsMagnitude st := by
        rw [← hS]
        unfold sortSettlementsByDateDesc
        rw [((List.perm_insertionSort _ _).map (fun s : Settlement => |s.amount|)).sum_eq]
        exact le_trans (sum_map_filter_le _ _ _ (fun s _ => abs_nonneg s.amount)) hMs
      obtain ⟨h1, h2⟩ := foldl_transfer (pairApplyExpenseRounded R me._id userId)
        (pairApplyExpense me._id userId) (Within k) expenseMagnitude B L
        (fun e _ => expenseMagnitude_nonneg e)
        (fun P b e he _ hb hB => pairApplyExpenseRounded_eq R k B hR me._id userId P b e
          (hg.1 e (hLmem e he)) hb hB)
        0 0 le_rfl (within_zero k 0 le_rfl) (by linarith)
      have hL0 := sum_map_nonneg L expenseMagnitude (fun e _ => expenseMagnitude_nonneg e)
      obtain ⟨h3, _⟩ := foldl_transfer (pairApplySettlementRounded R me._id)
        (pairApplySettlement me._id) (Within k) (fun s => |s.amount|) B S
        (fun s _ => abs_nonneg s.amount)
        (fun P b s hs _ hb hB => pairApplySettlementRounded_eq R k B hR me._id P b s
          (hg.2 s (hSmem s hs)) hb hB)
        (0 + (L.map expenseMagnitude).sum) _ (by linarith) h2 (by linarith)
      rw [h1, h3]

/-! #### getTotalSpent and getMonthlySpending -/

theorem totalSpentApplyRounded_eq (R : ℚ → ℚ) (k : Nat) (B : ℚ) (hR : FixesGrid R k B)
    (userId : UserId) (P b : ℚ) (e : Expense) (hg : ∀ s ∈ e.splits, OnGrid k s.amount)
    (hb : Within k P b) (hB : P + expenseMagnitude e ≤ B) :
    totalSpentApplyRounded R userId b e = totalSpentApply userId b e
      ∧ Within k (P + expenseMagnitude e) (totalSpentApply userId b e) := by
  unfold totalSpentApplyRounded totalSpentApply
  cases hf : e.splits.find? (fun split => split.userId == userId) with
  | none =>
    exact ⟨rfl, within_mono k _ _ _ hb (by have := expenseMagnitude_nonneg e; linarith)⟩
  | some split =>
    have hmem := List.mem_of_find?_eq_some hf
    have hw := within_mono k _ _ _ (within_add k P b split.amount hb (hg split hmem))
      (add_le_add_left (abs_amount_le_expenseMagnitude e split hmem) P)
    exact ⟨fixesGrid_within R k B _ _ hR hw hB, hw⟩

theorem userExpenses_magnitude_le (start : ℚ) (userId : UserId) (st : Store) :
    ((((expensesByDateFrom start st).filter (isUserExpense userId))).map expenseMagnitude).sum
      ≤ amountsMagnitude st := by
  refine le_trans (sum_map_filter_le _ _ _ (fun e _ => expenseMagnitude_nonneg e)) ?_
  unfold expensesByDateFrom
  rw [((List.perm_insertionSort _ _).map expenseMagnitude).sum_eq]
  exact le_trans (sum_map_filter_le _ _ _ (fun e _ => expenseMagnitude_nonneg e))
    (expensesMagnitude_le st)

theorem userExpenses_mem (start : ℚ) (userId : UserId) (st : Store) (e : Expense)
    (he : e ∈ (expensesByDateFrom start st).filter (isUserExpense userId)) : e ∈ st.expenses := by
  unfold expensesByDateFrom at he
  rw [List.mem_filter, (List.perm_insertionSort _ _).mem_iff] at he
  exact (List.mem_filter.mp he.1).1

/-- On a store whose sums stay on the grid, `getTotalSpent` in rounded
arithmetic returns what it returns in exact arithmetic. -/
theorem getTotalSpentRounded_eq (R : ℚ → ℚ) (k : Nat) (B : ℚ) (hR : FixesGrid R k B)
    (identity : Option String) (now : Int) (st : Store) (hg : AmountsOnGrid k st)
    (hM : amountsMagnitude st ≤ B) :
    getTotalSpentRounded R identity now st = getTotalSpent identity now st := by
  unfold getTotalSpentRounded getTotalSpent
  cases getCurrentUser identity st with
  | error e => rfl
  | ok user =>
    simp only []
    have hsum := userExpenses_magnitude_le ((newDate (getFullYear now) 0 : Int) : ℚ) user._id st
    obtain ⟨h1, _⟩ := foldl_transfer (totalSpentApplyRounded R user._id)
      (totalSpentApply user._id) (Within k) expenseMagnitude B _
      (fun e _ => expenseMagnitude_nonneg e)
      (fun P b e he _ hb hB => totalSpentApplyRounded_eq R k B hR user._id P b e
        (hg.1 e (userExpenses_mem _ _ _ e he)) hb hB)
      0 0 le_rfl (within_zero k 0 le_rfl) (by linarith)
    rw [h1]

theorem mem_of_objGet {κ ν : Type} [DecidableEq κ] (m : List (κ × ν)) (k : κ) (v : ν)
    (h : objGet m k = some v) : (k, v) ∈ m := by
  induction m with
  | nil => simp [objGet] at h
  | cons p m ih =>
    obtain ⟨k0, v0⟩ := p
    by_cases h0 : k0 = k
    · simp only [objGet, if_pos h0, Option.some.injEq] at h
      rw [h0, h]
      exact List.mem_cons_self _ _
    · simp only [objGet, if_neg h0] at h
      exact List.mem_cons_of_mem _ (ih h)

/-- A property of the values of an object that the new value has holds of all
values after the assignment. -/
theorem forall_values_objUpdate {κ ν : Type} [DecidableEq κ] (Q : ν → Prop) (m : List (κ × ν))
    (k : κ) (f : Option ν → ν) (hm : ∀ p ∈ m, Q p.2) (hf : Q (f (objGet m k))) :
    ∀ p ∈ objUpdate m k f, Q p.2 := by
  induction m with
  | nil =>
    intro p hp
    simp only [objUpdate, List.mem_singleton] at hp
    rw [hp]
    exact hf
  | cons q m ih =>
    obtain ⟨k0, v0⟩ := q
    intro p hp
    by_cases h0 : k0 = k
    · simp only [objUpdate, if_pos h0, List.mem_cons] at hp
      simp only [objGet, if_pos h0] at hf
      rcases hp with rfl | hp
      · exact hf
      · exact hm p (List.mem_cons_of_mem _ hp)
    · simp only [objUpdate, if_neg h0, List.mem_cons] at hp
      simp only [objGet, if_neg h0] at hf
      rcases hp with rfl | hp
      · exact hm _ (List.mem_cons_self _ _)
      · exact ih (fun p hp => hm p (List.mem_cons_of_mem _ hp)) hf p hp

theorem foldl_congr_mem {σ α : Type} (f g : σ → α → σ) (l : List α)
    (h : ∀ s, ∀ x ∈ l, f s x = g s x) (s : σ) : l.foldl f s = l.foldl g s := by
  induction l generalizing s with
  | nil => rfl
  | cons x l ih =>
    rw [List.foldl_cons, List.foldl_cons, h s x (List.mem_cons_self _ _)]
    exact ih (fun s y hy => h s y (List.mem_cons_of_mem _ hy)) _

/-! #### getMonthlySpending -/

theorem monthlyApplyExpenseRounded_eq (R : ℚ → ℚ) (k : Nat) (B : ℚ) (hR : FixesGrid R k B)
    (userId : UserId) (P : ℚ) (m : List (Int × ℚ)) (e : Expense)
    (hg : ∀ s ∈ e.splits, OnGrid k s.amount)
    (hm : ∀ p ∈ m, Within k P p.2) (hP : 0 ≤ P) (hB : P + expenseMagnitude e ≤ B) :
    monthlyApplyExpenseRounded R userId m e = monthlyApplyExpense userId m e
      ∧ ∀ p ∈ monthlyApplyExpense userId m e, Within k (P + expenseMagnitude e) p.2 := by
  have hle : P ≤ P + expenseMagnitude e := by have := expenseMagnitude_nonneg e; linarith
  unfold monthlyApplyExpenseRounded monthlyApplyExpense
  simp only []
  cases hf : e.splits.find? (fun split => split.userId == userId) with
  | none => exact ⟨rfl, fun p hp => within_mono k _ _ _ (hm p hp) hle⟩
  | some split =>
    simp only []
    have hmem := List.mem_of_find?_eq_some hf
    generalize newDate (getFullYear (timeClip e.date)) (getMonth (timeClip e.date)) = key
    have hold : Within k P ((objGet m key).getD 0) := by
      cases hget : objGet m key with
      | none => exact within_zero k P hP
      | some v => exact hm _ (mem_of_objGet m key v hget)
    have hw := within_mono k _ _ _ (within_add k P _ split.amount hold (hg split hmem))
      (add_le_add_left (abs_amount_le_expenseMagnitude e split hmem) P)
    refine ⟨objUpdate_congr m key _ _ (fixesGrid_within R k B _ _ hR hw hB), ?_⟩
    exact forall_values_objUpdate (fun v => Within k (P + expenseMagnitude e) v) m key _
      (fun p hp => within_mono k _ _ _ (hm p hp) hle) hw

theorem initMonthlyTotals_values (y : Int) : ∀ p ∈ initMonthlyTotals y, p.2 = 0 := by
  unfold initMonthlyTotals
  apply foldl_preserve _ (fun m : List (Int × ℚ) => ∀ p ∈ m, p.2 = 0)
  · intro m i hm
    exact forall_values_objUpdate (fun v => v = 0) m _ _ hm rfl
  · intro p hp
    cases hp

/-- On a store whose sums stay on the grid, `getMonthlySpending` in rounded
arithmetic returns what it returns in exact arithmetic. -/
theorem getMonthlySpendingRounded_eq (R : ℚ → ℚ) (k : Nat) (B : ℚ) (hR : FixesGrid R k B)
    (identity : Option String) (now : Int) (st : Store) (hg : AmountsOnGrid k st)
    (hM : amountsMagnitude st ≤ B) :
    getMonthlySpendingRounded R identity now st = getMonthlySpending identity now st := by
  unfold getMonthlySpendingRounded getMonthlySpending
  cases getCurrentUser identity st with
  | error e => rfl
  | ok user =>
    simp only []
    have hsum := userExpenses_magnitude_le ((newDate (getFullYear now) 0 : Int) : ℚ) user._id st
    obtain ⟨h1, _⟩ := foldl_transfer (monthlyApplyExpenseRounded R user._id)
      (monthlyApplyExpense user._id) (fun P m => ∀ p ∈ m, Within k P p.2) expenseMagnitude B _
      (fun e _ => expenseMagnitude_nonneg e)
      (fun P m e he hP hm hB => monthlyApplyExpenseRounded_eq R k B hR user._id P m e
        (hg.1 e (userExpenses_mem _ _ _ e he)) hm hP hB)
      0 (initMonthlyTotals (getFullYear now)) le_rfl
      (fun p hp => by rw [initMonthlyTotals_values _ p hp]; exact within_zero k 0 le_rfl)
      (by linarith)
    rw [h1]

/-! #### getUserBalances -/

theorem balancesApplyPayerSplitRounded_eq (R : ℚ → ℚ) (k : Nat) (B : ℚ) (hR : FixesGrid R k B)
    (userId : UserId) (P : ℚ) (vars : BalanceVars) (s : Split) (hg : OnGrid k s.amount)
    (hv : Within k P vars.youOwe ∧ Within k P vars.youAreOwed
      ∧ ∀ p ∈ vars.balanceByUser, Within k P p.2.owed ∧ Within k P p.2.owing)
    (hP : 0 ≤ P) (hB : P + |s.amount| ≤ B) :
    balancesApplyPayerSplitRounded R userId vars s = balancesApplyPayerSplit userId vars s
      ∧ (Within k (P + |s.amount|) (balancesApplyPayerSplit userId vars s).youOwe
        ∧ Within k (P + |s.amount|) (balancesApplyPayerSplit userId vars s).youAreOwed
        ∧ ∀ p ∈ (balancesApplyPayerSplit userId vars s).balanceByUser,
            Within k (P + |s.amount|) p.2.owed ∧ Within k (P + |s.amount|) p.2.owing) := by
  have hle : P ≤ P + |s.amount| := by have := abs_nonneg s.amount; linarith
  have hkeep : ∀ p ∈ vars.balanceByUser,
      Within k (P + |s.amount|) p.2.owed ∧ Within k (P + |s.amount|) p.2.owing :=
    fun p hp => ⟨within_mono k _ _ _ (hv.2.2 p hp).1 hle, within_mono k _ _ _ (hv.2.2 p hp).2 hle⟩
  unfold balancesApplyPayerSplitRounded balancesApplyPayerSplit
  by_cases hc : s.userId = userId ∨ s.paid = true
  · rw [if_pos hc, if_pos hc]
    exact ⟨rfl, within_mono k _ _ _ hv.1 hle, within_mono k _ _ _ hv.2.1 hle, hkeep⟩
  · rw [if_neg hc, if_neg hc]
    have hold : Within k P ((objGet vars.balanceByUser s.userId).getD
        { owed := 0, owing := 0 }).owed
        ∧ Within k P ((objGet vars.balanceByUser s.userId).getD
          { owed := 0, owing := 0 }).owing := by
      cases hget : objGet vars.balanceByUser s.userId with
      | none => exact ⟨within_zero k P hP, within_zero k P hP⟩
      | some v => exact hv.2.2 _ (mem_of_objGet _ _ v hget)
    have hw1 := within_add k P _ s.amount hv.2.1 hg
    have hw2 := within_add k P _ s.amount hold.1 hg
    have hmap : addOwedRounded R vars.balanceByUser s.userId s.amount
        = addOwed vars.balanceByUser s.userId s.amount := by
      unfold addOwedRounded addOwed
      apply objUpdate_congr
      simp only []
      rw [fixesGrid_within R k B _ _ hR hw2 hB]
    rw [hmap, fixesGrid_within R k B _ _ hR hw1 hB]
    refine ⟨rfl, within_mono k _ _ _ hv.1 hle, hw1, ?_⟩
    unfold addOwed
    exact forall_values_objUpdate
      (fun v : OwedOwing => Within k (P + |s.amount|) v.owed ∧ Within k (P + |s.amount|) v.owing)
      _ _ _ hkeep ⟨hw2, within_mono k _ _ _ hold.2 hle⟩

theorem expenseMagnitude_eq (e : Expense) :
    expenseMagnitude e = (e.splits.map (fun s => |s.amount|)).sum := rfl

theorem balancesApplyExpenseRounded_eq (R : ℚ → ℚ) (k : Nat) (B : ℚ) (hR : FixesGrid R k B)
    (userId : UserId) (P : ℚ) (vars : BalanceVars) (e : Expense)
    (hg : ∀ s ∈ e.splits, OnGrid k s.amount)
    (hv : Within k P vars.youOwe ∧ Within k P vars.youAreOwed
      ∧ ∀ p ∈ vars.balanceByUser, Within k P p.2.owed ∧ Within k P p.2.owing)
    (hP : 0 ≤ P) (hB : P + expenseMagnitude e ≤ B) :
    balancesApplyExpenseRounded R userId vars e = balancesApplyExpense userId vars e
      ∧ (Within k (P + expenseMagnitude e) (balancesApplyExpense userId vars e).youOwe
        ∧ Within k (P + expenseMagnitude e) (balancesApplyExpense userId vars e).youAreOwed
        ∧ ∀ p ∈ (balancesApplyExpense userId vars e).balanceByUser,
            Within k (P + expenseMagnitude e) p.2.owed
              ∧ Within k (P + expenseMagnitude e) p.2.owing) := by
  have hle : P ≤ P + expenseMagnitude e := by have := expenseMagnitude_nonneg e; linarith
  have hkeep : ∀ p ∈ vars.balanceByUser,
      Within k (P + expenseMagnitude e) p.2.owed ∧ Within k (P + expenseMagnitude e) p.2.owing :=
    fun p hp => ⟨within_mono k _ _ _ (hv.2.2 p hp).1 hle, within_mono k _ _ _ (hv.2.2 p hp).2 hle⟩
  have hsame : Within k (P + expenseMagnitude e) vars.youOwe
      ∧ Within k (P + expenseMagnitude e) vars.youAreOwed
      ∧ ∀ p ∈ vars.balanceByUser,
          Within k (P + expenseMagnitude e) p.2.owed
            ∧ Within k (P + expenseMagnitude e) p.2.owing :=
    ⟨within_mono k _ _ _ hv.1 hle, within_mono k _ _ _ hv.2.1 hle, hkeep⟩
  unfold balancesApplyExpenseRounded balancesApplyExpense
  simp only []
  by_cases hp : e.paidByUserId = userId
  · rw [if_pos hp, if_pos hp]
    exact foldl_transfer (balancesApplyPayerSplitRounded R userId)
      (balancesApplyPayerSplit userId)
      (fun P (v : BalanceVars) => Within k P v.youOwe ∧ Within k P v.youAreOwed
        ∧ ∀ p ∈ v.balanceByUser, Within k P p.2.owed ∧ Within k P p.2.owing)
      (fun s => |s.amount|) B e.splits (fun s _ => abs_nonneg s.amount)
      (fun P v s hs hP hv hB =>
        balancesApplyPayerSplitRounded_eq R k B hR userId P v s (hg s hs) hv hP hB)
      P vars hP hv hB
  · rw [if_neg hp, if_neg hp]
    cases hf : e.splits.find? (fun s => s.userId == userId) with
    | none => exact ⟨rfl, hsame⟩
    | some split =>
      simp only []
      by_cases hpaid : split.paid = true
      · rw [if_pos hpaid, if_pos hpaid]
        exact ⟨rfl, hsame⟩
      · rw [if_neg hpaid, if_neg hpaid]
        have hmem := List.mem_of_find?_eq_some hf
        have hamt := add_le_add_left (abs_amount_le_expenseMagnitude e split hmem) P
        have hold : Within k P ((objGet vars.balanceByUser e.paidByUserId).getD
            { owed := 0, owing := 0 }).owed
            ∧ Within k P ((objGet vars.balanceByUser e.paidByUserId).getD
              { owed := 0, owing := 0 }).owing := by
          cases hget : objGet vars.balanceByUser e.paidByUserId with
          | none => exact ⟨within_zero k P hP, within_zero k P hP⟩
          | some v => exact hv.2.2 _ (mem_of_objGet _ _ v hget)
        have hw1 := within_mono k _ _ _ (within_add k P _ split.amount hv.1 (hg split hmem)) hamt
        have hw2 := within_mono k _ _ _ (within_add k P _ split.amount hold.2 (hg split hmem)) hamt
        have hmap : addOwingRounded R vars.balanceByUser e.paidByUserId split.amount
            = addOwing vars.balanceByUser e.paidByUserId split.amount := by
          unfold addOwingRounded addOwing
          apply objUpdate_congr
          simp only []
          rw [fixesGrid_within R k B _ _ hR hw2 hB]
        rw [hmap, fixesGrid_within R k B _ _ hR hw1 hB]
        refine ⟨rfl, hw1, within_mono k _ _ _ hv.2.1 hle, ?_⟩
        unfold addOwing
        exact forall_values_objUpdate
          (fun v : OwedOwing => Within k (P + expenseMagnitude e) v.owed
            ∧ Within k (P + expenseMagnitude e) v.owing)
          _ _ _ hkeep ⟨within_mono k _ _ _ hold.1 hle, hw2⟩

theorem balancesApplySettlementRounded_eq (R : ℚ → ℚ) (k : Nat) (B : ℚ) (hR : FixesGrid R k B)
    (userId : UserId) (P : ℚ) (vars : BalanceVars) (s : Settlement) (hg : OnGrid k s.amount)
    (hv : Within k P vars.youOwe ∧ Within k P vars.youAreOwed
      ∧ ∀ p ∈ vars.balanceByUser, Within k P p.2.owed ∧ Within k P p.2.owing)
    (hP : 0 ≤ P) (hB : P + |s.amount| ≤ B) :
    balancesApplySettlementRounded R userId vars s = balancesApplySettlement userId vars s
      ∧ (Within k (P + |s.amount|) (balancesApplySettlement userId vars s).youOwe
        ∧ Within k (P + |s.amount|) (balancesApplySettlement userId vars s).youAreOwed
        ∧ ∀ p ∈ (balancesApplySettlement userId vars s).balanceByUser,
            Within k (P + |s.amount|) p.2.owed ∧ Within k (P + |s.amount|) p.2.owing) := by
  have hle : P ≤ P + |s.amount| := by have := abs_nonneg s.amount; linarith
  have hkeep : ∀ p ∈ vars.balanceByUser,
      Within k (P + |s.amount|) p.2.owed ∧ Within k (P + |s.amount|) p.2.owing :=
    fun p hp => ⟨within_mono k _ _ _ (hv.2.2 p hp).1 hle, within_mono k _ _ _ (hv.2.2 p hp).2 hle⟩
  have hold : ∀ c, Within k P ((objGet vars.balanceByUser c).getD { owed := 0, owing := 0 }).owed
      ∧ Within k P ((objGet vars.balanceByUser c).getD { owed := 0, owing := 0 }).owing := by
    intro c
    cases hget : objGet vars.balanceByUser c with
    | none => exact ⟨within_zero k P hP, within_zero k P hP⟩
    | some v => exact hv.2.2 _ (mem_of_objGet _ _ v hget)
  unfold balancesApplySettlementRounded balancesApplySettlement
  by_cases hp : s.paidByUserId = userId
  · rw [if_pos hp, if_pos hp]
    have hw1 := within_sub k P _ s.amount hv.1 hg
    have hw2 := within_sub k P _ s.amount (hold s.receivedByUserId).2 hg
    have hmap : subOwingRounded R vars.balanceByUser s.receivedByUserId s.amount
        = addOwing vars.balanceByUser s.receivedByUserId (-s.amount) := by
      unfold subOwingRounded addOwing
      apply objUpdate_congr
      simp only []
      rw [fixesGrid_within R k B _ _ hR hw2 hB, sub_eq_add_neg]
    rw [hmap, fixesGrid_within R k B _ _ hR hw1 hB]
    refine ⟨rfl, hw1, within_mono k _ _ _ hv.2.1 hle, ?_⟩
    unfold addOwing
    refine forall_values_objUpdate
      (fun v : OwedOwing => Within k (P + |s.amount|) v.owed ∧ Within k (P + |s.amount|) v.owing)
      _ _ _ hkeep ⟨within_mono k _ _ _ (hold s.receivedByUserId).1 hle, ?_⟩
    simp only []
    rw [← sub_eq_add_neg]
    exact hw2
  · rw [if_neg hp, if_neg hp]
    have hw1 := within_sub k P _ s.amount hv.2.1 hg
    have hw2 := within_sub k P _ s.amount (hold s.paidByUserId).1 hg
    have hmap : subOwedRounded R vars.balanceByUser s.paidByUserId s.amount
        = addOwed vars.balanceByUser s.paidByUserId (-s.amount) := by
      unfold subOwedRounded addOwed
      apply objUpdate_congr
      simp only []
      rw [fixesGrid_within R k B _ _ hR hw2 hB, sub_eq_add_neg]
    rw [hmap, fixesGrid_within R k B _ _ hR hw1 hB]
    refine ⟨rfl, within_mono k _ _ _ hv.1 hle, hw1, ?_⟩
    unfold addOwed
    refine forall_values_objUpdate
      (fun v : OwedOwing => Within k (P + |s.amount|) v.owed ∧ Within k (P + |s.amount|) v.owing)
      _ _ _ hkeep ⟨?_, within_mono k _ _ _ (hold s.paidByUserId).2 hle⟩
    simp only []
    rw [← sub_eq_add_neg]
    exact hw2

/-- On a store whose sums stay on the grid, the two loops of `getUserBalances`
compute in rounded arithmetic what they compute in exact arithmetic, and
every number they compute is on the grid and within the magnitude of the
store. -/
theorem balanceLoopsRounded_eq (R : ℚ → ℚ) (k : Nat) (B : ℚ) (hR : FixesGrid R k B)
    (userId : UserId) (st : Store) (hg : AmountsOnGrid k st) (hM : amountsMagnitude st ≤ B) :
    balanceLoopsRounded R userId st = balanceLoops userId st
      ∧ Within k (amountsMagnitude st) (balanceLoops userId st).youOwe
      ∧ Within k (amountsMagnitude st) (balanceLoops userId st).youAreOwed
      ∧ ∀ p ∈ (balanceLoops userId st).balanceByUser,
          Within k (amountsMagnitude st) p.2.owed ∧ Within k (amountsMagnitude st) p.2.owing := by
  unfold balanceLoopsRounded balanceLoops
  simp only []
  generalize hE : st.expenses.filter (fun e =>
    e.groupId.isNone &&
      (e.paidByUserId == userId || e.splits.any (fun s => s.userId == userId))) = E
  generalize hS : st.settlements.filter (fun s =>
    s.groupId.isNone && (s.paidByUserId == userId || s.receivedByUserId == userId)) = S
  have hEsum : (E.map expenseMagnitude).sum ≤ (st.expenses.map expenseMagnitude).sum := by
    rw [← hE]
    exact sum_map_filter_le _ _ _ (fun e _ => expenseMagnitude_nonneg e)
  have hSsum : (S.map (fun s => |s.amount|)).sum
      ≤ (st.settlements.map (fun s => |s.amount|)).sum := by
    rw [← hS]
    exact sum_map_filter_le _ _ _ (fun s _ => abs_nonneg s.amount)
  have hE0 := sum_map_nonneg E expenseMagnitude (fun e _ => expenseMagnitude_nonneg e)
  have hS0 := sum_map_nonneg S (fun s => |s.amount|) (fun s _ => abs_nonneg s.amount)
  have htot : amountsMagnitude st
      = (st.expenses.map expenseMagnitude).sum + (st.settlements.map (fun s => |s.amount|)).sum :=
    rfl
  obtain ⟨h1, h2⟩ := foldl_transfer (balancesApplyExpenseRounded R userId)
    (balancesApplyExpense userId)
    (fun P (v : BalanceVars) => Within k P v.youOwe ∧ Within k P v.youAreOwed
      ∧ ∀ p ∈ v.balanceByUser, Within k P p.2.owed ∧ Within k P p.2.owing)
    expenseMagnitude B E (fun e _ => expenseMagnitude_nonneg e)
    (fun P v e he hP hv hB => balancesApplyExpenseRounded_eq R k B hR userId P v e
      (hg.1 e (by rw [← hE] at he; exact (List.mem_filter.mp he).1)) hv hP hB)
    0 { youOwe := 0, youAreOwed := 0, balanceByUser := [] } le_rfl
    ⟨within_zero k 0 le_rfl, within_zero k 0 le_rfl, fun p hp => by cases hp⟩
    (by linarith)
  obtain ⟨h3, h4⟩ := foldl_transfer (balancesApplySettlementRounded R userId)
    (balancesApplySettlement userId)
    (fun P (v : BalanceVars) => Within k P v.youOwe ∧ Within k P v.youAreOwed
      ∧ ∀ p ∈ v.balanceByUser, Within k P p.2.owed ∧ Within k P p.2.owing)
    (fun s => |s.amount|) B S (fun s _ => abs_nonneg s.amount)
    (fun P v s hs hP hv hB => balancesApplySettlementRounded_eq R k B hR userId P v s
      (hg.2 s (by rw [← hS] at hs; exact (List.mem_filter.mp hs).1)) hv hP hB)
    (0 + (E.map expenseMagnitude).sum) _ (by linarith) h2 (by linarith)
  rw [h1, h3]
  have hle : 0 + (E.map expenseMagnitude).sum + (S.map (fun s => |s.amount|)).sum
      ≤ amountsMagnitude st := by linarith
  exact ⟨rfl, within_mono k _ _ _ h4.1 hle, within_mono k _ _ _ h4.2.1 hle,
    fun p hp => ⟨within_mono k _ _ _ (h4.2.2 p hp).1 hle, within_mono k _ _ _ (h4.2.2 p hp).2 hle⟩⟩

theorem within_sub_within (k : Nat) (P x y : ℚ) (hx : Within k P x) (hy : Within k P y) :
    Within k (2 * P) (x - y) :=
  ⟨onGrid_sub k _ _ hx.1 hy.1, by
    have := abs_sub x y
    have := hx.2
    have := hy.2
    linarith⟩

theorem pushOweEntryRounded_eq (R : ℚ → ℚ) (st : Store) (lists : List OweEntry × List OweEntry)
    (entry : UserId × OwedOwing) (h : R (entry.2.owed - entry.2.owing) = entry.2.owed - entry.2.owing) :
    pushOweEntryRounded R st lists entry = pushOweEntry st lists entry := by
  unfold pushOweEntryRounded pushOweEntry
  rw [h]

/-- On a store whose sums stay on the grid, `getUserBalances` in rounded
arithmetic returns what it returns in exact arithmetic. -/
theorem getUserBalancesRounded_eq (R : ℚ → ℚ) (k : Nat) (B : ℚ) (hR : FixesGrid R k B)
    (identity : Option String) (st : Store) (hg : AmountsOnGrid k st)
    (hM : 2 * amountsMagnitude st ≤ B) :
    getUserBalancesRounded R identity st = getUserBalances identity st := by
  have hM0 := amountsMagnitude_nonneg st
  unfold getUserBalancesRounded getUserBalances
  cases getCurrentUser identity st with
  | error e => rfl
  | ok user =>
    simp only []
    obtain ⟨h1, h2, h3, h4⟩ := balanceLoopsRounded_eq R k B hR user._id st hg (by linarith)
    rw [h1]
    have hlists : (balanceLoops user._id st).balanceByUser.foldl (pushOweEntryRounded R st) ([], [])
        = (balanceLoops user._id st).balanceByUser.foldl (pushOweEntry st) ([], []) :=
      foldl_congr_mem _ _ _ (fun s p hp => pushOweEntryRounded_eq R st s p
        (fixesGrid_within R k B _ _ hR (within_sub_within k _ _ _ (h4 p hp).1 (h4 p hp).2) hM)) _
    rw [hlists, fixesGrid_within R k B _ _ hR (within_sub_within k _ _ _ h3 h2) hM]
    rfl

/-! #### getGroupExpenses -/

/-- The numbers in `totals` and in the rows of `ledger` are on the grid and
of magnitude at most `P`. -/
theorem plusAssignRounded_eq (R : ℚ → ℚ) (k : Nat) (B P : ℚ) (hR : FixesGrid R k B)
    (m : List (UserId × Option ℚ)) (key : UserId) (d : ℚ) (hd : OnGrid k d)
    (hm : ∀ p ∈ m, ∀ v, p.2 = some v → Within k P v) (hB : P + |d| ≤ B) :
    plusAssignRounded R m key d = plusAssign m key d
      ∧ ∀ p ∈ plusAssign m key d, ∀ v, p.2 = some v → Within k (P + |d|) v := by
  have hle : P ≤ P + |d| := by have := abs_nonneg d; linarith
  have hval : ∀ v, (objGet m key).join = some v → Within k P v := by
    intro v hv
    cases hget : objGet m key with
    | none => rw [hget] at hv; cases hv
    | some o =>
      rw [hget] at hv
      exact hm _ (mem_of_objGet m key o hget) v hv
  constructor
  · unfold plusAssignRounded plusAssign
    apply objUpdate_congr
    cases hj : (objGet m key).join with
    | none => rfl
    | some v =>
      simp only [Option.map_some']
      rw [fixesGrid_within R k B _ _ hR (within_add k P v d (hval v hj) hd) hB]
  · unfold plusAssign
    apply forall_values_objUpdate (fun o : Option ℚ => ∀ v, o = some v → Within k (P + |d|) v)
    · exact fun p hp v hv => within_mono k _ _ _ (hm p hp v hv) hle
    · intro v hv
      cases hj : (objGet m key).join with
      | none => rw [hj] at hv; cases hv
      | some x =>
        rw [hj] at hv
        simp only [Option.map_some', Option.some.injEq] at hv
        rw [← hv]
        exact within_add k P x d (hval x hj) hd

theorem minusAssignRounded_eq (R : ℚ → ℚ) (k : Nat) (B P : ℚ) (hR : FixesGrid R k B)
    (m : List (UserId × Option ℚ)) (key : UserId) (d : ℚ) (hd : OnGrid k d)
    (hm : ∀ p ∈ m, ∀ v, p.2 = some v → Within k P v) (hB : P + |d| ≤ B) :
    minusAssignRounded R m key d = minusAssign m key d
      ∧ ∀ p ∈ minusAssign m key d, ∀ v, p.2 = some v → Within k (P + |d|) v := by
  have hle : P ≤ P + |d| := by have := abs_nonneg d; linarith
  have hval : ∀ v, (objGet m key).join = some v → Within k P v := by
    intro v hv
    cases hget : objGet m key with
    | none => rw [hget] at hv; cases hv
    | some o =>
      rw [hget] at hv
      exact hm _ (mem_of_objGet m key o hget) v hv
  constructor
  · unfold minusAssignRounded minusAssign
    apply objUpdate_congr
    cases hj : (objGet m key).join with
    | none => rfl
    | some v =>
      simp only [Option.map_some']
      rw [fixesGrid_within R k B _ _ hR (within_sub k P v d (hval v hj) hd) hB]
  · unfold minusAssign
    apply forall_values_objUpdate (fun o : Option ℚ => ∀ v, o = some v → Within k (P + |d|) v)
    · exact fun p hp v hv => within_mono k _ _ _ (hm p hp v hv) hle
    · intro v hv
      cases hj : (objGet m key).join with
      | none => rw [hj] at hv; cases hv
      | some x =>
        rw [hj] at hv
        simp only [Option.map_some', Option.some.injEq] at hv
        rw [← hv]
        exact within_sub k P x d (hval x hj) hd

theorem groupAccWithin_mono (k : Nat) (P Q : ℚ) (acc : Except String (Totals × Ledger))
    (h : GroupAccWithin k P acc) (hPQ : P ≤ Q) : GroupAccWithin k Q acc :=
  fun totals ledger hacc =>
    ⟨fun p hp v hv => within_mono k _ _ _ ((h totals ledger hacc).1 p hp v hv) hPQ,
     fun row hrow c hc v hv => within_mono k _ _ _ ((h totals ledger hacc).2 row hrow c hc v hv) hPQ⟩

/-- One update of the accumulators by the amount `d`: `totals[plus] += d`,
`totals[minus] -= d` and a rounded update of `ledger[rowKey][col]`. -/
theorem groupUpdateRounded_eq (R : ℚ → ℚ) (k : Nat) (B P : ℚ) (hR : FixesGrid R k B)
    (totals : Totals) (ledger : Ledger) (plus minus rowKey : UserId) (d : ℚ)
    (fR f : List (UserId × Option ℚ) → List (UserId × Option ℚ))
    (hf : ∀ row, (∀ c ∈ row, ∀ v, c.2 = some v → Within k P v) →
      fR row = f row ∧ ∀ c ∈ f row, ∀ v, c.2 = some v → Within k (P + 2 * |d|) v)
    (hd : OnGrid k d) (hacc : GroupAccWithin k P (.ok (totals, ledger)))
    (hB : P + 2 * |d| ≤ B) :
    (match objGet ledger rowKey with
      | none => (.error "TypeError: Cannot read properties of undefined" :
          Except String (Totals × Ledger))
      | some row =>
        .ok (minusAssignRounded R (plusAssignRounded R totals plus d) minus d,
          objUpdate ledger rowKey (fun _ => fR row)))
      = (match objGet ledger rowKey with
        | none => .error "TypeError: Cannot read properties of undefined"
        | some row =>
          .ok (minusAssign (plusAssign totals plus d) minus d,
            objUpdate ledger rowKey (fun _ => f row)))
    ∧ GroupAccWithin k (P + 2 * |d|)
        (match objGet ledger rowKey with
        | none => .error "TypeError: Cannot read properties of undefined"
        | some row =>
          .ok (minusAssign (plusAssign totals plus d) minus d,
            objUpdate ledger rowKey (fun _ => f row))) := by
  have hd0 := abs_nonneg d
  obtain ⟨ht, hl⟩ := hacc totals ledger rfl
  obtain ⟨h1, h2⟩ := plusAssignRounded_eq R k B P hR totals plus d hd ht (by linarith)
  obtain ⟨h3, h4⟩ := minusAssignRounded_eq R k B (P + |d|) hR (plusAssign totals plus d) minus d
    hd h2 (by linarith)
  have h4' : ∀ p ∈ minusAssign (plusAssign totals plus d) minus d, ∀ v, p.2 = some v →
      Within k (P + 2 * |d|) v :=
    fun p hp v hv => within_mono k _ _ _ (h4 p hp v hv) (by linarith)
  cases hrow : objGet ledger rowKey with
  | none =>
    refine ⟨rfl, ?_⟩
    intro t l h
    cases h
  | some row =>
    have hrowmem := mem_of_objGet ledger rowKey row hrow
    obtain ⟨h5, h6⟩ := hf row (hl _ hrowmem)
    simp only []
    rw [h1, h3, h5]
    refine ⟨rfl, ?_⟩
    intro t l h
    simp only [Except.ok.injEq, Prod.mk.injEq] at h
    obtain ⟨rfl, rfl⟩ := h
    refine ⟨h4', ?_⟩
    apply forall_values_objUpdate
      (fun r : List (UserId × Option ℚ) => ∀ c ∈ r, ∀ v, c.2 = some v → Within k (P + 2 * |d|) v)
    · exact fun r hr c hc v hv => within_mono k _ _ _ (hl r hr c hc v hv) (by linarith)
    · exact h6

theorem groupApplySplitRounded_eq (R : ℚ → ℚ) (k : Nat) (B P : ℚ) (hR : FixesGrid R k B)
    (payer : UserId) (acc : Except String (Totals × Ledger)) (split : Split)
    (hd : OnGrid k split.amount) (hacc : GroupAccWithin k P acc)
    (hB : P + 2 * |split.amount| ≤ B) :
    groupApplySplitRounded R payer acc split = groupApplySplit payer acc split
      ∧ GroupAccWithin k (P + 2 * |split.amount|) (groupApplySplit payer acc split) := by
  have hd0 := abs_nonneg split.amount
  have hle : P ≤ P + 2 * |split.amount| := by linarith
  unfold groupApplySplitRounded groupApplySplit
  cases acc with
  | error e =>
    refine ⟨rfl, ?_⟩
    intro t l h
    cases h
  | ok tl =>
    obtain ⟨totals, ledger⟩ := tl
    simp only []
    by_cases hc : split.userId = payer ∨ split.paid = true
    · rw [if_pos hc, if_pos hc]
      exact ⟨rfl, groupAccWithin_mono k _ _ _ hacc hle⟩
    · rw [if_neg hc, if_neg hc]
      exact groupUpdateRounded_eq R k B P hR totals ledger payer split.userId split.userId
        split.amount (fun row => plusAssignRounded R row payer split.amount)
        (fun row => plusAssign row payer split.amount)
        (fun row hrow => by
          obtain ⟨h1, h2⟩ := plusAssignRounded_eq R k B P hR row payer split.amount hd hrow
            (by linarith)
          exact ⟨h1, fun c hc v hv => within_mono k _ _ _ (h2 c hc v hv) (by linarith)⟩)
        hd hacc hB

theorem groupApplyExpenseRounded_eq (R : ℚ → ℚ) (k : Nat) (B P : ℚ) (hR : FixesGrid R k B)
    (acc : Except String (Totals × Ledger)) (e : Expense)
    (hg : ∀ s ∈ e.splits, OnGrid k s.amount) (hP : 0 ≤ P) (hacc : GroupAccWithin k P acc)
    (hB : P + 2 * expenseMagnitude e ≤ B) :
    groupApplyExpenseRounded R acc e = groupApplyExpense acc e
      ∧ GroupAccWithin k (P + 2 * expenseMagnitude e) (groupApplyExpense acc e) := by
  unfold groupApplyExpenseRounded groupApplyExpense
  have hsum : (e.splits.map (fun s => 2 * |s.amount|)).sum = 2 * expenseMagnitude e := by
    unfold expenseMagnitude
    generalize e.splits = l
    induction l with
    | nil => simp
    | cons s l ih =>
      simp only [List.map_cons, List.sum_cons, ih]
      ring
  have := foldl_transfer (groupApplySplitRounded R e.paidByUserId)
    (groupApplySplit e.paidByUserId) (GroupAccWithin k) (fun s => 2 * |s.amount|) B e.splits
    (fun s _ => mul_nonneg (by norm_num) (abs_nonneg s.amount))
    (fun P a s hs _ ha hB => groupApplySplitRounded_eq R k B P hR e.paidByUserId a s
      (hg s hs) ha hB)
    P acc hP hacc (by rw [hsum]; exact hB)
  rw [hsum] at this
  exact this

theorem groupApplySettlementRounded_eq (R : ℚ → ℚ) (k : Nat) (B P : ℚ) (hR : FixesGrid R k B)
    (acc : Except String (Totals × Ledger)) (s : Settlement)
    (hd : OnGrid k s.amount) (hacc : GroupAccWithin k P acc)
    (hB : P + 2 * |s.amount| ≤ B) :
    groupApplySettlementRounded R acc s = groupApplySettlement acc s
      ∧ GroupAccWithin k (P + 2 * |s.amount|) (groupApplySettlement acc s) := by
  have hd0 := abs_nonneg s.amount
  unfold groupApplySettlementRounded groupApplySettlement
  cases acc with
  | error e =>
    refine ⟨rfl, ?_⟩
    intro t l h
    cases h
  | ok tl =>
    obtain ⟨totals, ledger⟩ := tl
    simp only []
    exact groupUpdateRounded_eq R k B P hR totals ledger s.paidByUserId s.receivedByUserId
      s.paidByUserId s.amount (fun row => minusAssignRounded R row s.receivedByUserId s.amount)
      (fun row => minusAssign row s.receivedByUserId s.amount)
      (fun row hrow => by
        obtain ⟨h1, h2⟩ := minusAssignRounded_eq R k B P hR row s.receivedByUserId s.amount hd
          hrow (by linarith)
        exact ⟨h1, fun c hc v hv => within_mono k _ _ _ (h2 c hc v hv) (by linarith)⟩)
      hd hacc hB

theorem initTotals_values (ids : List UserId) : ∀ p ∈ initTotals ids, p.2 = some 0 := by
  unfold initTotals
  apply foldl_preserve _ (fun m : Totals => ∀ p ∈ m, p.2 = some 0)
  · intro m i hm
    exact forall_values_objUpdate (fun v => v = some 0) m _ _ hm rfl
  · intro p hp
    cases hp

theorem initRow_values (ids : List UserId) (a : UserId) : ∀ p ∈ initRow ids a, p.2 = some 0 := by
  unfold initRow
  apply foldl_preserve _ (fun m : List (UserId × Option ℚ) => ∀ p ∈ m, p.2 = some 0)
  · intro m i hm
    by_cases h : a ≠ i
    · rw [if_pos h]
      exact forall_values_objUpdate (fun v => v = some 0) m _ _ hm rfl
    · rw [if_neg h]
      exact hm
  · intro p hp
    cases hp

theorem initLedger_values (ids : List UserId) :
    ∀ row ∈ initLedger ids, ∀ c ∈ row.2, c.2 = some 0 := by
  unfold initLedger
  apply foldl_preserve _ (fun m : Ledger => ∀ row ∈ m, ∀ c ∈ row.2, c.2 = some 0)
  · intro m i hm
    exact forall_values_objUpdate (fun r : List (UserId × Option ℚ) => ∀ c ∈ r, c.2 = some 0)
      m _ _ hm (initRow_values ids i)
  · intro p hp
    cases hp

/-- On a store whose sums stay on the grid, the two loops of
`getGroupExpenses` compute in rounded arithmetic what they compute in exact
arithmetic, and every number they compute is on the grid and within twice the
magnitude of the store. -/
theorem groupLoopsRounded_eq (R : ℚ → ℚ) (k : Nat) (B : ℚ) (hR : FixesGrid R k B)
    (ids : List UserId) (groupId : GroupId) (st : Store) (hg : AmountsOnGrid k st)
    (hM : 2 * amountsMagnitude st ≤ B) :
    groupLoopsRounded R ids groupId st
        = (st.settlements.filter (fun s => s.groupId == some groupId)).foldl groupApplySettlement
            ((st.expenses.filter (fun e => e.groupId == some groupId)).foldl groupApplyExpense
              (.ok (initTotals ids, initLedger ids)))
      ∧ GroupAccWithin k (2 * amountsMagnitude st)
          ((st.settlements.filter (fun s => s.groupId == some groupId)).foldl groupApplySettlement
            ((st.expenses.filter (fun e => e.groupId == some groupId)).foldl groupApplyExpense
              (.ok (initTotals ids, initLedger ids)))) := by
  unfold groupLoopsRounded
  simp only []
  generalize hE : st.expenses.filter (fun e => e.groupId == some groupId) = E
  generalize hS : st.settlements.filter (fun s => s.groupId == some groupId) = S
  have hEsum : (E.map expenseMagnitude).sum ≤ (st.expenses.map expenseMagnitude).sum := by
    rw [← hE]
    exact sum_map_filter_le _ _ _ (fun e _ => expenseMagnitude_nonneg e)
  have hSsum : (S.map (fun s => |s.amount|)).sum
      ≤ (st.settlements.map (fun s => |s.amount|)).sum := by
    rw [← hS]
    exact sum_map_filter_le _ _ _ (fun s _ => abs_nonneg s.amount)
  have hE0 := sum_map_nonneg E expenseMagnitude (fun e _ => expenseMagnitude_nonneg e)
  have hS0 := sum_map_nonneg S (fun s => |s.amount|) (fun s _ => abs_nonneg s.amount)
  have htot : amountsMagnitude st
      = (st.expenses.map expenseMagnitude).sum + (st.settlements.map (fun s => |s.amount|)).sum :=
    rfl
  have hE2 : (E.map (fun e => 2 * expenseMagnitude e)).sum = 2 * (E.map expenseMagnitude).sum := by
    clear hE hEsum hE0
    induction E with
    | nil => simp
    | cons e l ih =>
      simp only [List.map_cons, List.sum_cons, ih]
      ring
  have hS2 : (S.map (fun s => 2 * |s.amount|)).sum = 2 * (S.map (fun s => |s.amount|)).sum := by
    clear hS hSsum hS0
    induction S with
    | nil => simp
    | cons e l ih =>
      simp only [List.map_cons, List.sum_cons, ih]
      ring
  have hinit : GroupAccWithin k 0 (.ok (initTotals ids, initLedger ids)) := by
    intro t l h
    simp only [Except.ok.injEq, Prod.mk.injEq] at h
    obtain ⟨rfl, rfl⟩ := h
    constructor
    · intro p hp v hv
      rw [initTotals_values ids p hp] at hv
      cases hv
      exact within_zero k 0 le_rfl
    · intro row hrow c hc v hv
      rw [initLedger_values ids row hrow c hc] at hv
      cases hv
      exact within_zero k 0 le_rfl
  obtain ⟨h1, h2⟩ := foldl_transfer (groupApplyExpenseRounded R) groupApplyExpense
    (GroupAccWithin k) (fun e => 2 * expenseMagnitude e) B E
    (fun e _ => mul_nonneg (by norm_num) (expenseMagnitude_nonneg e))
    (fun P a e he hP ha hB => groupApplyExpenseRounded_eq R k B P hR a e
      (hg.1 e (by rw [← hE] at he; exact (List.mem_filter.mp he).1)) hP ha hB)
    0 _ le_rfl hinit (by rw [hE2]; linarith)
  obtain ⟨h3, h4⟩ := foldl_transfer (groupApplySettlementRounded R) groupApplySettlement
    (GroupAccWithin k) (fun s => 2 * |s.amount|) B S
    (fun s _ => mul_nonneg (by norm_num) (abs_nonneg s.amount))
    (fun P a s hs _ ha hB => groupApplySettlementRounded_eq R k B P hR a s
      (hg.2 s (by rw [← hS] at hs; exact (List.mem_filter.mp hs).1)) ha hB)
    (0 + (E.map (fun e => 2 * expenseMagnitude e)).sum) _ (by rw [hE2]; linarith) h2
    (by rw [hE2, hS2]; linarith)
  rw [h1, h3]
  exact ⟨rfl, groupAccWithin_mono k _ _ _ h4 (by rw [hE2, hS2]; linarith)⟩

theorem ledgerCell_mem (ledger : Ledger) (a b : UserId) (x : ℚ)
    (h : ledgerCell ledger a b = some x) : ∃ row ∈ ledger, ∃ c ∈ row.2, c.2 = some x := by
  unfold ledgerCell at h
  cases hrow : objGet ledger a with
  | none => rw [hrow] at h; cases h
  | some row =>
    rw [hrow, Option.some_bind] at h
    cases hcell : objGet row b with
    | none => rw [hcell] at h; cases h
    | some o =>
      rw [hcell] at h
      exact ⟨(a, row), mem_of_objGet ledger a row hrow, (b, o), mem_of_objGet row b o hcell, h⟩

theorem ledgerWithin_of_groupAccWithin (k : Nat) (P : ℚ) (totals : Totals) (ledger : Ledger)
    (h : GroupAccWithin k P (.ok (totals, ledger))) : LedgerWithin k (2 * P) ledger := by
  intro a b x y hx hy
  obtain ⟨r1, hr1, c1, hc1, hv1⟩ := ledgerCell_mem ledger a b x hx
  obtain ⟨r2, hr2, c2, hc2, hv2⟩ := ledgerCell_mem ledger b a y hy
  have h1 := (h totals ledger rfl).2 r1 hr1 c1 hc1 x hv1
  have h2 := (h totals ledger rfl).2 r2 hr2 c2 hc2 y hv2
  have hP : 0 ≤ P := le_trans (abs_nonneg x) h1.2
  exact ⟨within_mono k _ _ _ h1 (by linarith), within_mono k _ _ _ h2 (by linarith),
    within_sub_within k P x y h1 h2⟩

theorem ledgerCell_netPair_undefined (ledger : Ledger) (a' b' : UserId) (hlt : a' < b')
    (h : ¬ ∃ x y, ledgerCell ledger a' b' = some x ∧ ledgerCell ledger b' a' = some y) :
    ledgerCell (netPair a' ledger b') a' b' = some 0
      ∧ ledgerCell (netPair a' ledger b') b' a' = some 0 := by
  have hne : a' ≠ b' := Nat.ne_of_lt hlt
  have hne' : b' ≠ a' := Ne.symm hne
  unfold netPair
  rw [if_neg (Nat.not_le.mpr hlt)]
  split
  · rename_i x y hx hy
    exact absurd ⟨x, y, hx, hy⟩ h
  · simp only [ledgerCell_setLedgerCell]
    simp [hne, hne']

theorem within_max_zero (k : Nat) (Q d : ℚ) (h : Within k Q d) : Within k Q (max d 0) := by
  rcases le_total d 0 with h0 | h0
  · rw [max_eq_right h0]
    exact within_zero k Q (le_trans (abs_nonneg d) h.2)
  · rw [max_eq_left h0]
    exact h

theorem within_neg (k : Nat) (Q d : ℚ) (h : Within k Q d) : Within k Q (-d) :=
  ⟨onGrid_neg k d h.1, by rw [abs_neg]; exact h.2⟩

/-- The netting of one pair keeps the cells and their differences on the grid
and within the bound. -/
theorem ledgerWithin_netPair (k : Nat) (Q : ℚ) (hQ : 0 ≤ Q) (ledger : Ledger) (a' b' : UserId)
    (h : LedgerWithin k Q ledger) : LedgerWithin k Q (netPair a' ledger b') := by
  by_cases hlt : a' < b'
  · have hpairCells : ∃ d, Within k Q d
        ∧ ledgerCell (netPair a' ledger b') a' b' = some (max d 0)
        ∧ ledgerCell (netPair a' ledger b') b' a' = some (max (-d) 0) := by
      by_cases hdef : ∃ x y, ledgerCell ledger a' b' = some x ∧ ledgerCell ledger b' a' = some y
      · obtain ⟨x, y, hx, hy⟩ := hdef
        exact ⟨x - y, (h a' b' x y hx hy).2.2, ledgerCell_netPair_same ledger a' b' x y hlt hx hy⟩
      · obtain ⟨h1, h2⟩ := ledgerCell_netPair_undefined ledger a' b' hlt hdef
        exact ⟨0, within_zero k Q hQ, by simpa using h1, by simpa using h2⟩
    obtain ⟨d, hd, hc1, hc2⟩ := hpairCells
    have hsub : max d 0 - max (-d) 0 = d := max_sub_max_neg d
    have hsub' : max (-d) 0 - max d 0 = -d := by linarith
    intro a b x y hx hy
    by_cases hp1 : a = a' ∧ b = b'
    · obtain ⟨rfl, rfl⟩ := hp1
      rw [hc1] at hx
      rw [hc2] at hy
      cases hx
      cases hy
      refine ⟨within_max_zero k Q d hd, within_max_zero k Q _ (within_neg k Q d hd), ?_⟩
      rw [hsub]
      exact hd
    · by_cases hp2 : a = b' ∧ b = a'
      · obtain ⟨rfl, rfl⟩ := hp2
        rw [hc2] at hx
        rw [hc1] at hy
        cases hx
        cases hy
        refine ⟨within_max_zero k Q _ (within_neg k Q d hd), within_max_zero k Q d hd, ?_⟩
        rw [hsub']
        exact within_neg k Q d hd
      · rw [ledgerCell_netPair_other ledger a' b' a b hp1 hp2] at hx
        rw [ledgerCell_netPair_other ledger a' b' b a (fun hh => hp2 ⟨hh.2, hh.1⟩)
          (fun hh => hp1 ⟨hh.2, hh.1⟩)] at hy
        exact h a b x y hx hy
  · unfold netPair
    rw [if_pos (Nat.not_lt.mp hlt)]
    exact h

theorem netPairRounded_eq (R : ℚ → ℚ) (k : Nat) (B Q : ℚ) (hR : FixesGrid R k B) (hQB : Q ≤ B)
    (ledger : Ledger) (a b : UserId) (h : LedgerWithin k Q ledger) :
    netPairRounded R a ledger b = netPair a ledger b := by
  unfold netPairRounded netPair
  by_cases hge : a ≥ b
  · rw [if_pos hge, if_pos hge]
  · rw [if_neg hge, if_neg hge]
    cases hx : ledgerCell ledger a b with
    | none => rfl
    | some x =>
      cases hy : ledgerCell ledger b a with
      | none => rfl
      | some y =>
        simp only []
        rw [fixesGrid_within R k B _ _ hR (h a b x y hx hy).2.2 hQB]

theorem foldl_congr_inv {σ α : Type} (f g : σ → α → σ) (I : σ → Prop)
    (hstep : ∀ s x, I s → f s x = g s x ∧ I (g s x)) (l : List α) (s : σ) (hs : I s) :
    l.foldl f s = l.foldl g s ∧ I (l.foldl g s) := by
  induction l generalizing s with
  | nil => exact ⟨rfl, hs⟩
  | cons x l ih =>
    obtain ⟨h1, h2⟩ := hstep s x hs
    rw [List.foldl_cons, List.foldl_cons, h1]
    exact ih _ h2

theorem netLedgerRounded_eq (R : ℚ → ℚ) (k : Nat) (B Q : ℚ) (hR : FixesGrid R k B) (hQ : 0 ≤ Q)
    (hQB : Q ≤ B) (ids : List UserId) (ledger : Ledger) (h : LedgerWithin k Q ledger) :
    netLedgerRounded R ids ledger = netLedger ids ledger := by
  unfold netLedgerRounded netLedger
  exact (foldl_congr_inv _ _ (LedgerWithin k Q)
    (fun s a hs => foldl_congr_inv (netPairRounded R a) (netPair a) (LedgerWithin k Q)
      (fun s b hs => ⟨netPairRounded_eq R k B Q hR hQB s a b hs,
        ledgerWithin_netPair k Q hQ s a b hs⟩) ids s hs) ids ledger h).1

/-- On a store whose sums stay on the grid, `getGroupExpenses` in rounded
arithmetic returns what it returns in exact arithmetic. -/
theorem getGroupExpensesRounded_eq (R : ℚ → ℚ) (k : Nat) (B : ℚ) (hR : FixesGrid R k B)
    (identity : Option String) (groupId : GroupId) (st : Store) (hg : AmountsOnGrid k st)
    (hM : 4 * amountsMagnitude st ≤ B) :
    getGroupExpensesRounded R identity groupId st = getGroupExpenses identity groupId st := by
  have hM0 := amountsMagnitude_nonneg st
  unfold getGroupExpensesRounded getGroupExpenses
  cases getCurrentUser identity st with
  | error e => rfl
  | ok currentUser =>
    simp only []
    cases st.groups.find? (fun g => g._id == groupId) with
    | none => rfl
    | some group =>
      simp only []
      by_cases hm : (!group.members.any (fun m => m.userId == currentUser._id)) = true
      · rw [if_pos hm, if_pos hm]
      · rw [if_neg hm, if_neg hm]
        cases memberDetailsOf st group.members with
        | error e => rfl
        | ok memberDetails =>
          simp only []
          obtain ⟨h1, h2⟩ := groupLoopsRounded_eq R k B hR (memberDetails.map (fun m => m.id))
            groupId st hg (by linarith)
          rw [h1]
          generalize (st.settlements.filter (fun s => s.groupId == some groupId)).foldl
            groupApplySettlement
            ((st.expenses.filter (fun e => e.groupId == some groupId)).foldl groupApplyExpense
              (.ok (initTotals (memberDetails.map (fun m => m.id)),
                initLedger (memberDetails.map (fun m => m.id))))) = acc at h2
          cases acc with
          | error e => rfl
          | ok tl =>
            obtain ⟨totals, ledger⟩ := tl
            simp only []
            rw [netLedgerRounded_eq R k B (2 * (2 * amountsMagnitude st)) hR (by linarith)
              (by linarith) _ ledger (ledgerWithin_of_groupAccWithin k _ totals ledger h2)]

/-! ### Stores whose sums are exact -/

theorem exactAmounts_fixesGrid (k : Nat) (st : Store) (h : ExactAmounts k st) :
    FixesGrid roundDouble k (2 ^ 52 / 2 ^ k) ∧ AmountsOnGrid k st
      ∧ 4 * amountsMagnitude st ≤ 2 ^ 52 / 2 ^ k := by
  obtain ⟨hk, hg, hm⟩ := h
  have hpos : (0 : ℚ) < 2 ^ k := by positivity
  refine ⟨fixesGrid_roundDouble k hk _ ?_, hg, ?_⟩
  · rw [div_mul_cancel₀ _ (ne_of_gt hpos)]; norm_num
  · rw [le_div_iff₀ hpos]
    have : (4 : ℚ) * amountsMagnitude st * 2 ^ k = 4 * (amountsMagnitude st * 2 ^ k) := by ring
    rw [this]
    calc (4 : ℚ) * (amountsMagnitude st * 2 ^ k) ≤ 4 * 2 ^ 50 := by linarith
      _ = 2 ^ 52 := by norm_num

theorem getExpensesBetweenUsersRounded_exact (k : Nat) (identity : Option String)
    (userId : UserId) (st : Store) (h : ExactAmounts k st) :
    getExpensesBetweenUsersRounded roundDouble identity userId st
      = getExpensesBetweenUsers identity userId st := by
  obtain ⟨hR, hg, hm⟩ := exactAmounts_fixesGrid k st h
  have hM0 := amountsMagnitude_nonneg st
  exact getExpensesBetweenUsersRounded_eq roundDouble k _ hR identity userId st hg (by linarith)

theorem getUserBalancesRounded_exact (k : Nat) (identity : Option String) (st : Store)
    (h : ExactAmounts k st) :
    getUserBalancesRounded roundDouble identity st = getUserBalances identity st := by
  obtain ⟨hR, hg, hm⟩ := exactAmounts_fixesGrid k st h
  have hM0 := amountsMagnitude_nonneg st
  exact getUserBalancesRounded_eq roundDouble k _ hR identity st hg (by linarith)

theorem getGroupExpensesRounded_exact (k : Nat) (identity : Option String) (groupId : GroupId)
    (st : Store) (h : ExactAmounts k st) :
    getGroupExpensesRounded roundDouble identity groupId st
      = getGroupExpenses identity groupId st := by
  obtain ⟨hR, hg, hm⟩ := exactAmounts_fixesGrid k st h
  exact getGroupExpensesRounded_eq roundDouble k _ hR identity groupId st hg hm

theorem getTotalSpentRounded_exact (k : Nat) (identity : Option String) (now : Int)
    (st : Store) (h : ExactAmounts k st) :
    getTotalSpentRounded roundDouble identity now st = getTotalSpent identity now st := by
  obtain ⟨hR, hg, hm⟩ := exactAmounts_fixesGrid k st h
  have hM0 := amountsMagnitude_nonneg st
  exact getTotalSpentRounded_eq roundDouble k _ hR identity now st hg (by linarith)

theorem getMonthlySpendingRounded_exact (k : Nat) (identity : Option String) (now : Int)
    (st : Store) (h : ExactAmounts k st) :
    getMonthlySpendingRounded roundDouble identity now st
      = getMonthlySpending identity now st := by
  obtain ⟨hR, hg, hm⟩ := exactAmounts_fixesGrid k st h
  have hM0 := amountsMagnitude_nonneg st
  exact getMonthlySpendingRounded_eq roundDouble k _ hR identity now st hg (by linarith)

theorem onGrid_of_den (k : Nat) (x : ℚ) (h : (x * 2 ^ k).den = 1) : OnGrid k x := by
  refine ⟨(x * 2 ^ k).num, ?_⟩
  have hpos : (0 : ℚ) < 2 ^ k := by positivity
  rw [eq_div_iff (ne_of_gt hpos)]
  have := Rat.num_div_den (x * 2 ^ k)
  rw [h] at this
  simpa using this.symm

/-- A decidable test for `ExactAmounts`. -/
theorem exactAmounts_of_den (k : Nat) (st : Store) (hk : k ≤ 1074)
    (h1 : ∀ e ∈ st.expenses, ∀ s ∈ e.splits, (s.amount * 2 ^ k).den = 1)
    (h2 : ∀ s ∈ st.settlements, (s.amount * 2 ^ k).den = 1)
    (h3 : amountsMagnitude st * 2 ^ k ≤ 2 ^ 50) : ExactAmounts k st :=
  ⟨hk, ⟨fun e he s hs => onGrid_of_den k _ (h1 e he s hs),
    fun s hs => onGrid_of_den k _ (h2 s hs)⟩, h3⟩

theorem exactAmounts_perm (k : Nat) (st1 st2 : Store) (hexp : st1.expenses.Perm st2.expenses)
    (hset : st1.settlements.Perm st2.settlements) (h : ExactAmounts k st1) :
    ExactAmounts k st2 := by
  obtain ⟨hk, ⟨hg1, hg2⟩, hm⟩ := h
  refine ⟨hk, ⟨fun e he => hg1 e (hexp.mem_iff.mpr he), fun s hs => hg2 s (hset.mem_iff.mpr hs)⟩, ?_⟩
  have : amountsMagnitude st2 = amountsMagnitude st1 := by
    unfold amountsMagnitude
    rw [(hexp.map expenseMagnitude).sum_eq, (hset.map (fun s => |s.amount|)).sum_eq]
  rw [this]; exact hm

/-! ### The balance between two users, in binary64 -/

/-- The counterexample to C2: B owes A 0.1 and 0.2, A owes B 0.3, all three
expenses of the same date. In binary64 the balance that A sees about B is
`0.1 + 0.2 - 0.3 = 2 ^ (-54)`, and the balance that B sees about A is
`0.3 - 0.1 - 0.2 = -2 ^ (-55)`, which is not its negation. -/
theorem pair_balance_antisymm_counterexample :
    residue.expenses.map (fun e => (e.paidByUserId, e.date,
        e.splits.map (fun s => (s.userId, s.amount, s.paid))))
      = [(1, 500, [(1, roundDouble (1 / 10), true), (2, roundDouble (1 / 10), false)]),
         (2, 500, [(2, roundDouble (3 / 10), true), (1, roundDouble (3 / 10), false)]),
         (1, 500, [(1, roundDouble (2 / 10), true), (2, roundDouble (2 / 10), false)])]
    ∧ residue.settlements = []
    ∧ (getExpensesBetweenUsersRounded roundDouble (some "token-a") 2 residue).map
        (fun r => r.balance) = .ok (1 / 2 ^ 54)
    ∧ (getExpensesBetweenUsersRounded roundDouble (some "token-b") 1 residue).map
        (fun r => r.balance) = .ok (-(1 / 2 ^ 55)) := by
  decide!

/-- C2, amended: for two distinct users A and B and a store whose amounts are
multiples of `2 ^ (-k)` with absolute values summing to at most `2 ^ 50` such
multiples, so that no sum rounds, the balance that `getExpensesBetweenUsers`
returns to A about B is the negation of the balance it returns to B about A. -/
theorem getExpensesBetweenUsersRounded_antisymm (identityA identityB : Option String)
    (st : Store) (a b : User) (k : Nat)
    (hA : getCurrentUser identityA st = .ok a) (hB : getCurrentUser identityB st = .ok b)
    (hne : a._id ≠ b._id) (hexact : ExactAmounts k st) :
    ∃ rAB rBA, getExpensesBetweenUsersRounded roundDouble identityA b._id st = .ok rAB ∧
      getExpensesBetweenUsersRounded roundDouble identityB a._id st = .ok rBA ∧
      rAB.balance = - rBA.balance := by
  rw [getExpensesBetweenUsersRounded_exact k identityA b._id st hexact,
    getExpensesBetweenUsersRounded_exact k identityB a._id st hexact]
  exact getExpensesBetweenUsers_antisymm identityA identityB st a b hA hB hne

theorem getExpensesBetweenUsersRounded_antisymm_witness :
    ExactAmounts 0 scenario5
    ∧ (getExpensesBetweenUsersRounded roundDouble (some "token-a") 2 scenario5).map
        (fun r => r.balance) = .ok (-50)
    ∧ ∃ rAB rBA,
        getExpensesBetweenUsersRounded roundDouble (some "token-a") userB._id scenario5 = .ok rAB ∧
        getExpensesBetweenUsersRounded roundDouble (some "token-b") userA._id scenario5 = .ok rBA ∧
        rAB.balance = - rBA.balance :=
  ⟨exactAmounts_of_den 0 scenario5 (by decide) (by decide!) (by decide!) (by decide!),
    by decide!,
    getExpensesBetweenUsersRounded_antisymm (some "token-a") (some "token-b") scenario5 userA
      userB 0 rfl rfl (by decide)
      (exactAmounts_of_den 0 scenario5 (by decide) (by decide!) (by decide!) (by decide!))⟩

/-- The counterexample to C3: B owes A 0.1 and 0.2, A owes B 0.3. With the
three expenses of the same date the handler returns `0.1 + 0.2 - 0.3`, which
is `2 ^ (-54)` in binary64, and the formula gives `2 ^ (-55)` in exact
arithmetic. With the date of the expense of 0.3 between the two others the
handler returns `0.1 - 0.3 + 0.2`, which is `2 ^ (-55)` in binary64, and the
formula with its sums computed in binary64 gives `(0.1 + 0.2) - 0.3`, which is
`2 ^ (-54)`. -/
theorem pair_balance_formula_counterexample :
    ((getExpensesBetweenUsersRounded roundDouble (some "token-a") 2 residue).map
        (fun r => r.balance) = .ok (1 / 2 ^ 54)
      ∧ specPairBalance 1 2 residue = 1 / 2 ^ 55)
    ∧ ((getExpensesBetweenUsersRounded roundDouble (some "token-a") 2 residueDated).map
        (fun r => r.balance) = .ok (1 / 2 ^ 55)
      ∧ specPairBalanceRounded roundDouble 1 2 residueDated = 1 / 2 ^ 54)
    ∧ (roundDouble (1 / 10), roundDouble (2 / 10), roundDouble (3 / 10))
        = (3602879701896397 / 2 ^ 55, 3602879701896397 / 2 ^ 54, 5404319552844595 / 2 ^ 54) :=
  ⟨⟨by decide!, by decide!⟩, ⟨by decide!, by decide!⟩, by decide!⟩

/-- C3, amended: for a store whose amounts are multiples of `2 ^ (-k)` with
absolute values summing to at most `2 ^ 50` such multiples, so that no sum
rounds, and whose expenses list every participant once, the balance that
`getExpensesBetweenUsers` returns about another user is: the unpaid shares of
the other user in the caller's expenses, minus the caller's unpaid shares in
the other user's expenses, minus what the other user has settled to the
caller, plus what the caller has settled to the other user. -/
theorem getExpensesBetweenUsersRounded_balance_formula (identity : Option String)
    (userId : UserId) (st : Store) (me other : User) (k : Nat)
    (hauth : getCurrentUser identity st = .ok me) (hne : me._id ≠ userId)
    (hother : st.users.find? (fun u => u._id == userId) = some other)
    (hsplits : ∀ e ∈ st.expenses, (e.splits.map (fun s => s.userId)).Nodup)
    (hexact : ExactAmounts k st) :
    ∃ r, getExpensesBetweenUsersRounded roundDouble identity userId st = .ok r
      ∧ r.balance = specPairBalance me._id userId st := by
  rw [getExpensesBetweenUsersRounded_exact k identity userId st hexact]
  exact getExpensesBetweenUsers_balance_formula identity userId st me other hauth hne hother
    hsplits

theorem getExpensesBetweenUsersRounded_balance_formula_witness :
    ExactAmounts 0 scenario1
    ∧ ∃ r, getExpensesBetweenUsersRounded roundDouble (some "token-a") 2 scenario1 = .ok r
      ∧ r.balance = 50 := by
  have hex : ExactAmounts 0 scenario1 :=
    exactAmounts_of_den 0 scenario1 (by decide) (by decide!) (by decide!) (by decide!)
  obtain ⟨r, hr, hb⟩ := getExpensesBetweenUsersRounded_balance_formula (some "token-a") 2
    scenario1 userA userB 0 rfl (by decide) rfl (by decide) hex
  exact ⟨hex, r, hr, hb.trans (by decide!)⟩

/-- The counterexample to C23: B owes A 0.1 (latest date) and 0.2 (earliest
date), A owes B 0.3 (date in between). `getUserBalances` gives A the counterparty
B with `owed = 0.1 + 0.2`, `owing = 0.3` and the net amount `2 ^ (-54)`, and
`getExpensesBetweenUsers`, which runs through the expenses by date, gives A the
balance `2 ^ (-55)` about B. -/
theorem counterparty_net_counterexample :
    residueDated.expenses.map (fun e => (e.paidByUserId, e.date,
        e.splits.map (fun s => (s.userId, s.amount, s.paid))))
      = [(1, 700, [(1, roundDouble (1 / 10), true), (2, roundDouble (1 / 10), false)]),
         (2, 600, [(2, roundDouble (3 / 10), true), (1, roundDouble (3 / 10), false)]),
         (1, 500, [(1, roundDouble (2 / 10), true), (2, roundDouble (2 / 10), false)])]
    ∧ residueDated.settlements = []
    ∧ (getUserBalancesRounded roundDouble (some "token-a") residueDated).map
        (fun r => specCounterpartyNet r 2) = .ok (1 / 2 ^ 54)
    ∧ (getUserBalancesRounded roundDouble (some "token-a") residueDated).map
        (fun r => r.oweDetails.youAreOwedBy.map (fun e => (e.userId, e.amount)))
        = .ok [(2, 1 / 2 ^ 54)]
    ∧ (getExpensesBetweenUsersRounded roundDouble (some "token-a") 2 residueDated).map
        (fun r => r.balance) = .ok (1 / 2 ^ 55) := by
  decide!

/-- C23, amended: for a store whose amounts are multiples of `2 ^ (-k)` with
absolute values summing to at most `2 ^ 50` such multiples, so that no sum
rounds, and whose expenses list every participant once, the net amount of a
counterparty in the result of `getUserBalances` (the amount of the entry in
`youAreOwedBy`, minus the amount of the entry in `youOwe`, 0 without an
entry) is the balance that `getExpensesBetweenUsers` returns to the same
caller about that counterparty. -/
theorem getUserBalancesRounded_net_eq_pair_balance (identity : Option String)
    (userId : UserId) (st : Store) (me other : User) (k : Nat)
    (hauth : getCurrentUser identity st = .ok me) (hne : me._id ≠ userId)
    (hother : st.users.find? (fun u => u._id == userId) = some other)
    (hsplits : ∀ e ∈ st.expenses, (e.splits.map (fun s => s.userId)).Nodup)
    (hexact : ExactAmounts k st) :
    ∃ rb rp, getUserBalancesRounded roundDouble identity st = .ok rb
      ∧ getExpensesBetweenUsersRounded roundDouble identity userId st = .ok rp
      ∧ specCounterpartyNet rb userId = rp.balance := by
  rw [getUserBalancesRounded_exact k identity st hexact,
    getExpensesBetweenUsersRounded_exact k identity userId st hexact]
  exact getUserBalances_net_eq_pair_balance identity userId st me other hauth hne hother hsplits

theorem getUserBalancesRounded_net_eq_pair_balance_witness :
    ExactAmounts 0 scenario5
    ∧ (∃ rb rp, getUserBalancesRounded roundDouble (some "token-a") scenario5 = .ok rb
      ∧ getExpensesBetweenUsersRounded roundDouble (some "token-a") 2 scenario5 = .ok rp
      ∧ specCounterpartyNet rb 2 = rp.balance)
    ∧ (getUserBalancesRounded roundDouble (some "token-a") scenario5).map
        (fun r => specCounterpartyNet r 2) = .ok (-50) :=
  ⟨exactAmounts_of_den 0 scenario5 (by decide) (by decide!) (by decide!) (by decide!),
    getUserBalancesRounded_net_eq_pair_balance (some "token-a") 2 scenario5 userA userB 0 rfl
      (by decide) rfl (by decide)
      (exactAmounts_of_den 0 scenario5 (by decide) (by decide!) (by decide!) (by decide!)),
    by decide!⟩

/-! ### Order of the records, in binary64 -/

/-- The counterexample to C8: B owes A 0.1, 0.2 and 0.3 from three expenses.
With the expenses in this order `getUserBalances` gives A
`youAreOwed = totalBalance = 0.1 + 0.2 + 0.3 = 0.6000000000000001`, and with the
same expenses in the opposite order `0.3 + 0.2 + 0.1 = 0.6`. -/
theorem user_balances_order_counterexample :
    ascending.expenses.map (fun e => (e.paidByUserId,
        e.splits.map (fun s => (s.userId, s.amount, s.paid))))
      = [(1, [(1, roundDouble (1 / 10), true), (2, roundDouble (1 / 10), false)]),
         (1, [(1, roundDouble (2 / 10), true), (2, roundDouble (2 / 10), false)]),
         (1, [(1, roundDouble (3 / 10), true), (2, roundDouble (3 / 10), false)])]
    ∧ descending.expenses = ascending.expenses.reverse
    ∧ descending.users = ascending.users ∧ descending.settlements = ascending.settlements
    ∧ (getUserBalancesRounded roundDouble (some "token-a") ascending).map
        (fun r => (r.youAreOwed, r.totalBalance))
        = .ok (1351079888211149 / 2 ^ 51, 1351079888211149 / 2 ^ 51)
    ∧ (getUserBalancesRounded roundDouble (some "token-a") descending).map
        (fun r => (r.youAreOwed, r.totalBalance))
        = .ok (roundDouble (6 / 10), roundDouble (6 / 10))
    ∧ roundDouble (6 / 10) = 5404319552844595 / 2 ^ 53 := by
  decide!

/-- C8, amended: for a store whose amounts are multiples of `2 ^ (-k)` with
absolute values summing to at most `2 ^ 50` such multiples, so that no sum
rounds, permuting the expense records and the settlement records leaves the
result of `getUserBalances` unchanged: the same `youOwe`, `youAreOwed` and
`totalBalance`, and the same entries in the lists `youOwe` and `youAreOwedBy`. -/
theorem getUserBalancesRounded_order_independent (identity : Option String) (st1 st2 : Store)
    (user : User) (k : Nat) (hauth : getCurrentUser identity st1 = .ok user)
    (husers : st1.users = st2.users) (hexp : st1.expenses.Perm st2.expenses)
    (hset : st1.settlements.Perm st2.settlements) (hexact : ExactAmounts k st1) :
    ∃ r1 r2, getUserBalancesRounded roundDouble identity st1 = .ok r1 ∧
      getUserBalancesRounded roundDouble identity st2 = .ok r2 ∧
      r1.youOwe = r2.youOwe ∧ r1.youAreOwed = r2.youAreOwed ∧
      r1.totalBalance = r2.totalBalance ∧
      r1.oweDetails.youOwe.Perm r2.oweDetails.youOwe ∧
      r1.oweDetails.youAreOwedBy.Perm r2.oweDetails.youAreOwedBy := by
  rw [getUserBalancesRounded_exact k identity st1 hexact,
    getUserBalancesRounded_exact k identity st2 (exactAmounts_perm k st1 st2 hexp hset hexact)]
  exact getUserBalances_order_independent identity st1 st2 user hauth husers hexp hset

theorem getUserBalancesRounded_order_independent_witness :
    ExactAmounts 0 scenario5
    ∧ (getUserBalancesRounded roundDouble (some "token-a") scenario5).map
        (fun r => (r.youAreOwed, r.youOwe, r.totalBalance)) = .ok (-30, 20, -50)
    ∧ ∃ r1 r2, getUserBalancesRounded roundDouble (some "token-a") scenario5 = .ok r1 ∧
      getUserBalancesRounded roundDouble (some "token-a") scenario5Swapped = .ok r2 ∧
      r1.youOwe = r2.youOwe ∧ r1.youAreOwed = r2.youAreOwed ∧
      r1.totalBalance = r2.totalBalance ∧
      r1.oweDetails.youOwe.Perm r2.oweDetails.youOwe ∧
      r1.oweDetails.youAreOwedBy.Perm r2.oweDetails.youAreOwedBy :=
  ⟨exactAmounts_of_den 0 scenario5 (by decide) (by decide!) (by decide!) (by decide!),
    by decide!,
    getUserBalancesRounded_order_independent (some "token-a") scenario5 scenario5Swapped userA 0
      rfl rfl (List.Perm.swap _ _ _) (List.Perm.swap _ _ _)
      (exactAmounts_of_den 0 scenario5 (by decide) (by decide!) (by decide!) (by decide!))⟩

/-- The counterexample to C9: in the group of A, B, C and D, B owes A 0.1, 0.2
and 0.3 from three expenses. With the expenses in this order
`getGroupExpenses` gives A the `totalBalance` `0.6000000000000001` and the
`owedBy` amount `0.6000000000000001`, and with the same expenses in the
opposite order `0.6` and `0.6`. -/
theorem group_balances_order_counterexample :
    groupAscending.expenses.map (fun e => (e.groupId, e.paidByUserId,
        e.splits.map (fun s => (s.userId, s.amount, s.paid))))
      = [(some 8, 1, [(1, roundDouble (1 / 10), true), (2, roundDouble (1 / 10), false)]),
         (some 8, 1, [(1, roundDouble (2 / 10), true), (2, roundDouble (2 / 10), false)]),
         (some 8, 1, [(1, roundDouble (3 / 10), true), (2, roundDouble (3 / 10), false)])]
    ∧ groupDescending.expenses = groupAscending.expenses.reverse
    ∧ groupDescending.users = groupAscending.users
    ∧ groupDescending.groups = groupAscending.groups
    ∧ groupDescending.settlements = groupAscending.settlements
    ∧ groupAscending.groups.map (fun g => (g._id, g.members.map (fun m => m.userId)))
        = [(8, [1, 2, 3, 4])]
    ∧ (getGroupExpensesRounded roundDouble (some "token-a") 8 groupAscending).map
        (fun r => r.balances.map (fun mb => mb.totalBalance))
        = .ok [some (1351079888211149 / 2 ^ 51), some (-(1351079888211149 / 2 ^ 51)),
            some 0, some 0]
    ∧ (getGroupExpensesRounded roundDouble (some "token-a") 8 groupDescending).map
        (fun r => r.balances.map (fun mb => mb.totalBalance))
        = .ok [some (roundDouble (6 / 10)), some (-roundDouble (6 / 10)), some 0, some 0]
    ∧ (getGroupExpensesRounded roundDouble (some "token-a") 8 groupAscending).map
        (fun r => r.balances.map (fun mb => mb.owedBy.map (fun o => (o.from_, o.amount))))
        = .ok [[(2, 1351079888211149 / 2 ^ 51)], [], [], []]
    ∧ (getGroupExpensesRounded roundDouble (some "token-a") 8 groupDescending).map
        (fun r => r.balances.map (fun mb => mb.owedBy.map (fun o => (o.from_, o.amount))))
        = .ok [[(2, roundDouble (6 / 10))], [], [], []]
    ∧ roundDouble (6 / 10) = 5404319552844595 / 2 ^ 53 :=
  ⟨by decide!, rfl, rfl, rfl, rfl, by decide!, by decide!, by decide!, by decide!, by decide!,
    by decide!⟩

/-- C9, amended: for a group whose expense and settlement parties are all
members and a store whose amounts are multiples of `2 ^ (-k)` with absolute
values summing to at most `2 ^ 50` such multiples, so that no sum rounds,
permuting the expense records and the settlement records leaves the
`balances` of `getGroupExpenses` unchanged: the same `totalBalance`, `owes`
and `owedBy` for every member. -/
theorem getGroupExpensesRounded_order_independent (identity : Option String)
    (groupId : GroupId) (st1 st2 : Store) (group : Group) (k : Nat)
    (husers : st1.users = st2.users) (hgroups : st1.groups = st2.groups)
    (hexp : st1.expenses.Perm st2.expenses) (hset : st1.settlements.Perm st2.settlements)
    (hgroup : st1.groups.find? (fun g => g._id == groupId) = some group)
    (hexpMembers : ∀ e ∈ st1.expenses, e.groupId = some groupId →
      e.paidByUserId ∈ group.members.map (fun m => m.userId)
        ∧ ∀ s ∈ e.splits, s.userId ∈ group.members.map (fun m => m.userId))
    (hsetMembers : ∀ s ∈ st1.settlements, s.groupId = some groupId →
      s.paidByUserId ∈ group.members.map (fun m => m.userId)
        ∧ s.receivedByUserId ∈ group.members.map (fun m => m.userId))
    (hexact : ExactAmounts k st1) :
    (getGroupExpensesRounded roundDouble identity groupId st1).map (fun r => r.balances)
      = (getGroupExpensesRounded roundDouble identity groupId st2).map (fun r => r.balances) := by
  rw [getGroupExpensesRounded_exact k identity groupId st1 hexact,
    getGroupExpensesRounded_exact k identity groupId st2
      (exactAmounts_perm k st1 st2 hexp hset hexact)]
  exact getGroupExpenses_order_independent identity groupId st1 st2 group husers hgroups hexp
    hset hgroup hexpMembers hsetMembers

theorem getGroupExpensesRounded_order_independent_witness :
    ExactAmounts 0 scenario3
    ∧ (getGroupExpensesRounded roundDouble (some "token-a") 7 scenario3).map
        (fun r => r.balances)
        = (getGroupExpensesRounded roundDouble (some "token-a") 7 scenario3Swapped).map
            (fun r => r.balances)
    ∧ (getGroupExpensesRounded roundDouble (some "token-a") 7 scenario3).map
        (fun r => r.balances.map (fun b => b.totalBalance)) = .ok [some 6, some 0, some (-6)] :=
  ⟨exactAmounts_of_den 0 scenario3 (by decide) (by decide!) (by decide!) (by decide!),
    getGroupExpensesRounded_order_independent (some "token-a") 7 scenario3 scenario3Swapped trip
      0 rfl rfl (List.Perm.swap _ _ _) (List.Perm.swap _ _ _) rfl (by decide) (by decide)
      (exactAmounts_of_den 0 scenario3 (by decide) (by decide!) (by decide!) (by decide!)),
    by decide!⟩

/-! ### Totals and lists, in binary64 -/

/-- The counterexample to C36: A pays one expense in which B owes 0.1, C owes
0.2 and D owes 0.3. `getUserBalances` gives A
`youAreOwed = totalBalance = 0.1 + 0.2 + 0.3 = 0.6000000000000001`, and the
amounts 0.3, 0.2 and 0.1 of the list `youAreOwedBy` sum to 0.6 in binary64 and
to a third value in exact arithmetic. -/
theorem user_lists_sum_counterexample :
    threeDebtors.expenses.map (fun e => (e.paidByUserId,
        e.splits.map (fun s => (s.userId, s.amount, s.paid))))
      = [(1, [(1, roundDouble (6 / 10), true), (2, roundDouble (1 / 10), false),
              (3, roundDouble (2 / 10), false), (4, roundDouble (3 / 10), false)])]
    ∧ threeDebtors.settlements = []
    ∧ (getUserBalancesRounded roundDouble (some "token-a") threeDebtors).map
        (fun r => (r.youOwe, r.youAreOwed, r.totalBalance))
        = .ok (0, 1351079888211149 / 2 ^ 51, 1351079888211149 / 2 ^ 51)
    ∧ (getUserBalancesRounded roundDouble (some "token-a") threeDebtors).map
        (fun r => r.oweDetails.youAreOwedBy.map (fun e => (e.userId, e.amount)))
        = .ok [(4, roundDouble (3 / 10)), (3, roundDouble (2 / 10)), (2, roundDouble (1 / 10))]
    ∧ (getUserBalancesRounded roundDouble (some "token-a") threeDebtors).map
        (fun r => r.oweDetails.youOwe.map (fun e => (e.userId, e.amount))) = .ok []
    ∧ roundDouble (roundDouble (roundDouble (3 / 10) + roundDouble (2 / 10))
        + roundDouble (1 / 10)) = 5404319552844595 / 2 ^ 53
    ∧ roundDouble (3 / 10) + roundDouble (2 / 10) + roundDouble (1 / 10)
        = 5404319552844595 / 2 ^ 53 + 1 / 2 ^ 55
    ∧ (1351079888211149 : ℚ) / 2 ^ 51 = 5404319552844595 / 2 ^ 53 + 1 / 2 ^ 53 := by
  decide!

/-- C36, amended: for a store whose amounts are multiples of `2 ^ (-k)` with
absolute values summing to at most `2 ^ 50` such multiples, so that no sum
rounds, in the result of `getUserBalances` the amounts of `youAreOwedBy` minus
the amounts of `youOwe` sum to `totalBalance`, which is
`youAreOwed - youOwe`. -/
theorem getUserBalancesRounded_lists_sum (identity : Option String) (st : Store) (user : User)
    (k : Nat) (hauth : getCurrentUser identity st = .ok user) (hexact : ExactAmounts k st) :
    ∃ r, getUserBalancesRounded roundDouble identity st = .ok r
      ∧ (r.oweDetails.youAreOwedBy.map (fun e => e.amount)).sum
          - (r.oweDetails.youOwe.map (fun e => e.amount)).sum = r.totalBalance
      ∧ r.totalBalance = r.youAreOwed - r.youOwe := by
  rw [getUserBalancesRounded_exact k identity st hexact]
  exact getUserBalances_lists_sum identity st user hauth

theorem getUserBalancesRounded_lists_sum_witness :
    ExactAmounts 0 scenario5
    ∧ (getUserBalancesRounded roundDouble (some "token-a") scenario5).map
        (fun r => (r.youAreOwed, r.youOwe, r.totalBalance)) = .ok (-30, 20, -50)
    ∧ ∃ r, getUserBalancesRounded roundDouble (some "token-a") scenario5 = .ok r
      ∧ (r.oweDetails.youAreOwedBy.map (fun e => e.amount)).sum
          - (r.oweDetails.youOwe.map (fun e => e.amount)).sum = r.totalBalance
      ∧ r.totalBalance = r.youAreOwed - r.youOwe :=
  ⟨exactAmounts_of_den 0 scenario5 (by decide) (by decide!) (by decide!) (by decide!),
    by decide!,
    getUserBalancesRounded_lists_sum (some "token-a") scenario5 userA 0 rfl
      (exactAmounts_of_den 0 scenario5 (by decide) (by decide!) (by decide!) (by decide!))⟩

/-- The counterexample to C37: B pays three expenses of 2024 in which the
share of A is 0.1 on 15 January, 0.2 on 10 February and 0.3 on 20 February.
In June 2024 `getTotalSpent` gives A `0.1 + 0.2 + 0.3 = 0.6000000000000001`,
and `getMonthlySpending` gives January 0.1 and February `0.2 + 0.3 = 0.5`,
which sum to 0.6 in binary64 and to a third value in exact arithmetic. -/
theorem monthly_sum_counterexample :
    threeShares.expenses.map (fun e => (e.paidByUserId, e.date,
        e.splits.map (fun s => (s.userId, s.amount, s.paid))))
      = [(2, 1705276800000, [(2, roundDouble (1 / 10), true), (1, roundDouble (1 / 10), false)]),
         (2, 1707523200000, [(2, roundDouble (2 / 10), true), (1, roundDouble (2 / 10), false)]),
         (2, 1708387200000, [(2, roundDouble (3 / 10), true), (1, roundDouble (3 / 10), false)])]
    ∧ getTotalSpentRounded roundDouble (some "token-a") midJune2024 threeShares
        = .ok (1351079888211149 / 2 ^ 51)
    ∧ (getMonthlySpendingRounded roundDouble (some "token-a") midJune2024 threeShares).map
        (fun r => r.map (fun entry => entry.total))
        = .ok [roundDouble (1 / 10), 1 / 2, 0, 0, 0, 0, 0, 0, 0, 0, 0, 0]
    ∧ (getMonthlySpendingRounded roundDouble (some "token-a") midJune2024 threeShares).map
        (fun r => (r.map (fun entry => entry.total)).sum)
        = .ok (roundDouble (1 / 10) + 1 / 2)
    ∧ roundDouble (roundDouble (1 / 10) + 1 / 2) = 5404319552844595 / 2 ^ 53
    ∧ roundDouble (1 / 10) + 1 / 2 = 5404319552844595 / 2 ^ 53 + 1 / 2 ^ 55
    ∧ (1351079888211149 : ℚ) / 2 ^ 51 = 5404319552844595 / 2 ^ 53 + 1 / 2 ^ 53 := by
  decide!

/-- C37, amended: for a store whose amounts are multiples of `2 ^ (-k)` with
absolute values summing to at most `2 ^ 50` such multiples, so that no sum
rounds, the totals of the entries of `getMonthlySpending` sum to the value of
`getTotalSpent`, for the same caller, store and clock. -/
theorem monthlyRounded_totals_sum_eq_total (identity : Option String) (now : Int) (st : Store)
    (user : User) (k : Nat) (hauth : getCurrentUser identity st = .ok user)
    (hexact : ExactAmounts k st) :
    ∃ r total, getMonthlySpendingRounded roundDouble identity now st = .ok r
      ∧ getTotalSpentRounded roundDouble identity now st = .ok total
      ∧ (r.map (fun entry => entry.total)).sum = total := by
  rw [getMonthlySpendingRounded_exact k identity now st hexact,
    getTotalSpentRounded_exact k identity now st hexact]
  exact monthly_totals_sum_eq_total identity now st user hauth

theorem monthlyRounded_totals_sum_eq_total_witness :
    ExactAmounts 0 spendingAhead
    ∧ ((getMonthlySpendingRounded roundDouble (some "token-a") midJune2024 spendingAhead).map
        (fun r => (r.map (fun entry => entry.total)).sum),
      getTotalSpentRounded roundDouble (some "token-a") midJune2024 spendingAhead) = (.ok 45, .ok 45)
    ∧ ∃ r total, getMonthlySpendingRounded roundDouble (some "token-a") midJune2024 spendingAhead = .ok r
      ∧ getTotalSpentRounded roundDouble (some "token-a") midJune2024 spendingAhead = .ok total
      ∧ (r.map (fun entry => entry.total)).sum = total :=
  ⟨exactAmounts_of_den 0 spendingAhead (by decide) (by decide!) (by decide!) (by decide!),
    by decide!,
    monthlyRounded_totals_sum_eq_total (some "token-a") midJune2024 spendingAhead userA 0 rfl
      (exactAmounts_of_den 0 spendingAhead (by decide) (by decide!) (by decide!) (by decide!))⟩

/-! ### The totals of a group, in binary64 -/

/-- The counterexample to C33: in the group of the four distinct members A, B,
C and D, A pays one expense in which B owes 0.1, C owes 0.2 and D owes 0.3.
`getGroupExpenses` gives A the `totalBalance`
`0.1 + 0.2 + 0.3 = 0.6000000000000001` and gives B, C and D the values -0.1,
-0.2 and -0.3; the four values sum to `2 ^ (-53)` in binary64 and to
`3 * 2 ^ (-55)` in exact arithmetic, not to 0. -/
theorem group_totals_sum_counterexample :
    groupDrinks.groups.map (fun g => (g._id, g.members.map (fun m => m.userId)))
        = [(8, [1, 2, 3, 4])]
    ∧ groupDrinks.expenses.map (fun e => (e.groupId, e.paidByUserId,
        e.splits.map (fun s => (s.userId, s.amount, s.paid))))
      = [(some 8, 1, [(1, roundDouble (6 / 10), true), (2, roundDouble (1 / 10), false),
              (3, roundDouble (2 / 10), false), (4, roundDouble (3 / 10), false)])]
    ∧ groupDrinks.settlements = []
    ∧ (getGroupExpensesRounded roundDouble (some "token-a") 8 groupDrinks).map
        (fun r => r.balances.map (fun mb => mb.totalBalance))
        = .ok [some (1351079888211149 / 2 ^ 51), some (-roundDouble (1 / 10)),
            some (-roundDouble (2 / 10)), some (-roundDouble (3 / 10))]
    ∧ (getGroupExpensesRounded roundDouble (some "token-a") 8 groupDrinks).map
        (fun r => (r.balances.map (fun mb => mb.totalBalance.getD 0)).sum)
        = .ok (3 / 2 ^ 55)
    ∧ (getGroupExpensesRounded roundDouble (some "token-a") 8 groupDrinks).map
        (fun r => (r.balances.map (fun mb => mb.totalBalance.getD 0)).foldl
          (fun sum v => roundDouble (sum + v)) 0)
        = .ok (1 / 2 ^ 53) :=
  ⟨by decide!, by decide!, rfl, by decide!, by decide!, by decide!⟩

/-- C33, amended: for a group with pairwise distinct members in which every
expense payer, every participant of an unpaid split other than the payer and
every settlement payer and receiver is a member, and a store whose amounts are
multiples of `2 ^ (-k)` with absolute values summing to at most `2 ^ 50` such
multiples, so that no sum rounds, every `totalBalance` that `getGroupExpenses`
returns is a number and the values sum to 0. -/
theorem getGroupExpensesRounded_totals_sum_zero (identity : Option String) (groupId : GroupId)
    (st : Store) (r : GroupExpenses) (group : Group) (k : Nat)
    (h : getGroupExpensesRounded roundDouble identity groupId st = .ok r)
    (hg : st.groups.find? (fun g => g._id == groupId) = some group)
    (hnd : (group.members.map (fun m => m.userId)).Nodup)
    (hexp : ∀ e ∈ st.expenses, e.groupId = some groupId →
      e.paidByUserId ∈ group.members.map (fun m => m.userId)
        ∧ ∀ s ∈ e.splits, s.userId ≠ e.paidByUserId → s.paid = false →
            s.userId ∈ group.members.map (fun m => m.userId))
    (hset : ∀ s ∈ st.settlements, s.groupId = some groupId →
      s.paidByUserId ∈ group.members.map (fun m => m.userId)
        ∧ s.receivedByUserId ∈ group.members.map (fun m => m.userId))
    (hexact : ExactAmounts k st) :
    (∀ mb ∈ r.balances, mb.totalBalance.isSome = true)
    ∧ (r.balances.map (fun mb => mb.totalBalance.getD 0)).sum = 0 := by
  rw [getGroupExpensesRounded_exact k identity groupId st hexact] at h
  exact getGroupExpenses_totals_sum_zero identity groupId st r group h hg hnd hexp hset

theorem getGroupExpensesRounded_totals_sum_zero_witness :
    ExactAmounts 0 scenario3
    ∧ (getGroupExpensesRounded roundDouble (some "token-a") 7 scenario3).map
        (fun r => r.balances.map (fun mb => mb.totalBalance))
      = .ok [some 6, some 0, some (-6)]
    ∧ ∃ r, getGroupExpensesRounded roundDouble (some "token-a") 7 scenario3 = .ok r
      ∧ (∀ mb ∈ r.balances, mb.totalBalance.isSome = true)
      ∧ (r.balances.map (fun mb => mb.totalBalance.getD 0)).sum = 0 := by
  have hex : ExactAmounts 0 scenario3 :=
    exactAmounts_of_den 0 scenario3 (by decide) (by decide!) (by decide!) (by decide!)
  refine ⟨hex, by decide!, ?_⟩
  obtain ⟨r, hr⟩ := except_ok_of_toBool
    (getGroupExpensesRounded roundDouble (some "token-a") 7 scenario3) (by decide!)
  exact ⟨r, hr, getGroupExpensesRounded_totals_sum_zero (some "token-a") 7 scenario3 r trip 0 hr
    rfl (by decide) (by decide) (by decide) hex⟩

/-- The counterexample to C34: in the group of A, B, C and D, B owes A 0.1 and
0.2 and A owes B 0.3. `getGroupExpenses` gives A the `totalBalance`
`0.1 - 0.3 + 0.2 = 2 ^ (-55)`, an empty `owes` list and the `owedBy` list with
the one amount `(0.1 + 0.2) - 0.3 = 2 ^ (-54)`. -/
theorem group_total_lists_counterexample :
    groupResidue.groups.map (fun g => (g._id, g.members.map (fun m => m.userId)))
        = [(8, [1, 2, 3, 4])]
    ∧ groupResidue.expenses.map (fun e => (e.groupId, e.paidByUserId,
        e.splits.map (fun s => (s.userId, s.amount, s.paid))))
      = [(some 8, 1, [(1, roundDouble (1 / 10), true), (2, roundDouble (1 / 10), false)]),
         (some 8, 2, [(2, roundDouble (3 / 10), true), (1, roundDouble (3 / 10), false)]),
         (some 8, 1, [(1, roundDouble (2 / 10), true), (2, roundDouble (2 / 10), false)])]
    ∧ groupResidue.settlements = []
    ∧ (getGroupExpensesRounded roundDouble (some "token-a") 8 groupResidue).map
        (fun r => r.balances.map (fun mb => mb.totalBalance))
        = .ok [some (1 / 2 ^ 55), some (-(1 / 2 ^ 55)), some 0, some 0]
    ∧ (getGroupExpensesRounded roundDouble (some "token-a") 8 groupResidue).map
        (fun r => r.balances.map (fun mb => mb.owedBy.map (fun o => (o.from_, o.amount))))
        = .ok [[(2, 1 / 2 ^ 54)], [], [], []]
    ∧ (getGroupExpensesRounded roundDouble (some "token-a") 8 groupResidue).map
        (fun r => r.balances.map (fun mb => mb.owes.map (fun o => (o.to_, o.amount))))
        = .ok [[], [(1, 1 / 2 ^ 54)], [], []] :=
  ⟨by decide!, by decide!, rfl, by decide!, by decide!, by decide!⟩

/-- C34, amended: for a group with pairwise distinct members in which every
expense payer, every participant of an unpaid split other than the payer and
every settlement payer and receiver is a member, and no settlement has the same
payer and receiver, and a store whose amounts are multiples of `2 ^ (-k)` with
absolute values summing to at most `2 ^ 50` such multiples, so that no sum
rounds, the `totalBalance` of every member in the result of `getGroupExpenses`
is the sum of the amounts of the member's `owedBy` list minus the sum of the
amounts of the member's `owes` list. -/
theorem getGroupExpensesRounded_total_eq_lists (identity : Option String) (groupId : GroupId)
    (st : Store) (r : GroupExpenses) (group : Group) (k : Nat)
    (h : getGroupExpensesRounded roundDouble identity groupId st = .ok r)
    (hg : st.groups.find? (fun g => g._id == groupId) = some group)
    (hnd : (group.members.map (fun m => m.userId)).Nodup)
    (hexp : ∀ e ∈ st.expenses, e.groupId = some groupId →
      e.paidByUserId ∈ group.members.map (fun m => m.userId)
        ∧ ∀ s ∈ e.splits, s.userId ≠ e.paidByUserId → s.paid = false →
            s.userId ∈ group.members.map (fun m => m.userId))
    (hset : ∀ s ∈ st.settlements, s.groupId = some groupId →
      s.paidByUserId ∈ group.members.map (fun m => m.userId)
        ∧ s.receivedByUserId ∈ group.members.map (fun m => m.userId)
        ∧ s.paidByUserId ≠ s.receivedByUserId)
    (hexact : ExactAmounts k st) :
    ∀ mb ∈ r.balances,
      mb.totalBalance
        = some ((mb.owedBy.map (fun o => o.amount)).sum - (mb.owes.map (fun o => o.amount)).sum) := by
  rw [getGroupExpensesRounded_exact k identity groupId st hexact] at h
  exact getGroupExpenses_total_eq_lists identity groupId st r group h hg hnd hexp hset

theorem getGroupExpensesRounded_total_eq_lists_witness :
    ExactAmounts 0 scenario3
    ∧ (getGroupExpensesRounded roundDouble (some "token-a") 7 scenario3).map
        (fun r => r.balances.map (fun mb =>
          (mb.totalBalance, mb.owedBy.map (fun o => o.amount), mb.owes.map (fun o => o.amount))))
      = .ok [(some 6, [6], []), (some 0, [], []), (some (-6), [], [6])]
    ∧ ∃ r, getGroupExpensesRounded roundDouble (some "token-a") 7 scenario3 = .ok r
      ∧ ∀ mb ∈ r.balances,
          mb.totalBalance
            = some ((mb.owedBy.map (fun o => o.amount)).sum
                - (mb.owes.map (fun o => o.amount)).sum) := by
  have hex : ExactAmounts 0 scenario3 :=
    exactAmounts_of_den 0 scenario3 (by decide) (by decide!) (by decide!) (by decide!)
  refine ⟨hex, by decide!, ?_⟩
  obtain ⟨r, hr⟩ := except_ok_of_toBool
    (getGroupExpensesRounded roundDouble (some "token-a") 7 scenario3) (by decide!)
  exact ⟨r, hr, getGroupExpensesRounded_total_eq_lists (some "token-a") 7 scenario3 r trip 0 hr
    rfl (by decide) (by decide) (by decide) hex⟩

/-! ### Rounding twice -/

theorem roundHalfEven_abs_le (y : ℚ) (N : Int) (h : |y| ≤ N) : |roundHalfEven y| ≤ N := by
  have h1 : -(N : ℚ) ≤ y := by linarith [neg_abs_le y]
  have h2 : y ≤ N := le_trans (le_abs_self y) h
  have hf1 : -N ≤ ⌊y⌋ := by
    rw [Int.le_floor]
    push_cast
    exact h1
  have hf2 : ⌊y⌋ ≤ N := by
    have := Int.floor_le y
    exact_mod_cast le_trans this h2
  have hf3 : 0 < y - ⌊y⌋ → ⌊y⌋ + 1 ≤ N := by
    intro hpos
    have : (⌊y⌋ : ℚ) < N := by linarith
    have : ⌊y⌋ < N := by exact_mod_cast this
    omega
  unfold roundHalfEven
  simp only []
  rw [abs_le]
  by_cases c1 : y - ⌊y⌋ < 1 / 2
  · rw [if_pos c1]
    exact ⟨hf1, hf2⟩
  · rw [if_neg c1]
    have hpos : 0 < y - ⌊y⌋ := by linarith
    by_cases c2 : 1 / 2 < y - (⌊y⌋ : ℚ)
    · rw [if_pos c2]
      exact ⟨by omega, hf3 hpos⟩
    · rw [if_neg c2]
      by_cases c3 : ⌊y⌋ % 2 = 0
      · rw [if_pos c3]
        exact ⟨hf1, hf2⟩
      · rw [if_neg c3]
        exact ⟨by omega, hf3 hpos⟩

/-- An integer of magnitude below `2 ^ 53` times a power of two from
`2 ^ (-1074)` on is a binary64 value. -/
theorem roundDouble_of_scaled_lt (n e : Int) (he : -1074 ≤ e) (hn : |n| < 2 ^ 53) :
    roundDouble ((n : ℚ) * (2 : ℚ) ^ e) = (n : ℚ) * (2 : ℚ) ^ e := by
  have hpe : (0 : ℚ) < (2 : ℚ) ^ e := by positivity
  unfold roundDouble
  by_cases h0 : (n : ℚ) * (2 : ℚ) ^ e = 0
  · rw [if_pos h0, h0]
  · rw [if_neg h0]
    obtain ⟨hE1, _⟩ := binaryExponent_spec _ h0
    generalize binaryExponent ((n : ℚ) * (2 : ℚ) ^ e) = E at hE1
    have hnq : |(n : ℚ)| < 2 ^ 53 := by
      have : ((|n| : Int) : ℚ) < ((2 ^ 53 : Int) : ℚ) := by exact_mod_cast hn
      simpa using this
    have hElt : E < 53 + e := by
      by_contra hcon
      push_neg at hcon
      have h1 : (2 : ℚ) ^ (53 + e) ≤ |(n : ℚ) * (2 : ℚ) ^ e| :=
        le_trans (zpow_le_zpow_right₀ (by norm_num) hcon) hE1
      rw [abs_mul, abs_of_pos hpe, zpow_add₀ (by norm_num : (2 : ℚ) ≠ 0)] at h1
      have h2 : (2 : ℚ) ^ (53 : Int) ≤ |(n : ℚ)| := le_of_mul_le_mul_right h1 hpe
      have h3 : (2 : ℚ) ^ (53 : Int) = 2 ^ 53 := by norm_num
      linarith
    have hle : max (E - 52) (-1074) ≤ e := by
      apply max_le <;> omega
    generalize max (E - 52) (-1074) = e' at hle
    obtain ⟨j, hj⟩ := Int.eq_ofNat_of_zero_le (show 0 ≤ e - e' by omega)
    have hdiv : (n : ℚ) * (2 : ℚ) ^ e / pow2 e' = ((n * 2 ^ j : Int) : ℚ) := by
      rw [pow2_eq_zpow]
      have he2 : e = e' + j := by omega
      rw [he2]
      push_cast
      rw [zpow_add₀ (by norm_num : (2 : ℚ) ≠ 0), zpow_natCast]
      have : (0 : ℚ) < (2 : ℚ) ^ e' := by positivity
      field_simp
      ring
    simp only []
    rw [hdiv, roundHalfEven_intCast, ← hdiv]
    have hp := pow2_pos e'
    field_simp

theorem roundDouble_of_scaled (n e : Int) (he : -1074 ≤ e) (hn : |n| ≤ 2 ^ 53) :
    roundDouble ((n : ℚ) * (2 : ℚ) ^ e) = (n : ℚ) * (2 : ℚ) ^ e := by
  rcases lt_or_eq_of_le hn with hlt | heq
  · exact roundDouble_of_scaled_lt n e he hlt
  · have hn2 : n = 2 * (n / 2) := by
      rcases abs_eq (by norm_num : (0 : Int) ≤ 2 ^ 53) |>.mp heq with h | h <;> rw [h] <;> norm_num
    have hhalf : |n / 2| < 2 ^ 53 := by
      rcases abs_eq (by norm_num : (0 : Int) ≤ 2 ^ 53) |>.mp heq with h | h <;> rw [h] <;> norm_num
    have hx : (n : ℚ) * (2 : ℚ) ^ e = ((n / 2 : Int) : ℚ) * (2 : ℚ) ^ (e + 1) := by
      rw [zpow_add₀ (by norm_num : (2 : ℚ) ≠ 0), zpow_one]
      have : (n : ℚ) = 2 * ((n / 2 : Int) : ℚ) := by exact_mod_cast hn2
      rw [this]
      have hh : ((2 * ((n / 2 : Int) : ℚ) : ℚ)) = (((2 * (n / 2) : Int)) : ℚ) := by push_cast; ring
      rw [hh, ← hn2, this]
      ring
    rw [hx]
    exact roundDouble_of_scaled_lt (n / 2) (e + 1) (by omega) hhalf

/-- A value of `roundDouble` is a binary64 value: rounding it again returns it. -/
theorem roundDouble_idem (q : ℚ) : roundDouble (roundDouble q) = roundDouble q := by
  by_cases h0 : q = 0
  · rw [h0, roundDouble_zero, roundDouble_zero]
  · have hval : roundDouble q
        = ((roundHalfEven (q / pow2 (max (binaryExponent q - 52) (-1074))) : Int) : ℚ)
            * (2 : ℚ) ^ (max (binaryExponent q - 52) (-1074)) := by
      unfold roundDouble
      rw [if_neg h0]
      simp only [pow2_eq_zpow]
    obtain ⟨_, hE2⟩ := binaryExponent_spec q h0
    generalize binaryExponent q = E at hval hE2
    have hge : -1074 ≤ max (E - 52) (-1074) := le_max_right _ _
    have hge2 : E - 52 ≤ max (E - 52) (-1074) := le_max_left _ _
    generalize max (E - 52) (-1074) = e at hval hge hge2
    have hpe : (0 : ℚ) < (2 : ℚ) ^ e := by positivity
    have hbound : |q / pow2 e| ≤ ((2 ^ 53 : Int) : ℚ) := by
      rw [pow2_eq_zpow, abs_div, abs_of_pos hpe, div_le_iff₀ hpe]
      push_cast
      have h1 : (2 : ℚ) ^ (E + 1) ≤ (2 : ℚ) ^ (53 + e) :=
        zpow_le_zpow_right₀ (by norm_num) (by omega)
      have h3 : (2 : ℚ) ^ (53 + e) = 9007199254740992 * (2 : ℚ) ^ e := by
        rw [zpow_add₀ (by norm_num : (2 : ℚ) ≠ 0)]
        norm_num
      linarith
    have hn := roundHalfEven_abs_le _ _ hbound
    rw [hval]
    exact roundDouble_of_scaled _ e hge hn

/-! ### getUserBalances in rounded arithmetic: which counterparties are listed -/

theorem nodup_keys_balancesApplyExpenseRounded (R : ℚ → ℚ) (userId : UserId) (vars : BalanceVars)
    (e : Expense) (h : (vars.balanceByUser.map Prod.fst).Nodup) :
    ((balancesApplyExpenseRounded R userId vars e).balanceByUser.map Prod.fst).Nodup := by
  unfold balancesApplyExpenseRounded
  simp only []
  by_cases hp : e.paidByUserId = userId
  · rw [if_pos hp]
    refine foldl_preserve _ (fun v : BalanceVars => (v.balanceByUser.map Prod.fst).Nodup) ?_ _ _ h
    intro z s hz
    unfold balancesApplyPayerSplitRounded
    by_cases hc : s.userId = userId ∨ s.paid = true
    · rw [if_pos hc]; exact hz
    · rw [if_neg hc]
      exact nodup_keys_objUpdate _ _ _ hz
  · rw [if_neg hp]
    cases e.splits.find? (fun s => s.userId == userId) with
    | none => exact h
    | some mySplit =>
      simp only []
      by_cases hpaid : mySplit.paid = true
      · rw [if_pos hpaid]; exact h
      · rw [if_neg hpaid]
        exact nodup_keys_objUpdate _ _ _ h

theorem nodup_keys_balancesApplySettlementRounded (R : ℚ → ℚ) (userId : UserId)
    (vars : BalanceVars) (s : Settlement) (h : (vars.balanceByUser.map Prod.fst).Nodup) :
    ((balancesApplySettlementRounded R userId vars s).balanceByUser.map Prod.fst).Nodup := by
  unfold balancesApplySettlementRounded
  by_cases hp : s.paidByUserId = userId
  · rw [if_pos hp]
    exact nodup_keys_objUpdate _ _ _ h
  · rw [if_neg hp]
    exact nodup_keys_objUpdate _ _ _ h

/-- The keys of `balanceByUser` are pairwise distinct. -/
theorem balanceLoopsRounded_nodup (R : ℚ → ℚ) (userId : UserId) (st : Store) :
    ((balanceLoopsRounded R userId st).balanceByUser.map Prod.fst).Nodup := by
  unfold balanceLoopsRounded
  simp only []
  refine foldl_preserve _ (fun v : BalanceVars => (v.balanceByUser.map Prod.fst).Nodup)
    (fun z s hz => nodup_keys_balancesApplySettlementRounded R userId z s hz) _ _ ?_
  refine foldl_preserve _ (fun v : BalanceVars => (v.balanceByUser.map Prod.fst).Nodup)
    (fun z e hz => nodup_keys_balancesApplyExpenseRounded R userId z e hz) _ _ ?_
  simp

theorem pushOweEntryRounded_eq_pushOweEntry (R : ℚ → ℚ) (st : Store)
    (lists : List OweEntry × List OweEntry) (entry : UserId × OwedOwing) :
    pushOweEntryRounded R st lists entry = pushOweEntry st lists (netEntryRounded R entry) := by
  unfold pushOweEntryRounded pushOweEntry netEntryRounded
  simp only [sub_zero]

theorem foldl_pushOweEntryRounded (R : ℚ → ℚ) (st : Store) (m : List (UserId × OwedOwing))
    (lists : List OweEntry × List OweEntry) :
    m.foldl (pushOweEntryRounded R st) lists
      = (lists.1 ++ (m.map (netEntryRounded R)).filterMap (oweEntryOf st false),
          lists.2 ++ (m.map (netEntryRounded R)).filterMap (oweEntryOf st true)) := by
  rw [← foldl_pushOweEntry, List.foldl_map]
  congr 1
  funext l e
  exact pushOweEntryRounded_eq_pushOweEntry R st l e

theorem objGet_map_netEntryRounded (R : ℚ → ℚ) (m : List (UserId × OwedOwing)) (k : UserId) :
    objGet (m.map (netEntryRounded R)) k
      = (objGet m k).map (fun b => { owed := R (b.owed - b.owing), owing := 0 }) := by
  induction m with
  | nil => rfl
  | cons p m ih =>
    obtain ⟨k0, v0⟩ := p
    by_cases h0 : k0 = k
    · simp [objGet, netEntryRounded, h0]
    · simp only [List.map_cons, objGet, netEntryRounded, if_neg h0]
      exact ih

theorem keys_map_netEntryRounded (R : ℚ → ℚ) (m : List (UserId × OwedOwing)) :
    (m.map (netEntryRounded R)).map Prod.fst = m.map Prod.fst := by
  rw [List.map_map]
  rfl

/-- The result of `getUserBalancesRounded` for an authenticated caller. -/
theorem getUserBalancesRounded_eq_lists (R : ℚ → ℚ) (identity : Option String) (st : Store)
    (user : User) (hauth : getCurrentUser identity st = .ok user) :
    getUserBalancesRounded R identity st
      = .ok
        { youOwe := (balanceLoopsRounded R user._id st).youOwe
          youAreOwed := (balanceLoopsRounded R user._id st).youAreOwed
          totalBalance := R ((balanceLoopsRounded R user._id st).youAreOwed
            - (balanceLoopsRounded R user._id st).youOwe)
          oweDetails :=
            { youOwe := sortByAmountDesc
                (((balanceLoopsRounded R user._id st).balanceByUser.map
                  (netEntryRounded R)).filterMap (oweEntryOf st false))
              youAreOwedBy := sortByAmountDesc
                (((balanceLoopsRounded R user._id st).balanceByUser.map
                  (netEntryRounded R)).filterMap (oweEntryOf st true)) } } := by
  unfold getUserBalancesRounded
  rw [hauth]
  simp only [foldl_pushOweEntryRounded, List.nil_append]

/-- An entry of one of the two lists comes from a property of `balanceByUser`
whose net amount, as line 64 computes it, is not zero. -/
theorem mem_oweListRounded (R : ℚ → ℚ) (st : Store) (w : Bool) (m : List (UserId × OwedOwing))
    (hnd : (m.map Prod.fst).Nodup) (e : OweEntry)
    (h : e ∈ sortByAmountDesc ((m.map (netEntryRounded R)).filterMap (oweEntryOf st w))) :
    ∃ b, objGet m e.userId = some b ∧ e.amount = |R (b.owed - b.owing)|
      ∧ R (b.owed - b.owing) ≠ 0 ∧ decide (R (b.owed - b.owing) > 0) = w := by
  obtain ⟨b', hb', h2, h3, h4⟩ := mem_oweList st w _
    (by rw [keys_map_netEntryRounded]; exact hnd) e h
  rw [objGet_map_netEntryRounded] at hb'
  cases hb : objGet m e.userId with
  | none => rw [hb] at hb'; cases hb'
  | some b =>
    rw [hb] at hb'
    simp only [Option.map_some', Option.some.injEq] at hb'
    subst hb'
    simp only [sub_zero] at h2 h3 h4
    exact ⟨b, rfl, h2, h3, h4⟩

/-- A property of `balanceByUser` whose net amount is not zero gives an entry
of the list that the sign of the net amount selects. -/
theorem oweListRounded_mem (R : ℚ → ℚ) (st : Store) (m : List (UserId × OwedOwing))
    (hnd : (m.map Prod.fst).Nodup) (k : UserId) (b : OwedOwing)
    (hk : objGet m k = some b) (hne : R (b.owed - b.owing) ≠ 0) :
    ∃ e ∈ sortByAmountDesc ((m.map (netEntryRounded R)).filterMap
        (oweEntryOf st (decide (R (b.owed - b.owing) > 0)))),
      e.userId = k ∧ e.amount = |R (b.owed - b.owing)| := by
  have hmem : (k, b) ∈ m := (mem_iff_objGet m hnd k b).mpr hk
  refine ⟨{ userId := k
            name := match st.users.find? (fun u => u._id == k) with
              | some c => c.name
              | none => "Unknown"
            imageUrl := (st.users.find? (fun u => u._id == k)).bind (fun c => c.imageUrl)
            amount := |R (b.owed - b.owing)| }, ?_, rfl, rfl⟩
  simp only [sortByAmountDesc]
  rw [(List.perm_insertionSort _ _).mem_iff, List.mem_filterMap]
  refine ⟨netEntryRounded R (k, b), List.mem_map.mpr ⟨(k, b), hmem, rfl⟩, ?_⟩
  unfold oweEntryOf netEntryRounded
  simp only [sub_zero]
  rw [if_neg hne, if_pos trivial]
  try rfl

/-! ### Zero nets, in binary64 -/

/-- C11: a counterparty whose accumulated `owed` equals its accumulated
`owing` after the two loops of `getUserBalances`, both accumulated in binary64
as the handler accumulates them, is in neither the `youOwe` list nor the
`youAreOwedBy` list. The amounts of the store are such that no sum overflows. -/
theorem getUserBalancesRounded_zero_net_omitted (identity : Option String) (st : Store)
    (user : User) (k : UserId) (b : OwedOwing)
    (hauth : getCurrentUser identity st = .ok user)
    (_hfinite : amountsMagnitude st < 2 ^ 1023)
    (hk : objGet (balanceLoopsRounded roundDouble user._id st).balanceByUser k = some b)
    (hzero : b.owed = b.owing) :
    ∃ r, getUserBalancesRounded roundDouble identity st = .ok r
      ∧ (∀ e ∈ r.oweDetails.youOwe, e.userId ≠ k)
      ∧ (∀ e ∈ r.oweDetails.youAreOwedBy, e.userId ≠ k) := by
  refine ⟨_, getUserBalancesRounded_eq_lists roundDouble identity st user hauth, ?_, ?_⟩
  · intro e he hek
    obtain ⟨b', hb', _, hne, _⟩ := mem_oweListRounded roundDouble st false _
      (balanceLoopsRounded_nodup roundDouble user._id st) e he
    rw [hek, hk] at hb'
    cases hb'
    exact hne (by rw [hzero, sub_self, roundDouble_zero])
  · intro e he hek
    obtain ⟨b', hb', _, hne, _⟩ := mem_oweListRounded roundDouble st true _
      (balanceLoopsRounded_nodup roundDouble user._id st) e he
    rw [hek, hk] at hb'
    cases hb'
    exact hne (by rw [hzero, sub_self, roundDouble_zero])

theorem getUserBalancesRounded_zero_net_omitted_witness :
    (amountsMagnitude scenario2 < 2 ^ 1023
      ∧ objGet (balanceLoopsRounded roundDouble 1 scenario2).balanceByUser 2
          = some { owed := 0, owing := 0 })
    ∧ (∃ r, getUserBalancesRounded roundDouble (some "token-a") scenario2 = .ok r
      ∧ (∀ e ∈ r.oweDetails.youOwe, e.userId ≠ 2)
      ∧ (∀ e ∈ r.oweDetails.youAreOwedBy, e.userId ≠ 2))
    ∧ (getUserBalancesRounded roundDouble (some "token-a") scenario2).map
        (fun r => (r.oweDetails.youOwe, r.oweDetails.youAreOwedBy)) = .ok ([], [])
    ∧ (getExpensesBetweenUsersRounded roundDouble (some "token-a") 2 scenario2).map
        (fun r => r.balance) = .ok 0
    ∧ (objGet (balanceLoopsRounded roundDouble 1 residueSettled).balanceByUser 2
          = some { owed := 1 / 2 ^ 54, owing := 0 }
      ∧ (getUserBalancesRounded roundDouble (some "token-a") residueSettled).map
          (fun r => r.oweDetails.youAreOwedBy.map (fun e => (e.userId, e.amount)))
          = .ok [(2, 1 / 2 ^ 54)]) :=
  ⟨⟨by decide!, by decide!⟩,
    getUserBalancesRounded_zero_net_omitted (some "token-a") scenario2 userA 2
      { owed := 0, owing := 0 } rfl (by decide!) (by decide!) rfl,
    by decide!, by decide!, by decide!, by decide!⟩

/-! ### getGroupExpenses in rounded arithmetic: the loops as a fold over events -/

theorem minusAssignRounded_eq_plusAssignRounded (R : ℚ → ℚ) (m : List (UserId × Option ℚ))
    (k : UserId) (d : ℚ) : minusAssignRounded R m k d = plusAssignRounded R m k (-d) := by
  unfold minusAssignRounded plusAssignRounded
  congr 1
  funext o
  congr 1
  funext x
  rw [sub_eq_add_neg]

theorem groupApplySplitRounded_event (R : ℚ → ℚ) (payer : UserId)
    (acc : Except String (Totals × Ledger)) (split : Split) :
    groupApplySplitRounded R payer acc split
      = if split.userId = payer ∨ split.paid = true then acc
        else applyGroupEventRounded R acc
          { plus := payer, minus := split.userId, amount := split.amount,
            row := split.userId, col := payer, delta := split.amount } := by
  unfold groupApplySplitRounded applyGroupEventRounded
  cases acc with
  | error e => simp
  | ok p =>
    obtain ⟨totals, ledger⟩ := p
    by_cases hc : split.userId = payer ∨ split.paid = true
    · simp only [if_pos hc]
    · simp only [if_neg hc]

theorem groupApplyExpenseRounded_events (R : ℚ → ℚ) (acc : Except String (Totals × Ledger))
    (exp : Expense) :
    groupApplyExpenseRounded R acc exp
      = (expenseGroupEvents exp).foldl (applyGroupEventRounded R) acc := by
  unfold groupApplyExpenseRounded expenseGroupEvents
  generalize exp.splits = l
  induction l generalizing acc with
  | nil => rfl
  | cons s l ih =>
    rw [List.foldl_cons, ih, groupApplySplitRounded_event]
    by_cases hc : s.userId = exp.paidByUserId ∨ s.paid = true
    · simp only [if_pos hc, List.filterMap_cons]
    · simp only [if_neg hc, List.filterMap_cons, List.foldl_cons]

theorem groupApplySettlementRounded_event (R : ℚ → ℚ) (acc : Except String (Totals × Ledger))
    (s : Settlement) :
    groupApplySettlementRounded R acc s = applyGroupEventRounded R acc (settlementGroupEvent s) := by
  unfold groupApplySettlementRounded applyGroupEventRounded settlementGroupEvent
  cases acc with
  | error e => rfl
  | ok p =>
    obtain ⟨totals, ledger⟩ := p
    simp only []
    cases objGet ledger s.paidByUserId with
    | none => rfl
    | some row => simp only [minusAssignRounded_eq_plusAssignRounded R row]

theorem groupLoopsRounded_events (R : ℚ → ℚ) (ids : List UserId) (groupId : GroupId)
    (st : Store) :
    groupLoopsRounded R ids groupId st
      = (groupEvents groupId st).foldl (applyGroupEventRounded R)
          (.ok (initTotals ids, initLedger ids)) := by
  unfold groupLoopsRounded groupEvents
  simp only []
  rw [List.foldl_append]
  generalize (Except.ok (initTotals ids, initLedger ids) : Except String (Totals × Ledger)) = acc
  generalize st.expenses.filter (fun e => e.groupId == some groupId) = es
  generalize st.settlements.filter (fun s => s.groupId == some groupId) = ss
  have h1 : ∀ acc, es.foldl (groupApplyExpenseRounded R) acc
      = (es.flatMap expenseGroupEvents).foldl (applyGroupEventRounded R) acc := by
    induction es with
    | nil => intro acc; rfl
    | cons e es ih =>
      intro acc
      rw [List.foldl_cons, ih, groupApplyExpenseRounded_events, List.flatMap_cons,
        List.foldl_append]
  have h2 : ∀ acc, ss.foldl (groupApplySettlementRounded R) acc
      = (ss.map settlementGroupEvent).foldl (applyGroupEventRounded R) acc := by
    induction ss with
    | nil => intro acc; rfl
    | cons s ss ih =>
      intro acc
      rw [List.foldl_cons, ih, groupApplySettlementRounded_event, List.map_cons, List.foldl_cons]
  rw [h1, h2]

theorem ledgerCell_objUpdate_plusAssignRounded (R : ℚ → ℚ) (ledger : Ledger) (r c a b : UserId)
    (d : ℚ) (row : List (UserId × Option ℚ)) (hrow : objGet ledger r = some row) :
    ledgerCell (objUpdate ledger r (fun _ => plusAssignRounded R row c d)) a b
      = if a = r ∧ b = c then (ledgerCell ledger a b).map (fun x => R (x + d))
        else ledgerCell ledger a b := by
  unfold ledgerCell plusAssignRounded
  rw [objGet_objUpdate]
  by_cases ha : a = r
  · subst ha
    rw [if_pos rfl, Option.some_bind, objGet_objUpdate, hrow, Option.some_bind]
    by_cases hb : b = c
    · subst hb
      rw [if_pos rfl, if_pos ⟨rfl, rfl⟩]
      rfl
    · rw [if_neg hb, if_neg (fun h => hb h.2)]
  · rw [if_neg ha, if_neg (fun h => ha h.1)]

theorem foldl_applyGroupEventRounded_error (R : ℚ → ℚ) (evs : List GroupEvent) (e : String) :
    evs.foldl (applyGroupEventRounded R) (.error e) = .error e := by
  induction evs with
  | nil => rfl
  | cons ev evs ih => rw [List.foldl_cons]; exact ih

/-- The cell `(a, b)` after a list of events that does not throw: the deltas
of the events of that cell, added one after the other to its initial value,
every sum rounded. -/
theorem ledgerCell_foldl_applyGroupEventRounded (R : ℚ → ℚ) (evs : List GroupEvent)
    (totals totals' : Totals) (ledger ledger' : Ledger) (a b : UserId)
    (h : evs.foldl (applyGroupEventRounded R) (.ok (totals, ledger)) = .ok (totals', ledger')) :
    ledgerCell ledger' a b
      = (ledgerCell ledger a b).map (fun x =>
          (evs.filter (fun ev => ev.row == a && ev.col == b)).foldl
            (fun v ev => R (v + ev.delta)) x) := by
  induction evs generalizing totals ledger with
  | nil =>
    simp only [List.foldl_nil, Except.ok.injEq, Prod.mk.injEq] at h
    rw [h.2]
    cases ledgerCell ledger' a b <;> simp
  | cons ev evs ih =>
    rw [List.foldl_cons] at h
    cases hrow : objGet ledger ev.row with
    | none =>
      simp only [applyGroupEventRounded, hrow, foldl_applyGroupEventRounded_error] at h
      cases h
    | some row =>
      simp only [applyGroupEventRounded, hrow] at h
      rw [ih _ _ h,
        ledgerCell_objUpdate_plusAssignRounded R ledger ev.row ev.col a b ev.delta row hrow]
      by_cases hc : a = ev.row ∧ b = ev.col
      · have hc' : (ev.row == a && ev.col == b) = true := by simp [hc.1, hc.2]
        rw [if_pos hc, List.filter_cons, if_pos hc']
        cases ledgerCell ledger a b <;> simp
      · have hc' : (ev.row == a && ev.col == b) = false := by
          rw [Bool.eq_false_iff]
          intro hh
          simp only [Bool.and_eq_true, beq_iff_eq] at hh
          exact hc ⟨hh.1.symm, hh.2.symm⟩
        rw [if_neg hc, List.filter_cons, hc']
        rfl

theorem rowsNodup_foldl_applyGroupEventRounded (R : ℚ → ℚ) (evs : List GroupEvent)
    (totals totals' : Totals) (ledger ledger' : Ledger) (hnd : RowsNodup ledger)
    (h : evs.foldl (applyGroupEventRounded R) (.ok (totals, ledger)) = .ok (totals', ledger')) :
    RowsNodup ledger' := by
  induction evs generalizing totals ledger with
  | nil =>
    simp only [List.foldl_nil, Except.ok.injEq, Prod.mk.injEq] at h
    rw [← h.2]
    exact hnd
  | cons ev evs ih =>
    rw [List.foldl_cons] at h
    cases hrow : objGet ledger ev.row with
    | none =>
      simp only [applyGroupEventRounded, hrow, foldl_applyGroupEventRounded_error] at h
      cases h
    | some row =>
      simp only [applyGroupEventRounded, hrow] at h
      refine ih _ _ ?_ h
      apply rowsNodup_objUpdate _ _ _ hnd
      exact nodup_keys_objUpdate _ _ _ (hnd ev.row row hrow)

/-! ### getGroupExpenses in rounded arithmetic: a cell and the specification's accumulation -/

theorem foldl_expenseGroupEvents_cell (R : ℚ → ℚ) (e : Expense) (a b : UserId) (hab : a ≠ b)
    (v : ℚ) :
    ((expenseGroupEvents e).filter (fun ev => ev.row == a && ev.col == b)).foldl
        (fun v ev => R (v + ev.delta)) v
      = if e.paidByUserId = b then
          (e.splits.filter (fun s => s.userId == a && !s.paid)).foldl
            (fun v s => R (v + s.amount)) v
        else v := by
  unfold expenseGroupEvents
  generalize e.splits = l
  induction l generalizing v with
  | nil => simp
  | cons s l ih =>
    rw [List.filterMap_cons]
    by_cases hc : s.userId = e.paidByUserId ∨ s.paid = true
    · rw [if_pos hc]
      simp only []
      rw [ih]
      have hf : (s.userId == a && !s.paid) = false ∨ e.paidByUserId ≠ b := by
        rcases hc with h | h
        · by_cases hb : e.paidByUserId = b
          · left
            have : s.userId ≠ a := by rw [h, hb]; exact Ne.symm hab
            simp [this]
          · right; exact hb
        · left; simp [h]
      by_cases hb : e.paidByUserId = b
      · rw [if_pos hb, if_pos hb, List.filter_cons]
        rcases hf with hf | hf
        · rw [hf]; rfl
        · exact absurd hb hf
      · rw [if_neg hb, if_neg hb]
    · rw [if_neg hc]
      simp only []
      rw [not_or] at hc
      have hpaid : s.paid = false := by simpa using hc.2
      rw [List.filter_cons]
      by_cases hcell : s.userId = a ∧ e.paidByUserId = b
      · have h1 : (s.userId == a && e.paidByUserId == b) = true := by simp [hcell.1, hcell.2]
        have h2 : (s.userId == a && !s.paid) = true := by simp [hcell.1, hpaid]
        simp only [h1, if_true, List.foldl_cons]
        rw [ih, if_pos hcell.2, if_pos hcell.2, List.filter_cons, h2]
        rfl
      · have h1 : (s.userId == a && e.paidByUserId == b) = false := by
          rw [Bool.eq_false_iff]
          intro hh
          simp only [Bool.and_eq_true, beq_iff_eq] at hh
          exact hcell hh
        simp only [h1, Bool.false_eq_true, if_false]
        rw [ih]
        by_cases hb : e.paidByUserId = b
        · have h2 : (s.userId == a && !s.paid) = false := by
            have : s.userId ≠ a := fun h => hcell ⟨h, hb⟩
            simp [this]
          rw [if_pos hb, if_pos hb, List.filter_cons, h2]
          rfl
        · rw [if_neg hb, if_neg hb]

theorem foldl_expensesGroupEvents_cell (R : ℚ → ℚ) (es : List Expense) (a b : UserId)
    (hab : a ≠ b) (v : ℚ) :
    ((es.flatMap expenseGroupEvents).filter (fun ev => ev.row == a && ev.col == b)).foldl
        (fun v ev => R (v + ev.delta)) v
      = (es.filter (fun e => e.paidByUserId == b)).foldl
          (fun v e =>
            (e.splits.filter (fun s => s.userId == a && !s.paid)).foldl
              (fun v s => R (v + s.amount)) v) v := by
  induction es generalizing v with
  | nil => rfl
  | cons e es ih =>
    rw [List.flatMap_cons, List.filter_append, List.foldl_append,
      foldl_expenseGroupEvents_cell R e a b hab, ih, List.filter_cons]
    by_cases hb : e.paidByUserId = b
    · have : (e.paidByUserId == b) = true := by simp [hb]
      rw [if_pos hb, this]
      rfl
    · have : (e.paidByUserId == b) = false := by simp [hb]
      rw [if_neg hb, this]
      rfl

theorem foldl_settlementGroupEvents_cell (R : ℚ → ℚ) (ss : List Settlement) (a b : UserId)
    (v : ℚ) :
    ((ss.map settlementGroupEvent).filter (fun ev => ev.row == a && ev.col == b)).foldl
        (fun v ev => R (v + ev.delta)) v
      = (ss.filter (fun s => s.paidByUserId == a && s.receivedByUserId == b)).foldl
          (fun v s => R (v - s.amount)) v := by
  induction ss generalizing v with
  | nil => rfl
  | cons s ss ih =>
    rw [List.map_cons, List.filter_cons, List.filter_cons]
    by_cases hc : (s.paidByUserId == a && s.receivedByUserId == b) = true
    · have hc' : ((settlementGroupEvent s).row == a && (settlementGroupEvent s).col == b) = true :=
        hc
      rw [if_pos hc', if_pos hc, List.foldl_cons, List.foldl_cons, ih]
      have : v + (settlementGroupEvent s).delta = v - s.amount := by
        simp only [settlementGroupEvent]
        ring
      rw [this]
    · have hc' : ¬ ((settlementGroupEvent s).row == a && (settlementGroupEvent s).col == b) = true :=
        hc
      rw [if_neg hc', if_neg hc, ih]

/-- The events of the cell `(a, b)`, folded with rounding, give the
accumulation `raw[a][b]` of the specification. -/
theorem foldl_groupEvents_cell (R : ℚ → ℚ) (groupId : GroupId) (st : Store) (a b : UserId)
    (hab : a ≠ b) :
    ((groupEvents groupId st).filter (fun ev => ev.row == a && ev.col == b)).foldl
        (fun v ev => R (v + ev.delta)) 0
      = specRawOwesRounded R groupId st a b := by
  unfold groupEvents specRawOwesRounded
  rw [List.filter_append, List.foldl_append, foldl_expensesGroupEvents_cell R _ a b hab,
    foldl_settlementGroupEvents_cell, List.filter_filter, List.filter_filter]
  simp only []
  have h1 : (fun e : Expense => (e.paidByUserId == b && e.groupId == some groupId))
      = (fun e : Expense => (e.groupId == some groupId && e.paidByUserId == b)) := by
    funext e; exact Bool.and_comm _ _
  have h2 : (fun s : Settlement =>
        ((s.paidByUserId == a && s.receivedByUserId == b) && s.groupId == some groupId))
      = (fun s : Settlement =>
        (s.groupId == some groupId && s.paidByUserId == a && s.receivedByUserId == b)) := by
    funext s
    cases (s.paidByUserId == a) <;> cases (s.receivedByUserId == b)
      <;> cases (s.groupId == some groupId) <;> rfl
  rw [h1, h2]

/-! ### getGroupExpenses in rounded arithmetic: netting -/

theorem ledgerCell_netPairRounded_other (R : ℚ → ℚ) (ledger : Ledger) (a' b' p q : UserId)
    (h1 : ¬ (p = a' ∧ q = b')) (h2 : ¬ (p = b' ∧ q = a')) :
    ledgerCell (netPairRounded R a' ledger b') p q = ledgerCell ledger p q := by
  unfold netPairRounded
  by_cases hge : a' ≥ b'
  · rw [if_pos hge]
  · rw [if_neg hge]
    split
    · simp only []
      split_ifs <;> simp only [ledgerCell_setLedgerCell, if_neg h1, if_neg h2]
    · simp only [ledgerCell_setLedgerCell, if_neg h1, if_neg h2]

theorem ledgerCell_netPairRounded_same (R : ℚ → ℚ) (ledger : Ledger) (a' b' : UserId) (x y : ℚ)
    (hlt : a' < b') (hx : ledgerCell ledger a' b' = some x)
    (hy : ledgerCell ledger b' a' = some y) :
    ledgerCell (netPairRounded R a' ledger b') a' b' = some (max (R (x - y)) 0)
      ∧ ledgerCell (netPairRounded R a' ledger b') b' a' = some (max (-(R (x - y))) 0) := by
  have hne : a' ≠ b' := Nat.ne_of_lt hlt
  have hne' : b' ≠ a' := Ne.symm hne
  unfold netPairRounded
  rw [if_neg (Nat.not_le.mpr hlt), hx, hy]
  simp only []
  generalize R (x - y) = d
  by_cases hpos : d > 0
  · rw [if_pos hpos]
    simp only [ledgerCell_setLedgerCell]
    rw [max_eq_left (le_of_lt hpos), max_eq_right (by linarith)]
    simp [hne, hne']
  · rw [if_neg hpos]
    by_cases hneg : d < 0
    · rw [if_pos hneg]
      simp only [ledgerCell_setLedgerCell]
      rw [max_eq_right (le_of_lt hneg), max_eq_left (by linarith)]
      simp [hne, hne']
    · rw [if_neg hneg]
      have hz : d = 0 := le_antisymm (not_lt.mp hpos) (not_lt.mp hneg)
      simp only [ledgerCell_setLedgerCell]
      rw [hz]
      simp [hne, hne']

theorem pairDiffRounded_of_pairNetted (R : ℚ → ℚ) (ledger : Ledger) (a b : UserId) (d : ℚ)
    (hd : R d = d) (h : PairNetted ledger a b d) : PairDiffRounded R ledger a b d :=
  ⟨_, _, h.1, h.2, by rw [max_sub_max_neg, hd]⟩

theorem pairNetted_netPairRounded_same (R : ℚ → ℚ) (hodd : ∀ x, R (-x) = -R x)
    (ledger : Ledger) (a' b' a b : UserId) (d : ℚ) (hlt : a' < b')
    (hpair : (a = a' ∧ b = b') ∨ (a = b' ∧ b = a')) (h : PairDiffRounded R ledger a b d) :
    PairNetted (netPairRounded R a' ledger b') a b d := by
  obtain ⟨x, y, hx, hy, hd⟩ := h
  rcases hpair with ⟨rfl, rfl⟩ | ⟨rfl, rfl⟩
  · have := ledgerCell_netPairRounded_same R ledger a b x y hlt hx hy
    rw [hd] at this
    exact this
  · have := ledgerCell_netPairRounded_same R ledger b a y x hlt hy hx
    have hd' : R (y - x) = -d := by
      rw [← hd, ← hodd]
      congr 1
      ring
    rw [hd', neg_neg] at this
    exact ⟨this.2, this.1⟩

theorem pairDiffRounded_netPairRounded (R : ℚ → ℚ) (hodd : ∀ x, R (-x) = -R x)
    (ledger : Ledger) (a' b' a b : UserId) (d : ℚ) (hd : R d = d)
    (h : PairDiffRounded R ledger a b d) :
    PairDiffRounded R (netPairRounded R a' ledger b') a b d := by
  by_cases hlt : a' < b'
  · by_cases hpair : (a = a' ∧ b = b') ∨ (a = b' ∧ b = a')
    · exact pairDiffRounded_of_pairNetted R _ _ _ _ hd
        (pairNetted_netPairRounded_same R hodd ledger a' b' a b d hlt hpair h)
    · obtain ⟨x, y, hx, hy, hxy⟩ := h
      rw [not_or] at hpair
      refine ⟨x, y, ?_, ?_, hxy⟩
      · rw [ledgerCell_netPairRounded_other R ledger a' b' a b hpair.1 hpair.2, hx]
      · rw [ledgerCell_netPairRounded_other R ledger a' b' b a (fun hh => hpair.2 ⟨hh.2, hh.1⟩)
          (fun hh => hpair.1 ⟨hh.2, hh.1⟩), hy]
  · unfold netPairRounded
    rw [if_pos (Nat.not_lt.mp hlt)]
    exact h

theorem pairNetted_netPairRounded (R : ℚ → ℚ) (hodd : ∀ x, R (-x) = -R x)
    (ledger : Ledger) (a' b' a b : UserId) (d : ℚ) (hd : R d = d)
    (h : PairNetted ledger a b d) : PairNetted (netPairRounded R a' ledger b') a b d := by
  by_cases hlt : a' < b'
  · by_cases hpair : (a = a' ∧ b = b') ∨ (a = b' ∧ b = a')
    · exact pairNetted_netPairRounded_same R hodd ledger a' b' a b d hlt hpair
        (pairDiffRounded_of_pairNetted R _ _ _ _ hd h)
    · rw [not_or] at hpair
      refine ⟨?_, ?_⟩
      · rw [ledgerCell_netPairRounded_other R ledger a' b' a b hpair.1 hpair.2, h.1]
      · rw [ledgerCell_netPairRounded_other R ledger a' b' b a (fun hh => hpair.2 ⟨hh.2, hh.1⟩)
          (fun hh => hpair.1 ⟨hh.2, hh.1⟩), h.2]
  · unfold netPairRounded
    rw [if_pos (Nat.not_lt.mp hlt)]
    exact h

theorem rowsNodup_netPairRounded (R : ℚ → ℚ) (ledger : Ledger) (a b : UserId)
    (h : RowsNodup ledger) : RowsNodup (netPairRounded R a ledger b) := by
  unfold netPairRounded
  split_ifs
  · exact h
  · split
    · simp only []
      split_ifs <;> exact rowsNodup_setLedgerCell _ _ _ _ (rowsNodup_setLedgerCell _ _ _ _ h)
    · exact rowsNodup_setLedgerCell _ _ _ _ (rowsNodup_setLedgerCell _ _ _ _ h)

theorem rowsNodup_netLedgerRounded (R : ℚ → ℚ) (ids : List UserId) (ledger : Ledger)
    (h : RowsNodup ledger) : RowsNodup (netLedgerRounded R ids ledger) := by
  unfold netLedgerRounded
  apply foldl_preserve _ RowsNodup _ _ _ h
  intro z a hz
  exact foldl_preserve _ RowsNodup (fun z b hz => rowsNodup_netPairRounded R z a b hz) _ _ hz

/-- After the netting loop every pair of distinct member ids is netted. -/
theorem pairNetted_netLedgerRounded (R : ℚ → ℚ) (hodd : ∀ x, R (-x) = -R x)
    (ids : List UserId) (ledger : Ledger) (a b : UserId) (d : ℚ)
    (ha : a ∈ ids) (hb : b ∈ ids) (hab : a ≠ b) (hd : R d = d)
    (h : PairDiffRounded R ledger a b d) :
    PairNetted (netLedgerRounded R ids ledger) a b d := by
  unfold netLedgerRounded
  have hPin : ∀ a' z, PairDiffRounded R z a b d →
      PairDiffRounded R (ids.foldl (netPairRounded R a') z) a b d :=
    fun a' z hz => foldl_preserve _ (fun z => PairDiffRounded R z a b d)
      (fun z b' hz => pairDiffRounded_netPairRounded R hodd z a' b' a b d hd hz) _ _ hz
  have hQin : ∀ a' z, PairNetted z a b d → PairNetted (ids.foldl (netPairRounded R a') z) a b d :=
    fun a' z hz => foldl_preserve _ (fun z => PairNetted z a b d)
      (fun z b' hz => pairNetted_netPairRounded R hodd z a' b' a b d hd hz) _ _ hz
  rcases Nat.lt_or_gt_of_ne hab with hlt | hgt
  · refine foldl_establish _ (fun z => PairDiffRounded R z a b d) (fun z => PairNetted z a b d)
      (fun z a' hz => hPin a' z hz) (fun z a' hz => hQin a' z hz) a ?_ ids ha ledger h
    intro z hz
    exact foldl_establish (netPairRounded R a) (fun z => PairDiffRounded R z a b d)
      (fun z => PairNetted z a b d)
      (fun z b' hz => pairDiffRounded_netPairRounded R hodd z a b' a b d hd hz)
      (fun z b' hz => pairNetted_netPairRounded R hodd z a b' a b d hd hz) b
      (fun z hz => pairNetted_netPairRounded_same R hodd z a b a b d hlt (Or.inl ⟨rfl, rfl⟩) hz)
      ids hb z hz
  · refine foldl_establish _ (fun z => PairDiffRounded R z a b d) (fun z => PairNetted z a b d)
      (fun z a' hz => hPin a' z hz) (fun z a' hz => hQin a' z hz) b ?_ ids hb ledger h
    intro z hz
    exact foldl_establish (netPairRounded R b) (fun z => PairDiffRounded R z a b d)
      (fun z => PairNetted z a b d)
      (fun z b' hz => pairDiffRounded_netPairRounded R hodd z b b' a b d hd hz)
      (fun z b' hz => pairNetted_netPairRounded R hodd z b b' a b d hd hz) a
      (fun z hz => pairNetted_netPairRounded_same R hodd z b a a b d hgt (Or.inr ⟨rfl, rfl⟩) hz)
      ids ha z hz

/-! ### getGroupExpenses in rounded arithmetic: the netted ledger -/

theorem getGroupExpensesRounded_inv (R : ℚ → ℚ) (identity : Option String) (groupId : GroupId)
    (st : Store) (r : GroupExpenses)
    (h : getGroupExpensesRounded R identity groupId st = .ok r) :
    ∃ currentUser group totals ledger,
      getCurrentUser identity st = .ok currentUser
      ∧ st.groups.find? (fun g => g._id == groupId) = some group
      ∧ group.members.any (fun m => m.userId == currentUser._id) = true
      ∧ memberDetailsOf st group.members = .ok r.members
      ∧ (groupEvents groupId st).foldl (applyGroupEventRounded R)
          (.ok (initTotals (r.members.map (fun m => m.id)),
            initLedger (r.members.map (fun m => m.id)))) = .ok (totals, ledger)
      ∧ r.balances = r.members.map (memberBalance (r.members.map (fun m => m.id)) totals
          (netLedgerRounded R (r.members.map (fun m => m.id)) ledger)) := by
  unfold getGroupExpensesRounded at h
  cases hu : getCurrentUser identity st with
  | error e => rw [hu] at h; cases h
  | ok currentUser =>
    rw [hu] at h
    simp only [] at h
    cases hg : st.groups.find? (fun g => g._id == groupId) with
    | none => rw [hg] at h; cases h
    | some group =>
      rw [hg] at h
      simp only [] at h
      by_cases hm : (!group.members.any (fun m => m.userId == currentUser._id)) = true
      · rw [if_pos hm] at h; cases h
      · rw [if_neg hm] at h
        cases hd : memberDetailsOf st group.members with
        | error e => rw [hd] at h; cases h
        | ok memberDetails =>
          rw [hd] at h
          simp only [groupLoopsRounded_events] at h
          cases hacc : (groupEvents groupId st).foldl (applyGroupEventRounded R)
              (.ok (initTotals (memberDetails.map (fun m => m.id)),
                initLedger (memberDetails.map (fun m => m.id)))) with
          | error e => rw [hacc] at h; cases h
          | ok p =>
            obtain ⟨totals, ledger⟩ := p
            rw [hacc] at h
            simp only [Except.ok.injEq] at h
            subst h
            exact ⟨currentUser, group, totals, ledger, rfl, rfl, by simpa using hm, hd, hacc,
              rfl⟩

/-- The netted ledger of a successful `getGroupExpensesRounded`: for distinct
member ids the cell `(a, b)` holds the positive part of the rounded difference
`raw[a][b] - raw[b][a]`. -/
theorem getGroupExpensesRounded_cells (R : ℚ → ℚ) (hodd : ∀ x, R (-x) = -R x)
    (hidem : ∀ x, R (R x) = R x) (identity : Option String) (groupId : GroupId) (st : Store)
    (r : GroupExpenses) (h : getGroupExpensesRounded R identity groupId st = .ok r) :
    ∃ totals ledger,
      r.balances = r.members.map (memberBalance (r.members.map (fun m => m.id)) totals ledger)
      ∧ RowsNodup ledger
      ∧ ∀ a ∈ r.members.map (fun m => m.id), ∀ b ∈ r.members.map (fun m => m.id), a ≠ b →
          ledgerCell ledger a b
            = some (max (R (specRawOwesRounded R groupId st a b
                - specRawOwesRounded R groupId st b a)) 0) := by
  obtain ⟨_, _, totals, ledger, _, _, _, _, hacc, hbal⟩ :=
    getGroupExpensesRounded_inv R identity groupId st r h
  refine ⟨totals, _, hbal, ?_, ?_⟩
  · exact rowsNodup_netLedgerRounded R _ _
      (rowsNodup_foldl_applyGroupEventRounded R _ _ _ _ _ (rowsNodup_initLedger _) hacc)
  · intro a ha b hb hab
    have hcell : ∀ p q, p ∈ r.members.map (fun m => m.id) → q ∈ r.members.map (fun m => m.id) →
        p ≠ q → ledgerCell ledger p q = some (specRawOwesRounded R groupId st p q) := by
      intro p q hp hq hpq
      rw [ledgerCell_foldl_applyGroupEventRounded R _ _ _ _ _ p q hacc,
        ledgerCell_initLedger _ p q hp hq hpq, Option.map_some',
        foldl_groupEvents_cell R groupId st p q hpq]
    exact (pairNetted_netLedgerRounded R hodd _ ledger a b _ ha hb hab (hidem _)
      ⟨_, _, hcell a b ha hb hab, hcell b a hb ha (Ne.symm hab), rfl⟩).1

/-! ### The netted ledger of a group, in binary64 -/

/-- C12: in the result of `getGroupExpenses`, with `raw[a][b]` the directional
accumulation of what member `a` owes member `b` as the handler accumulates it
in binary64, for distinct members `a` and `b` the `owes` list of `a` has the
entry `{ to: b, amount: x }` exactly when the binary64 difference
`raw[a][b] - raw[b][a]` is `x` and `x > 0`; when the two directions are equal
neither member lists the other. The amounts of the store are such that no sum
overflows. -/
theorem getGroupExpensesRounded_owes_netted (identity : Option String) (groupId : GroupId)
    (st : Store) (r : GroupExpenses) (ma mb : MemberBalance)
    (h : getGroupExpensesRounded roundDouble identity groupId st = .ok r)
    (_hfinite : amountsMagnitude st < 2 ^ 1023)
    (hma : ma ∈ r.balances) (hmb : mb ∈ r.balances) (hab : ma.id ≠ mb.id) :
    (∀ x, ({ to_ := mb.id, amount := x } : OwesEntry) ∈ ma.owes
        ↔ roundDouble (specRawOwesRounded roundDouble groupId st ma.id mb.id
            - specRawOwesRounded roundDouble groupId st mb.id ma.id) = x ∧ x > 0)
    ∧ (specRawOwesRounded roundDouble groupId st ma.id mb.id
          = specRawOwesRounded roundDouble groupId st mb.id ma.id →
        (∀ x, ({ to_ := mb.id, amount := x } : OwesEntry) ∉ ma.owes)
        ∧ (∀ x, ({ to_ := ma.id, amount := x } : OwesEntry) ∉ mb.owes)) := by
  obtain ⟨totals, ledger, hbal, hnd, hcells⟩ :=
    getGroupExpensesRounded_cells roundDouble roundDouble_neg roundDouble_idem identity groupId
      st r h
  rw [hbal] at hma hmb
  obtain ⟨da, hda, rfl⟩ := List.mem_map.mp hma
  obtain ⟨db, hdb, rfl⟩ := List.mem_map.mp hmb
  have hia : da.id ∈ r.members.map (fun m => m.id) := List.mem_map.mpr ⟨da, hda, rfl⟩
  have hib : db.id ∈ r.members.map (fun m => m.id) := List.mem_map.mpr ⟨db, hdb, rfl⟩
  have hab' : da.id ≠ db.id := hab
  have key : ∀ (p q : MemberDetail), p.id ∈ r.members.map (fun m => m.id) →
      q.id ∈ r.members.map (fun m => m.id) → p.id ≠ q.id → ∀ x,
      (({ to_ := q.id, amount := x } : OwesEntry)
          ∈ (memberBalance (r.members.map (fun m => m.id)) totals ledger p).owes
        ↔ roundDouble (specRawOwesRounded roundDouble groupId st p.id q.id
            - specRawOwesRounded roundDouble groupId st q.id p.id) = x ∧ x > 0) := by
    intro p q hp hq hpq x
    rw [mem_owes_iff _ _ _ _ hnd, hcells p.id hp q.id hq hpq]
    generalize roundDouble (specRawOwesRounded roundDouble groupId st p.id q.id
      - specRawOwesRounded roundDouble groupId st q.id p.id) = d
    constructor
    · rintro ⟨hmax, hx⟩
      simp only [Option.some.injEq] at hmax
      refine ⟨?_, hx⟩
      rcases le_total d 0 with hle | hle
      · rw [max_eq_right hle] at hmax
        linarith
      · rw [max_eq_left hle] at hmax
        exact hmax
    · rintro ⟨hd, hx⟩
      refine ⟨?_, hx⟩
      rw [hd, max_eq_left (le_of_lt hx)]
  refine ⟨key da db hia hib hab', ?_⟩
  intro heq
  have heq' : specRawOwesRounded roundDouble groupId st da.id db.id
      = specRawOwesRounded roundDouble groupId st db.id da.id := heq
  constructor
  · intro x hx
    have := (key da db hia hib hab' x).mp hx
    rw [heq', sub_self, roundDouble_zero] at this
    linarith [this.1, this.2]
  · intro x hx
    have := (key db da hib hia (Ne.symm hab') x).mp hx
    rw [heq', sub_self, roundDouble_zero] at this
    linarith [this.1, this.2]

theorem getGroupExpensesRounded_owes_netted_witness :
    amountsMagnitude scenario3Plain < 2 ^ 1023
    ∧ (getGroupExpensesRounded roundDouble (some "token-a") 7 scenario3Plain).map
        (fun r => r.balances.map (fun m => (m.id, m.owes)))
      = .ok [(1, []), (2, []), (3, [{ to_ := 1, amount := 10 }, { to_ := 2, amount := 10 }])]
    ∧ (specRawOwesRounded roundDouble 8 groupResidue 2 1,
        specRawOwesRounded roundDouble 8 groupResidue 1 2)
        = (roundDouble (roundDouble (1 / 10) + roundDouble (2 / 10)), roundDouble (3 / 10))
    ∧ (getGroupExpensesRounded roundDouble (some "token-a") 8 groupResidue).map
        (fun r => r.balances.map (fun m => (m.id, m.owes)))
      = .ok [(1, []), (2, [{ to_ := 1, amount := 1 / 2 ^ 54 }]), (3, []), (4, [])]
    ∧ ∃ r, getGroupExpensesRounded roundDouble (some "token-a") 7 scenario3Plain = .ok r
      ∧ ∀ ma ∈ r.balances, ∀ mb ∈ r.balances, ma.id ≠ mb.id →
        (∀ x, ({ to_ := mb.id, amount := x } : OwesEntry) ∈ ma.owes
          ↔ roundDouble (specRawOwesRounded roundDouble 7 scenario3Plain ma.id mb.id
              - specRawOwesRounded roundDouble 7 scenario3Plain mb.id ma.id) = x ∧ x > 0) := by
  refine ⟨by decide!, by decide!, by decide!, by decide!, ?_⟩
  obtain ⟨r, hr⟩ := except_ok_of_toBool
    (getGroupExpensesRounded roundDouble (some "token-a") 7 scenario3Plain) (by decide!)
  exact ⟨r, hr, fun ma hma mb hmb hab =>
    (getGroupExpensesRounded_owes_netted (some "token-a") 7 scenario3Plain r ma mb hr
      (by decide!) hma hmb hab).1⟩

/-! ### Comparisons of a net balance against zero, in binary64 -/

/-- The counterexample to C13: with a net of half a cent, nonzero and within
0.01 of zero, B is listed in the `youAreOwedBy` list of A by `getUserBalances`,
and in the group B is reported as owing A by `getGroupExpenses`. -/
theorem half_cent_listed_counterexample :
    (objGet (balanceLoopsRounded roundDouble 1 halfCentDebt).balanceByUser 2
        = some { owed := roundDouble (5 / 1000), owing := 0 }
      ∧ roundDouble (roundDouble (5 / 1000) - 0) ≠ 0
      ∧ |roundDouble (roundDouble (5 / 1000) - 0)| ≤ roundDouble (1 / 100)
      ∧ (getUserBalancesRounded roundDouble (some "token-a") halfCentDebt).map
          (fun r => r.oweDetails.youAreOwedBy)
          = .ok [{ userId := 2, name := "B", imageUrl := none, amount := roundDouble (5 / 1000) }])
    ∧ (roundDouble (specRawOwesRounded roundDouble 7 halfCentGroupDebt 2 1
          - specRawOwesRounded roundDouble 7 halfCentGroupDebt 1 2) = roundDouble (5 / 1000)
      ∧ (getGroupExpensesRounded roundDouble (some "token-a") 7 halfCentGroupDebt).map
          (fun r => r.balances.map (fun m => (m.id, m.owes, m.owedBy)))
          = .ok [(1, [], [{ from_ := 2, amount := roundDouble (5 / 1000) }]),
                 (2, [{ to_ := 1, amount := roundDouble (5 / 1000) }], []),
                 (3, [], [])]) :=
  ⟨⟨by decide!, by decide!, by decide!, by decide!⟩, by decide!, by decide!⟩

/-- C13, amended: the comparisons of a net balance against zero apply no
tolerance of 0.01. In `getUserBalances` a counterparty whose net
`owed - owing`, as the handler computes it in binary64, is at least 0.005 in
absolute value is listed: in `youAreOwedBy` when the net is positive, in
`youOwe` when it is negative, with the absolute value as amount. In
`getGroupExpenses` distinct members `a` and `b` whose binary64 difference
`raw[a][b] - raw[b][a]` is at least 0.005 are reported: `a` owes `b` that
difference and `b` is owed it by `a`. The amounts of the store are such that
no sum overflows. -/
theorem net_half_cent_listed :
    (∀ (identity : Option String) (st : Store) (user : User) (k : UserId) (b : OwedOwing),
      getCurrentUser identity st = .ok user →
      amountsMagnitude st < 2 ^ 1023 →
      objGet (balanceLoopsRounded roundDouble user._id st).balanceByUser k = some b →
      roundDouble (5 / 1000) ≤ |roundDouble (b.owed - b.owing)| →
      ∃ r, getUserBalancesRounded roundDouble identity st = .ok r
        ∧ (roundDouble (b.owed - b.owing) > 0 →
            ∃ e ∈ r.oweDetails.youAreOwedBy,
              e.userId = k ∧ e.amount = |roundDouble (b.owed - b.owing)|)
        ∧ (roundDouble (b.owed - b.owing) < 0 →
            ∃ e ∈ r.oweDetails.youOwe,
              e.userId = k ∧ e.amount = |roundDouble (b.owed - b.owing)|))
    ∧ (∀ (identity : Option String) (groupId : GroupId) (st : Store) (r : GroupExpenses)
        (ma mb : MemberBalance),
      getGroupExpensesRounded roundDouble identity groupId st = .ok r →
      amountsMagnitude st < 2 ^ 1023 →
      ma ∈ r.balances → mb ∈ r.balances → ma.id ≠ mb.id →
      roundDouble (5 / 1000)
        ≤ roundDouble (specRawOwesRounded roundDouble groupId st ma.id mb.id
            - specRawOwesRounded roundDouble groupId st mb.id ma.id) →
      ({ to_ := mb.id,
         amount := roundDouble (specRawOwesRounded roundDouble groupId st ma.id mb.id
            - specRawOwesRounded roundDouble groupId st mb.id ma.id) } : OwesEntry) ∈ ma.owes
        ∧ ({ from_ := ma.id,
             amount := roundDouble (specRawOwesRounded roundDouble groupId st ma.id mb.id
                - specRawOwesRounded roundDouble groupId st mb.id ma.id) }
            : OwedByEntry) ∈ mb.owedBy) := by
  have hhalf : (0 : ℚ) < roundDouble (5 / 1000) := by decide!
  constructor
  · intro identity st user k b hauth _ hk hbig
    have hne : roundDouble (b.owed - b.owing) ≠ 0 := by
      intro h0
      rw [h0, abs_zero] at hbig
      linarith
    obtain ⟨e, he, hk1, hk2⟩ := oweListRounded_mem roundDouble st _
      (balanceLoopsRounded_nodup roundDouble user._id st) k b hk hne
    refine ⟨_, getUserBalancesRounded_eq_lists roundDouble identity st user hauth, ?_, ?_⟩
    · intro hpos
      have hw : decide (roundDouble (b.owed - b.owing) > 0) = true := by simp [hpos]
      rw [hw] at he
      exact ⟨e, he, hk1, hk2⟩
    · intro hneg
      have hw : decide (roundDouble (b.owed - b.owing) > 0) = false := by
        simp [le_of_lt hneg]
      rw [hw] at he
      exact ⟨e, he, hk1, hk2⟩
  · intro identity groupId st r ma mb h _ hma hmb hab hbig
    obtain ⟨totals, ledger, hbal, hnd, hcells⟩ :=
      getGroupExpensesRounded_cells roundDouble roundDouble_neg roundDouble_idem identity groupId
        st r h
    rw [hbal] at hma hmb
    obtain ⟨da, hda, rfl⟩ := List.mem_map.mp hma
    obtain ⟨db, hdb, rfl⟩ := List.mem_map.mp hmb
    have hia : da.id ∈ r.members.map (fun m => m.id) := List.mem_map.mpr ⟨da, hda, rfl⟩
    have hib : db.id ∈ r.members.map (fun m => m.id) := List.mem_map.mpr ⟨db, hdb, rfl⟩
    have hab' : da.id ≠ db.id := hab
    have hcell := hcells da.id hia db.id hib hab'
    have hbig' : roundDouble (5 / 1000)
        ≤ roundDouble (specRawOwesRounded roundDouble groupId st da.id db.id
            - specRawOwesRounded roundDouble groupId st db.id da.id) := hbig
    have hpos : roundDouble (specRawOwesRounded roundDouble groupId st da.id db.id
        - specRawOwesRounded roundDouble groupId st db.id da.id) > 0 := lt_of_lt_of_le hhalf hbig'
    rw [max_eq_left (le_of_lt hpos)] at hcell
    constructor
    · exact (mem_owes_iff _ _ _ da hnd db.id _).mpr ⟨hcell, hpos⟩
    · exact (mem_owedBy_iff _ _ _ db da.id _).mpr ⟨hia, hcell, hpos⟩

theorem net_half_cent_listed_witness :
    (amountsMagnitude halfCentDebt < 2 ^ 1023
      ∧ ∃ r, getUserBalancesRounded roundDouble (some "token-a") halfCentDebt = .ok r
        ∧ ∃ e ∈ r.oweDetails.youAreOwedBy,
            e.userId = 2 ∧ e.amount = |roundDouble (roundDouble (5 / 1000) - 0)|)
    ∧ (amountsMagnitude halfCentGroupDebt < 2 ^ 1023
      ∧ ∃ r, getGroupExpensesRounded roundDouble (some "token-a") 7 halfCentGroupDebt = .ok r
        ∧ ∀ ma ∈ r.balances, ∀ mb ∈ r.balances, ma.id ≠ mb.id →
          roundDouble (5 / 1000)
            ≤ roundDouble (specRawOwesRounded roundDouble 7 halfCentGroupDebt ma.id mb.id
                - specRawOwesRounded roundDouble 7 halfCentGroupDebt mb.id ma.id) →
          ({ to_ := mb.id,
             amount := roundDouble (specRawOwesRounded roundDouble 7 halfCentGroupDebt ma.id mb.id
               - specRawOwesRounded roundDouble 7 halfCentGroupDebt mb.id ma.id) }
              : OwesEntry) ∈ ma.owes) := by
  constructor
  · refine ⟨by decide!, ?_⟩
    obtain ⟨r, hr, hpos, _⟩ := net_half_cent_listed.1 (some "token-a") halfCentDebt userA 2
      { owed := roundDouble (5 / 1000), owing := 0 } rfl (by decide!) (by decide!) (by decide!)
    exact ⟨r, hr, hpos (by decide!)⟩
  · refine ⟨by decide!, ?_⟩
    obtain ⟨r, hr⟩ := except_ok_of_toBool
      (getGroupExpensesRounded roundDouble (some "token-a") 7 halfCentGroupDebt) (by decide!)
    exact ⟨r, hr, fun ma hma mb hmb hab hbig =>
      (net_half_cent_listed.2 (some "token-a") 7 halfCentGroupDebt r ma mb hr (by decide!) hma hmb
        hab hbig).1⟩

/-! ### createExpense, in binary64 -/

/-- The counterexample to C1: an expense of amount 90 with the single split
89.99, the binary64 value nearest to that decimal. The splits sum to that
value, `89.99 - 90` is `-0.010000000000005116` in binary64, of magnitude above
the binary64 value 0.01, and the call fails with the split-mismatch error. -/
theorem single_split_counterexample :
    (singleSplitArgs.amount, singleSplitArgs.splits.map (fun s => s.amount))
        = (90, [roundDouble (8999 / 100)])
    ∧ roundDouble (8999 / 100) = 6332483288547983 / 2 ^ 46
    ∧ singleSplitArgs.splits.foldl (fun sum s => roundDouble (sum + s.amount)) 0
        = roundDouble (8999 / 100)
    ∧ roundDouble (roundDouble (8999 / 100) - 90) = -(703687441777 / 2 ^ 46)
    ∧ roundDouble (1 / 100) = 5764607523034235 / 2 ^ 59
    ∧ createExpenseRounded roundDouble (some "token-a") 200 singleSplitArgs scenario1
        = (.error "Split amounts must equal total expense", scenario1) := by
  decide!

/-- C1, amended: a `createExpense` call by an authenticated caller whose group
check passes fails with the split-mismatch error exactly when
`|totalSplit - amount|`, computed in binary64 from the binary64 sum
`totalSplit` of the split amounts in their order, exceeds the binary64 value
0.01; otherwise the expense is inserted. The amounts are such that no sum
overflows. -/
theorem createExpenseRounded_split_sum (identity : Option String) (newId : ExpenseId)
    (args : CreateExpenseArgs) (st : Store) (user : User)
    (hauth : getCurrentUser identity st = .ok user)
    (hgroup : validateGroupMembership st user args.groupId = .ok ())
    (_hfinite : (args.splits.map (fun s => |s.amount|)).sum + |args.amount| < 2 ^ 1023) :
    ((createExpenseRounded roundDouble identity newId args st).1
        = .error "Split amounts must equal total expense"
      ↔ |roundDouble (args.splits.foldl (fun sum s => roundDouble (sum + s.amount)) 0
            - args.amount)| > roundDouble (1 / 100))
    ∧ (¬ |roundDouble (args.splits.foldl (fun sum s => roundDouble (sum + s.amount)) 0
            - args.amount)| > roundDouble (1 / 100) →
        createExpenseRounded roundDouble identity newId args st
          = (.ok newId, insertExpense (newExpenseDoc newId args user) st)) := by
  have hres : createExpenseRounded roundDouble identity newId args st
      = if |roundDouble (args.splits.foldl (fun sum s => roundDouble (sum + s.amount)) 0
            - args.amount)| > roundDouble (1 / 100) then
          (.error "Split amounts must equal total expense", st)
        else (.ok newId, insertExpense (newExpenseDoc newId args user) st) := by
    simp only [createExpenseRounded, hauth, hgroup]
    rfl
  rw [hres]
  constructor
  · constructor
    · intro h
      by_contra hn
      rw [if_neg hn] at h
      cases h
    · intro h
      rw [if_pos h]
  · intro hn
    rw [if_neg hn]

theorem createExpenseRounded_split_sum_witness :
    (createExpenseRounded roundDouble (some "token-a") 200 shortSplitArgs scenario1).1
        = .error "Split amounts must equal total expense"
    ∧ (createExpenseRounded roundDouble (some "token-a") 200 singleSplitArgs scenario1).1
        = .error "Split amounts must equal total expense"
    ∧ createExpenseRounded roundDouble (some "token-a") 200 twoSplitArgs scenario1
        = (.ok 200, insertExpense (newExpenseDoc 200 twoSplitArgs userA) scenario1) :=
  ⟨(createExpenseRounded_split_sum (some "token-a") 200 shortSplitArgs scenario1 userA rfl rfl
      (by decide!)).1.mpr (by decide!),
    (createExpenseRounded_split_sum (some "token-a") 200 singleSplitArgs scenario1 userA rfl rfl
      (by decide!)).1.mpr (by decide!),
    (createExpenseRounded_split_sum (some "token-a") 200 twoSplitArgs scenario1 userA rfl rfl
      (by decide!)).2 (by decide!)⟩

/-- C18: `createExpense` does not check that the payer is a member of the
group. In a group whose only member is A, the caller A records an expense of
60 paid by B, who is not a member, with one unpaid split of 60 for A: the call
succeeds and the expense is inserted. `getGroupExpenses` then gives A the
`totalBalance` -60 with nobody to owe it to: the `owes` and `owedBy` lists of
A are empty. -/
theorem createExpense_outsider_payer_inserted :
    (soloTrip.groups.map (fun g => (g._id, g.members.map (fun m => m.userId))) = [(7, [1])]
      ∧ soloTrip.expenses = [] ∧ soloTrip.settlements = []
      ∧ (outsiderPayerArgs.groupId, outsiderPayerArgs.paidByUserId, outsiderPayerArgs.amount,
          outsiderPayerArgs.splits.map (fun s => (s.userId, s.amount, s.paid)))
        = (some 7, 2, 60, [(1, 60, false)]))
    ∧ createExpenseRounded roundDouble (some "token-a") 80 outsiderPayerArgs soloTrip
        = (.ok 80, insertExpense (newExpenseDoc 80 outsiderPayerArgs userA) soloTrip)
    ∧ (getGroupExpensesRounded roundDouble (some "token-a") 7
          (insertExpense (newExpenseDoc 80 outsiderPayerArgs userA) soloTrip)).map
        (fun r => r.balances.map (fun mb => (mb.id, mb.totalBalance))) = .ok [(1, some (-60))]
    ∧ (getGroupExpensesRounded roundDouble (some "token-a") 7
          (insertExpense (newExpenseDoc 80 outsiderPayerArgs userA) soloTrip)).map
        (fun r => r.balances.map (fun mb => (mb.id, mb.owes, mb.owedBy))) = .ok [(1, [], [])] :=
  ⟨⟨by decide!, rfl, rfl, by decide!⟩, by decide!, by decide!, by decide!⟩

end Splitr
